import Mathlib

/-!
# TAC1100 Modbus client: serial lock coordinator and retrying register client

A shallow embedding of `tac1100.c`.

* The lock directory is a pair of optional file contents (`LockState`), read with a model of
  the `fscanf` format of the source (`fscanfRecord`).
* The Modbus transport is a stream of call results (`World`).
* What the process cannot decide itself is an explicit input: the process table, the clock,
  the outcome of `flock` and `link`, and what other processes do to the lock files (`LockEnv`).
* Every function returns how it ended (`Outcome`: it returned, it ended the process, or it ran
  into undefined behaviour), the state it left, and the actions it performed in order
  (`Event`).
* The command line is the list of options that `getopt` hands to the `switch` of `main`
  (`Opt`), each with the value of `atoi(optarg)`; the option loop is `optionLoop`, the part of
  `main` before `lockSer` is `mainBeforeLock`, the part after it `mainAfterLock`.
* The lock file paths (`lockPaths`) and the command line of a process (`getPIDcmd`,
  `getCmdLine`) are functions of the device path and of the content of `/proc/<pid>/cmdline`.

Left out: the diagnostics of `log_message` (but for the three messages with which `lockSer`
gives up after its loop) and of the register client on standard error, failing allocations,
and read or write errors on the lock files (but for `AddSerLockWith`, which takes the result
of every system call of `AddSerLock` as an input).  The capacity of the command buffer is not
part of the state: `fLenScan` gives the length the source reserves, `readRecord` is the read
with its overflow, and `clrFiles`, `ClrSerLock` and `lockIter` give what the source does when
that read returns.
-/

namespace TAC1100

/-! ## Constants of the source -/

/-- Value of the C macro `EOF`. -/
def EOF : Int := -1

/-- Largest `long unsigned int` (64-bit Linux). -/
def ULONG_MAX : Nat := 2 ^ 64 - 1

/-- The errno value `ERANGE` that the number conversion of `fscanf` leaves on overflow. -/
def ERANGE : Nat := 34

/-- The C macro `EXIT_FAILURE`. -/
def EXIT_FAILURE : Nat := 1

/-- The C macro `DEBUG_STDERR`. -/
def DEBUG_STDERR : Nat := 1

/-- The C macro `DEBUG_SYSLOG`. -/
def DEBUG_SYSLOG : Nat := 2

/-! ## Text helpers -/

/-- The C library `isspace` in the "C" locale. -/
def isspace (c : Char) : Bool :=
  c.toNat == 32 || (9 ≤ c.toNat && c.toNat ≤ 13)

/-- The C library `isdigit`. -/
def isdigit (c : Char) : Bool :=
  48 ≤ c.toNat && c.toNat ≤ 57

/-- The space character. -/
def chSpace : Char := Char.ofNat 32

/-- The newline character. -/
def chNewline : Char := Char.ofNat 10

/-- The NUL character. -/
def chNul : Char := Char.ofNat 0

/-- Value of a run of decimal digits, most significant first, continuing from `acc`. -/
def digitsValue : List Char → Nat → Nat
  | [], acc => acc
  | c :: cs, acc => digitsValue cs (acc * 10 + (c.toNat - 48))

/-- The bytes of a buffer seen as a C string: everything before the first NUL. -/
def cstr (l : List Char) : List Char :=
  l.takeWhile (fun c => c != chNul)

/-- Output of `printf("%lu", n)`. -/
def printLu (n : Nat) : List Char :=
  Nat.toDigits 10 n

/-- The C library `strstr(hay, needle) != NULL`. -/
def strstrFound (needle : List Char) : List Char → Bool
  | [] => needle.isEmpty
  | c :: cs => needle.isPrefixOf (c :: cs) || strstrFound needle cs

/-! ## The record parser: `fscanf(f, "%lu%*[ ]%[^\n]\n", &LckPID, COMMAND)` -/

/-- What one `fscanf` call on the record leaves behind. -/
structure ScanResult where
  /-- Return value of `fscanf`: `EOF`, or the number of stored conversions. -/
  bRead : Int
  /-- Content of `LckPID`, which the caller sets to 0 before the call. -/
  LckPID : Nat
  /-- Bytes stored in the command buffer, which the caller sets to the empty string. -/
  COMMAND : List Char
  /-- Content of `errno`, which the caller sets to 0 before the call. -/
  errno : Nat
deriving DecidableEq, Repr

/-- The directives `%*[ ]` and `%[^\n]`, run on what follows the number. -/
def scanCommand (rest : List Char) (pid err : Nat) : ScanResult :=
  match rest with
  | [] => ⟨1, pid, [], err⟩
  | c :: cs =>
    if c = chSpace then
      let cmd := (cs.dropWhile (fun d => d == chSpace)).takeWhile (fun d => d != chNewline)
      if cmd.isEmpty then ⟨1, pid, [], err⟩ else ⟨2, pid, cmd, err⟩
    else ⟨1, pid, [], err⟩

/-- The whole format on a file content: `%lu` skips white space, takes an optional sign
and a run of digits (converted as `strtoul` does), then `scanCommand`. -/
def fscanfRecord (content : List Char) : ScanResult :=
  match content.dropWhile isspace with
  | [] => ⟨EOF, 0, [], 0⟩
  | c :: cs =>
    let signed := c.toNat == 45 || c.toNat == 43
    let body := if signed then cs else c :: cs
    let ds := body.takeWhile isdigit
    if ds.isEmpty then ⟨0, 0, [], 0⟩
    else
      let n := digitsValue ds 0
      if n > ULONG_MAX then scanCommand (body.dropWhile isdigit) ULONG_MAX ERANGE
      else if c.toNat == 45 then scanCommand (body.dropWhile isdigit) ((2 ^ 64 - n) % 2 ^ 64) 0
      else scanCommand (body.dropWhile isdigit) n 0

/-- The character scan that sizes the command buffer (`fLen`), run before `fscanf`. -/
def fLenScan (content : List Char) : Nat :=
  match content.dropWhile (fun c => c != chNewline && c != chSpace) with
  | [] => 0
  | c :: cs => if c = chSpace then (cs.takeWhile (fun d => d != chNewline)).length else 0

/-! ## Lock files and events -/

/-- The two files of the lock directory that the program touches. -/
inductive LockFile where
  | devLCKfile
  | devLCKfileNew
deriving DecidableEq, Repr

/-- Lock state of the process: the content of the two lock files (`none` when the file does not
exist) and whether `fdModbusExclusiveLock` is an open handle holding `LOCK_EX`. -/
structure LockState where
  devLCKfile : Option (List Char)
  devLCKfileNew : Option (List Char)
  fdModbusExclusiveLock : Bool
deriving DecidableEq, Repr

/-- Observable actions, in the vocabulary of the source. -/
inductive Event where
  /-- A call `usleep(us)`. -/
  | usleep (us : Int)
  /-- A call `rnd_usleep(base)`: sleeps `base` times a random factor from 1 to 10. -/
  | rnd_usleep (base : Nat)
  /-- A call `modbus_read_input_registers(ctx, address, nb, _)`. -/
  | readInput (address nb : Int)
  /-- A call `modbus_read_registers(ctx, address, nb, _)`. -/
  | readHolding (address nb : Int)
  /-- A call `modbus_write_registers(ctx, address, 1, regs)`. -/
  | writeRegisters (address : Int) (regs : List Nat)
  /-- A call `modbus_new_rtu`. -/
  | modbus_new_rtu
  /-- A call `modbus_set_byte_timeout(ctx, sec, usec)`. -/
  | setByteTimeout (sec usec : Int)
  /-- A call `modbus_set_response_timeout(ctx, sec, usec)`. -/
  | setResponseTimeout (sec usec : Int)
  /-- A call `modbus_connect`. -/
  | modbus_connect
  /-- A call `modbus_close`. -/
  | modbus_close
  /-- A call `modbus_free`. -/
  | modbus_free
  /-- Entry into `ClrSerLock(pid)`. -/
  | ClrSerLock (pid : Nat)
  /-- Entry into `AddSerLock(_, _, pid, _, _)`. -/
  | AddSerLock (pid : Nat)
  /-- A call `unlink` that removed the file. -/
  | unlink (f : LockFile)
  /-- A call `link(devLCKfileNew, devLCKfile)` that created the record. -/
  | link
  /-- The `fopen` of the exclusive upgrade in `lockSer`. -/
  | upgradeOpen
  /-- A call `usage`. -/
  | usage
  /-- A `printf` to standard output with the given format string. -/
  | printf (fmt : String)
  /-- A `fprintf` to standard error with the given format string. -/
  | eprintf (fmt : String)
  /-- Entry into `exit_error`. -/
  | exit_error
  /-- The record parse of a polling iteration of `lockSer`, with what `fscanf` left behind. -/
  | fscanf (bRead : Int) (LckPID : Nat) (LckCOMMAND : List Char)
  /-- A call `getPIDcmd(pid)` of a polling iteration of `lockSer`, with its result. -/
  | getPIDcmd (pid : Nat) (result : Option (List Char))
  /-- A message that `log_message(type, format, ...)` has written (to standard error, to the
  system log, or to both), with its numeric arguments. -/
  | log_message (type : Nat) (fmt : String) (args : List Int)
deriving DecidableEq, Repr

/-- How a function of the source ends. -/
inductive Outcome (α : Type) where
  /-- It returned to its caller. -/
  | ret (a : α)
  /-- It ended the process through `exit(status)`. -/
  | exit (status : Nat)
  /-- It ran into undefined behaviour: a NULL pointer passed to `strcmp`, or a store past the
  end of a buffer. -/
  | undefined
deriving DecidableEq, Repr

/-- Result of a lock function: how it ended, the lock state it left, what it did. -/
structure LockRes (α : Type) where
  out : Outcome α
  lock : LockState
  ev : List Event
deriving DecidableEq, Repr

/-! ## Release -/

/-- Source: `releaseModbusExclusiveLock`. -/
def releaseModbusExclusiveLock (s : LockState) : LockState :=
  if s.fdModbusExclusiveLock then { s with fdModbusExclusiveLock := false } else s

/-- Source: the record read that `ClrSerLock` and every polling iteration of `lockSer` make on
the content of the record file: the character scan that counts `fLen`, `getMemPtr(fLen + 1)`,
and `fscanf` into that buffer.  `fscanf` stores the command and its terminator; when they are
more than the `fLen + 1` bytes of the buffer it writes past it, which is `undefined`. -/
def readRecord (content : List Char) : Outcome ScanResult :=
  if (fscanfRecord content).COMMAND.length + 1 ≤ fLenScan content + 1 then
    Outcome.ret (fscanfRecord content)
  else Outcome.undefined

/-- The body of `ClrSerLock` after the release of the exclusive handle: the record is opened,
parsed, and both files are unlinked unless the record names another non-zero pid.  The value
is computed from what `fscanf` reads and is what the source does on every content on which
`readRecord` returns; on a content on which `readRecord` is `undefined` the source has
written past its buffer before it gets here, and the value says nothing about it. -/
def clrFiles (PID : Nat) (s : LockState) : LockState × List Event :=
  match s.devLCKfile with
  | none => (s, [])
  | some content =>
    let r := fscanfRecord content
    if r.bRead ≠ EOF ∧ r.LckPID > 0 ∧ r.LckPID ≠ PID then (s, [])
    else
      let evNew := if s.devLCKfileNew.isSome then [Event.unlink LockFile.devLCKfileNew] else []
      let s1 := { s with devLCKfileNew := none }
      if PID = r.LckPID then
        ({ s1 with devLCKfile := none }, evNew ++ [Event.unlink LockFile.devLCKfile])
      else (s1, evNew)

/-- Source: `ClrSerLock`, as the lock state it leaves and the actions it performs when its
record read stays inside the buffer (`readRecord` returns, or there is no record file); then
it always returns.  The overflow of the buffer is in `readRecord` and not in this value. -/
def ClrSerLock (PID : Nat) (s : LockState) : LockState × List Event :=
  let r := clrFiles PID (releaseModbusExclusiveLock s)
  (r.1, Event.ClrSerLock PID :: r.2)

/-! ## Publishing the record -/

/-- What `AddSerLock` writes after the pid: a space and the command when there is a non-empty
one, then a newline. -/
def recordTail (COMMAND : Option (List Char)) : List Char :=
  (match COMMAND with
   | some c => if c.length > 0 then chSpace :: c else []
   | none => []) ++ [chNewline]

/-- Text that `AddSerLock` writes into its temporary file: the pid in decimal, then
`recordTail`. -/
def recordText (PID : Nat) (COMMAND : Option (List Char)) : List Char :=
  printLu PID ++ recordTail COMMAND

/-- Source: `AddSerLock` in a process whose `open` yields a descriptor above 0 whenever the
temporary file does not exist and whose every `write` is complete; `AddSerLockWith` is the
function with the result of each system call as an input, and agrees with this one on such
calls.  `linkFails` says that `link` fails with an errno other than `EEXIST`.  When the
temporary file exists, `open(O_CREAT | O_EXCL)` fails three times. -/
def AddSerLock (PID : Nat) (COMMAND : Option (List Char)) (linkFails : Bool) (s : LockState) :
    LockRes Unit :=
  match s.devLCKfileNew with
  | some _ =>
    { out := Outcome.exit 2
      lock := s
      ev := [Event.AddSerLock PID, Event.rnd_usleep 25000, Event.rnd_usleep 25000,
        Event.rnd_usleep 25000] }
  | none =>
    if linkFails then
      { out := Outcome.exit 2
        lock := { s with devLCKfileNew := some (recordText PID COMMAND) }
        ev := [Event.AddSerLock PID] }
    else
      match s.devLCKfile with
      | some _ =>
        { out := Outcome.ret ()
          lock := s
          ev := [Event.AddSerLock PID, Event.unlink LockFile.devLCKfileNew] }
      | none =>
        { out := Outcome.ret ()
          lock := { s with devLCKfile := some (recordText PID COMMAND) }
          ev := [Event.AddSerLock PID, Event.link, Event.unlink LockFile.devLCKfileNew] }

/-- What `open(devLCKfileNew, O_WRONLY | O_CREAT | O_EXCL, 0644)` yields when the temporary
file does not exist. -/
inductive OpenResult where
  /-- A descriptor above 0; the file is created. -/
  | descriptor
  /-- The descriptor 0 (standard input was closed); the file is created, and the test `> 0`
  of the source takes the call for a failure.  `errnoEEXIST` says whether `errno`, which the
  call has not set, holds `EEXIST`. -/
  | zero (errnoEEXIST : Bool)
  /-- A failure with an errno other than `EEXIST`; no file is created. -/
  | error
deriving DecidableEq, Repr

/-- The results of the system calls of one `AddSerLock` call. -/
structure AddCalls where
  /-- The first `open`. -/
  openNew : OpenResult
  /-- The number of bytes of the pid string that `write` stores. -/
  pidWritten : Nat
  /-- Whether `write(fddevlock, " ", 1)` returns 1. -/
  spaceWritten : Bool
  /-- The number of bytes of `COMMAND` that `write` stores. -/
  commandWritten : Nat
  /-- Whether `write(fddevlock, "\n", 1)` returns 1. -/
  newlineWritten : Bool
  /-- Whether `link` fails with an errno other than `EEXIST`. -/
  linkFails : Bool
deriving DecidableEq, Repr

/-- The calls of an `AddSerLock` in which `open` and every `write` succeed. -/
def AddCalls.complete (PID : Nat) (COMMAND : Option (List Char)) (linkFails : Bool) : AddCalls :=
  { openNew := OpenResult.descriptor
    pidWritten := (printLu PID).length
    spaceWritten := true
    commandWritten := (COMMAND.getD []).length
    newlineWritten := true
    linkFails := linkFails }

/-- What the command block and the newline block of `AddSerLock` append to the pid in the
temporary file.  A short or failed `write` is only logged; the `write` of the command is not
tried when that of the space has failed. -/
def writtenTail (calls : AddCalls) (COMMAND : Option (List Char)) : List Char :=
  (match COMMAND with
   | some c =>
     if c.length > 0 then
       (if calls.spaceWritten then chSpace :: c.take calls.commandWritten else [])
     else []
   | none => []) ++ (if calls.newlineWritten then [chNewline] else [])

/-- Source: `AddSerLock`, with the result of each of its system calls as an input.  A first
`open` that yields the descriptor 0 has created the file; with `EEXIST` in `errno` the loop
sleeps and tries again, and the file it has just created makes the later calls fail with
`EEXIST`. -/
def AddSerLockWith (calls : AddCalls) (PID : Nat) (COMMAND : Option (List Char))
    (s : LockState) : LockRes Unit :=
  match s.devLCKfileNew with
  | some _ =>
    { out := Outcome.exit 2
      lock := s
      ev := [Event.AddSerLock PID, Event.rnd_usleep 25000, Event.rnd_usleep 25000,
        Event.rnd_usleep 25000] }
  | none =>
    match calls.openNew with
    | OpenResult.error => { out := Outcome.exit 2, lock := s, ev := [Event.AddSerLock PID] }
    | OpenResult.zero errnoEEXIST =>
      { out := Outcome.exit 2
        lock := { s with devLCKfileNew := some [] }
        ev := Event.AddSerLock PID ::
          (if errnoEEXIST then
            [Event.rnd_usleep 25000, Event.rnd_usleep 25000, Event.rnd_usleep 25000]
           else []) }
    | OpenResult.descriptor =>
      if calls.pidWritten < (printLu PID).length then
        { out := Outcome.exit 2
          lock := { s with devLCKfileNew := some ((printLu PID).take calls.pidWritten) }
          ev := [Event.AddSerLock PID] }
      else if calls.linkFails then
        { out := Outcome.exit 2
          lock := { s with devLCKfileNew := some (printLu PID ++ writtenTail calls COMMAND) }
          ev := [Event.AddSerLock PID] }
      else
        match s.devLCKfile with
        | some _ =>
          { out := Outcome.ret ()
            lock := s
            ev := [Event.AddSerLock PID, Event.unlink LockFile.devLCKfileNew] }
        | none =>
          { out := Outcome.ret ()
            lock := { s with devLCKfile := some (printLu PID ++ writtenTail calls COMMAND) }
            ev := [Event.AddSerLock PID, Event.link, Event.unlink LockFile.devLCKfileNew] }

/-! ## Acquisition: `lockSer` -/

/-- What `lockSer` takes from outside the process. -/
structure LockEnv where
  /-- The global `PID`. -/
  PID : Nat
  /-- The global `yLockWait`, in seconds. -/
  yLockWait : Int
  /-- The global `debug_mask`: 0 unless `-d` sets it. -/
  debug_mask : Nat
  /-- Value of `getPIDcmd(pid)` when called in polling iteration `n` (`n = 0`: the call
  before the loop); `none` is NULL. -/
  getPIDcmd : Nat → Nat → Option (List Char)
  /-- Value of `tv_diff(&tLockNow, &tLockStart)` measured at the end of iteration `n`. -/
  clock : Nat → Int
  /-- What other processes have done to the two lock files by the time iteration `n` opens
  the record (`n = 0`: by the time the exclusive upgrade opens it). -/
  others : Nat → LockState → LockState
  /-- How often `flock(LOCK_SH | LOCK_NB)` fails with `EWOULDBLOCK` in iteration `n`. -/
  flockBusy : Nat → Nat
  /-- Whether `flock(LOCK_SH | LOCK_NB)` then fails with another errno in iteration `n`. -/
  flockError : Nat → Bool
  /-- Whether `flock(LOCK_EX)` of the exclusive upgrade fails. -/
  flockExFails : Bool
  /-- Whether `link` fails with an errno other than `EEXIST` in the `AddSerLock` call of
  iteration `n` (`n = 0`: the call before the loop). -/
  linkFails : Nat → Bool

/-- The lock files as other processes have left them; the handle of this process is its own. -/
def LockEnv.disturb (env : LockEnv) (n : Nat) (s : LockState) : LockState :=
  { env.others n s with fdModbusExclusiveLock := s.fdModbusExclusiveLock }

/-- The local variables of `lockSer` that live across polling iterations. -/
structure LoopVars where
  LckPID : Nat
  staleLockRetries : Nat
  clrStaleTargetPID : Nat
  missingPidRetries : Nat
  totalLockAttempts : Nat
deriving DecidableEq, Repr

/-- The constant `maxLockAttempts` of `lockSer`. -/
def maxLockAttempts : Nat := 100

/-- The constant `staleLockRetriesMax` of `lockSer`. -/
def staleLockRetriesMax : Nat := 2

/-- The constant `missingPidRetriesMax` of `lockSer`. -/
def missingPidRetriesMax : Nat := 2

/-- The stale test of `lockSer`:
`(PID != LckPID && LckPIDcommand == NULL) || (LckCOMMAND[0] != '\0' &&
strcmp(LckPIDcommand, LckCOMMAND) != 0) || strcmp(LckPIDcommand, "") == 0`.
`none` is the undefined behaviour of `strcmp` on a NULL `LckPIDcommand`. -/
def staleTest (PID LckPID : Nat) (LckCOMMAND : List Char) :
    Option (List Char) → Option Bool
  | none => if PID ≠ LckPID then some true else none
  | some live =>
    some ((!(cstr LckCOMMAND).isEmpty && decide (live ≠ cstr LckCOMMAND)) || live.isEmpty)

/-- The compatibility test of `lockSer`: the live command contains one of the four names. -/
def isCompatible (live : List Char) : Bool :=
  strstrFound "sdm120".toList live || strstrFound "tac1100".toList live ||
    strstrFound "aurora".toList live || strstrFound "modbus".toList live

/-- End of a polling iteration: the guarded `rnd_usleep(25000)`. -/
def pollSleep (env : LockEnv) (v : LoopVars) : List Event :=
  if env.yLockWait > 0 ∧ v.LckPID ≠ env.PID then [Event.rnd_usleep 25000] else []

/-- The branch of a polling iteration taken when the pid was read (`fread OK`). -/
def holderCheck (env : LockEnv) (v : LoopVars) (LckPID : Nat) (LckCOMMAND : List Char)
    (s : LockState) : LockRes LoopVars :=
  let live := env.getPIDcmd v.totalLockAttempts LckPID
  let v0 := { v with LckPID := LckPID, missingPidRetries := 0 }
  match staleTest env.PID LckPID LckCOMMAND live with
  | none => { out := Outcome.undefined, lock := s, ev := [Event.getPIDcmd LckPID live] }
  | some true =>
    if v.staleLockRetries < staleLockRetriesMax then
      let v1 := { v0 with staleLockRetries := v.staleLockRetries + 1,
                          clrStaleTargetPID := LckPID }
      { out := Outcome.ret v1, lock := s, ev := Event.getPIDcmd LckPID live :: pollSleep env v1 }
    else if LckPID = v.clrStaleTargetPID ∧ v.staleLockRetries ≥ staleLockRetriesMax then
      let c := ClrSerLock LckPID s
      let v1 := { v0 with staleLockRetries := 0, clrStaleTargetPID := 0 }
      { out := Outcome.ret v1, lock := c.1,
        ev := Event.getPIDcmd LckPID live :: (c.2 ++ pollSleep env v1) }
    else { out := Outcome.ret v0, lock := s, ev := Event.getPIDcmd LckPID live :: pollSleep env v0 }
  | some false =>
    let v1 := { v0 with staleLockRetries := 0, clrStaleTargetPID := 0 }
    let v2 :=
      match live with
      | some l => if env.PID ≠ LckPID ∧ isCompatible l then { v1 with LckPID := env.PID } else v1
      | none => v1
    { out := Outcome.ret v2, lock := s, ev := Event.getPIDcmd LckPID live :: pollSleep env v2 }

/-- One polling iteration of `lockSer`, from the `do ... while` that opens the record to the
final `gettimeofday`; `v.totalLockAttempts` is already incremented.  The branches are taken
on what `fscanf` reads: this is the iteration of the source on every content on which
`readRecord` returns, and the overflow of the command buffer is in `readRecord` and not in
this value. -/
def lockIter (env : LockEnv) (COMMAND : Option (List Char)) (v : LoopVars) (s : LockState) :
    LockRes LoopVars :=
  let n := v.totalLockAttempts
  let s0 := env.disturb n s
  match s0.devLCKfile with
  | none => { out := Outcome.exit 2, lock := s0, ev := [] }
  | some content =>
    let busy := List.replicate (env.flockBusy n) (Event.rnd_usleep 25000)
    if env.flockError n then { out := Outcome.exit 2, lock := s0, ev := busy }
    else
      let r := fscanfRecord content
      let rd := busy ++ [Event.fscanf r.bRead r.LckPID r.COMMAND]
      if r.bRead = EOF ∨ r.LckPID = 0 ∨ r.errno ≠ 0 then
        if r.errno ≠ 0 then { out := Outcome.exit 2, lock := s0, ev := rd }
        else if v.missingPidRetries < missingPidRetriesMax then
          let v1 := { v with LckPID := r.LckPID, missingPidRetries := v.missingPidRetries + 1 }
          { out := Outcome.ret v1, lock := s0,
            ev := rd ++ [Event.rnd_usleep 250000] ++ pollSleep env v1 }
        else
          let a := AddSerLock env.PID COMMAND (env.linkFails n) s0
          let v1 := { v with LckPID := r.LckPID, missingPidRetries := 0 }
          match a.out with
          | Outcome.ret _ =>
            { out := Outcome.ret v1, lock := a.lock, ev := rd ++ a.ev ++ pollSleep env v1 }
          | Outcome.exit c => { out := Outcome.exit c, lock := a.lock, ev := rd ++ a.ev }
          | Outcome.undefined => { out := Outcome.undefined, lock := a.lock, ev := rd ++ a.ev }
      else
        let h := holderCheck env v r.LckPID r.COMMAND s0
        { h with ev := rd ++ h.ev }

/-- The `while` loop of `lockSer`, by the number `maxLockAttempts - totalLockAttempts` of
iterations left before the attempt bound is exceeded; `now` is
`tv_diff(&tLockNow, &tLockStart)`. -/
def lockLoop (env : LockEnv) (COMMAND : Option (List Char)) :
    Nat → LoopVars → Int → LockState → LockRes LoopVars
  | 0, v, now, s =>
    if v.LckPID ≠ env.PID ∧ now ≤ env.yLockWait * 1000000 then
      let c := ClrSerLock env.PID s
      { out := Outcome.exit 2, lock := c.1, ev := c.2 }
    else { out := Outcome.ret v, lock := s, ev := [] }
  | k + 1, v, now, s =>
    if v.LckPID ≠ env.PID ∧ now ≤ env.yLockWait * 1000000 then
      let v1 := { v with totalLockAttempts := v.totalLockAttempts + 1 }
      let it := lockIter env COMMAND v1 s
      match it.out with
      | Outcome.ret v2 =>
        let rest := lockLoop env COMMAND k v2 (env.clock v1.totalLockAttempts) it.lock
        { rest with ev := it.ev ++ rest.ev }
      | Outcome.exit c => { out := Outcome.exit c, lock := it.lock, ev := it.ev }
      | Outcome.undefined => { out := Outcome.undefined, lock := it.lock, ev := it.ev }
    else { out := Outcome.ret v, lock := s, ev := [] }

/-- The exclusive upgrade at the end of `lockSer`. -/
def upgrade (env : LockEnv) (s : LockState) : LockRes Unit :=
  let s0 := env.disturb 0 s
  match s0.devLCKfile with
  | some _ =>
    if env.flockExFails then
      let c := ClrSerLock env.PID { s0 with fdModbusExclusiveLock := false }
      { out := Outcome.exit 2, lock := c.1, ev := Event.upgradeOpen :: c.2 }
    else
      { out := Outcome.ret (), lock := { s0 with fdModbusExclusiveLock := true },
        ev := [Event.upgradeOpen] }
  | none =>
    { out := Outcome.ret (), lock := { s0 with fdModbusExclusiveLock := false },
      ev := [Event.upgradeOpen] }

/-- Source: `log_message`.  The message is written only when `type & debug_mask` is not 0. -/
def log_message (debug_mask type : Nat) (fmt : String) (args : List Int) : List Event :=
  if type &&& debug_mask ≠ 0 then [Event.log_message type fmt args] else []

/-- The three `log_message` calls with which `lockSer` gives up after its loop. -/
def lockFailureLog (env : LockEnv) (LckPID : Nat) : List Event :=
  log_message env.debug_mask DEBUG_STDERR "Problem locking serial device %s." [] ++
  log_message env.debug_mask (DEBUG_STDERR ||| DEBUG_SYSLOG)
    "Unable to get lock on serial %s for %lu in %ds: still locked by %lu."
    [env.PID, Int.tmod env.yLockWait 30, LckPID] ++
  log_message env.debug_mask DEBUG_STDERR "Try a greater -w value (eg -w%u)."
    [Int.tmod (env.yLockWait + 2) 30]

/-- Source: `lockSer`, from the call of `getPIDcmd(PID)` on. -/
def lockSer (env : LockEnv) (s : LockState) : LockRes Unit :=
  let COMMAND := env.getPIDcmd 0 env.PID
  let a := AddSerLock env.PID COMMAND (env.linkFails 0) s
  match a.out with
  | Outcome.exit c => { out := Outcome.exit c, lock := a.lock, ev := a.ev }
  | Outcome.undefined => { out := Outcome.undefined, lock := a.lock, ev := a.ev }
  | Outcome.ret _ =>
    let l := lockLoop env COMMAND maxLockAttempts ⟨0, 0, 0, 0, 0⟩ 0 a.lock
    match l.out with
    | Outcome.exit c => { out := Outcome.exit c, lock := l.lock, ev := a.ev ++ l.ev }
    | Outcome.undefined => { out := Outcome.undefined, lock := l.lock, ev := a.ev ++ l.ev }
    | Outcome.ret v =>
      if v.LckPID ≠ env.PID then
        let c := ClrSerLock env.PID l.lock
        { out := Outcome.exit 2, lock := c.1,
          ev := a.ev ++ l.ev ++ c.2 ++ lockFailureLog env v.LckPID }
      else
        let u := upgrade env l.lock
        { u with ev := a.ev ++ l.ev ++ u.ev }

/-- Whether an event is a record parse of a polling iteration. -/
def Event.isParse : Event → Bool
  | Event.fscanf _ _ _ => true
  | _ => false

/-- The actions a polling iteration of `lockSer` can perform. -/
def Event.isPolling : Event → Bool
  | Event.rnd_usleep _ => true
  | Event.fscanf _ _ _ => true
  | Event.getPIDcmd _ _ => true
  | Event.AddSerLock _ => true
  | Event.ClrSerLock _ => true
  | Event.link => true
  | Event.unlink _ => true
  | _ => false

/-- The last record parse of the trace read the pid `PID`, or read the pid of a holder that the
same iteration found alive, not stale, and compatible. -/
def LastParseAllows (PID : Nat) (l : List Event) : Prop :=
  ∃ pre post b pid cmd, l = pre ++ Event.fscanf b pid cmd :: post ∧
    (∀ e ∈ post, Event.isParse e = false) ∧
    (pid = PID ∨ ∃ live, Event.getPIDcmd pid (some live) ∈ post ∧
      staleTest PID pid cmd (some live) = some false ∧ isCompatible live = true)

/-! ## Scenarios -/

/-- A lock environment without interference: no other process touches the lock files, every
`flock` is granted at once, `link` fails only with `EEXIST`, an iteration takes 30 ms, `-d` is
not given, and the process table holds the caller (pid 100, `tac1100`) and what `table` says of
the others. -/
def quietEnv (yLockWait : Int) (table : Nat → Option (List Char)) : LockEnv :=
  { PID := 100
    yLockWait := yLockWait
    debug_mask := 0
    getPIDcmd := fun _ pid => if pid = 100 then some "tac1100".toList else table pid
    clock := fun n => 30000 * n
    others := fun _ s => s
    flockBusy := fun _ => 0
    flockError := fun _ => false
    flockExFails := false
    linkFails := fun _ => false }

/-- A record left behind by pid 4242, which no longer exists. -/
def staleStart : LockState :=
  { devLCKfile := some "4242 sdm120c\n".toList, devLCKfileNew := none,
    fdModbusExclusiveLock := false }

/-- The record of a live peer, pid 200, running `tac1100`. -/
def peerStart : LockState :=
  { devLCKfile := some "200 tac1100\n".toList, devLCKfileNew := none,
    fdModbusExclusiveLock := false }

/-- The process table in which pid 200 runs `tac1100`. -/
def peerTable (pid : Nat) : Option (List Char) :=
  if pid = 200 then some "tac1100".toList else none

/-- The environment of `peerStart` in which the peer removes its record after the caller's
last polling iteration and before the caller's exclusive upgrade. -/
def peerLeavesEnv : LockEnv :=
  { quietEnv 5 peerTable with
    others := fun n s => if n = 0 then { s with devLCKfile := none } else s }

/-! ## The register client -/

/-- The globals the register client reads: the process id, the `-m` flag and the command delay
in microseconds (as `main` has converted it before the first register access). -/
structure Globals where
  PID : Nat
  metern_flag : Int
  command_delay : Int

/-- What the process acts on after the lock is taken: its lock state and the transport.
`reads i` is the result of the `i`-th read call still to come (`none` is the return value -1,
`some regs` the registers read) and `writes i` that of the `i`-th write call still to come
(`false` is the return value -1). -/
structure World where
  lock : LockState
  reads : Nat → Option (List Nat)
  writes : Nat → Bool

/-- Result of a function that uses the transport. -/
structure Res (α : Type) where
  out : Outcome α
  w : World
  ev : List Event

/-- The world once the next read call has been answered. -/
def World.afterRead (w : World) : World :=
  { w with reads := fun i => w.reads (i + 1) }

/-- The world once the next write call has been answered. -/
def World.afterWrite (w : World) : World :=
  { w with writes := fun i => w.writes (i + 1) }

/-- Source: `exit_error`.  Closes and frees the context, clears the lock, prints the failure
marker unless `-m` is set, and exits with `EXIT_FAILURE`. -/
def exit_error {α : Type} (g : Globals) (w : World) : Res α :=
  let c := ClrSerLock g.PID w.lock
  { out := Outcome.exit EXIT_FAILURE
    w := { w with lock := c.1 }
    ev := [Event.exit_error, Event.modbus_close, Event.modbus_free] ++ c.2 ++
      (if g.metern_flag = 0 then [Event.printf "NOK\n"] else []) }

/-- The guarded `usleep(command_delay)` that precedes a command and follows a failure. -/
def sleepDelay (g : Globals) : List Event :=
  if g.command_delay ≠ 0 then [Event.usleep g.command_delay] else []

/-- The `while (j < retries && exit_loop == 0)` loop of `getMeasureFloat`, by the number
`retries - j` of attempts left.  It yields the final `rc`/`tab_reg` (`none` is `rc == -1`). -/
def measureLoop (g : Globals) (address nb : Int) :
    Nat → World → Option (List Nat) × World × List Event
  | 0, w => (none, w, [])
  | k + 1, w =>
    match w.reads 0 with
    | none =>
      let r := measureLoop g address nb k w.afterRead
      (r.1, r.2.1, sleepDelay g ++ [Event.readInput address nb] ++ sleepDelay g ++ r.2.2)
    | some regs => (some regs, w.afterRead, sleepDelay g ++ [Event.readInput address nb])

/-- Source: `getMeasureFloat`.  The value returned is the register pair handed to
`modbus_get_float`, that is `tab_reg[1], tab_reg[0]` of the read. -/
def getMeasureFloat (g : Globals) (address retries nb : Int) (w : World) : Res (List Nat) :=
  let r := measureLoop g address nb retries.toNat w
  match r.1 with
  | none =>
    let e : Res (List Nat) := exit_error g r.2.1
    { e with ev := r.2.2 ++ e.ev }
  | some regs => { out := Outcome.ret [regs.getD 1 0, regs.getD 0 0], w := r.2.1, ev := r.2.2 }

/-- The `while (j < retries && exit_loop == 0)` loop of `getConfigUINT`. -/
def configLoop (g : Globals) (address nb : Int) :
    Nat → World → Option (List Nat) × World × List Event
  | 0, w => (none, w, [])
  | k + 1, w =>
    match w.reads 0 with
    | none =>
      let r := configLoop g address nb k w.afterRead
      (r.1, r.2.1, sleepDelay g ++ [Event.readHolding address nb] ++ sleepDelay g ++ r.2.2)
    | some regs => (some regs, w.afterRead, sleepDelay g ++ [Event.readHolding address nb])

/-- Source: `getConfigUINT`.  The value returned is `tab_reg[0]`. -/
def getConfigUINT (g : Globals) (address retries nb : Int) (w : World) : Res Int :=
  let r := configLoop g address nb retries.toNat w
  match r.1 with
  | none =>
    let e : Res Int := exit_error g r.2.1
    { e with ev := r.2.2 ++ e.ev }
  | some regs => { out := Outcome.ret (regs.getD 0 0 : Nat), w := r.2.1, ev := r.2.2 }

/-- The cast `(uint16_t)value` of an `int`. -/
def toUint16 (value : Int) : Nat :=
  (value % 65536).toNat

/-- Register `KPPA`. -/
def KPPA : Int := 0x5000

/-- Source: `enableKPPA`.  Returns 0 on success and -1 on failure. -/
def enableKPPA (g : Globals) (current_password : Int) (w : World) : Res Int :=
  let ev := sleepDelay g ++ [Event.writeRegisters KPPA [toUint16 current_password]]
  if w.writes 0 then { out := Outcome.ret 0, w := w.afterWrite, ev := ev }
  else { out := Outcome.ret (-1), w := w.afterWrite, ev := ev }

/-- The C macro `RESTART_TRUE`. -/
def RESTART_TRUE : Int := 1

/-- The C macro `RESTART_FALSE`. -/
def RESTART_FALSE : Int := 0

/-- The banner `changeConfigUINT` prints when a restart is required. -/
def restartBanner : List Event :=
  [Event.printf "\n",
   Event.printf "*******************************************************\n",
   Event.printf "*** ATTENTION: METER RESTART REQUIRED               ***\n",
   Event.printf "*** Please restart the meter to apply the changes   ***\n",
   Event.printf "*******************************************************\n",
   Event.printf "\n"]

/-- Source: `changeConfigUINT`.  The diagnostics written to standard error on failure are
left out. -/
def changeConfigUINT (g : Globals) (address new_value restart : Int) (w : World) : Res Unit :=
  let ev := sleepDelay g ++ [Event.writeRegisters address [toUint16 new_value]]
  if w.writes 0 then
    { out := Outcome.ret ()
      w := w.afterWrite
      ev := ev ++ [Event.printf "New value %d for address 0x%X successfully written\n"] ++
        (if restart = RESTART_TRUE then restartBanner else []) }
  else
    let e : Res Unit := exit_error g w.afterWrite
    { e with ev := ev ++ e.ev }

/-! ## The session: `main` once `lockSer` has returned -/

/-- The variables of `main` and the globals as the option loop has left them. -/
structure Config where
  PID : Nat
  device_address : Int
  power_flag : Int
  volt_flag : Int
  current_flag : Int
  pangle_flag : Int
  freq_flag : Int
  pf_flag : Int
  apower_flag : Int
  rapower_flag : Int
  export_flag : Int
  import_flag : Int
  total_flag : Int
  rexport_flag : Int
  rimport_flag : Int
  rtotal_flag : Int
  time_disp_flag : Int
  new_address : Int
  new_baud_rate : Int
  new_parity_stop : Int
  password_flag : Int
  password_value : Int
  current_password : Int
  current_password_set : Int
  demand_period_flag : Int
  demand_period : Int
  slide_time_flag : Int
  slide_time : Int
  scroll_time_flag : Int
  scroll_time : Int
  backlit_time_flag : Int
  backlit_time : Int
  reset_hist_flag : Int
  reset_hist_type : Int
  compact_flag : Int
  metern_flag : Int
  count_param : Int
  num_retries : Int
  resp_timeout : Int
  byte_timeout : Int
  command_delay : Int
  settle_time : Int

/-- Register addresses used by `main`. -/
def VOLTAGE : Int := 0x0000
/-- Register `CURRENT`. -/
def CURRENT : Int := 0x0006
/-- Register `POWER`. -/
def POWER : Int := 0x000C
/-- Register `APOWER`. -/
def APOWER : Int := 0x0012
/-- Register `RAPOWER`. -/
def RAPOWER : Int := 0x0018
/-- Register `PFACTOR`. -/
def PFACTOR : Int := 0x001E
/-- Register `PANGLE`. -/
def PANGLE : Int := 0x0024
/-- Register `FREQUENCY`. -/
def FREQUENCY : Int := 0x0030
/-- Register `IAENERGY`. -/
def IAENERGY : Int := 0x0500
/-- Register `EAENERGY`. -/
def EAENERGY : Int := 0x0502
/-- Register `TAENERGY`. -/
def TAENERGY : Int := 0x0504
/-- Register `IRAENERGY`. -/
def IRAENERGY : Int := 0x0508
/-- Register `ERAENERGY`. -/
def ERAENERGY : Int := 0x050A
/-- Register `TRENERGY`. -/
def TRENERGY : Int := 0x050C
/-- Register `DEMAND_PERIOD`. -/
def DEMAND_PERIOD : Int := 0x5002
/-- Register `SLIDE_TIME`. -/
def SLIDE_TIME : Int := 0x5003
/-- Register `DEVICE_ID`. -/
def DEVICE_ID : Int := 0x5005
/-- Register `BAUD_RATE`. -/
def BAUD_RATE : Int := 0x5006
/-- Register `NPARSTOP`. -/
def NPARSTOP : Int := 0x5007
/-- Register `PASSWORD`. -/
def PASSWORD : Int := 0x5008
/-- Register `TIME_DISP`. -/
def TIME_DISP : Int := 0x5018
/-- Register `BACKLIT_TIME`. -/
def BACKLIT_TIME : Int := 0x5019
/-- Register `RESET_HIST`. -/
def RESET_HIST : Int := 0x5600

/-- The globals of the register client once `main` has converted `command_delay` from
milliseconds to microseconds (-1, the initial value, stands for no delay). -/
def Config.globals (cfg : Config) : Globals :=
  { PID := cfg.PID
    metern_flag := cfg.metern_flag
    command_delay := if cfg.command_delay = -1 then 0 else cfg.command_delay * 1000 }

/-- Sequencing: when the first step returns, the second runs on the world it left; when it
ends the process, nothing follows. -/
def Res.andThen {α β : Type} (r : Res α) (f : α → World → Res β) : Res β :=
  match r.out with
  | Outcome.ret a => { out := (f a r.w).out, w := (f a r.w).w, ev := r.ev ++ (f a r.w).ev }
  | Outcome.exit st => { out := Outcome.exit st, w := r.w, ev := r.ev }
  | Outcome.undefined => { out := Outcome.undefined, w := r.w, ev := r.ev }

/-- A step that only performs the given actions (messages, set-up calls). -/
def emit (ev : List Event) (w : World) : Res Unit :=
  { out := Outcome.ret (), w := w, ev := ev }

/-- The sequence `modbus_close(ctx); modbus_free(ctx); ClrSerLock(PID);` followed by the end of
the process with the given status (`exit(status)`, or `return status` from `main`). -/
def closeAndClear {α : Type} (cfg : Config) (status : Nat) (w : World) : Res α :=
  let c := ClrSerLock cfg.PID w.lock
  { out := Outcome.exit status
    w := { w with lock := c.1 }
    ev := [Event.modbus_close, Event.modbus_free] ++ c.2 }

/-- The shape shared by the unprotected write branches of `main`: refuse when read options
were given, else write one register and end with status 0. -/
def writeBranch (cfg : Config) (address value restart : Int) (w : World) : Res Unit :=
  if cfg.count_param > 0 then
    (emit [Event.usage] w).andThen fun _ w1 => closeAndClear cfg EXIT_FAILURE w1
  else
    (changeConfigUINT cfg.globals address value restart w).andThen fun _ w1 =>
      closeAndClear cfg 0 w1

/-- The shape shared by the two protected write branches of `main` (`-K` and `-H`): the
messages differ, the steps do not. -/
def protectedBranch (cfg : Config) (address value : Int) (missing failed : List Event)
    (enabling enabled : Event) (done : List Event) (w : World) : Res Unit :=
  if cfg.count_param > 0 then
    (emit [Event.usage] w).andThen fun _ w1 => closeAndClear cfg EXIT_FAILURE w1
  else if cfg.current_password_set = 0 then
    (emit missing w).andThen fun _ w1 => closeAndClear cfg EXIT_FAILURE w1
  else
    (emit [enabling] w).andThen fun _ w1 =>
    (enableKPPA cfg.globals cfg.current_password w1).andThen fun rc w2 =>
      if rc = -1 then (emit failed w2).andThen fun _ w3 => closeAndClear cfg EXIT_FAILURE w3
      else
        (emit [enabled] w2).andThen fun _ w3 =>
        (changeConfigUINT cfg.globals address value RESTART_FALSE w3).andThen fun _ w4 =>
        (emit done w4).andThen fun _ w5 => closeAndClear cfg 0 w5

/-- Messages of the `-K` branch. -/
def passwordMissing : List Event :=
  [Event.eprintf "\nERROR: Current password required for KPPA authorization.\n",
   Event.eprintf "Usage: %s -Q <current_password> -K <new_password> /dev/ttyUSB0\n",
   Event.eprintf "Example: %s -Q 0000 -K 1234 /dev/ttyUSB0\n\n"]

/-- Messages of the `-K` branch when `enableKPPA` fails. -/
def passwordFailed : List Event :=
  [Event.eprintf "\nERROR: Failed to enable KPPA.\n",
   Event.eprintf "Please verify:\n",
   Event.eprintf "  1. Current password (-Q) is correct (default: 0000)\n",
   Event.eprintf "  2. Meter is accessible via Modbus\n",
   Event.eprintf "  3. No communication errors\n\n"]

/-- Messages of the `-K` branch after the write. -/
def passwordDone : List Event :=
  [Event.printf "\nPassword changed successfully from %d to %d.\n",
   Event.printf "IMPORTANT: Remember your new password!\n"]

/-- Messages of the `-H` branch when `-Q` is missing. -/
def resetMissing : List Event :=
  [Event.eprintf "\nERROR: Current password required for KPPA authorization.\n",
   Event.eprintf "Usage: %s -Q <current_password> -H <reset_type> /dev/ttyUSB0\n",
   Event.eprintf "Example: %s -Q 0000 -H 0 /dev/ttyUSB0\n",
   Event.eprintf "\nReset types:\n",
   Event.eprintf "  0 = Reset maximum demand\n",
   Event.eprintf "  8 = Reset monthly energy consumption\n",
   Event.eprintf "  9 = Reset daily energy consumption\n\n"]

/-- Messages of the `-H` branch when `enableKPPA` fails. -/
def resetFailed : List Event :=
  [Event.eprintf "\nERROR: Failed to enable KPPA.\n",
   Event.eprintf "Please verify:\n",
   Event.eprintf "  1. Password (-Q) is correct (default: 0000)\n",
   Event.eprintf "  2. Meter is accessible via Modbus\n",
   Event.eprintf "  3. No communication errors\n\n"]

/-- Messages of the `-H` branch after the write. -/
def resetDone (reset_hist_type : Int) : List Event :=
  [Event.printf "\nHistorical data reset command executed successfully.\n",
   Event.printf "Reset type: "] ++
  (if reset_hist_type = 0 then [Event.printf "Maximum demand reset\n"]
   else if reset_hist_type = 8 then [Event.printf "Monthly energy consumption reset\n"]
   else if reset_hist_type = 9 then [Event.printf "Daily energy consumption reset\n"]
   else [])

/-- Whether none of the fifteen read flags is set. -/
def Config.noReadFlag (cfg : Config) : Bool :=
  cfg.power_flag == 0 && cfg.apower_flag == 0 && cfg.rapower_flag == 0 && cfg.volt_flag == 0 &&
  cfg.current_flag == 0 && cfg.pf_flag == 0 && cfg.pangle_flag == 0 && cfg.freq_flag == 0 &&
  cfg.export_flag == 0 && cfg.import_flag == 0 && cfg.total_flag == 0 &&
  cfg.rexport_flag == 0 && cfg.rimport_flag == 0 && cfg.rtotal_flag == 0 &&
  cfg.time_disp_flag == 0

/-- The block of `main` that selects all fourteen measures when no read flag is set. -/
def Config.withDefaultReads (cfg : Config) : Config :=
  if cfg.noReadFlag then
    { cfg with
      power_flag := 1, apower_flag := 1, rapower_flag := 1, volt_flag := 1, current_flag := 1,
      pangle_flag := 1, freq_flag := 1, pf_flag := 1, export_flag := 1, import_flag := 1,
      total_flag := 1, rexport_flag := 1, rimport_flag := 1, rtotal_flag := 1,
      count_param := 14 }
  else cfg

/-- One `if (x_flag == 1)` block of the reading part of `main`: the flag, the register, and
the three formats (`-m`, `-q`, plain). -/
structure MeasureItem where
  flag : Int
  address : Int
  fmtMetern : String
  fmtCompact : String
  fmtPlain : String

/-- The fourteen float blocks of `main`, in source order. -/
def measureItems (cfg : Config) : List MeasureItem :=
  [ ⟨cfg.volt_flag, VOLTAGE, "%d_V(%3.2f*V)\n", "%3.2f ", "Voltage: %3.2f V \n"⟩,
    ⟨cfg.current_flag, CURRENT, "%d_C(%3.2f*A)\n", "%3.2f ", "Current: %3.2f A \n"⟩,
    ⟨cfg.power_flag, POWER, "%d_P(%3.2f*W)\n", "%3.2f ", "Power: %3.2f W \n"⟩,
    ⟨cfg.apower_flag, RAPOWER, "%d_VA(%3.2f*VA)\n", "%3.2f ", "Apparent Power: %3.2f VA \n"⟩,
    ⟨cfg.rapower_flag, APOWER, "%d_VAR(%3.2f*VAR)\n", "%3.2f ",
      "Reactive Power: %3.2f VAR \n"⟩,
    ⟨cfg.pf_flag, PFACTOR, "%d_PF(%3.2f*F)\n", "%3.2f ", "Power Factor: %3.2f \n"⟩,
    ⟨cfg.pangle_flag, PANGLE, "%d_PA(%3.2f*Dg)\n", "%3.2f ", "Phase Angle: %3.2f Degree \n"⟩,
    ⟨cfg.freq_flag, FREQUENCY, "%d_F(%3.2f*Hz)\n", "%3.2f ", "Frequency: %3.2f Hz \n"⟩,
    ⟨cfg.import_flag, IAENERGY, "%d_IE(%d*Wh)\n", "%d ", "Import Active Energy: %d Wh \n"⟩,
    ⟨cfg.export_flag, EAENERGY, "%d_EE(%d*Wh)\n", "%d ", "Export Active Energy: %d Wh \n"⟩,
    ⟨cfg.total_flag, TAENERGY, "%d_TE(%d*Wh)\n", "%d ", "Total Active Energy: %d Wh \n"⟩,
    ⟨cfg.rimport_flag, IRAENERGY, "%d_IRE(%d*VARh)\n", "%d ",
      "Import Reactive Energy: %d VARh \n"⟩,
    ⟨cfg.rexport_flag, ERAENERGY, "%d_ERE(%d*VARh)\n", "%d ",
      "Export Reactive Energy: %d VARh \n"⟩,
    ⟨cfg.rtotal_flag, TRENERGY, "%d_TRE(%d*VARh)\n", "%d ",
      "Total Reactive Energy: %d VARh \n"⟩ ]

/-- The float blocks of `main` run in order; the value is `read_count`. -/
def readMeasures (cfg : Config) : List MeasureItem → Int → World → Res Int
  | [], read_count, w => { out := Outcome.ret read_count, w := w, ev := [] }
  | it :: rest, read_count, w =>
    if it.flag = 1 then
      (getMeasureFloat cfg.globals it.address cfg.num_retries 2 w).andThen fun _ w1 =>
      (emit [Event.printf (if cfg.metern_flag = 1 then it.fmtMetern
          else if cfg.compact_flag = 1 then it.fmtCompact else it.fmtPlain)] w1).andThen
        fun _ w2 => readMeasures cfg rest (read_count + 1) w2
    else readMeasures cfg rest read_count w

/-- The `time_disp_flag` block of `main`; the value is `read_count`. -/
def readTimeDisp (cfg : Config) (read_count : Int) (w : World) : Res Int :=
  if cfg.time_disp_flag = 1 then
    (getConfigUINT cfg.globals TIME_DISP cfg.num_retries 1 w).andThen fun _ w1 =>
      { out := Outcome.ret (read_count + 1), w := w1,
        ev := [Event.printf (if cfg.compact_flag = 1 then "%d "
          else "Automatic scroll display time: %d seconds\n")] }
  else { out := Outcome.ret read_count, w := w, ev := [] }

/-- The end of `main`: the comparison of `read_count` with `count_param`. -/
def finish (cfg : Config) (read_count : Int) (w : World) : Res Unit :=
  if read_count = cfg.count_param then
    let c : Res Unit := closeAndClear cfg 0 w
    { c with ev := c.ev ++ (if cfg.metern_flag = 0 then [Event.printf "OK\n"] else []) }
  else exit_error cfg.globals w

/-- The reading part of `main`, from the default selection to the end. -/
def readPhase (cfg : Config) (w : World) : Res Unit :=
  (readMeasures cfg.withDefaultReads (measureItems cfg.withDefaultReads) 0 w).andThen
    fun n w1 => (readTimeDisp cfg.withDefaultReads n w1).andThen
      fun n2 w2 => finish cfg.withDefaultReads n2 w2

/-- The part of `main` that runs on an open connection: the exclusion checks of the write
options, the write branches, then the reading part. -/
def registerPhase (cfg : Config) (w : World) : Res Unit :=
  if cfg.new_address > 0 ∧ cfg.new_baud_rate ≥ 0 then
    (emit [Event.usage] w).andThen fun _ w1 => exit_error cfg.globals w1
  else if (cfg.new_address > 0 ∨ cfg.new_baud_rate ≥ 0) ∧ cfg.new_parity_stop ≥ 0 then
    (emit [Event.usage] w).andThen fun _ w1 => exit_error cfg.globals w1
  else if cfg.new_address > 0 then writeBranch cfg DEVICE_ID cfg.new_address RESTART_FALSE w
  else if cfg.new_baud_rate ≥ 0 then writeBranch cfg BAUD_RATE cfg.new_baud_rate RESTART_FALSE w
  else if cfg.new_parity_stop ≥ 0 then
    writeBranch cfg NPARSTOP cfg.new_parity_stop RESTART_TRUE w
  else if cfg.password_flag > 0 then
    protectedBranch cfg PASSWORD cfg.password_value passwordMissing passwordFailed
      (Event.printf "Enabling KPPA authorization with current password...\n")
      (Event.printf "KPPA enabled. Changing password...\n") passwordDone w
  else if cfg.demand_period_flag > 0 then
    writeBranch cfg DEMAND_PERIOD cfg.demand_period RESTART_FALSE w
  else if cfg.slide_time_flag > 0 then writeBranch cfg SLIDE_TIME cfg.slide_time RESTART_FALSE w
  else if cfg.scroll_time_flag > 0 then
    writeBranch cfg TIME_DISP cfg.scroll_time RESTART_FALSE w
  else if cfg.backlit_time_flag > 0 then
    writeBranch cfg BACKLIT_TIME cfg.backlit_time RESTART_FALSE w
  else if cfg.reset_hist_flag > 0 then
    protectedBranch cfg RESET_HIST cfg.reset_hist_type resetMissing resetFailed
      (Event.printf "Enabling KPPA authorization with password...\n")
      (Event.printf "KPPA enabled. Sending reset command...\n")
      (resetDone cfg.reset_hist_type) w
  else readPhase cfg w

/-- The Modbus set-up of `main`, up to `modbus_connect`. -/
def setupEvents (cfg : Config) : List Event :=
  [ (if cfg.byte_timeout = -1 then Event.setByteTimeout (-1) 0
     else Event.setByteTimeout 0 cfg.byte_timeout),
    Event.setResponseTimeout 0
      ((if cfg.resp_timeout = -1 then 2 else cfg.resp_timeout * 100) * 1000) ] ++
  (if (if cfg.settle_time = -1 then 0 else cfg.settle_time * 1000) ≠ 0 then
     [Event.usleep (if cfg.settle_time = -1 then 0 else cfg.settle_time * 1000)] else []) ++
  [Event.modbus_connect]

/-- Source: `main`, from the return of `lockSer` to the end of the process.  `ctxOk` says that
`modbus_new_rtu` returned a context and `connectOk` that `modbus_connect` succeeded.  The
outcome is always the end of the process: `exit(status)`, or `return status` from `main`. -/
def mainAfterLock (cfg : Config) (ctxOk connectOk : Bool) (w : World) : Res Unit :=
  if !ctxOk then
    let c := ClrSerLock cfg.PID w.lock
    { out := Outcome.exit EXIT_FAILURE, w := { w with lock := c.1 },
      ev := Event.modbus_new_rtu :: c.2 }
  else if !connectOk then
    let c := ClrSerLock cfg.PID w.lock
    { out := Outcome.exit EXIT_FAILURE, w := { w with lock := c.1 },
      ev := Event.modbus_new_rtu :: setupEvents cfg ++ [Event.modbus_free] ++ c.2 }
  else
    (emit (Event.modbus_new_rtu :: setupEvents cfg) w).andThen fun _ w1 => registerPhase cfg w1

/-- The trace holds `modbus_close`, `modbus_free` and the entry of `ClrSerLock(pid)` in a
row. -/
def ClosesThenClears (pid : Nat) (l : List Event) : Prop :=
  ∃ pre post, l = pre ++ [Event.modbus_close, Event.modbus_free, Event.ClrSerLock pid] ++ post

/-- A step of `main` that ends the process after the clean-up. -/
def Final {α : Type} (pid : Nat) (r : Res α) : Prop :=
  (∃ st, r.out = Outcome.exit st) ∧ ClosesThenClears pid r.ev

/-- A step of `main` that either goes on or ends the process after the clean-up. -/
def Careful {α : Type} (pid : Nat) (r : Res α) : Prop :=
  (∃ a, r.out = Outcome.ret a) ∨ Final pid r

/-! ## Scenarios of the session -/

/-- The variables of `main` after an option loop that saw no option: every flag clear, one
attempt per read, response timeout 2, no byte timeout, no delays; the caller is pid 100. -/
def plainConfig : Config :=
  { PID := 100, device_address := 1, power_flag := 0, volt_flag := 0, current_flag := 0,
    pangle_flag := 0, freq_flag := 0, pf_flag := 0, apower_flag := 0, rapower_flag := 0,
    export_flag := 0, import_flag := 0, total_flag := 0, rexport_flag := 0, rimport_flag := 0,
    rtotal_flag := 0, time_disp_flag := 0, new_address := 0, new_baud_rate := -1,
    new_parity_stop := -1, password_flag := 0, password_value := 0, current_password := 0,
    current_password_set := 0, demand_period_flag := 0, demand_period := 0,
    slide_time_flag := 0, slide_time := 0, scroll_time_flag := 0, scroll_time := 0,
    backlit_time_flag := 0, backlit_time := 0, reset_hist_flag := 0, reset_hist_type := 0,
    compact_flag := 0, metern_flag := 0, count_param := 0, num_retries := 1,
    resp_timeout := 2, byte_timeout := -1, command_delay := -1, settle_time := -1 }

/-- The lock state of pid 100 after a successful `lockSer`. -/
def heldLock : LockState :=
  { devLCKfile := some "100 tac1100\n".toList, devLCKfileNew := none,
    fdModbusExclusiveLock := true }

/-- A transport on which every call fails. -/
def deadBus : World :=
  { lock := heldLock, reads := fun _ => none, writes := fun _ => false }

/-- Whether an event is a register read call. -/
def Event.isRead : Event → Bool
  | Event.readInput _ _ => true
  | Event.readHolding _ _ => true
  | _ => false

/-- Whether an event is a register write call. -/
def Event.isWrite : Event → Bool
  | Event.writeRegisters _ _ => true
  | _ => false

/-- Whether an event is a write to one of the protected registers `PASSWORD`, `RESET_HIST`. -/
def Event.isProtectedWrite : Event → Bool
  | Event.writeRegisters a _ => a == PASSWORD || a == RESET_HIST
  | _ => false

/-- A transport on which every call succeeds; reads return the register pair of pi. -/
def goodBus : World :=
  { lock := heldLock, reads := fun _ => some [0x4049, 0x0FDB], writes := fun _ => true }

/-- Globals of pid 100 without `-m` and without command delay. -/
def plainGlobals : Globals :=
  { PID := 100, metern_flag := 0, command_delay := 0 }

/-- The variables of `main` after `-s 5 -K 1234` (no `-Q`). -/
def addressAndPasswordConfig : Config :=
  { plainConfig with new_address := 5, password_flag := 1, password_value := 1234 }

/-- The variables of `main` after `-K 1234` (no `-Q`). -/
def passwordOnlyConfig : Config :=
  { plainConfig with password_flag := 1, password_value := 1234 }

/-- The variables of `main` after `-Q 0 -K 1234`. -/
def passwordConfig : Config :=
  { plainConfig with password_flag := 1, password_value := 1234, current_password := 0,
                     current_password_set := 1 }

/-- The variables of `main` after `-Q 0 -H 8`. -/
def resetConfig : Config :=
  { plainConfig with reset_hist_flag := 1, reset_hist_type := 8, current_password := 0,
                     current_password_set := 1 }

/-- The register writes of a run of `main` are gated by `KPPA`: either no write of the trace
goes to `PASSWORD` or `RESET_HIST`, or `-Q` was given, the first write call of the run
succeeded, and the writes of the trace are, in order, that first write, of the current password
to `KPPA` (the call of `enableKPPA`), and one write to a protected register. -/
def Gated (cfg : Config) (w : World) (l : List Event) : Prop :=
  (∀ e ∈ l, Event.isProtectedWrite e = false) ∨
  (∃ a v, (a = PASSWORD ∨ a = RESET_HIST) ∧ cfg.current_password_set ≠ 0 ∧
    w.writes 0 = true ∧
    l.filter Event.isWrite =
      [Event.writeRegisters KPPA [toUint16 cfg.current_password], Event.writeRegisters a v])

/-! ## The float decoder -/

/-- Modelled from the spec: the 32-bit pattern that the IEEE-754 decoder (`modbus_get_float` of
libmodbus, which is not part of the source) assembles from the register pair it is handed:
the second word is the high half, the first word the low half. -/
def modbus_get_float_bits (src : List Nat) : Nat :=
  (src.getD 1 0 % 65536) * 65536 + src.getD 0 0 % 65536

/-- The value of a single-precision IEEE-754 bit pattern as an exact rational: sign bit 31,
exponent bits 30 to 23 with bias 127, fraction bits 22 to 0; `none` for infinities and NaN. -/
def ieee754Value (bits : Nat) : Option ℚ :=
  let sign : ℚ := if bits / 2 ^ 31 % 2 = 1 then -1 else 1
  let e : Nat := bits / 2 ^ 23 % 256
  let m : Nat := bits % 2 ^ 23
  if e = 255 then none
  else if e = 0 then some (sign * (m : ℚ) / 2 ^ 149)
  else some (sign * ((2 ^ 23 + m : Nat) : ℚ) * 2 ^ e / 2 ^ 150)

/-- Modelled from the spec: the IEEE-754 decoder `modbus_get_float` applied to a register
pair. -/
def modbus_get_float (src : List Nat) : Option ℚ :=
  ieee754Value (modbus_get_float_bits src)

/-! ## Scenarios of the stale test -/

/-- The process table in which pid 200 runs a program whose `argv[0]` is the empty string. -/
def emptyCmdTable (pid : Nat) : Option (List Char) :=
  if pid = 200 then some [] else none

/-- The record of pid 200 without a command. -/
def bareStart : LockState :=
  { devLCKfile := some "200\n".toList, devLCKfileNew := none, fdModbusExclusiveLock := false }

/-- The process table in which pid 200 runs `/usr/bin/vim`. -/
def editorTable (pid : Nat) : Option (List Char) :=
  if pid = 200 then some "/usr/bin/vim".toList else none

/-- The record of pid 200 running `/usr/bin/vim`. -/
def editorStart : LockState :=
  { devLCKfile := some "200 /usr/bin/vim\n".toList, devLCKfileNew := none,
    fdModbusExclusiveLock := false }

/-! ## The polling loop iteration by iteration -/

/-- The actions that can follow the record parse in the missing-pid branch of a polling
iteration. -/
def Event.isPublish : Event → Bool
  | Event.rnd_usleep _ => true
  | Event.AddSerLock _ => true
  | Event.link => true
  | Event.unlink _ => true
  | _ => false

/-- Whether an event is a `getPIDcmd` call of a polling iteration. -/
def Event.isLookup : Event → Bool
  | Event.getPIDcmd _ _ => true
  | _ => false

/-- The events of the polling iterations that `lockLoop` runs, one list per iteration. -/
def lockIterations (env : LockEnv) (COMMAND : Option (List Char)) :
    Nat → LoopVars → Int → LockState → List (List Event)
  | 0, _, _, _ => []
  | k + 1, v, now, s =>
    if v.LckPID ≠ env.PID ∧ now ≤ env.yLockWait * 1000000 then
      let v1 := { v with totalLockAttempts := v.totalLockAttempts + 1 }
      let it := lockIter env COMMAND v1 s
      match it.out with
      | Outcome.ret v2 =>
        it.ev :: lockIterations env COMMAND k v2 (env.clock v1.totalLockAttempts) it.lock
      | Outcome.exit _ => [it.ev]
      | Outcome.undefined => [it.ev]
    else []

/-- The loop variables, the value of `tv_diff(&tLockNow, &tLockStart)` and the lock state with
which the `while` loop of `lockSer` comes back to its condition after `n` complete iterations
run on that condition; `none` when the loop has ended before. -/
def loopAfter (env : LockEnv) (COMMAND : Option (List Char)) :
    Nat → LoopVars → Int → LockState → Option (LoopVars × Int × LockState)
  | 0, v, now, s => some (v, now, s)
  | n + 1, v, now, s =>
    if v.LckPID ≠ env.PID ∧ now ≤ env.yLockWait * 1000000 then
      let v1 := { v with totalLockAttempts := v.totalLockAttempts + 1 }
      let it := lockIter env COMMAND v1 s
      match it.out with
      | Outcome.ret v2 => loopAfter env COMMAND n v2 (env.clock v1.totalLockAttempts) it.lock
      | Outcome.exit _ => none
      | Outcome.undefined => none
    else none

/-- The reading of a polling iteration with events `seg`: the pid that its record parse
yielded and the outcome of the stale test on it with the result of its `getPIDcmd` call
(`true` is stale); `none` when the iteration did not get to a defined stale test. -/
def segReading (PID : Nat) (seg : List Event) : Option (Nat × Bool) :=
  match seg.find? Event.isParse, seg.find? Event.isLookup with
  | some (Event.fscanf _ pid cmd), some (Event.getPIDcmd _ live) =>
    (staleTest PID pid cmd live).map fun b => (pid, b)
  | _, _ => none

/-- The iteration with events `seg` has neither read a valid holder nor called `ClrSerLock`. -/
def Quiet (PID : Nat) (seg : List Event) : Prop :=
  (∀ q, segReading PID seg ≠ some (q, false)) ∧ ∀ p, Event.ClrSerLock p ∉ seg

/-- What the stale counter `n` and the clear target `t` say of the iterations `H` run so far:
when `n` is 1, an iteration read the pid `t` as stale and no iteration from that one on has
read a valid holder or called `ClrSerLock`; when `n` is 2 or more, there are two such
iterations, the later of which read the pid `t`. -/
def Debounced (PID : Nat) (n t : Nat) (H : List (List Event)) : Prop :=
  n = 0 ∨
  (n = 1 ∧ ∃ A s1 B, H = A ++ s1 :: B ∧ segReading PID s1 = some (t, true) ∧
    ∀ x ∈ s1 :: B, Quiet PID x) ∨
  (2 ≤ n ∧ ∃ A s1 B s2 C q1, H = A ++ s1 :: (B ++ s2 :: C) ∧
    segReading PID s1 = some (q1, true) ∧ segReading PID s2 = some (t, true) ∧
    ∀ x ∈ s1 :: (B ++ s2 :: C), Quiet PID x)

/-- A record file without content that nobody repairs. -/
def emptyStart : LockState :=
  { devLCKfile := some [], devLCKfileNew := none, fdModbusExclusiveLock := false }

/-! ## The lock file paths -/

/-- The C constant `ttyLCKloc`. -/
def ttyLCKloc : List Char := "/var/lock/LCK..".toList

/-- The C library `strrchr(s, '/')` followed by the `pos++` of `lockSer`: what stands after
the last `/` of the string; `none` is the NULL of a string without `/`. -/
def afterLastSlash : List Char → Option (List Char)
  | [] => none
  | c :: cs =>
    match afterLastSlash cs with
    | some t => some t
    | none => if c = '/' then some cs else none

/-- The conversion of an `unsigned long` to the `long` parameter of `getIntLen`. -/
def toLong (n : Nat) : Int :=
  if n % 2 ^ 64 < 2 ^ 63 then (n % 2 ^ 64 : Nat) else ((n % 2 ^ 64 : Nat) : Int) - 2 ^ 64

/-- The loop `while (value) { l++; value /= 10; }` of `getIntLen`, by the number of rounds
still allowed. -/
def getIntLenLoop : Nat → Int → Nat → Nat
  | 0, _, l => l
  | k + 1, value, l => if value ≠ 0 then getIntLenLoop k (Int.tdiv value 10) (l + 1) else l

/-- Source: `getIntLen`.  Every round of the loop makes `|value|` smaller, so `|value|` rounds
are enough for it to end. -/
def getIntLen (value : Int) : Nat :=
  getIntLenLoop value.natAbs value (if value = 0 then 1 else 0)

/-- The two paths that the head of `lockSer` builds, each with the number of bytes that
`getMemPtr` was asked for. -/
structure LockPaths where
  devLCKfile : List Char
  devLCKfileSize : Nat
  devLCKfileNew : List Char
  devLCKfileNewSize : Nat
deriving DecidableEq, Repr

/-- Source: the path derivation at the head of `lockSer`; `none` is the branch that sets
`devLCKfile` to NULL.  `szttyDevice.length - pos.length` is the offset `pos - szttyDevice`. -/
def lockPaths (szttyDevice : List Char) (PID : Nat) : Option LockPaths :=
  match afterLastSlash szttyDevice with
  | some pos =>
    some
      { devLCKfile := ttyLCKloc ++ pos
        devLCKfileSize :=
          ttyLCKloc.length + (szttyDevice.length - (szttyDevice.length - pos.length)) + 1
        devLCKfileNew := (ttyLCKloc ++ pos) ++ '.' :: printLu PID
        devLCKfileNewSize := (ttyLCKloc ++ pos).length + getIntLen (toLong PID) + 2 }
  | none => none

/-! ## The command line of a process -/

/-- The C macro `CMDLINESIZE`. -/
def CMDLINESIZE : Nat := 128

/-- The content of `/proc/<pid>/cmdline` of a process started with the given arguments: each
argument followed by a NUL. -/
def procCmdline : List (List Char) → List Char
  | [] => []
  | a :: rest => a ++ chNul :: procCmdline rest

/-- Source: `getPIDcmd`, on the content of `/proc/<pid>/cmdline` (`none` when `open` fails).
The value is the returned string, `none` for NULL.  `read` fills at most the 1024 bytes of
`buffer`; when it fills them all, `buffer[length] = 0` stores past the end of the buffer. -/
def getPIDcmd (cmdlineFile : Option (List Char)) : Outcome (Option (List Char)) :=
  match cmdlineFile with
  | none => Outcome.ret none
  | some content =>
    let buffer := content.take 1024
    if buffer.length = 0 then Outcome.ret none
    else if buffer.length = 1024 then Outcome.undefined
    else Outcome.ret (some (cstr buffer))

/-- Source: `getCmdLine`, on the content of `/proc/<PID>/cmdline` of the process itself
(`none` when `open` fails).  The value is the content of the global `cmdline` and the returned
number of bytes. -/
def getCmdLine (cmdlineFile : Option (List Char)) : List Char × Nat :=
  match cmdlineFile with
  | none => ([], 0)
  | some content =>
    let buf := content.take (CMDLINESIZE - 1)
    if buf.length = 0 then ([], 0)
    else
      (cstr ((buf.map fun c => if c = chNul then chSpace else c).take (buf.length - 1)),
        buf.length)

/-! ## The option loop of `main` -/

/-- The C macro `MAX_RETRIES`. -/
def MAX_RETRIES : Int := 100

/-- The C macro `BR1200`. -/
def BR1200 : Int := 0
/-- The C macro `BR2400`. -/
def BR2400 : Int := 1
/-- The C macro `BR4800`. -/
def BR4800 : Int := 2
/-- The C macro `BR9600`. -/
def BR9600 : Int := 3
/-- The C macro `BR19200`. -/
def BR19200 : Int := 4

/-- The fifteen read options of `main`, by their option letter. -/
inductive ReadOpt where
  | v | p | c | e | i | t | A | B | C | f | g | l | n | o | T
deriving DecidableEq, Repr

/-- One option as `getopt` hands it to the `switch` of `main`.  A numeric argument stands for
`atoi(optarg)`; `-d` also carries the first character of its argument and `-P` its argument
string; `unknown` is an option without a `case` (`printable` is `isprint(optopt)`). -/
inductive Opt where
  | read (r : ReadOpt)
  | a (n : Int)
  | d (first : Char) (n : Int)
  | x
  | b (n : Int)
  | P (arg : List Char)
  | S (n : Int)
  | s (n : Int)
  | r (n : Int)
  | N (n : Int)
  | K (n : Int)
  | Q (n : Int)
  | L (n : Int)
  | U (n : Int)
  | R (n : Int)
  | G (n : Int)
  | H (n : Int)
  | m
  | q
  | z (n : Int)
  | j (n : Int)
  | y (n : Int)
  | w (n : Int)
  | W (n : Int)
  | D (n : Int)
  | unknown (printable : Bool)
deriving DecidableEq, Repr

/-- The variables that the option loop of `main` sets: those of `Config` and the ones used
before the register client starts. -/
structure MainVars where
  cfg : Config
  debug_flag : Int
  debug_mask : Int
  trace_flag : Int
  baud_rate : Int
  parity : Char
  stop_bits : Int
  yLockWait : Int

/-- How a step of `main` before `lockSer` ends, and what it wrote. -/
structure Parsed where
  out : Outcome MainVars
  ev : List Event

/-- The `case` of a read option: the flag is set and `count_param` is incremented, whether
or not the flag was set before. -/
def Config.setRead (cfg : Config) : ReadOpt → Config
  | ReadOpt.v => { cfg with volt_flag := 1, count_param := cfg.count_param + 1 }
  | ReadOpt.p => { cfg with power_flag := 1, count_param := cfg.count_param + 1 }
  | ReadOpt.c => { cfg with current_flag := 1, count_param := cfg.count_param + 1 }
  | ReadOpt.e => { cfg with export_flag := 1, count_param := cfg.count_param + 1 }
  | ReadOpt.i => { cfg with import_flag := 1, count_param := cfg.count_param + 1 }
  | ReadOpt.t => { cfg with total_flag := 1, count_param := cfg.count_param + 1 }
  | ReadOpt.A => { cfg with rimport_flag := 1, count_param := cfg.count_param + 1 }
  | ReadOpt.B => { cfg with rexport_flag := 1, count_param := cfg.count_param + 1 }
  | ReadOpt.C => { cfg with rtotal_flag := 1, count_param := cfg.count_param + 1 }
  | ReadOpt.f => { cfg with freq_flag := 1, count_param := cfg.count_param + 1 }
  | ReadOpt.g => { cfg with pf_flag := 1, count_param := cfg.count_param + 1 }
  | ReadOpt.l => { cfg with apower_flag := 1, count_param := cfg.count_param + 1 }
  | ReadOpt.n => { cfg with rapower_flag := 1, count_param := cfg.count_param + 1 }
  | ReadOpt.o => { cfg with pangle_flag := 1, count_param := cfg.count_param + 1 }
  | ReadOpt.T => { cfg with time_disp_flag := 1, count_param := cfg.count_param + 1 }

/-- The option was accepted: the loop goes on with the new variables. -/
def accept (m : MainVars) : Parsed :=
  { out := Outcome.ret m, ev := [] }

/-- The option was refused: a message to standard error and `exit(EXIT_FAILURE)`. -/
def refuse (fmt : String) : Parsed :=
  { out := Outcome.exit EXIT_FAILURE, ev := [Event.eprintf fmt] }

/-- Source: the `switch (c)` of the option loop of `main`. -/
def applyOpt (m : MainVars) : Opt → Parsed
  | Opt.read r => accept { m with cfg := m.cfg.setRead r }
  | Opt.a n =>
    if ¬ (0 < n ∧ n ≤ 247) then refuse "%s: Address must be between 1 and 247.\n"
    else accept { m with cfg := { m.cfg with device_address := n } }
  | Opt.d first n =>
    if first = '0' ∨ first = '1' ∨ first = '2' ∨ first = '3' then
      accept { m with debug_flag := Int.ofNat (n.toNat &&& DEBUG_STDERR), debug_mask := n }
    else refuse "%s: Debug value must be one of 0,1,2,3.\n"
  | Opt.x => accept { m with trace_flag := 1 }
  | Opt.b n =>
    if n = 1200 ∨ n = 2400 ∨ n = 4800 ∨ n = 9600 ∨ n = 19200 then
      accept { m with baud_rate := n }
    else refuse "%s: Baud Rate must be one of 1200, 2400, 4800, 9600, 19200\n"
  | Opt.P arg =>
    if arg = ['E'] then accept { m with parity := 'E' }
    else if arg = ['N'] then accept { m with parity := 'N' }
    else if arg = ['O'] then accept { m with parity := 'O' }
    else refuse "%s: Parity must be one of E, N, O\n"
  | Opt.S n =>
    if n = 1 ∨ n = 2 then accept { m with stop_bits := n }
    else refuse "%s: Stop bits can be one of 1, 2\n"
  | Opt.s n =>
    if ¬ (0 < n ∧ n ≤ 247) then refuse "%s: New address (%d) out of range, 1-247.\n"
    else accept { m with cfg := { m.cfg with new_address := n } }
  | Opt.r n =>
    if n = 1200 then accept { m with cfg := { m.cfg with new_baud_rate := BR1200 } }
    else if n = 2400 then accept { m with cfg := { m.cfg with new_baud_rate := BR2400 } }
    else if n = 4800 then accept { m with cfg := { m.cfg with new_baud_rate := BR4800 } }
    else if n = 9600 then accept { m with cfg := { m.cfg with new_baud_rate := BR9600 } }
    else if n = 19200 then accept { m with cfg := { m.cfg with new_baud_rate := BR19200 } }
    else refuse "%s: Baud Rate must be one of 1200, 2400, 4800, 9600, 19200\n"
  | Opt.N n =>
    if ¬ (0 ≤ n ∧ n ≤ 3) then refuse "%s: New parity/stop (%d) out of range, 0-3.\n"
    else accept { m with cfg := { m.cfg with new_parity_stop := n } }
  | Opt.K n =>
    if ¬ (0 ≤ n ∧ n ≤ 9999) then refuse "%s: Password (%d) out of range, 0-9999.\n"
    else accept { m with cfg := { m.cfg with password_flag := 1, password_value := n } }
  | Opt.Q n =>
    if ¬ (0 ≤ n ∧ n ≤ 9999) then refuse "%s: Current password (%d) out of range, 0-9999.\n"
    else accept { m with cfg := { m.cfg with current_password_set := 1, current_password := n } }
  | Opt.L n =>
    if ¬ (0 ≤ n ∧ n ≤ 60) then refuse "%s: Demand period (%d) out of range, 0-60 minutes.\n"
    else accept { m with cfg := { m.cfg with demand_period_flag := 1, demand_period := n } }
  | Opt.U n =>
    if n < 1 then refuse "%s: Slide time (%d) must be >= 1.\n"
    else accept { m with cfg := { m.cfg with slide_time_flag := 1, slide_time := n } }
  | Opt.R n =>
    if ¬ (0 ≤ n ∧ n ≤ 60) then refuse "%s: Scroll time (%d) out of range, 0-60 seconds.\n"
    else accept { m with cfg := { m.cfg with scroll_time_flag := 1, scroll_time := n } }
  | Opt.G n =>
    if ¬ ((0 ≤ n ∧ n ≤ 120) ∨ n = 255) then
      refuse "%s: Backlit time (%d) out of range, 0-120 or 255.\n"
    else accept { m with cfg := { m.cfg with backlit_time_flag := 1, backlit_time := n } }
  | Opt.H n =>
    if ¬ (n = 0 ∨ n = 8 ∨ n = 9) then
      refuse "%s: Reset type (%d) must be 0 (max demand), 8 (monthly) or 9 (daily).\n"
    else accept { m with cfg := { m.cfg with reset_hist_flag := 1, reset_hist_type := n } }
  | Opt.m => accept { m with cfg := { m.cfg with metern_flag := 1 } }
  | Opt.q => accept { m with cfg := { m.cfg with compact_flag := 1 } }
  | Opt.z n =>
    if ¬ (0 < n ∧ n ≤ MAX_RETRIES) then refuse "%s: num_retries (%d) out of range, 1-%d.\n"
    else accept { m with cfg := { m.cfg with num_retries := n } }
  | Opt.j n =>
    if n < 1 ∨ n > 500 then refuse "%s: -j Response timeout (%lu) out of range, 0-500.\n"
    else accept { m with cfg := { m.cfg with resp_timeout := n } }
  | Opt.y n =>
    if n < 1 ∨ n > 500 then refuse "%s: -y Byte timeout (%lu) out of range, 1-500.\n"
    else accept { m with cfg := { m.cfg with byte_timeout := n } }
  | Opt.w n =>
    if n < 1 ∨ n > 30 then refuse "%s: -w Lock Wait seconds (%d) out of range, 1-30.\n"
    else accept { m with yLockWait := n }
  | Opt.W n => accept { m with cfg := { m.cfg with settle_time := n } }
  | Opt.D n => accept { m with cfg := { m.cfg with command_delay := n } }
  | Opt.unknown printable =>
    { out := Outcome.exit EXIT_FAILURE
      ev := [Event.eprintf (if printable then "%s: Unknown option `-%c'.\n"
              else "%s: Unknown option character `\\x%x'.\n"), Event.usage] }

/-- Source: the `while ((c = getopt(...)) != -1)` loop of `main`, on the options in command
line order. -/
def optionLoop : List Opt → MainVars → Parsed
  | [], m => accept m
  | o :: rest, m =>
    match (applyOpt m o).out with
    | Outcome.ret m1 =>
      { out := (optionLoop rest m1).out, ev := (applyOpt m o).ev ++ (optionLoop rest m1).ev }
    | Outcome.exit st => { out := Outcome.exit st, ev := (applyOpt m o).ev }
    | Outcome.undefined => { out := Outcome.undefined, ev := (applyOpt m o).ev }

/-- The variables of `main` at their initialisers, for the process `PID`. -/
def initialVars (PID : Nat) : MainVars :=
  { cfg := { plainConfig with PID := PID }
    debug_flag := 0, debug_mask := 0, trace_flag := 0, baud_rate := 0, parity := 'N',
    stop_bits := 1, yLockWait := 0 }

/-- Whether an event is the success marker `OK`. -/
def Event.isOK (e : Event) : Bool :=
  e == Event.printf "OK\n"

/-- Whether an event is the failure marker `NOK`. -/
def Event.isNOK (e : Event) : Bool :=
  e == Event.printf "NOK\n"

/-- Whether an event is one of the two markers. -/
def Event.isMarker (e : Event) : Bool :=
  e.isOK || e.isNOK

/-- The read options in the order in which the reading part of `main` looks at their flags. -/
def readOrder : List ReadOpt :=
  [ReadOpt.v, ReadOpt.c, ReadOpt.p, ReadOpt.l, ReadOpt.n, ReadOpt.g, ReadOpt.o, ReadOpt.f,
   ReadOpt.i, ReadOpt.e, ReadOpt.t, ReadOpt.A, ReadOpt.B, ReadOpt.C, ReadOpt.T]

/-- The flag that a read option sets. -/
def Config.readFlag (cfg : Config) : ReadOpt → Int
  | ReadOpt.v => cfg.volt_flag
  | ReadOpt.p => cfg.power_flag
  | ReadOpt.c => cfg.current_flag
  | ReadOpt.e => cfg.export_flag
  | ReadOpt.i => cfg.import_flag
  | ReadOpt.t => cfg.total_flag
  | ReadOpt.A => cfg.rimport_flag
  | ReadOpt.B => cfg.rexport_flag
  | ReadOpt.C => cfg.rtotal_flag
  | ReadOpt.f => cfg.freq_flag
  | ReadOpt.g => cfg.pf_flag
  | ReadOpt.l => cfg.apower_flag
  | ReadOpt.n => cfg.rapower_flag
  | ReadOpt.o => cfg.pangle_flag
  | ReadOpt.T => cfg.time_disp_flag

/-- The register phase reads or writes nothing but what the read options select: no write
option is set. -/
def Config.readsOnly (cfg : Config) : Prop :=
  cfg.new_address ≤ 0 ∧ cfg.new_baud_rate < 0 ∧ cfg.new_parity_stop < 0 ∧
  cfg.password_flag ≤ 0 ∧ cfg.demand_period_flag ≤ 0 ∧ cfg.slide_time_flag ≤ 0 ∧
  cfg.scroll_time_flag ≤ 0 ∧ cfg.backlit_time_flag ≤ 0 ∧ cfg.reset_hist_flag ≤ 0

/-- A transport on which every read call succeeds. -/
def World.readsSucceed (w : World) : Prop :=
  ∀ i, w.reads i ≠ none

/-- The number of markers that a run prints at its end: one, unless `-m` is set. -/
def markerCount (metern_flag : Int) : Nat :=
  if metern_flag = 0 then 1 else 0

/-- The step `r` ended as `out` and printed `ok` success markers and `nok` failure markers. -/
def Tally {α : Type} (r : Res α) (out : Outcome α) (ok nok : Nat) : Prop :=
  r.out = out ∧ r.ev.countP Event.isOK = ok ∧ r.ev.countP Event.isNOK = nok

/-- The list holds no marker. -/
def Unmarked (l : List Event) : Prop :=
  l.countP Event.isOK = 0 ∧ l.countP Event.isNOK = 0

/-- A step of the register phase that either goes on without a marker or ends the process
the way `exit_error` does. -/
def StepM {α : Type} (metern_flag : Int) (r : Res α) : Prop :=
  (∃ a, Tally r (Outcome.ret a) 0 0) ∨
    Tally r (Outcome.exit EXIT_FAILURE) 0 (markerCount metern_flag)

/-- The step ends the process, with a status and marker counts that satisfy `E`. -/
def Ends {α : Type} (E : Nat → Nat → Nat → Prop) (r : Res α) : Prop :=
  ∃ st ok nok, Tally r (Outcome.exit st) ok nok ∧ E st ok nok

/-- How the reading part of `main` ends: with status 0 after the success marker, or with
`EXIT_FAILURE` after the failure marker, each marker being printed unless `-m` is set. -/
def ReadEnd (metern_flag : Int) (st ok nok : Nat) : Prop :=
  (st = 0 ∧ ok = markerCount metern_flag ∧ nok = 0) ∨
    (st = EXIT_FAILURE ∧ ok = 0 ∧ nok = markerCount metern_flag)

/-- How any run of the register phase ends: with status 0 or `EXIT_FAILURE`, with at most the
one marker that goes with the status, and with none when `-m` is set. -/
def AnyEnd (metern_flag : Int) (st ok nok : Nat) : Prop :=
  (st = 0 ∧ ok ≤ markerCount metern_flag ∧ nok = 0) ∨
    (st = EXIT_FAILURE ∧ ok = 0 ∧ nok ≤ markerCount metern_flag)

/-- The variables of `main` after `-s 5`. -/
def addressConfig : Config :=
  { plainConfig with new_address := 5 }

/-- The variables of `main` after `-q -v`. -/
def compactVoltConfig : Config :=
  { plainConfig with compact_flag := 1, volt_flag := 1, count_param := 1 }

/-- A step of a run with a write option: it goes on without a marker and without
`exit_error`, or it ends the process through `exit_error`. -/
def StepW {α : Type} (metern_flag : Int) (r : Res α) : Prop :=
  (∃ a, Tally r (Outcome.ret a) 0 0 ∧ Event.exit_error ∉ r.ev) ∨
    (Tally r (Outcome.exit EXIT_FAILURE) 0 (markerCount metern_flag) ∧ Event.exit_error ∈ r.ev)

/-- How a run with a write option ends.  It never prints `OK`.  Either it ends through
`exit_error`, with `EXIT_FAILURE` and with `NOK` unless `-m` is set, or it does not call
`exit_error`, prints no marker and ends with status 0 or `EXIT_FAILURE`. -/
def WriteEnd {α : Type} (metern_flag : Int) (r : Res α) : Prop :=
  (Tally r (Outcome.exit EXIT_FAILURE) 0 (markerCount metern_flag) ∧ Event.exit_error ∈ r.ev) ∨
    (∃ st, (st = 0 ∨ st = EXIT_FAILURE) ∧ Tally r (Outcome.exit st) 0 0 ∧
      Event.exit_error ∉ r.ev)

/-- The two exclusion checks at the head of the register phase of `main`: a new address
together with a new baud rate, and either of them together with a new parity setting. -/
def Config.writeClash (cfg : Config) : Prop :=
  (cfg.new_address > 0 ∧ cfg.new_baud_rate ≥ 0) ∨
    ((cfg.new_address > 0 ∨ cfg.new_baud_rate ≥ 0) ∧ cfg.new_parity_stop ≥ 0)

/-- A transport on which every write call succeeds. -/
def World.writesSucceed (w : World) : Prop :=
  ∀ i, w.writes i = true

theorem measureLoop_mem (g : Globals) (address nb : Int) :
    ∀ (n : Nat) (w : World) (e : Event), e ∈ (measureLoop g address nb n w).2.2 →
      e = Event.usleep g.command_delay ∨ e = Event.readInput address nb := by
  intro n
  induction n with
  | zero => intro w e he; simp [measureLoop] at he
  | succ k ih =>
    intro w e he
    unfold measureLoop at he
    have hs : ∀ x ∈ sleepDelay g, x = Event.usleep g.command_delay := by
      intro x hx; unfold sleepDelay at hx; split at hx <;> simp at hx; exact hx
    split at he
    · simp only [List.mem_append, List.mem_singleton] at he
      rcases he with ((h | h) | h) | h
      · exact Or.inl (hs e h)
      · exact Or.inr h
      · exact Or.inl (hs e h)
      · exact ih _ e h
    · simp only [List.mem_append, List.mem_singleton] at he
      rcases he with h | h
      · exact Or.inl (hs e h)
      · exact Or.inr h

theorem configLoop_mem (g : Globals) (address nb : Int) :
    ∀ (n : Nat) (w : World) (e : Event), e ∈ (configLoop g address nb n w).2.2 →
      e = Event.usleep g.command_delay ∨ e = Event.readHolding address nb := by
  intro n
  induction n with
  | zero => intro w e he; simp [configLoop] at he
  | succ k ih =>
    intro w e he
    unfold configLoop at he
    have hs : ∀ x ∈ sleepDelay g, x = Event.usleep g.command_delay := by
      intro x hx; unfold sleepDelay at hx; split at hx <;> simp at hx; exact hx
    split at he
    · simp only [List.mem_append, List.mem_singleton] at he
      rcases he with ((h | h) | h) | h
      · exact Or.inl (hs e h)
      · exact Or.inr h
      · exact Or.inl (hs e h)
      · exact ih _ e h
    · simp only [List.mem_append, List.mem_singleton] at he
      rcases he with h | h
      · exact Or.inl (hs e h)
      · exact Or.inr h

theorem clrFiles_mem (PID : Nat) (s : LockState) :
    ∀ e ∈ (clrFiles PID s).2, ∃ f, e = Event.unlink f := by
  intro e he
  unfold clrFiles at he
  cases hf : s.devLCKfile with
  | none => simp [hf] at he
  | some content =>
    simp only [hf] at he
    split_ifs at he <;> simp at he
    · rcases he with h | h <;> exact ⟨_, h⟩
    · exact ⟨_, he⟩
    · exact ⟨_, he⟩

theorem ClrSerLock_mem (PID : Nat) (s : LockState) :
    ∀ e ∈ (ClrSerLock PID s).2, e = Event.ClrSerLock PID ∨ ∃ f, e = Event.unlink f := by
  intro e he
  simp only [ClrSerLock, List.mem_cons] at he
  rcases he with h | h
  · exact Or.inl h
  · exact Or.inr (clrFiles_mem PID _ e h)

theorem closesThenClears_append_left (pid : Nat) (p l : List Event)
    (h : ClosesThenClears pid l) : ClosesThenClears pid (p ++ l) := by
  obtain ⟨pre, post, rfl⟩ := h
  exact ⟨p ++ pre, post, by simp⟩

theorem closesThenClears_append_right (pid : Nat) (l q : List Event)
    (h : ClosesThenClears pid l) : ClosesThenClears pid (l ++ q) := by
  obtain ⟨pre, post, rfl⟩ := h
  exact ⟨pre, post ++ q, by simp⟩

theorem andThen_final {α β : Type} (pid : Nat) (r : Res α) (f : α → World → Res β)
    (hr : Careful pid r) (hf : ∀ a w, Final pid (f a w)) : Final pid (r.andThen f) := by
  unfold Res.andThen
  cases hout : r.out with
  | ret a =>
    exact ⟨(hf a r.w).1, closesThenClears_append_left _ _ _ (hf a r.w).2⟩
  | exit st =>
    rcases hr with ⟨a, ha⟩ | ⟨_, hc⟩
    · rw [hout] at ha; cases ha
    · exact ⟨⟨st, rfl⟩, hc⟩
  | undefined =>
    rcases hr with ⟨a, ha⟩ | ⟨⟨st, hst⟩, _⟩
    · rw [hout] at ha; cases ha
    · rw [hout] at hst; cases hst

theorem andThen_careful {α β : Type} (pid : Nat) (r : Res α) (f : α → World → Res β)
    (hr : Careful pid r) (hf : ∀ a w, Careful pid (f a w)) : Careful pid (r.andThen f) := by
  unfold Res.andThen
  cases hout : r.out with
  | ret a =>
    rcases hf a r.w with ⟨b, hb⟩ | ⟨hst, hc⟩
    · exact Or.inl ⟨b, hb⟩
    · exact Or.inr ⟨hst, closesThenClears_append_left _ _ _ hc⟩
  | exit st =>
    rcases hr with ⟨a, ha⟩ | ⟨_, hc⟩
    · rw [hout] at ha; cases ha
    · exact Or.inr ⟨⟨st, rfl⟩, hc⟩
  | undefined =>
    rcases hr with ⟨a, ha⟩ | ⟨⟨st, hst⟩, _⟩
    · rw [hout] at ha; cases ha
    · rw [hout] at hst; cases hst

theorem emit_careful (pid : Nat) (ev : List Event) (w : World) : Careful pid (emit ev w) :=
  Or.inl ⟨(), rfl⟩

theorem exit_error_final {α : Type} (g : Globals) (w : World) :
    Final g.PID (exit_error g w : Res α) := by
  refine ⟨⟨EXIT_FAILURE, rfl⟩, [Event.exit_error],
    (clrFiles g.PID (releaseModbusExclusiveLock w.lock)).2 ++
      (if g.metern_flag = 0 then [Event.printf "NOK\n"] else []), ?_⟩
  simp [exit_error, ClrSerLock]

theorem closeAndClear_final {α : Type} (cfg : Config) (status : Nat) (w : World) :
    Final cfg.PID (closeAndClear cfg status w : Res α) := by
  refine ⟨⟨status, rfl⟩, [], (clrFiles cfg.PID (releaseModbusExclusiveLock w.lock)).2, ?_⟩
  simp [closeAndClear, ClrSerLock]

theorem getMeasureFloat_careful (g : Globals) (address retries nb : Int) (w : World) :
    Careful g.PID (getMeasureFloat g address retries nb w) := by
  cases hr : (measureLoop g address nb retries.toNat w).1 with
  | none =>
    simp only [getMeasureFloat, hr]
    right
    have h := exit_error_final (α := List Nat) g (measureLoop g address nb retries.toNat w).2.1
    exact ⟨h.1, closesThenClears_append_left _ _ _ h.2⟩
  | some regs =>
    simp only [getMeasureFloat, hr]
    left; exact ⟨_, rfl⟩

theorem getConfigUINT_careful (g : Globals) (address retries nb : Int) (w : World) :
    Careful g.PID (getConfigUINT g address retries nb w) := by
  cases hr : (configLoop g address nb retries.toNat w).1 with
  | none =>
    simp only [getConfigUINT, hr]
    right
    have h := exit_error_final (α := Int) g (configLoop g address nb retries.toNat w).2.1
    exact ⟨h.1, closesThenClears_append_left _ _ _ h.2⟩
  | some regs =>
    simp only [getConfigUINT, hr]
    left; exact ⟨_, rfl⟩

theorem changeConfigUINT_careful (g : Globals) (address value restart : Int) (w : World) :
    Careful g.PID (changeConfigUINT g address value restart w) := by
  cases hw : w.writes 0 with
  | true =>
    simp only [changeConfigUINT, hw, if_true]
    left; exact ⟨_, rfl⟩
  | false =>
    simp only [changeConfigUINT, hw, Bool.false_eq_true, if_false]
    right
    have h := exit_error_final (α := Unit) g w.afterWrite
    exact ⟨h.1, closesThenClears_append_left _ _ _ h.2⟩

theorem enableKPPA_careful (g : Globals) (pw : Int) (w : World) :
    Careful g.PID (enableKPPA g pw w) := by
  cases hw : w.writes 0 with
  | true =>
    simp only [enableKPPA, hw, if_true]
    left; exact ⟨_, rfl⟩
  | false =>
    simp only [enableKPPA, hw, Bool.false_eq_true, if_false]
    left; exact ⟨_, rfl⟩

theorem readMeasures_careful (cfg : Config) :
    ∀ (items : List MeasureItem) (n : Int) (w : World),
      Careful cfg.PID (readMeasures cfg items n w) := by
  intro items
  induction items with
  | nil => intro n w; left; exact ⟨_, rfl⟩
  | cons it rest ih =>
    intro n w
    by_cases hflag : it.flag = 1
    · simp only [readMeasures, hflag, if_true]
      exact andThen_careful _ _ _ (getMeasureFloat_careful cfg.globals _ _ _ w)
        (fun _ w1 => andThen_careful _ _ _ (emit_careful _ _ w1) (fun _ w2 => ih _ w2))
    · simp only [readMeasures, hflag, if_false]
      exact ih n w

theorem readTimeDisp_careful (cfg : Config) (n : Int) (w : World) :
    Careful cfg.PID (readTimeDisp cfg n w) := by
  by_cases hflag : cfg.time_disp_flag = 1
  · simp only [readTimeDisp, hflag, if_true]
    exact andThen_careful _ _ _ (getConfigUINT_careful cfg.globals _ _ _ w)
      (fun _ w1 => Or.inl ⟨_, rfl⟩)
  · simp only [readTimeDisp, hflag, if_false]
    exact Or.inl ⟨_, rfl⟩

theorem finish_final (cfg : Config) (n : Int) (w : World) :
    Final cfg.PID (finish cfg n w) := by
  by_cases h : n = cfg.count_param
  · simp only [finish, h, if_true]
    have hc := closeAndClear_final (α := Unit) cfg 0 w
    exact ⟨hc.1, closesThenClears_append_right _ _ _ hc.2⟩
  · simp only [finish, h, if_false]
    exact exit_error_final cfg.globals w

theorem withDefaultReads_PID (cfg : Config) : cfg.withDefaultReads.PID = cfg.PID := by
  unfold Config.withDefaultReads
  cases cfg.noReadFlag <;> rfl

theorem readPhase_final (cfg : Config) (w : World) : Final cfg.PID (readPhase cfg w) := by
  unfold readPhase
  rw [← withDefaultReads_PID]
  exact andThen_final _ _ _ (readMeasures_careful _ _ _ w)
    (fun n w1 => andThen_final _ _ _ (readTimeDisp_careful _ n w1)
      (fun n2 w2 => finish_final _ n2 w2))

theorem writeBranch_final (cfg : Config) (address value restart : Int) (w : World) :
    Final cfg.PID (writeBranch cfg address value restart w) := by
  by_cases h : cfg.count_param > 0
  · simp only [writeBranch, h, if_true]
    exact andThen_final _ _ _ (emit_careful _ _ w) (fun _ w1 => closeAndClear_final cfg _ w1)
  · simp only [writeBranch, h, if_false]
    exact andThen_final _ _ _ (changeConfigUINT_careful cfg.globals _ _ _ w)
      (fun _ w1 => closeAndClear_final cfg _ w1)

theorem protectedBranch_final (cfg : Config) (address value : Int) (missing failed : List Event)
    (enabling enabled : Event) (done : List Event) (w : World) :
    Final cfg.PID
      (protectedBranch cfg address value missing failed enabling enabled done w) := by
  by_cases h : cfg.count_param > 0
  · simp only [protectedBranch, h, if_true]
    exact andThen_final _ _ _ (emit_careful _ _ w) (fun _ w1 => closeAndClear_final cfg _ w1)
  · by_cases h2 : cfg.current_password_set = 0
    · simp only [protectedBranch, h, h2, if_true, if_false]
      exact andThen_final _ _ _ (emit_careful _ _ w) (fun _ w1 => closeAndClear_final cfg _ w1)
    · simp only [protectedBranch, h, h2, if_false]
      refine andThen_final _ _ _ (emit_careful _ _ w) (fun _ w1 => ?_)
      refine andThen_final _ _ _ (enableKPPA_careful cfg.globals _ w1) (fun rc w2 => ?_)
      by_cases h3 : rc = -1
      · simp only [h3, if_true]
        exact andThen_final _ _ _ (emit_careful _ _ w2)
          (fun _ w3 => closeAndClear_final cfg _ w3)
      · simp only [h3, if_false]
        refine andThen_final _ _ _ (emit_careful _ _ w2) (fun _ w3 => ?_)
        refine andThen_final _ _ _ (changeConfigUINT_careful cfg.globals _ _ _ w3)
          (fun _ w4 => ?_)
        exact andThen_final _ _ _ (emit_careful _ _ w4)
          (fun _ w5 => closeAndClear_final cfg _ w5)

theorem registerPhase_final (cfg : Config) (w : World) :
    Final cfg.PID (registerPhase cfg w) := by
  unfold registerPhase
  have he : Final cfg.PID
      ((emit [Event.usage] w).andThen fun _ w1 => (exit_error cfg.globals w1 : Res Unit)) :=
    andThen_final _ _ _ (emit_careful _ _ w) (fun _ w1 => exit_error_final cfg.globals w1)
  by_cases h1 : cfg.new_address > 0 ∧ cfg.new_baud_rate ≥ 0
  · rw [if_pos h1]; exact he
  rw [if_neg h1]
  by_cases h2 : (cfg.new_address > 0 ∨ cfg.new_baud_rate ≥ 0) ∧ cfg.new_parity_stop ≥ 0
  · rw [if_pos h2]; exact he
  rw [if_neg h2]
  by_cases h3 : cfg.new_address > 0
  · rw [if_pos h3]; exact writeBranch_final cfg _ _ _ w
  rw [if_neg h3]
  by_cases h4 : cfg.new_baud_rate ≥ 0
  · rw [if_pos h4]; exact writeBranch_final cfg _ _ _ w
  rw [if_neg h4]
  by_cases h5 : cfg.new_parity_stop ≥ 0
  · rw [if_pos h5]; exact writeBranch_final cfg _ _ _ w
  rw [if_neg h5]
  by_cases h6 : cfg.password_flag > 0
  · rw [if_pos h6]; exact protectedBranch_final cfg _ _ _ _ _ _ _ w
  rw [if_neg h6]
  by_cases h7 : cfg.demand_period_flag > 0
  · rw [if_pos h7]; exact writeBranch_final cfg _ _ _ w
  rw [if_neg h7]
  by_cases h8 : cfg.slide_time_flag > 0
  · rw [if_pos h8]; exact writeBranch_final cfg _ _ _ w
  rw [if_neg h8]
  by_cases h9 : cfg.scroll_time_flag > 0
  · rw [if_pos h9]; exact writeBranch_final cfg _ _ _ w
  rw [if_neg h9]
  by_cases h10 : cfg.backlit_time_flag > 0
  · rw [if_pos h10]; exact writeBranch_final cfg _ _ _ w
  rw [if_neg h10]
  by_cases h11 : cfg.reset_hist_flag > 0
  · rw [if_pos h11]; exact protectedBranch_final cfg _ _ _ _ _ _ _ w
  rw [if_neg h11]
  exact readPhase_final cfg w

theorem setupEvents_no_close (cfg : Config) : Event.modbus_close ∉ setupEvents cfg := by
  intro h
  unfold setupEvents at h
  simp only [List.mem_cons, List.mem_append, List.mem_singleton, List.not_mem_nil,
    or_false] at h
  rcases h with ((h | h) | h) | h
  · split at h <;> cases h
  · cases h
  · split at h
    · simp at h
    · simp at h
  · cases h

theorem ClrSerLock_no_close (pid : Nat) (s : LockState) :
    Event.modbus_close ∉ (ClrSerLock pid s).2 := by
  intro h
  rcases ClrSerLock_mem pid s _ h with h | ⟨f, h⟩ <;> cases h

theorem ClrSerLock_head (pid : Nat) (s : LockState) :
    (ClrSerLock pid s).2 = Event.ClrSerLock pid :: (clrFiles pid (releaseModbusExclusiveLock s)).2 :=
  rfl

/-- C2: every way in which `main` ends once `lockSer` has returned calls `ClrSerLock(PID)`
before the process ends, and when the connection was opened (`modbus_new_rtu` and
`modbus_connect` succeeded) `modbus_close` and `modbus_free` come directly before that call. -/
theorem c2_release_on_every_exit (cfg : Config) (ctxOk connectOk : Bool) (w : World) :
    (∃ st, (mainAfterLock cfg ctxOk connectOk w).out = Outcome.exit st) ∧
    (∃ pre post,
      (mainAfterLock cfg ctxOk connectOk w).ev = pre ++ Event.ClrSerLock cfg.PID :: post) ∧
    (ctxOk = true → connectOk = true →
      ClosesThenClears cfg.PID (mainAfterLock cfg ctxOk connectOk w).ev) ∧
    (ctxOk = false ∨ connectOk = false →
      Event.modbus_close ∉ (mainAfterLock cfg ctxOk connectOk w).ev) := by
  cases ctxOk with
  | false =>
    have hev : (mainAfterLock cfg false connectOk w).ev =
        [Event.modbus_new_rtu] ++ (ClrSerLock cfg.PID w.lock).2 := by
      simp [mainAfterLock]
    refine ⟨⟨EXIT_FAILURE, rfl⟩, ⟨[Event.modbus_new_rtu],
      (clrFiles cfg.PID (releaseModbusExclusiveLock w.lock)).2, ?_⟩, ?_, ?_⟩
    · rw [hev, ClrSerLock_head]
    · intro h; cases h
    · intro _ hmem
      rw [hev] at hmem
      simp only [List.mem_append, List.mem_singleton] at hmem
      rcases hmem with h | h
      · cases h
      · exact ClrSerLock_no_close _ _ h
  | true =>
    cases connectOk with
    | false =>
      have hev : (mainAfterLock cfg true false w).ev =
          [Event.modbus_new_rtu] ++ setupEvents cfg ++ [Event.modbus_free] ++
            (ClrSerLock cfg.PID w.lock).2 := by
        simp [mainAfterLock]
      refine ⟨⟨EXIT_FAILURE, rfl⟩,
        ⟨[Event.modbus_new_rtu] ++ setupEvents cfg ++ [Event.modbus_free],
          (clrFiles cfg.PID (releaseModbusExclusiveLock w.lock)).2, ?_⟩, ?_, ?_⟩
      · rw [hev, ClrSerLock_head]
      · intro _ h; cases h
      · intro _ hmem
        rw [hev] at hmem
        simp only [List.mem_append, List.mem_singleton] at hmem
        rcases hmem with ((h | h) | h) | h
        · cases h
        · exact setupEvents_no_close cfg h
        · cases h
        · exact ClrSerLock_no_close _ _ h
    | true =>
      have hfin : Final cfg.PID (mainAfterLock cfg true true w) := by
        simp only [mainAfterLock, Bool.not_true]
        exact andThen_final _ _ _ (emit_careful _ _ w) (fun _ w1 => registerPhase_final cfg w1)
      refine ⟨hfin.1, ?_, fun _ _ => hfin.2, ?_⟩
      · obtain ⟨pre, post, h⟩ := hfin.2
        exact ⟨pre ++ [Event.modbus_close, Event.modbus_free], post, by simp [h]⟩
      · intro h; rcases h with h | h <;> cases h

/-- C2, for `-v` on a transport that always fails: the session ends through `exit_error`
with status `EXIT_FAILURE`, after `modbus_close`, `modbus_free` and `ClrSerLock(100)`. -/
theorem c2_release_on_every_exit_witness :
    (mainAfterLock { plainConfig with volt_flag := 1, count_param := 1 } true true deadBus).out =
      Outcome.exit EXIT_FAILURE ∧
    ClosesThenClears 100
      (mainAfterLock { plainConfig with volt_flag := 1, count_param := 1 } true true deadBus).ev :=
  ⟨by decide,
    (c2_release_on_every_exit { plainConfig with volt_flag := 1, count_param := 1 } true true
      deadBus).2.2.1 rfl rfl⟩

/-! ## The record parser and ClrSerLock -/

theorem scanCommand_LckPID (rest : List Char) (pid err : Nat) :
    (scanCommand rest pid err).LckPID = pid := by
  unfold scanCommand
  cases rest with
  | nil => rfl
  | cons c cs =>
    dsimp only
    split
    · split <;> rfl
    · rfl

theorem scanCommand_bRead (rest : List Char) (pid err : Nat) :
    (scanCommand rest pid err).bRead ≠ EOF := by
  unfold scanCommand
  cases rest with
  | nil => simp [EOF]
  | cons c cs =>
    dsimp only
    split_ifs <;> simp [EOF]

theorem fscanfRecord_bRead_of_LckPID (content : List Char)
    (h : (fscanfRecord content).LckPID ≠ 0) : (fscanfRecord content).bRead ≠ EOF := by
  unfold fscanfRecord at h ⊢
  cases hd : content.dropWhile isspace with
  | nil => simp [hd] at h
  | cons c cs =>
    simp only [hd] at h ⊢
    split_ifs at h ⊢ <;> first | exact scanCommand_bRead _ _ _ | simp at h

theorem release_files (s : LockState) :
    (releaseModbusExclusiveLock s).devLCKfile = s.devLCKfile ∧
    (releaseModbusExclusiveLock s).devLCKfileNew = s.devLCKfileNew ∧
    (releaseModbusExclusiveLock s).fdModbusExclusiveLock = false := by
  unfold releaseModbusExclusiveLock
  cases h : s.fdModbusExclusiveLock <;> simp [h]

/-- The three ways `clrFiles` can go. -/
theorem clrFiles_cases (PID : Nat) (s : LockState) :
    (s.devLCKfile = none ∧ clrFiles PID s = (s, [])) ∨
    (∃ c, s.devLCKfile = some c ∧ (fscanfRecord c).bRead ≠ EOF ∧ (fscanfRecord c).LckPID > 0 ∧
      (fscanfRecord c).LckPID ≠ PID ∧ clrFiles PID s = (s, [])) ∨
    (∃ c, s.devLCKfile = some c ∧ (fscanfRecord c).LckPID = PID ∧
      clrFiles PID s = (⟨none, none, s.fdModbusExclusiveLock⟩,
        (if s.devLCKfileNew.isSome then [Event.unlink LockFile.devLCKfileNew] else []) ++
          [Event.unlink LockFile.devLCKfile])) ∨
    (∃ c, s.devLCKfile = some c ∧ (fscanfRecord c).LckPID ≠ PID ∧
      ((fscanfRecord c).bRead = EOF ∨ (fscanfRecord c).LckPID = 0) ∧
      clrFiles PID s = (⟨some c, none, s.fdModbusExclusiveLock⟩,
        if s.devLCKfileNew.isSome then [Event.unlink LockFile.devLCKfileNew] else [])) := by
  cases hf : s.devLCKfile with
  | none => left; exact ⟨rfl, by simp [clrFiles, hf]⟩
  | some c =>
    right
    by_cases hg : (fscanfRecord c).bRead ≠ EOF ∧ (fscanfRecord c).LckPID > 0 ∧
        (fscanfRecord c).LckPID ≠ PID
    · left
      refine ⟨c, rfl, hg.1, hg.2.1, hg.2.2, ?_⟩
      simp only [clrFiles, hf]
      rw [if_pos hg]
    · right
      by_cases hp : PID = (fscanfRecord c).LckPID
      · left
        refine ⟨c, rfl, hp.symm, ?_⟩
        simp only [clrFiles, hf]
        rw [if_neg hg, if_pos hp]
      · right
        refine ⟨c, rfl, fun h => hp h.symm, ?_, ?_⟩
        · by_contra hc
          push_neg at hc
          exact hg ⟨hc.1, Nat.pos_of_ne_zero hc.2, fun h => hp h.symm⟩
        · simp only [clrFiles, hf]
          rw [if_neg hg, if_neg hp]

/-- C10, as stated, fails: the record names pid 200, the caller is pid 100 and its temporary
file exists; `ClrSerLock(100)` returns with the temporary file still there and unlinks
nothing.  The record is read inside its buffer; the record of the same pid behind a newline
is not. -/
theorem c10_counterexample :
    (fscanfRecord "200 sdm120c\n".toList).LckPID = 200 ∧
    (ClrSerLock 100 ⟨some "200 sdm120c\n".toList, some "100\n".toList, false⟩).1.devLCKfileNew
      = some "100\n".toList ∧
    (ClrSerLock 100 ⟨some "200 sdm120c\n".toList, some "100\n".toList, false⟩).2
      = [Event.ClrSerLock 100] ∧
    readRecord "200 sdm120c\n".toList = Outcome.ret ⟨2, 200, "sdm120c".toList, 0⟩ ∧
    readRecord "\n200 sdm120c\n".toList = Outcome.undefined := by
  decide

/-- When the record parses to a non-zero pid other than `PID`, `ClrSerLock(PID)`
closes the exclusive handle and returns without unlinking anything: the record of the other
process and the temporary file of the caller are both as they were. -/
theorem ClrSerLock_foreign (PID : Nat) (s : LockState) (c : List Char)
    (hc : s.devLCKfile = some c) (h0 : (fscanfRecord c).LckPID ≠ 0)
    (hne : (fscanfRecord c).LckPID ≠ PID) :
    (ClrSerLock PID s).1 = { s with fdModbusExclusiveLock := false } ∧
    (ClrSerLock PID s).2 = [Event.ClrSerLock PID] := by
  have hf := release_files s
  have hc' : (releaseModbusExclusiveLock s).devLCKfile = some c := by rw [hf.1]; exact hc
  have hg : (fscanfRecord c).bRead ≠ EOF ∧ (fscanfRecord c).LckPID > 0 ∧
      (fscanfRecord c).LckPID ≠ PID :=
    ⟨fscanfRecord_bRead_of_LckPID c h0, Nat.pos_of_ne_zero h0, hne⟩
  have hclr : clrFiles PID (releaseModbusExclusiveLock s) = (releaseModbusExclusiveLock s, []) := by
    simp only [clrFiles, hc']
    rw [if_pos hg]
  have hrel : releaseModbusExclusiveLock s = { s with fdModbusExclusiveLock := false } := by
    unfold releaseModbusExclusiveLock
    cases h : s.fdModbusExclusiveLock
    · cases s; simp_all
    · simp
  simp only [ClrSerLock]
  rw [hclr]
  exact ⟨hrel, rfl⟩

/-! ## Decimal text of the pid -/

theorem digitChar_isdigit (m : Nat) (h : m < 10) :
    isdigit (Nat.digitChar m) = true ∧ (Nat.digitChar m).toNat - 48 = m := by
  interval_cases m <;> decide

theorem digitsValue_append (xs ys : List Char) (acc : Nat) :
    digitsValue (xs ++ ys) acc = digitsValue ys (digitsValue xs acc) := by
  induction xs generalizing acc with
  | nil => rfl
  | cons x xs ih => simp only [List.cons_append, digitsValue]; exact ih _

/-- What `Nat.toDigitsCore 10` puts in front of its accumulator: a non-empty run of decimal
digits whose value is `n`. -/
theorem toDigitsCore_spec :
    ∀ (fuel n : Nat) (ds : List Char), n < fuel →
      ∃ xs, Nat.toDigitsCore 10 fuel n ds = xs ++ ds ∧ xs ≠ [] ∧
        (∀ c ∈ xs, isdigit c = true) ∧
        (∀ acc, digitsValue xs acc = acc * 10 ^ xs.length + n) := by
  intro fuel
  induction fuel with
  | zero => intro n ds h; omega
  | succ f ih =>
    intro n ds h
    have hd := digitChar_isdigit (n % 10) (Nat.mod_lt _ (by decide))
    by_cases h0 : n / 10 = 0
    · refine ⟨[Nat.digitChar (n % 10)], ?_, by simp, ?_, ?_⟩
      · simp [Nat.toDigitsCore, h0]
      · intro c hc
        simp only [List.mem_singleton] at hc
        rw [hc]; exact hd.1
      · intro acc
        simp only [digitsValue, hd.2, List.length_singleton, pow_one]
        have : n % 10 = n := Nat.mod_eq_of_lt (by omega)
        omega
    · have hlt : n / 10 < f := by omega
      obtain ⟨xs, hxs, _, hdig, hval⟩ := ih (n / 10) (Nat.digitChar (n % 10) :: ds) hlt
      refine ⟨xs ++ [Nat.digitChar (n % 10)], ?_, by simp, ?_, ?_⟩
      · simp [Nat.toDigitsCore, h0, hxs]
      · intro c hc
        simp only [List.mem_append, List.mem_singleton] at hc
        rcases hc with hc | hc
        · exact hdig c hc
        · rw [hc]; exact hd.1
      · intro acc
        rw [digitsValue_append, hval]
        simp only [digitsValue, hd.2, List.length_append, List.length_singleton, pow_succ]
        have := Nat.div_add_mod n 10
        nlinarith [Nat.div_add_mod n 10]

theorem printLu_spec (n : Nat) :
    printLu n ≠ [] ∧ (∀ c ∈ printLu n, isdigit c = true) ∧ digitsValue (printLu n) 0 = n := by
  obtain ⟨xs, hxs, hne, hdig, hval⟩ := toDigitsCore_spec (n + 1) n [] (Nat.lt_succ_self n)
  have : printLu n = xs := by simp [printLu, Nat.toDigits, hxs]
  rw [this]
  exact ⟨hne, hdig, by simpa using hval 0⟩

theorem takeWhile_append_stop (p : Char → Bool) (xs : List Char) (y : Char) (ys : List Char)
    (hx : ∀ c ∈ xs, p c = true) (hy : p y = false) :
    (xs ++ y :: ys).takeWhile p = xs ∧ (xs ++ y :: ys).dropWhile p = y :: ys := by
  induction xs with
  | nil => simp [List.takeWhile, List.dropWhile, hy]
  | cons x xs ih =>
    have hxp : p x = true := hx x (by simp)
    have := ih (fun c hc => hx c (by simp [hc]))
    simp [List.takeWhile, List.dropWhile, hxp, this.1, this.2]

theorem isdigit_facts (c : Char) (h : isdigit c = true) :
    isspace c = false ∧ (c.toNat == 45) = false ∧ (c.toNat == 43) = false := by
  simp only [isdigit, Bool.and_eq_true, decide_eq_true_eq] at h
  simp only [isspace, Bool.or_eq_false_iff, Bool.and_eq_false_iff, beq_eq_false_iff_ne,
    decide_eq_false_iff_not]
  refine ⟨⟨by omega, by omega⟩, by omega, by omega⟩

theorem recordTail_head (COMMAND : Option (List Char)) :
    ∃ y ys, recordTail COMMAND = y :: ys ∧ isdigit y = false := by
  unfold recordTail
  cases COMMAND with
  | none => exact ⟨chNewline, [], rfl, by decide⟩
  | some c =>
    by_cases h : c.length > 0
    · exact ⟨chSpace, c ++ [chNewline], by simp [h], by decide⟩
    · exact ⟨chNewline, [], by simp [h], by decide⟩

theorem recordText_eq (PID : Nat) (COMMAND : Option (List Char)) :
    recordText PID COMMAND = printLu PID ++ recordTail COMMAND := by
  rfl

/-- Parsing the text written for `(PID, COMMAND)` converts the pid and goes on to the command
directives with what follows it. -/
theorem fscanfRecord_recordText (PID : Nat) (COMMAND : Option (List Char))
    (hmax : PID ≤ ULONG_MAX) :
    fscanfRecord (recordText PID COMMAND) = scanCommand (recordTail COMMAND) PID 0 := by
  obtain ⟨hne, hdig, hval⟩ := printLu_spec PID
  obtain ⟨y, ys, hy, hyd⟩ := recordTail_head COMMAND
  rw [recordText_eq, hy]
  have hsplit := takeWhile_append_stop isdigit (printLu PID) y ys hdig hyd
  cases hp : printLu PID with
  | nil => exact absurd hp hne
  | cons x xs =>
    rw [hp] at hsplit hdig hval
    have hx := isdigit_facts x (hdig x (by simp))
    have hdrop : (x :: xs ++ y :: ys).dropWhile isspace = x :: (xs ++ y :: ys) := by
      simp [List.dropWhile, hx.1]
    have hbody : (x :: (xs ++ y :: ys)) = (x :: xs ++ y :: ys) := rfl
    unfold fscanfRecord
    rw [hdrop]
    simp only [hx.2.1, hx.2.2, Bool.or_self, Bool.false_eq_true, if_false, hbody, hsplit.1,
      hsplit.2, List.isEmpty_cons, hval]
    rw [if_neg (Nat.not_lt.mpr hmax)]

theorem lockLoop_succ (env : LockEnv) (COMMAND : Option (List Char)) (k : Nat) (v : LoopVars)
    (now : Int) (s : LockState) (h : v.LckPID ≠ env.PID ∧ now ≤ env.yLockWait * 1000000) :
    lockLoop env COMMAND (k + 1) v now s =
      match (lockIter env COMMAND { v with totalLockAttempts := v.totalLockAttempts + 1 } s).out with
      | Outcome.ret v2 =>
        { out := (lockLoop env COMMAND k v2 (env.clock (v.totalLockAttempts + 1))
            (lockIter env COMMAND { v with totalLockAttempts := v.totalLockAttempts + 1 } s).lock).out,
          lock := (lockLoop env COMMAND k v2 (env.clock (v.totalLockAttempts + 1))
            (lockIter env COMMAND { v with totalLockAttempts := v.totalLockAttempts + 1 } s).lock).lock,
          ev := (lockIter env COMMAND { v with totalLockAttempts := v.totalLockAttempts + 1 } s).ev ++
            (lockLoop env COMMAND k v2 (env.clock (v.totalLockAttempts + 1))
              (lockIter env COMMAND { v with totalLockAttempts := v.totalLockAttempts + 1 } s).lock).ev }
      | Outcome.exit c =>
        { out := Outcome.exit c,
          lock := (lockIter env COMMAND { v with totalLockAttempts := v.totalLockAttempts + 1 } s).lock,
          ev := (lockIter env COMMAND { v with totalLockAttempts := v.totalLockAttempts + 1 } s).ev }
      | Outcome.undefined =>
        { out := Outcome.undefined,
          lock := (lockIter env COMMAND { v with totalLockAttempts := v.totalLockAttempts + 1 } s).lock,
          ev := (lockIter env COMMAND { v with totalLockAttempts := v.totalLockAttempts + 1 } s).ev } := by
  rw [lockLoop, if_pos h]

theorem lockLoop_done (env : LockEnv) (COMMAND : Option (List Char)) (k : Nat) (v : LoopVars)
    (now : Int) (s : LockState) (h : ¬(v.LckPID ≠ env.PID ∧ now ≤ env.yLockWait * 1000000)) :
    lockLoop env COMMAND k v now s = { out := Outcome.ret v, lock := s, ev := [] } := by
  cases k with
  | zero => rw [lockLoop, if_neg h]
  | succ k => rw [lockLoop, if_neg h]

/-- C6, as stated, fails: the record names a live compatible peer; the loop ends as acquired;
the peer then removes its record; the upgrade cannot open the file and `lockSer` returns to its
caller with `fdModbusExclusiveLock` NULL. -/
theorem c6_counterexample :
    (lockSer peerLeavesEnv peerStart).out = Outcome.ret () ∧
    (lockSer peerLeavesEnv peerStart).lock.fdModbusExclusiveLock = false := by
  decide

theorem upgrade_spec (env : LockEnv) (s : LockState) :
    ((upgrade env s).out = Outcome.exit 2 ∨
      ((upgrade env s).out = Outcome.ret () ∧
        (((upgrade env s).lock.fdModbusExclusiveLock = true ∧
            (upgrade env s).lock.devLCKfile ≠ none) ∨
          ((upgrade env s).lock.fdModbusExclusiveLock = false ∧
            (upgrade env s).lock.devLCKfile = none)))) := by
  cases hf : (env.disturb 0 s).devLCKfile with
  | none => right; simp [upgrade, hf]
  | some c =>
    cases hx : env.flockExFails with
    | true => left; simp [upgrade, hf, hx]
    | false => right; simp [upgrade, hf, hx]

/-- C6, amended: when `lockSer` returns to its caller, either the exclusive handle is open and
locked and the record file exists, or the record file could not be opened for the upgrade and
`fdModbusExclusiveLock` is NULL. -/
theorem c6_handle_after_return (env : LockEnv) (s : LockState)
    (hret : (lockSer env s).out = Outcome.ret ()) :
    ((lockSer env s).lock.fdModbusExclusiveLock = true ∧
      (lockSer env s).lock.devLCKfile ≠ none) ∨
    ((lockSer env s).lock.fdModbusExclusiveLock = false ∧
      (lockSer env s).lock.devLCKfile = none) := by
  unfold lockSer at hret ⊢
  cases ha : (AddSerLock env.PID (env.getPIDcmd 0 env.PID) (env.linkFails 0) s).out with
  | exit c => simp [ha] at hret
  | undefined => simp [ha] at hret
  | ret u =>
    simp only [ha] at hret ⊢
    cases hl : (lockLoop env (env.getPIDcmd 0 env.PID) maxLockAttempts ⟨0, 0, 0, 0, 0⟩ 0
        (AddSerLock env.PID (env.getPIDcmd 0 env.PID) (env.linkFails 0) s).lock).out with
    | exit c => simp [hl] at hret
    | undefined => simp [hl] at hret
    | ret v =>
      simp only [hl] at hret ⊢
      by_cases hv : v.LckPID ≠ env.PID
      · simp [hv] at hret
      · simp only [hv, if_false] at hret ⊢
        rcases upgrade_spec env (lockLoop env (env.getPIDcmd 0 env.PID) maxLockAttempts
            ⟨0, 0, 0, 0, 0⟩ 0
            (AddSerLock env.PID (env.getPIDcmd 0 env.PID) (env.linkFails 0) s).lock).lock with
          h | ⟨_, h⟩
        · rw [h] at hret; cases hret
        · exact h

/-- C6 amended, in the quiet environment with no record beforehand: `lockSer` returns with the
handle open. -/
theorem c6_handle_after_return_witness :
    (lockSer (quietEnv 5 peerTable) ⟨none, none, false⟩).out = Outcome.ret () ∧
    (((lockSer (quietEnv 5 peerTable) ⟨none, none, false⟩).lock.fdModbusExclusiveLock = true ∧
        (lockSer (quietEnv 5 peerTable) ⟨none, none, false⟩).lock.devLCKfile ≠ none) ∨
      ((lockSer (quietEnv 5 peerTable) ⟨none, none, false⟩).lock.fdModbusExclusiveLock = false ∧
        (lockSer (quietEnv 5 peerTable) ⟨none, none, false⟩).lock.devLCKfile = none)) :=
  ⟨by decide, c6_handle_after_return (quietEnv 5 peerTable) ⟨none, none, false⟩ (by decide)⟩

/-- C7, as stated, fails: the only polling iteration parses pid 200, not the caller's pid
100, and `lockSer` goes on to the exclusive upgrade. -/
theorem c7_counterexample :
    (lockSer (quietEnv 5 peerTable) peerStart).ev =
      [Event.AddSerLock 100, Event.unlink LockFile.devLCKfileNew,
       Event.fscanf 2 200 "tac1100".toList, Event.getPIDcmd 200 (some "tac1100".toList),
       Event.upgradeOpen] := by
  decide

theorem pollSleep_events (env : LockEnv) (v : LoopVars) :
    ∀ e ∈ pollSleep env v, Event.isPolling e = true ∧ Event.isParse e = false := by
  intro e he
  unfold pollSleep at he
  split at he
  · simp only [List.mem_singleton] at he; subst he; exact ⟨rfl, rfl⟩
  · simp at he

theorem ClrSerLock_events (pid : Nat) (s : LockState) :
    ∀ e ∈ (ClrSerLock pid s).2, Event.isPolling e = true ∧ Event.isParse e = false := by
  intro e he
  rcases ClrSerLock_mem pid s e he with h | ⟨f, h⟩ <;> subst h <;> exact ⟨rfl, rfl⟩

theorem AddSerLock_events (pid : Nat) (cmd : Option (List Char)) (lf : Bool) (s : LockState) :
    ∀ e ∈ (AddSerLock pid cmd lf s).ev, Event.isPolling e = true ∧ Event.isParse e = false := by
  intro e he
  unfold AddSerLock at he
  cases hn : s.devLCKfileNew with
  | some t =>
    simp only [hn, List.mem_cons, List.mem_singleton, List.not_mem_nil, or_false] at he
    rcases he with h | h | h | h <;> subst h <;> exact ⟨rfl, rfl⟩
  | none =>
    simp only [hn] at he
    cases lf with
    | true =>
      simp only [if_true, List.mem_singleton] at he
      subst he; exact ⟨rfl, rfl⟩
    | false =>
      simp only [Bool.false_eq_true, if_false] at he
      cases hr : s.devLCKfile with
      | some t =>
        simp only [hr, List.mem_cons, List.mem_singleton, List.not_mem_nil, or_false] at he
        rcases he with h | h <;> subst h <;> exact ⟨rfl, rfl⟩
      | none =>
        simp only [hr, List.mem_cons, List.mem_singleton, List.not_mem_nil, or_false] at he
        rcases he with h | h | h <;> subst h <;> exact ⟨rfl, rfl⟩

/-- The events of `holderCheck`: the call of `getPIDcmd`, then only actions that are no parse. -/
theorem holderCheck_events (env : LockEnv) (v : LoopVars) (pid : Nat) (cmd : List Char)
    (s : LockState) :
    ∃ tail, (holderCheck env v pid cmd s).ev =
        Event.getPIDcmd pid (env.getPIDcmd v.totalLockAttempts pid) :: tail ∧
      ∀ e ∈ tail, Event.isPolling e = true ∧ Event.isParse e = false := by
  unfold holderCheck
  cases hst : staleTest env.PID pid cmd (env.getPIDcmd v.totalLockAttempts pid) with
  | none => exact ⟨[], by simp [hst], by simp⟩
  | some b =>
    cases b with
    | true =>
      simp only [hst]
      split_ifs
      · exact ⟨_, rfl, pollSleep_events env _⟩
      · refine ⟨_, rfl, ?_⟩
        intro e he
        rcases List.mem_append.mp he with h | h
        · exact ClrSerLock_events _ _ e h
        · exact pollSleep_events env _ e h
      · exact ⟨_, rfl, pollSleep_events env _⟩
    | false =>
      simp only [hst]
      exact ⟨_, rfl, pollSleep_events env _⟩

/-- When `holderCheck` leaves `LckPID == PID`, the pid read was `PID`, or the holder was found
alive, not stale, and compatible. -/
theorem holderCheck_acquired (env : LockEnv) (v v2 : LoopVars) (pid : Nat) (cmd : List Char)
    (s : LockState) (hout : (holderCheck env v pid cmd s).out = Outcome.ret v2)
    (hv : v2.LckPID = env.PID) :
    pid = env.PID ∨ ∃ live, env.getPIDcmd v.totalLockAttempts pid = some live ∧
      staleTest env.PID pid cmd (some live) = some false ∧ isCompatible live = true := by
  by_cases hp : pid = env.PID
  · exact Or.inl hp
  right
  unfold holderCheck at hout
  cases hst : staleTest env.PID pid cmd (env.getPIDcmd v.totalLockAttempts pid) with
  | none => simp [hst] at hout
  | some b =>
    cases b with
    | true =>
      simp only [hst] at hout
      split_ifs at hout <;>
        · simp only [Outcome.ret.injEq] at hout
          rw [← hout] at hv
          exact absurd hv hp
    | false =>
      simp only [hst] at hout
      cases hl : env.getPIDcmd v.totalLockAttempts pid with
      | none =>
        simp only [hl, Outcome.ret.injEq] at hout
        rw [← hout] at hv
        exact absurd hv hp
      | some live =>
        rw [hl] at hst
        simp only [hl, Outcome.ret.injEq] at hout
        by_cases hc : env.PID ≠ pid ∧ isCompatible live = true
        · exact ⟨live, rfl, hst, hc.2⟩
        · rw [if_neg hc] at hout
          rw [← hout] at hv
          exact absurd hv hp

theorem busy_events (n : Nat) :
    ∀ e ∈ List.replicate n (Event.rnd_usleep 25000),
      Event.isPolling e = true ∧ Event.isParse e = false := by
  intro e he
  rw [List.eq_of_mem_replicate he]
  exact ⟨rfl, rfl⟩

theorem fscanfRecord_missing (content : List Char)
    (h : (fscanfRecord content).bRead = EOF ∨ (fscanfRecord content).LckPID = 0) :
    (fscanfRecord content).LckPID = 0 := by
  rcases h with h | h
  · by_contra hne
    exact fscanfRecord_bRead_of_LckPID content hne h
  · exact h

theorem lockIter_polling (env : LockEnv) (COMMAND : Option (List Char)) (v : LoopVars)
    (s : LockState) : ∀ e ∈ (lockIter env COMMAND v s).ev, Event.isPolling e = true := by
  intro e he
  unfold lockIter at he
  cases hf : (env.disturb v.totalLockAttempts s).devLCKfile with
  | none => simp [hf] at he
  | some content =>
    simp only [hf] at he
    have hb := busy_events (env.flockBusy v.totalLockAttempts)
    have hrd : ∀ x ∈ List.replicate (env.flockBusy v.totalLockAttempts) (Event.rnd_usleep 25000)
        ++ [Event.fscanf (fscanfRecord content).bRead (fscanfRecord content).LckPID
          (fscanfRecord content).COMMAND], Event.isPolling x = true := by
      intro x hx
      rcases List.mem_append.mp hx with h | h
      · exact (hb x h).1
      · simp only [List.mem_singleton] at h; subst h; rfl
    by_cases hfe : env.flockError v.totalLockAttempts = true
    · rw [if_pos hfe] at he
      exact (hb e he).1
    · rw [if_neg hfe] at he
      by_cases hcond : (fscanfRecord content).bRead = EOF ∨ (fscanfRecord content).LckPID = 0 ∨
          (fscanfRecord content).errno ≠ 0
      · rw [if_pos hcond] at he
        by_cases herr : (fscanfRecord content).errno ≠ 0
        · rw [if_pos herr] at he
          exact hrd e he
        · rw [if_neg herr] at he
          by_cases hm : v.missingPidRetries < missingPidRetriesMax
          · rw [if_pos hm] at he
            simp only [List.mem_append] at he
            rcases he with (h | h) | h
            · exact hrd e (List.mem_append.mpr h)
            · simp only [List.mem_singleton] at h; subst h; rfl
            · exact (pollSleep_events env _ e h).1
          · rw [if_neg hm] at he
            have ha := AddSerLock_events env.PID COMMAND (env.linkFails v.totalLockAttempts)
              (env.disturb v.totalLockAttempts s)
            split at he <;> simp only [List.mem_append] at he
            · rcases he with (h | h) | h
              · exact hrd e (List.mem_append.mpr h)
              · exact (ha e h).1
              · exact (pollSleep_events env _ e h).1
            · rcases he with h | h
              · exact hrd e (List.mem_append.mpr h)
              · exact (ha e h).1
            · rcases he with h | h
              · exact hrd e (List.mem_append.mpr h)
              · exact (ha e h).1
      · rw [if_neg hcond] at he
        obtain ⟨tail, htail, hq⟩ := holderCheck_events env v (fscanfRecord content).LckPID
          (fscanfRecord content).COMMAND (env.disturb v.totalLockAttempts s)
        simp only [htail] at he
        rcases List.mem_append.mp he with h | h
        · exact hrd e h
        · rcases List.mem_cons.mp h with h | h
          · subst h; rfl
          · exact (hq e h).1

theorem lockIter_last (env : LockEnv) (COMMAND : Option (List Char)) (v v2 : LoopVars)
    (s : LockState) (hPID : 0 < env.PID)
    (hout : (lockIter env COMMAND v s).out = Outcome.ret v2) (hv : v2.LckPID = env.PID) :
    LastParseAllows env.PID (lockIter env COMMAND v s).ev := by
  unfold lockIter at hout ⊢
  cases hf : (env.disturb v.totalLockAttempts s).devLCKfile with
  | none => simp [hf] at hout
  | some content =>
    simp only [hf] at hout ⊢
    by_cases hfe : env.flockError v.totalLockAttempts = true
    · rw [if_pos hfe] at hout; cases hout
    · rw [if_neg hfe] at hout ⊢
      by_cases hcond : (fscanfRecord content).bRead = EOF ∨ (fscanfRecord content).LckPID = 0 ∨
          (fscanfRecord content).errno ≠ 0
      · rw [if_pos hcond] at hout
        by_cases herr : (fscanfRecord content).errno ≠ 0
        · rw [if_pos herr] at hout; cases hout
        · rw [if_neg herr] at hout
          have hz : (fscanfRecord content).LckPID = 0 := by
            apply fscanfRecord_missing
            rcases hcond with h | h | h
            · exact Or.inl h
            · exact Or.inr h
            · exact absurd h herr
          by_cases hm : v.missingPidRetries < missingPidRetriesMax
          · rw [if_pos hm] at hout
            simp only [Outcome.ret.injEq] at hout
            rw [← hout] at hv
            simp only [hz] at hv
            omega
          · rw [if_neg hm] at hout
            split at hout
            · simp only [Outcome.ret.injEq] at hout
              rw [← hout] at hv
              simp only [hz] at hv
              omega
            · cases hout
            · cases hout
      · rw [if_neg hcond] at hout ⊢
        obtain ⟨tail, htail, hq⟩ := holderCheck_events env v (fscanfRecord content).LckPID
          (fscanfRecord content).COMMAND (env.disturb v.totalLockAttempts s)
        have hacq := holderCheck_acquired env v v2 _ _ _ hout hv
        refine ⟨List.replicate (env.flockBusy v.totalLockAttempts) (Event.rnd_usleep 25000),
          Event.getPIDcmd (fscanfRecord content).LckPID
            (env.getPIDcmd v.totalLockAttempts (fscanfRecord content).LckPID) :: tail,
          (fscanfRecord content).bRead, (fscanfRecord content).LckPID,
          (fscanfRecord content).COMMAND, ?_, ?_, ?_⟩
        · simp [htail]
        · intro e he
          rcases List.mem_cons.mp he with h | h
          · subst h; rfl
          · exact (hq e h).2
        · rcases hacq with h | ⟨live, hl, hst, hc⟩
          · exact Or.inl h
          · exact Or.inr ⟨live, by rw [hl]; simp, hst, hc⟩

theorem lastParseAllows_append_left (PID : Nat) (p l : List Event)
    (h : LastParseAllows PID l) : LastParseAllows PID (p ++ l) := by
  obtain ⟨pre, post, b, pid, cmd, hl, hpost, hor⟩ := h
  exact ⟨p ++ pre, post, b, pid, cmd, by simp [hl], hpost, hor⟩

theorem lastParseAllows_append_right (PID : Nat) (l q : List Event)
    (h : LastParseAllows PID l) (hq : ∀ e ∈ q, Event.isParse e = false) :
    LastParseAllows PID (l ++ q) := by
  obtain ⟨pre, post, b, pid, cmd, hl, hpost, hor⟩ := h
  refine ⟨pre, post ++ q, b, pid, cmd, by simp [hl], ?_, ?_⟩
  · intro e he
    rcases List.mem_append.mp he with h | h
    · exact hpost e h
    · exact hq e h
  · rcases hor with h | ⟨live, hm, hst, hc⟩
    · exact Or.inl h
    · exact Or.inr ⟨live, List.mem_append.mpr (Or.inl hm), hst, hc⟩

theorem lockLoop_polling (env : LockEnv) (COMMAND : Option (List Char)) :
    ∀ (k : Nat) (v : LoopVars) (now : Int) (s : LockState),
      ∀ e ∈ (lockLoop env COMMAND k v now s).ev, Event.isPolling e = true := by
  intro k
  induction k with
  | zero =>
    intro v now s e he
    by_cases hc : v.LckPID ≠ env.PID ∧ now ≤ env.yLockWait * 1000000
    · rw [lockLoop, if_pos hc] at he
      exact (ClrSerLock_events _ _ e he).1
    · rw [lockLoop_done env COMMAND 0 v now s hc] at he
      simp at he
  | succ k ih =>
    intro v now s e he
    by_cases hc : v.LckPID ≠ env.PID ∧ now ≤ env.yLockWait * 1000000
    · rw [lockLoop_succ env COMMAND k v now s hc] at he
      have hit := lockIter_polling env COMMAND
        { v with totalLockAttempts := v.totalLockAttempts + 1 } s
      split at he
      · rcases List.mem_append.mp he with h | h
        · exact hit e h
        · exact ih _ _ _ e h
      · exact hit e he
      · exact hit e he
    · rw [lockLoop_done env COMMAND (k + 1) v now s hc] at he
      simp at he

theorem lockLoop_last (env : LockEnv) (COMMAND : Option (List Char)) (hPID : 0 < env.PID) :
    ∀ (k : Nat) (v : LoopVars) (now : Int) (s : LockState) (v' : LoopVars),
      v.LckPID ≠ env.PID → (lockLoop env COMMAND k v now s).out = Outcome.ret v' →
      v'.LckPID = env.PID → LastParseAllows env.PID (lockLoop env COMMAND k v now s).ev := by
  intro k
  induction k with
  | zero =>
    intro v now s v' hv hout hv'
    by_cases hc : v.LckPID ≠ env.PID ∧ now ≤ env.yLockWait * 1000000
    · rw [lockLoop, if_pos hc] at hout
      cases hout
    · rw [lockLoop_done env COMMAND 0 v now s hc] at hout
      simp only [Outcome.ret.injEq] at hout
      rw [hout] at hv
      exact absurd hv' hv
  | succ k ih =>
    intro v now s v' hv hout hv'
    by_cases hc : v.LckPID ≠ env.PID ∧ now ≤ env.yLockWait * 1000000
    · rw [lockLoop_succ env COMMAND k v now s hc] at hout ⊢
      cases hit : (lockIter env COMMAND
          { v with totalLockAttempts := v.totalLockAttempts + 1 } s).out with
      | exit c => simp [hit] at hout
      | undefined => simp [hit] at hout
      | ret v2 =>
        simp only [hit] at hout ⊢
        by_cases h2 : v2.LckPID = env.PID
        · rw [lockLoop_done env COMMAND k v2 _ _ (by simp [h2])]
          simp only [List.append_nil]
          exact lockIter_last env COMMAND _ v2 s hPID hit h2
        · exact lastParseAllows_append_left _ _ _ (ih v2 _ _ v' h2 hout hv')
    · rw [lockLoop_done env COMMAND (k + 1) v now s hc] at hout
      simp only [Outcome.ret.injEq] at hout
      rw [hout] at hv
      exact absurd hv' hv

theorem log_message_mem (mask type : Nat) (fmt : String) (args : List Int) :
    ∀ e ∈ log_message mask type fmt args, e = Event.log_message type fmt args := by
  intro e he
  unfold log_message at he
  by_cases h : type &&& mask ≠ 0
  · rw [if_pos h] at he
    exact List.mem_singleton.mp he
  · rw [if_neg h] at he
    cases he

theorem lockFailureLog_mem (env : LockEnv) (q : Nat) :
    ∀ e ∈ lockFailureLog env q, ∃ t f a, e = Event.log_message t f a := by
  intro e he
  unfold lockFailureLog at he
  rcases List.mem_append.mp he with h | h
  · rcases List.mem_append.mp h with h | h
    · exact ⟨_, _, _, log_message_mem _ _ _ _ e h⟩
    · exact ⟨_, _, _, log_message_mem _ _ _ _ e h⟩
  · exact ⟨_, _, _, log_message_mem _ _ _ _ e h⟩

theorem upgrade_events (env : LockEnv) (s : LockState) :
    ∀ e ∈ (upgrade env s).ev, Event.isParse e = false := by
  intro e he
  unfold upgrade at he
  cases hf : (env.disturb 0 s).devLCKfile with
  | none =>
    simp only [hf, List.mem_singleton] at he
    subst he; rfl
  | some c =>
    simp only [hf] at he
    split at he
    · rcases List.mem_cons.mp he with h | h
      · subst h; rfl
      · exact (ClrSerLock_events _ _ e h).2
    · simp only [List.mem_singleton] at he
      subst he; rfl

/-- C7, amended: `lockSer` attempts the exclusive upgrade only if its last polling iteration
parsed the caller's own pid as holder, or parsed the pid of another holder whose live command
it found, found not stale, and found to contain `sdm120`, `tac1100`, `aurora` or `modbus`. -/
theorem c7_upgrade_only_after_recognition (env : LockEnv) (s : LockState) (hPID : 0 < env.PID)
    (hup : Event.upgradeOpen ∈ (lockSer env s).ev) :
    LastParseAllows env.PID (lockSer env s).ev := by
  have hno : ∀ l : List Event, (∀ e ∈ l, Event.isPolling e = true) → Event.upgradeOpen ∉ l := by
    intro l hl hm
    have := hl _ hm
    cases this
  have ha := AddSerLock_events env.PID (env.getPIDcmd 0 env.PID) (env.linkFails 0) s
  have hl := lockLoop_polling env (env.getPIDcmd 0 env.PID) maxLockAttempts ⟨0, 0, 0, 0, 0⟩ 0
    (AddSerLock env.PID (env.getPIDcmd 0 env.PID) (env.linkFails 0) s).lock
  have hal : ∀ e ∈ (AddSerLock env.PID (env.getPIDcmd 0 env.PID) (env.linkFails 0) s).ev ++
      (lockLoop env (env.getPIDcmd 0 env.PID) maxLockAttempts ⟨0, 0, 0, 0, 0⟩ 0
        (AddSerLock env.PID (env.getPIDcmd 0 env.PID) (env.linkFails 0) s).lock).ev,
      Event.isPolling e = true := by
    intro e he
    rcases List.mem_append.mp he with h | h
    · exact (ha e h).1
    · exact hl e h
  unfold lockSer at hup ⊢
  cases hao : (AddSerLock env.PID (env.getPIDcmd 0 env.PID) (env.linkFails 0) s).out with
  | exit c =>
    simp only [hao] at hup
    exact absurd hup (hno _ (fun e he => (ha e he).1))
  | undefined =>
    simp only [hao] at hup
    exact absurd hup (hno _ (fun e he => (ha e he).1))
  | ret u =>
    simp only [hao] at hup ⊢
    cases hlo : (lockLoop env (env.getPIDcmd 0 env.PID) maxLockAttempts ⟨0, 0, 0, 0, 0⟩ 0
        (AddSerLock env.PID (env.getPIDcmd 0 env.PID) (env.linkFails 0) s).lock).out with
    | exit c =>
      simp only [hlo] at hup
      exact absurd hup (hno _ hal)
    | undefined =>
      simp only [hlo] at hup
      exact absurd hup (hno _ hal)
    | ret v =>
      simp only [hlo] at hup ⊢
      by_cases hv : v.LckPID ≠ env.PID
      · rw [if_pos hv] at hup
        exfalso
        rcases List.mem_append.mp hup with h | h
        · refine hno _ ?_ h
          intro e he
          rcases List.mem_append.mp he with h | h
          · exact hal e h
          · exact (ClrSerLock_events _ _ e h).1
        · obtain ⟨t, f, a, he⟩ := lockFailureLog_mem env _ _ h
          cases he
      · rw [if_neg hv]
        have hlast := lockLoop_last env (env.getPIDcmd 0 env.PID) hPID maxLockAttempts
          ⟨0, 0, 0, 0, 0⟩ 0 (AddSerLock env.PID (env.getPIDcmd 0 env.PID) (env.linkFails 0) s).lock
          v (by show 0 ≠ env.PID; omega) hlo (by simpa using hv)
        simp only [List.append_assoc]
        exact lastParseAllows_append_left _ _ _
          (lastParseAllows_append_right _ _ _ hlast (upgrade_events env _))

/-- C7 amended, at the compatible peer of the counterexample. -/
theorem c7_upgrade_only_after_recognition_witness :
    0 < (quietEnv 5 peerTable).PID ∧
    Event.upgradeOpen ∈ (lockSer (quietEnv 5 peerTable) peerStart).ev ∧
    LastParseAllows (quietEnv 5 peerTable).PID (lockSer (quietEnv 5 peerTable) peerStart).ev :=
  ⟨by decide, by decide,
    c7_upgrade_only_after_recognition (quietEnv 5 peerTable) peerStart (by decide) (by decide)⟩

/-! ## Stale recovery -/

/-- Clearing the record of the pid it names leaves no record, no temporary file and a closed
handle. -/
theorem ClrSerLock_of_own_record (pid : Nat) (s : LockState) (c : List Char)
    (hc : s.devLCKfile = some c) (hp : (fscanfRecord c).LckPID = pid) :
    (ClrSerLock pid s).1 = ⟨none, none, false⟩ ∧
    Event.unlink LockFile.devLCKfile ∈ (ClrSerLock pid s).2 := by
  have hc' : (releaseModbusExclusiveLock s).devLCKfile = some c := by
    rw [(release_files s).1]; exact hc
  simp only [ClrSerLock]
  rcases clrFiles_cases pid (releaseModbusExclusiveLock s) with
    ⟨h0, _⟩ | ⟨c2, h1, _, _, hne, _⟩ | ⟨c2, _, _, h⟩ | ⟨c2, h1, hne, _, _⟩
  · rw [hc'] at h0; cases h0
  · rw [hc'] at h1; cases h1; exact absurd hp hne
  · rw [h, (release_files s).2.2]
    exact ⟨rfl, by simp⟩
  · rw [hc'] at h1; cases h1; exact absurd hp hne

/-- A polling iteration that reads the record of a holder without process while the stale
counter is below its bound: it counts the reading and changes nothing. -/
theorem lockIter_stale_count (env : LockEnv) (COMMAND : Option (List Char)) (v : LoopVars)
    (s : LockState) (c : List Char)
    (hquiet : env.disturb v.totalLockAttempts s = s)
    (hrec : s.devLCKfile = some c)
    (hflock : env.flockError v.totalLockAttempts = false)
    (herr : (fscanfRecord c).errno = 0) (h0 : (fscanfRecord c).LckPID ≠ 0)
    (hne : (fscanfRecord c).LckPID ≠ env.PID)
    (hdead : env.getPIDcmd v.totalLockAttempts (fscanfRecord c).LckPID = none)
    (hcount : v.staleLockRetries < staleLockRetriesMax) :
    lockIter env COMMAND v s =
      { out := Outcome.ret ⟨(fscanfRecord c).LckPID, v.staleLockRetries + 1,
          (fscanfRecord c).LckPID, 0, v.totalLockAttempts⟩,
        lock := s,
        ev := List.replicate (env.flockBusy v.totalLockAttempts) (Event.rnd_usleep 25000) ++
          [Event.fscanf (fscanfRecord c).bRead (fscanfRecord c).LckPID (fscanfRecord c).COMMAND]
          ++ Event.getPIDcmd (fscanfRecord c).LckPID none ::
            pollSleep env ⟨(fscanfRecord c).LckPID, v.staleLockRetries + 1,
              (fscanfRecord c).LckPID, 0, v.totalLockAttempts⟩ } := by
  have hcond : ¬((fscanfRecord c).bRead = EOF ∨ (fscanfRecord c).LckPID = 0 ∨
      (fscanfRecord c).errno ≠ 0) := by
    rintro (h | h | h)
    · exact fscanfRecord_bRead_of_LckPID c h0 h
    · exact h0 h
    · exact h herr
  have hst : staleTest env.PID (fscanfRecord c).LckPID (fscanfRecord c).COMMAND none =
      some true := by
    simp [staleTest, Ne.symm hne]
  unfold lockIter
  simp only [hquiet, hrec, hflock, Bool.false_eq_true, if_false]
  rw [if_neg hcond]
  simp only [holderCheck, hdead, hst, if_pos hcount]

/-- The polling iteration that follows two counted stale readings of the same holder: it calls
`ClrSerLock` on the holder and does not call `AddSerLock`. -/
theorem lockIter_stale_clear (env : LockEnv) (COMMAND : Option (List Char)) (v : LoopVars)
    (s : LockState) (c : List Char)
    (hquiet : env.disturb v.totalLockAttempts s = s)
    (hrec : s.devLCKfile = some c)
    (hflock : env.flockError v.totalLockAttempts = false)
    (herr : (fscanfRecord c).errno = 0) (h0 : (fscanfRecord c).LckPID ≠ 0)
    (hne : (fscanfRecord c).LckPID ≠ env.PID)
    (hdead : env.getPIDcmd v.totalLockAttempts (fscanfRecord c).LckPID = none)
    (hcount : v.staleLockRetries = staleLockRetriesMax)
    (htarget : v.clrStaleTargetPID = (fscanfRecord c).LckPID) :
    lockIter env COMMAND v s =
      { out := Outcome.ret ⟨(fscanfRecord c).LckPID, 0, 0, 0, v.totalLockAttempts⟩,
        lock := (ClrSerLock (fscanfRecord c).LckPID s).1,
        ev := List.replicate (env.flockBusy v.totalLockAttempts) (Event.rnd_usleep 25000) ++
          [Event.fscanf (fscanfRecord c).bRead (fscanfRecord c).LckPID (fscanfRecord c).COMMAND]
          ++ Event.getPIDcmd (fscanfRecord c).LckPID none ::
            ((ClrSerLock (fscanfRecord c).LckPID s).2 ++
              pollSleep env ⟨(fscanfRecord c).LckPID, 0, 0, 0, v.totalLockAttempts⟩) } := by
  have hcond : ¬((fscanfRecord c).bRead = EOF ∨ (fscanfRecord c).LckPID = 0 ∨
      (fscanfRecord c).errno ≠ 0) := by
    rintro (h | h | h)
    · exact fscanfRecord_bRead_of_LckPID c h0 h
    · exact h0 h
    · exact h herr
  have hst : staleTest env.PID (fscanfRecord c).LckPID (fscanfRecord c).COMMAND none =
      some true := by
    simp [staleTest, Ne.symm hne]
  have hnot : ¬ v.staleLockRetries < staleLockRetriesMax := by omega
  have hclr : (fscanfRecord c).LckPID = v.clrStaleTargetPID ∧
      v.staleLockRetries ≥ staleLockRetriesMax := ⟨htarget.symm, by omega⟩
  unfold lockIter
  simp only [hquiet, hrec, hflock, Bool.false_eq_true, if_false]
  rw [if_neg hcond]
  simp only [holderCheck, hdead, hst, if_neg hnot, if_pos hclr]

/-- A polling iteration that finds no record file ends the process with status 2. -/
theorem lockIter_no_record (env : LockEnv) (COMMAND : Option (List Char)) (v : LoopVars)
    (s : LockState) (hquiet : env.disturb v.totalLockAttempts s = s)
    (hrec : s.devLCKfile = none) :
    lockIter env COMMAND v s = { out := Outcome.exit 2, lock := s, ev := [] } := by
  unfold lockIter
  simp only [hquiet, hrec]

theorem lockLoop_step_ret (env : LockEnv) (COMMAND : Option (List Char)) (k : Nat)
    (v v2 : LoopVars) (now : Int) (s s2 : LockState) (ev2 : List Event)
    (h : v.LckPID ≠ env.PID ∧ now ≤ env.yLockWait * 1000000)
    (hit : lockIter env COMMAND { v with totalLockAttempts := v.totalLockAttempts + 1 } s =
      { out := Outcome.ret v2, lock := s2, ev := ev2 }) :
    lockLoop env COMMAND (k + 1) v now s =
      { out := (lockLoop env COMMAND k v2 (env.clock (v.totalLockAttempts + 1)) s2).out,
        lock := (lockLoop env COMMAND k v2 (env.clock (v.totalLockAttempts + 1)) s2).lock,
        ev := ev2 ++ (lockLoop env COMMAND k v2 (env.clock (v.totalLockAttempts + 1)) s2).ev } := by
  rw [lockLoop_succ env COMMAND k v now s h, hit]

theorem lockLoop_step_exit (env : LockEnv) (COMMAND : Option (List Char)) (k : Nat)
    (v : LoopVars) (now : Int) (s s2 : LockState) (ev2 : List Event) (st : Nat)
    (h : v.LckPID ≠ env.PID ∧ now ≤ env.yLockWait * 1000000)
    (hit : lockIter env COMMAND { v with totalLockAttempts := v.totalLockAttempts + 1 } s =
      { out := Outcome.exit st, lock := s2, ev := ev2 }) :
    lockLoop env COMMAND (k + 1) v now s = { out := Outcome.exit st, lock := s2, ev := ev2 } := by
  rw [lockLoop_succ env COMMAND k v now s h, hit]

theorem disturb_quiet (env : LockEnv) (hquiet : ∀ n st, env.others n st = st) (n : Nat)
    (s : LockState) : env.disturb n s = s := by
  unfold LockEnv.disturb
  rw [hquiet]

theorem AddSerLock_exists (PID : Nat) (COMMAND : Option (List Char)) (s : LockState)
    (c : List Char) (hrec : s.devLCKfile = some c) (hnew : s.devLCKfileNew = none) :
    AddSerLock PID COMMAND false s =
      { out := Outcome.ret (), lock := s,
        ev := [Event.AddSerLock PID, Event.unlink LockFile.devLCKfileNew] } := by
  unfold AddSerLock
  simp only [hnew, hrec, Bool.false_eq_true, if_false]

theorem pollSleep_mem (env : LockEnv) (v : LoopVars) :
    ∀ e ∈ pollSleep env v, e = Event.rnd_usleep 25000 := by
  intro e he
  unfold pollSleep at he
  split at he
  · simpa using he
  · simp at he

/-- The events of a polling iteration that only counts a stale reading or clears the record:
one record parse, no `link`. -/
theorem staleIter_events (n : Nat) (b : Int) (q : Nat) (cmd : List Char) (mid tail : List Event)
    (hmid : ∀ e ∈ mid, Event.isParse e = false ∧ e ≠ Event.link)
    (htail : ∀ e ∈ tail, e = Event.rnd_usleep 25000) :
    (List.replicate n (Event.rnd_usleep 25000) ++ [Event.fscanf b q cmd] ++
        Event.getPIDcmd q none :: (mid ++ tail)).countP Event.isParse = 1 ∧
    Event.link ∉ List.replicate n (Event.rnd_usleep 25000) ++ [Event.fscanf b q cmd] ++
        Event.getPIDcmd q none :: (mid ++ tail) := by
  have h1 : (List.replicate n (Event.rnd_usleep 25000)).countP Event.isParse = 0 := by
    rw [List.countP_eq_zero]
    intro e he
    rw [List.eq_of_mem_replicate he]
    simp [Event.isParse]
  have h2 : mid.countP Event.isParse = 0 := by
    rw [List.countP_eq_zero]
    intro e he
    simp [(hmid e he).1]
  have h3 : tail.countP Event.isParse = 0 := by
    rw [List.countP_eq_zero]
    intro e he
    rw [htail e he]
    simp [Event.isParse]
  refine ⟨?_, ?_⟩
  · simp only [List.countP_append, List.countP_cons, List.countP_nil, h1, h2, h3]
    simp [Event.isParse]
  · intro hm
    simp only [List.mem_append, List.mem_cons, List.mem_singleton, List.not_mem_nil,
      or_false] at hm
    rcases hm with (h | h) | h | h | h
    · cases List.eq_of_mem_replicate h
    · cases h
    · cases h
    · exact (hmid _ h).2 rfl
    · cases htail _ h

/-- C4, for every stale record: when the record names a pid other than the caller's that has
no process, nobody else touches the lock files, and the wait budget covers the first three
iterations, `lockSer` reads the record three times, calls `ClrSerLock` on the holder, never
publishes a record of its own (no `link` succeeds), and ends the process with `exit(2)` when
the fourth iteration finds no record file: it does not return. -/
theorem c4_stale_record_not_recovered (env : LockEnv) (s : LockState) (c : List Char)
    (hPID : 0 < env.PID) (hwait : 0 ≤ env.yLockWait)
    (hquiet : ∀ n st, env.others n st = st)
    (hrec : s.devLCKfile = some c) (hnew : s.devLCKfileNew = none)
    (hlink : env.linkFails 0 = false) (hflock : ∀ n, env.flockError n = false)
    (herr : (fscanfRecord c).errno = 0) (h0 : (fscanfRecord c).LckPID ≠ 0)
    (hne : (fscanfRecord c).LckPID ≠ env.PID)
    (hdead : ∀ n, env.getPIDcmd n (fscanfRecord c).LckPID = none)
    (hbudget : ∀ n, n ≤ 3 → env.clock n ≤ env.yLockWait * 1000000) :
    (lockSer env s).out = Outcome.exit 2 ∧
    (lockSer env s).lock = ⟨none, none, false⟩ ∧
    Event.ClrSerLock (fscanfRecord c).LckPID ∈ (lockSer env s).ev ∧
    Event.link ∉ (lockSer env s).ev ∧
    (lockSer env s).ev.countP Event.isParse = 3 := by
  have hd := disturb_quiet env hquiet
  have hadd := AddSerLock_exists env.PID (env.getPIDcmd 0 env.PID) s c hrec hnew
  have hclr := ClrSerLock_of_own_record (fscanfRecord c).LckPID s c hrec rfl
  have hit1 := lockIter_stale_count env (env.getPIDcmd 0 env.PID) ⟨0, 0, 0, 0, 1⟩ s c
    (hd _ _) hrec (hflock _) herr h0 hne (hdead _) (by show 0 < 2; decide)
  have hit2 := lockIter_stale_count env (env.getPIDcmd 0 env.PID)
    ⟨(fscanfRecord c).LckPID, 1, (fscanfRecord c).LckPID, 0, 2⟩ s c
    (hd _ _) hrec (hflock _) herr h0 hne (hdead _) (by show 1 < 2; decide)
  have hit3 := lockIter_stale_clear env (env.getPIDcmd 0 env.PID)
    ⟨(fscanfRecord c).LckPID, 2, (fscanfRecord c).LckPID, 0, 3⟩ s c
    (hd _ _) hrec (hflock _) herr h0 hne (hdead _) rfl rfl
  have hit4 := lockIter_no_record env (env.getPIDcmd 0 env.PID)
    ⟨(fscanfRecord c).LckPID, 0, 0, 0, 4⟩ ⟨none, none, false⟩ (hd _ _) rfl
  rw [hclr.1] at hit3
  have hc0 : (⟨0, 0, 0, 0, 0⟩ : LoopVars).LckPID ≠ env.PID ∧
      (0 : Int) ≤ env.yLockWait * 1000000 := ⟨by show 0 ≠ env.PID; omega, by omega⟩
  have hL4 := lockLoop_step_exit env (env.getPIDcmd 0 env.PID) 96
    ⟨(fscanfRecord c).LckPID, 0, 0, 0, 3⟩ (env.clock 3) ⟨none, none, false⟩ _ _ 2
    ⟨hne, hbudget 3 (by decide)⟩ hit4
  have hL3 := lockLoop_step_ret env (env.getPIDcmd 0 env.PID) 97
    ⟨(fscanfRecord c).LckPID, 2, (fscanfRecord c).LckPID, 0, 2⟩ _ (env.clock 2) s _ _
    ⟨hne, hbudget 2 (by decide)⟩ hit3
  have hL2 := lockLoop_step_ret env (env.getPIDcmd 0 env.PID) 98
    ⟨(fscanfRecord c).LckPID, 1, (fscanfRecord c).LckPID, 0, 1⟩ _ (env.clock 1) s _ _
    ⟨hne, hbudget 1 (by decide)⟩ hit2
  have hL1 := lockLoop_step_ret env (env.getPIDcmd 0 env.PID) 99 ⟨0, 0, 0, 0, 0⟩ _ 0 s _ _
    hc0 hit1
  simp only [hL4] at hL3
  simp only [hL3] at hL2
  simp only [hL2] at hL1
  have h100 : maxLockAttempts = 99 + 1 := rfl
  have hC : ∀ e ∈ (ClrSerLock (fscanfRecord c).LckPID s).2,
      Event.isParse e = false ∧ e ≠ Event.link := by
    intro e he
    rcases ClrSerLock_mem _ _ e he with h | ⟨f, h⟩ <;> subst h <;>
      exact ⟨rfl, fun h => by cases h⟩
  have hN : ∀ e ∈ ([] : List Event), Event.isParse e = false ∧ e ≠ Event.link := by
    intro e he; cases he
  have e1 := staleIter_events (env.flockBusy 1) (fscanfRecord c).bRead (fscanfRecord c).LckPID
    (fscanfRecord c).COMMAND [] _ hN
    (pollSleep_mem env ⟨(fscanfRecord c).LckPID, 1, (fscanfRecord c).LckPID, 0, 1⟩)
  have e2 := staleIter_events (env.flockBusy 2) (fscanfRecord c).bRead (fscanfRecord c).LckPID
    (fscanfRecord c).COMMAND [] _ hN
    (pollSleep_mem env ⟨(fscanfRecord c).LckPID, 2, (fscanfRecord c).LckPID, 0, 2⟩)
  have e3 := staleIter_events (env.flockBusy 3) (fscanfRecord c).bRead (fscanfRecord c).LckPID
    (fscanfRecord c).COMMAND _ _ hC
    (pollSleep_mem env ⟨(fscanfRecord c).LckPID, 0, 0, 0, 3⟩)
  simp only [List.nil_append] at e1 e2
  unfold lockSer
  simp only [hlink, hadd, h100, hL1]
  refine ⟨trivial, trivial, ?_, ?_, ?_⟩
  · simp [ClrSerLock]
  · intro hm
    rcases List.mem_append.mp hm with h | h
    · simp at h
    · rcases List.mem_append.mp h with h | h
      · exact e1.2 h
      · rcases List.mem_append.mp h with h | h
        · exact e2.2 h
        · rcases List.mem_append.mp h with h | h
          · exact e3.2 h
          · cases h
  · have key : ∀ A E1 E2 E3 : List Event, A.countP Event.isParse = 0 →
        E1.countP Event.isParse = 1 → E2.countP Event.isParse = 1 →
        E3.countP Event.isParse = 1 →
        (A ++ (E1 ++ (E2 ++ (E3 ++ [])))).countP Event.isParse = 3 := by
      intro A E1 E2 E3 hA h1 h2 h3
      simp only [List.countP_append, hA, h1, h2, h3, List.countP_nil]
    exact key _ _ _ _ (by simp [Event.isParse]) e1.1 e2.1 e3.1

/-- C4, at a failing input: the record names pid 4242, which has no process, the caller is
pid 100 and waits up to 30 s.  Two iterations count the stale reading, the third clears the
record, nothing publishes the caller's record, and the fourth iteration cannot open the record
file: `lockSer` ends the process with `exit(2)` instead of returning. -/
theorem c4_stale_record_not_recovered_witness :
    ((lockSer (quietEnv 30 (fun _ => none)) staleStart).out = Outcome.exit 2 ∧
      (lockSer (quietEnv 30 (fun _ => none)) staleStart).lock = ⟨none, none, false⟩ ∧
      Event.ClrSerLock 4242 ∈ (lockSer (quietEnv 30 (fun _ => none)) staleStart).ev ∧
      Event.link ∉ (lockSer (quietEnv 30 (fun _ => none)) staleStart).ev ∧
      (lockSer (quietEnv 30 (fun _ => none)) staleStart).ev.countP Event.isParse = 3) ∧
    (lockSer (quietEnv 30 (fun _ => none)) staleStart).ev =
      [Event.AddSerLock 100, Event.unlink LockFile.devLCKfileNew,
       Event.fscanf 2 4242 "sdm120c".toList, Event.getPIDcmd 4242 none, Event.rnd_usleep 25000,
       Event.fscanf 2 4242 "sdm120c".toList, Event.getPIDcmd 4242 none, Event.rnd_usleep 25000,
       Event.fscanf 2 4242 "sdm120c".toList, Event.getPIDcmd 4242 none,
       Event.ClrSerLock 4242, Event.unlink LockFile.devLCKfile, Event.rnd_usleep 25000] :=
  ⟨c4_stale_record_not_recovered (quietEnv 30 (fun _ => none)) staleStart
      "4242 sdm120c\n".toList (by decide) (by decide) (fun _ _ => rfl) rfl rfl rfl
      (fun _ => rfl) (by decide) (by decide) (by decide) (fun _ => rfl)
      (fun n hn => by
        show (30000 : Int) * (n : Int) ≤ 30 * 1000000
        omega),
    by decide⟩

/-! ## Register writes: changeConfigUINT and enableKPPA -/

theorem sleepDelay_noWrite (g : Globals) : (sleepDelay g).filter Event.isWrite = [] := by
  unfold sleepDelay
  by_cases h : g.command_delay ≠ 0
  · rw [if_pos h]; rfl
  · rw [if_neg h]; rfl

theorem clrFiles_noWrite (PID : Nat) (s : LockState) :
    (clrFiles PID s).2.filter Event.isWrite = [] := by
  apply List.filter_eq_nil_iff.mpr
  intro e he
  rcases clrFiles_mem PID s e he with ⟨f, h⟩
  subst h
  simp [Event.isWrite]

theorem ClrSerLock_noWrite (PID : Nat) (s : LockState) :
    (ClrSerLock PID s).2.filter Event.isWrite = [] := by
  unfold ClrSerLock
  simp only [List.filter_cons, Event.isWrite]
  exact clrFiles_noWrite PID _

theorem exit_error_noWrite {α : Type} (g : Globals) (w : World) :
    (exit_error g w : Res α).ev.filter Event.isWrite = [] := by
  unfold exit_error
  simp only [List.filter_append, ClrSerLock_noWrite]
  by_cases h : g.metern_flag = 0
  · rw [if_pos h]; rfl
  · rw [if_neg h]; rfl

theorem exit_error_out {α : Type} (g : Globals) (w : World) :
    (exit_error g w : Res α).out = Outcome.exit EXIT_FAILURE := rfl

theorem exit_error_head {α : Type} (g : Globals) (w : World) :
    Event.exit_error ∈ (exit_error g w : Res α).ev := by
  unfold exit_error
  simp

theorem sleepDelay_no_exit_error (g : Globals) : Event.exit_error ∉ sleepDelay g := by
  unfold sleepDelay
  by_cases h : g.command_delay ≠ 0
  · rw [if_pos h]; simp
  · rw [if_neg h]; simp

/-- C12: `changeConfigUINT` issues exactly one register write, of the single register
`(uint16_t)value` (the value modulo 2^16) at the given address, and that write does not depend
on the restart flag.  When the write fails the function runs `exit_error` after it (the process
ends with `EXIT_FAILURE`) and writes nothing more; when it succeeds the function returns and
`exit_error` is not entered. -/
theorem c12_single_write (g : Globals) (address value restart : Int) (w : World) :
    (changeConfigUINT g address value restart w).ev.filter Event.isWrite =
        [Event.writeRegisters address [toUint16 value]] ∧
      toUint16 value = (value % 2 ^ 16).toNat ∧
      (∀ restart2 : Int,
        (changeConfigUINT g address value restart2 w).ev.filter Event.isWrite =
          (changeConfigUINT g address value restart w).ev.filter Event.isWrite) ∧
      (w.writes 0 = false →
        (changeConfigUINT g address value restart w).out = Outcome.exit EXIT_FAILURE ∧
        (changeConfigUINT g address value restart w).ev =
          sleepDelay g ++ [Event.writeRegisters address [toUint16 value]] ++
            (exit_error g w.afterWrite : Res Unit).ev ∧
        Event.exit_error ∈ (exit_error g w.afterWrite : Res Unit).ev ∧
        (exit_error g w.afterWrite : Res Unit).ev.filter Event.isWrite = []) ∧
      (w.writes 0 = true →
        (changeConfigUINT g address value restart w).out = Outcome.ret () ∧
        Event.exit_error ∉ (changeConfigUINT g address value restart w).ev) := by
  have one : ∀ r : Int, (changeConfigUINT g address value r w).ev.filter Event.isWrite =
      [Event.writeRegisters address [toUint16 value]] := by
    intro r
    cases hw : w.writes 0
    · have e : (changeConfigUINT g address value r w).ev =
          sleepDelay g ++ [Event.writeRegisters address [toUint16 value]] ++
            (exit_error g w.afterWrite : Res Unit).ev := by
        simp only [changeConfigUINT, hw]
        rfl
      rw [e]
      simp only [List.filter_append, sleepDelay_noWrite, exit_error_noWrite]
      rfl
    · have e : (changeConfigUINT g address value r w).ev =
          sleepDelay g ++ [Event.writeRegisters address [toUint16 value]] ++
            [Event.printf "New value %d for address 0x%X successfully written\n"] ++
            (if r = RESTART_TRUE then restartBanner else []) := by
        simp only [changeConfigUINT, hw, if_true]
      rw [e]
      simp only [List.filter_append, sleepDelay_noWrite]
      by_cases hr : r = RESTART_TRUE
      · rw [if_pos hr]; rfl
      · rw [if_neg hr]; rfl
  refine ⟨one restart, rfl, fun r2 => by rw [one r2, one restart], ?_, ?_⟩
  · intro hw
    refine ⟨?_, ?_, exit_error_head g _, exit_error_noWrite g _⟩
    · simp only [changeConfigUINT, hw]
      rfl
    · simp only [changeConfigUINT, hw]
      rfl
  · intro hw
    refine ⟨?_, ?_⟩
    · simp only [changeConfigUINT, hw, if_true]
    · simp only [changeConfigUINT, hw, if_true]
      intro hmem
      rcases List.mem_append.mp hmem with h | h
      · rcases List.mem_append.mp h with h | h
        · rcases List.mem_append.mp h with h | h
          · exact sleepDelay_no_exit_error g h
          · simp at h
        · simp at h
      · by_cases hr : restart = RESTART_TRUE
        · rw [if_pos hr] at h; simp [restartBanner] at h
        · rw [if_neg hr] at h; simp at h

/-- C12 on two transports: a write of 70000 to register `0x5005` is the single write of
`70000 mod 65536 = 4464`, followed by `exit_error` on the dead bus and by a return on the good
one. -/
theorem c12_single_write_witness :
    (changeConfigUINT plainGlobals 0x5005 70000 RESTART_TRUE deadBus).ev.filter Event.isWrite =
        [Event.writeRegisters 0x5005 [4464]] ∧
      (changeConfigUINT plainGlobals 0x5005 70000 RESTART_TRUE deadBus).out =
        Outcome.exit EXIT_FAILURE ∧
      (changeConfigUINT plainGlobals 0x5005 70000 RESTART_TRUE goodBus).out = Outcome.ret () ∧
      Event.exit_error ∉ (changeConfigUINT plainGlobals 0x5005 70000 RESTART_TRUE goodBus).ev :=
  ⟨(c12_single_write plainGlobals 0x5005 70000 RESTART_TRUE deadBus).1,
   ((c12_single_write plainGlobals 0x5005 70000 RESTART_TRUE deadBus).2.2.2.1 rfl).1,
   ((c12_single_write plainGlobals 0x5005 70000 RESTART_TRUE goodBus).2.2.2.2 rfl).1,
   ((c12_single_write plainGlobals 0x5005 70000 RESTART_TRUE goodBus).2.2.2.2 rfl).2⟩

/-- C13: `enableKPPA` issues exactly one register write, of the single register
`(uint16_t)current_password` (the password modulo 2^16) at register `0x5000`; it returns 0 when
the write succeeds and -1 when it fails; it never enters `exit_error` and leaves the lock
state as it was. -/
theorem c13_enableKPPA (g : Globals) (current_password : Int) (w : World) :
    (enableKPPA g current_password w).ev.filter Event.isWrite =
        [Event.writeRegisters 0x5000 [toUint16 current_password]] ∧
      toUint16 current_password = (current_password % 2 ^ 16).toNat ∧
      (w.writes 0 = true → (enableKPPA g current_password w).out = Outcome.ret 0) ∧
      (w.writes 0 = false → (enableKPPA g current_password w).out = Outcome.ret (-1)) ∧
      Event.exit_error ∉ (enableKPPA g current_password w).ev ∧
      (enableKPPA g current_password w).w.lock = w.lock := by
  have hev : (enableKPPA g current_password w).ev =
      sleepDelay g ++ [Event.writeRegisters KPPA [toUint16 current_password]] := by
    cases hw : w.writes 0 <;> simp only [enableKPPA, hw] <;> rfl
  refine ⟨?_, rfl, ?_, ?_, ?_, ?_⟩
  · rw [hev, List.filter_append, sleepDelay_noWrite]
    rfl
  · intro hw
    simp only [enableKPPA, hw, if_true]
  · intro hw
    simp only [enableKPPA, hw]
    rfl
  · rw [hev]
    intro hmem
    rcases List.mem_append.mp hmem with h | h
    · exact sleepDelay_no_exit_error g h
    · simp at h
  · cases hw : w.writes 0 <;> simp only [enableKPPA, hw] <;> rfl

/-- C13 on two transports: the password 70000 is written as `4464` to register `0x5000`; the
result is -1 on the dead bus and 0 on the good one, and the lock state stays `heldLock`. -/
theorem c13_enableKPPA_witness :
    (enableKPPA plainGlobals 70000 deadBus).ev =
        [Event.writeRegisters 0x5000 [4464]] ∧
      (enableKPPA plainGlobals 70000 deadBus).out = Outcome.ret (-1) ∧
      (enableKPPA plainGlobals 70000 goodBus).out = Outcome.ret 0 ∧
      (enableKPPA plainGlobals 70000 deadBus).w.lock = heldLock :=
  ⟨by decide,
   (c13_enableKPPA plainGlobals 70000 deadBus).2.2.2.1 rfl,
   (c13_enableKPPA plainGlobals 70000 goodBus).2.2.1 rfl,
   (c13_enableKPPA plainGlobals 70000 deadBus).2.2.2.2.2⟩

/-! ## Authorisation before protected writes -/

theorem andThen_ev_ret {α β : Type} (r : Res α) (f : α → World → Res β) (a : α)
    (h : r.out = Outcome.ret a) :
    (r.andThen f).ev = r.ev ++ (f a r.w).ev ∧ (r.andThen f).out = (f a r.w).out := by
  unfold Res.andThen
  rw [h]
  exact ⟨rfl, rfl⟩

theorem andThen_ev_exit {α β : Type} (r : Res α) (f : α → World → Res β) (st : Nat)
    (h : r.out = Outcome.exit st) :
    (r.andThen f).ev = r.ev ∧ (r.andThen f).out = Outcome.exit st := by
  unfold Res.andThen
  rw [h]
  exact ⟨rfl, rfl⟩

theorem andThen_ev_undefined {α β : Type} (r : Res α) (f : α → World → Res β)
    (h : r.out = Outcome.undefined) :
    (r.andThen f).ev = r.ev ∧ (r.andThen f).out = Outcome.undefined := by
  unfold Res.andThen
  rw [h]
  exact ⟨rfl, rfl⟩

theorem andThen_noWrite {α β : Type} (r : Res α) (f : α → World → Res β)
    (hr : r.ev.filter Event.isWrite = [])
    (hf : ∀ a w, (f a w).ev.filter Event.isWrite = []) :
    (r.andThen f).ev.filter Event.isWrite = [] := by
  cases h : r.out with
  | ret a => rw [(andThen_ev_ret r f a h).1, List.filter_append, hr, hf]; rfl
  | exit st => rw [(andThen_ev_exit r f st h).1, hr]
  | undefined => rw [(andThen_ev_undefined r f h).1, hr]

theorem emit_andThen {β : Type} (ev : List Event) (w : World) (f : Unit → World → Res β) :
    ((emit ev w).andThen f).ev = ev ++ (f () w).ev ∧
      ((emit ev w).andThen f).out = (f () w).out :=
  ⟨rfl, rfl⟩

theorem closeAndClear_noWrite {α : Type} (cfg : Config) (st : Nat) (w : World) :
    (closeAndClear cfg st w : Res α).ev.filter Event.isWrite = [] := by
  unfold closeAndClear
  simp only [List.filter_append, ClrSerLock_noWrite]
  rfl

theorem measureLoop_noWrite (g : Globals) (address nb : Int) :
    ∀ (n : Nat) (w : World), (measureLoop g address nb n w).2.2.filter Event.isWrite = [] := by
  intro n
  induction n with
  | zero => intro w; rfl
  | succ k ih =>
    intro w
    cases hr : w.reads 0 with
    | none =>
      simp only [measureLoop, hr, List.filter_append, sleepDelay_noWrite, ih]
      rfl
    | some regs =>
      simp only [measureLoop, hr, List.filter_append, sleepDelay_noWrite]
      rfl

theorem configLoop_noWrite (g : Globals) (address nb : Int) :
    ∀ (n : Nat) (w : World), (configLoop g address nb n w).2.2.filter Event.isWrite = [] := by
  intro n
  induction n with
  | zero => intro w; rfl
  | succ k ih =>
    intro w
    cases hr : w.reads 0 with
    | none =>
      simp only [configLoop, hr, List.filter_append, sleepDelay_noWrite, ih]
      rfl
    | some regs =>
      simp only [configLoop, hr, List.filter_append, sleepDelay_noWrite]
      rfl

theorem getMeasureFloat_noWrite (g : Globals) (address retries nb : Int) (w : World) :
    (getMeasureFloat g address retries nb w).ev.filter Event.isWrite = [] := by
  cases hr : (measureLoop g address nb retries.toNat w).1 with
  | none =>
    have e : (getMeasureFloat g address retries nb w).ev =
        (measureLoop g address nb retries.toNat w).2.2 ++
          (exit_error g (measureLoop g address nb retries.toNat w).2.1 : Res (List Nat)).ev := by
      simp only [getMeasureFloat, hr]
    rw [e, List.filter_append, measureLoop_noWrite, exit_error_noWrite]
    rfl
  | some regs =>
    have e : (getMeasureFloat g address retries nb w).ev =
        (measureLoop g address nb retries.toNat w).2.2 := by
      simp only [getMeasureFloat, hr]
    rw [e, measureLoop_noWrite]

theorem getConfigUINT_noWrite (g : Globals) (address retries nb : Int) (w : World) :
    (getConfigUINT g address retries nb w).ev.filter Event.isWrite = [] := by
  cases hr : (configLoop g address nb retries.toNat w).1 with
  | none =>
    have e : (getConfigUINT g address retries nb w).ev =
        (configLoop g address nb retries.toNat w).2.2 ++
          (exit_error g (configLoop g address nb retries.toNat w).2.1 : Res Int).ev := by
      simp only [getConfigUINT, hr]
    rw [e, List.filter_append, configLoop_noWrite, exit_error_noWrite]
    rfl
  | some regs =>
    have e : (getConfigUINT g address retries nb w).ev =
        (configLoop g address nb retries.toNat w).2.2 := by
      simp only [getConfigUINT, hr]
    rw [e, configLoop_noWrite]

theorem readMeasures_noWrite (cfg : Config) :
    ∀ (items : List MeasureItem) (n : Int) (w : World),
      (readMeasures cfg items n w).ev.filter Event.isWrite = [] := by
  intro items
  induction items with
  | nil => intro n w; rfl
  | cons it rest ih =>
    intro n w
    by_cases hflag : it.flag = 1
    · simp only [readMeasures, hflag, if_true]
      exact andThen_noWrite _ _ (getMeasureFloat_noWrite _ _ _ _ w)
        (fun _ w1 => andThen_noWrite _ _ rfl (fun _ w2 => ih _ w2))
    · simp only [readMeasures, hflag, if_false]
      exact ih n w

theorem readTimeDisp_noWrite (cfg : Config) (n : Int) (w : World) :
    (readTimeDisp cfg n w).ev.filter Event.isWrite = [] := by
  by_cases hflag : cfg.time_disp_flag = 1
  · simp only [readTimeDisp, hflag, if_true]
    exact andThen_noWrite _ _ (getConfigUINT_noWrite _ _ _ _ w) (fun _ w1 => rfl)
  · simp only [readTimeDisp, hflag, if_false]
    rfl

theorem finish_noWrite (cfg : Config) (n : Int) (w : World) :
    (finish cfg n w).ev.filter Event.isWrite = [] := by
  by_cases h : n = cfg.count_param
  · simp only [finish, h, if_true, List.filter_append, closeAndClear_noWrite]
    by_cases hm : cfg.metern_flag = 0
    · rw [if_pos hm]; rfl
    · rw [if_neg hm]; rfl
  · simp only [finish, h, if_false]
    exact exit_error_noWrite _ w

theorem readPhase_noWrite (cfg : Config) (w : World) :
    (readPhase cfg w).ev.filter Event.isWrite = [] := by
  unfold readPhase
  exact andThen_noWrite _ _ (readMeasures_noWrite _ _ _ w)
    (fun n w1 => andThen_noWrite _ _ (readTimeDisp_noWrite _ n w1)
      (fun n2 w2 => finish_noWrite _ n2 w2))

theorem changeConfigUINT_writes (g : Globals) (address value restart : Int) (w : World) :
    (changeConfigUINT g address value restart w).ev.filter Event.isWrite =
      [Event.writeRegisters address [toUint16 value]] := by
  cases hw : w.writes 0
  · have e : (changeConfigUINT g address value restart w).ev =
        sleepDelay g ++ [Event.writeRegisters address [toUint16 value]] ++
          (exit_error g w.afterWrite : Res Unit).ev := by
      simp only [changeConfigUINT, hw]
      rfl
    rw [e]
    simp only [List.filter_append, sleepDelay_noWrite, exit_error_noWrite]
    rfl
  · have e : (changeConfigUINT g address value restart w).ev =
        sleepDelay g ++ [Event.writeRegisters address [toUint16 value]] ++
          [Event.printf "New value %d for address 0x%X successfully written\n"] ++
          (if restart = RESTART_TRUE then restartBanner else []) := by
      simp only [changeConfigUINT, hw, if_true]
    rw [e]
    simp only [List.filter_append, sleepDelay_noWrite]
    by_cases hr : restart = RESTART_TRUE
    · rw [if_pos hr]; rfl
    · rw [if_neg hr]; rfl

theorem changeConfigUINT_out (g : Globals) (address value restart : Int) (w : World) :
    (changeConfigUINT g address value restart w).out = Outcome.ret () ∨
      (changeConfigUINT g address value restart w).out = Outcome.exit EXIT_FAILURE := by
  cases hw : w.writes 0
  · right; simp only [changeConfigUINT, hw]; rfl
  · left; simp only [changeConfigUINT, hw, if_true]

/-- The unprotected write branches issue at most the one write of their register. -/
theorem writeBranch_writes (cfg : Config) (address value restart : Int) (w : World) :
    (writeBranch cfg address value restart w).ev.filter Event.isWrite = [] ∨
      (writeBranch cfg address value restart w).ev.filter Event.isWrite =
        [Event.writeRegisters address [toUint16 value]] := by
  by_cases h : cfg.count_param > 0
  · left
    simp only [writeBranch, h, if_true]
    exact andThen_noWrite _ _ rfl (fun _ w1 => closeAndClear_noWrite cfg _ w1)
  · right
    simp only [writeBranch, h, if_false]
    rcases changeConfigUINT_out cfg.globals address value restart w with ho | ho
    · rw [(andThen_ev_ret _ _ () ho).1, List.filter_append, changeConfigUINT_writes,
        closeAndClear_noWrite]
      rfl
    · rw [(andThen_ev_exit _ _ _ ho).1, changeConfigUINT_writes]

/-- The protected write branches: without `-Q`, with read options, or when the write to
`KPPA` fails, the process ends with `EXIT_FAILURE` and the register is not written; otherwise
the writes are the one to `KPPA`, which succeeded, and then the one to the register. -/
theorem protectedBranch_writes (cfg : Config) (address value : Int)
    (missing failed : List Event) (enabling enabled : Event) (done : List Event) (w : World)
    (hm : missing.filter Event.isWrite = []) (hf : failed.filter Event.isWrite = [])
    (h1 : Event.isWrite enabling = false) (h2 : Event.isWrite enabled = false)
    (hd : done.filter Event.isWrite = []) :
    ((protectedBranch cfg address value missing failed enabling enabled done w).out =
          Outcome.exit EXIT_FAILURE ∧
        (cfg.count_param > 0 ∨ cfg.current_password_set = 0) ∧
        (protectedBranch cfg address value missing failed enabling enabled done w).ev.filter
          Event.isWrite = []) ∨
      ((protectedBranch cfg address value missing failed enabling enabled done w).out =
          Outcome.exit EXIT_FAILURE ∧
        w.writes 0 = false ∧
        (protectedBranch cfg address value missing failed enabling enabled done w).ev.filter
          Event.isWrite = [Event.writeRegisters KPPA [toUint16 cfg.current_password]]) ∨
      (cfg.current_password_set ≠ 0 ∧ w.writes 0 = true ∧
        (protectedBranch cfg address value missing failed enabling enabled done w).ev.filter
          Event.isWrite = [Event.writeRegisters KPPA [toUint16 cfg.current_password],
            Event.writeRegisters address [toUint16 value]]) := by
  by_cases h : cfg.count_param > 0
  · left
    simp only [protectedBranch, h, if_true]
    exact ⟨rfl, Or.inl trivial, andThen_noWrite _ _ rfl (fun _ w1 => closeAndClear_noWrite cfg _ w1)⟩
  · by_cases hq : cfg.current_password_set = 0
    · left
      simp only [protectedBranch, h, hq, if_true, if_false]
      refine ⟨rfl, Or.inr trivial, ?_⟩
      rw [(emit_andThen _ _ _).1, List.filter_append, hm, closeAndClear_noWrite]
      rfl
    · right
      have hk : (enableKPPA cfg.globals cfg.current_password w).ev.filter Event.isWrite =
          [Event.writeRegisters KPPA [toUint16 cfg.current_password]] := by
        have hev : (enableKPPA cfg.globals cfg.current_password w).ev =
            sleepDelay cfg.globals ++
              [Event.writeRegisters KPPA [toUint16 cfg.current_password]] := by
          cases hw : w.writes 0 <;> simp only [enableKPPA, hw] <;> rfl
        rw [hev, List.filter_append, sleepDelay_noWrite]
        rfl
      cases hw : w.writes 0
      · left
        have ho : (enableKPPA cfg.globals cfg.current_password w).out = Outcome.ret (-1) := by
          simp only [enableKPPA, hw]
          rfl
        simp only [protectedBranch, h, hq, if_false]
        rw [(emit_andThen _ _ _).1, (emit_andThen _ _ _).2,
          (andThen_ev_ret _ _ _ ho).1, (andThen_ev_ret _ _ _ ho).2]
        simp only [if_true]
        rw [(emit_andThen _ _ _).1, (emit_andThen _ _ _).2]
        refine ⟨?_, ?_, ?_⟩
        · rfl
        · trivial
        simp only [List.filter_append, List.filter_cons, List.filter_nil, h1, hk, hf,
          closeAndClear_noWrite]
        rfl
      · right
        have ho : (enableKPPA cfg.globals cfg.current_password w).out = Outcome.ret 0 := by
          simp only [enableKPPA, hw, if_true]
        refine ⟨hq, rfl, ?_⟩
        simp only [protectedBranch, h, hq, if_false]
        rw [(emit_andThen _ _ _).1, (andThen_ev_ret _ _ _ ho).1]
        have h0 : ¬ ((0 : Int) = -1) := by decide
        simp only [h0, if_false]
        rw [(emit_andThen _ _ _).1]
        rcases changeConfigUINT_out cfg.globals address value RESTART_FALSE
            (enableKPPA cfg.globals cfg.current_password w).w with hc | hc
        · rw [(andThen_ev_ret _ _ () hc).1, (emit_andThen _ _ _).1]
          simp only [List.filter_append, List.filter_cons, List.filter_nil, h1, h2, hk, hd,
            changeConfigUINT_writes, closeAndClear_noWrite]
          rfl
        · rw [(andThen_ev_exit _ _ _ hc).1]
          simp only [List.filter_append, List.filter_cons, List.filter_nil, h1, h2, hk,
            changeConfigUINT_writes]
          rfl

theorem isWrite_of_protected (e : Event) (h : Event.isProtectedWrite e = true) :
    Event.isWrite e = true := by
  cases e <;> first | rfl | cases h

theorem noProtected_of_noWrite (l : List Event) (h : l.filter Event.isWrite = []) :
    ∀ e ∈ l, Event.isProtectedWrite e = false := by
  intro e he
  cases hp : Event.isProtectedWrite e
  · rfl
  · have : e ∈ l.filter Event.isWrite := List.mem_filter.mpr ⟨he, isWrite_of_protected e hp⟩
    rw [h] at this
    cases this

theorem noProtected_of_single (l : List Event) (a : Int) (v : List Nat)
    (ha : (a == PASSWORD || a == RESET_HIST) = false)
    (h : l.filter Event.isWrite = [] ∨ l.filter Event.isWrite = [Event.writeRegisters a v]) :
    ∀ e ∈ l, Event.isProtectedWrite e = false := by
  rcases h with h | h
  · exact noProtected_of_noWrite l h
  · intro e he
    cases hp : Event.isProtectedWrite e
    · rfl
    · have hmem : e ∈ l.filter Event.isWrite :=
        List.mem_filter.mpr ⟨he, isWrite_of_protected e hp⟩
      rw [h] at hmem
      have : e = Event.writeRegisters a v := List.mem_singleton.mp hmem
      subst this
      simp only [Event.isProtectedWrite] at hp
      rw [ha] at hp
      cases hp

theorem protectedBranch_gated (cfg : Config) (address value : Int)
    (missing failed : List Event) (enabling enabled : Event) (done : List Event) (w : World)
    (ha : address = PASSWORD ∨ address = RESET_HIST)
    (hm : missing.filter Event.isWrite = []) (hf : failed.filter Event.isWrite = [])
    (h1 : Event.isWrite enabling = false) (h2 : Event.isWrite enabled = false)
    (hd : done.filter Event.isWrite = []) :
    Gated cfg w (protectedBranch cfg address value missing failed enabling enabled done w).ev ∧
      (cfg.current_password_set = 0 ∨ w.writes 0 = false →
        (protectedBranch cfg address value missing failed enabling enabled done w).out =
          Outcome.exit EXIT_FAILURE) := by
  rcases protectedBranch_writes cfg address value missing failed enabling enabled done w
      hm hf h1 h2 hd with ⟨ho, _, hw⟩ | ⟨ho, _, hw⟩ | ⟨hq, hw0, hw⟩
  · exact ⟨Or.inl (noProtected_of_noWrite _ hw), fun _ => ho⟩
  · exact ⟨Or.inl (noProtected_of_single _ KPPA _ (by decide) (Or.inr hw)), fun _ => ho⟩
  · refine ⟨Or.inr ⟨address, [toUint16 value], ha, hq, hw0, hw⟩, ?_⟩
    intro h
    rcases h with h | h
    · exact absurd h hq
    · rw [hw0] at h; cases h

theorem passwordBranch_gated (cfg : Config) (w : World) :
    Gated cfg w
        (protectedBranch cfg PASSWORD cfg.password_value passwordMissing passwordFailed
          (Event.printf "Enabling KPPA authorization with current password...\n")
          (Event.printf "KPPA enabled. Changing password...\n") passwordDone w).ev ∧
      (cfg.current_password_set = 0 ∨ w.writes 0 = false →
        (protectedBranch cfg PASSWORD cfg.password_value passwordMissing passwordFailed
          (Event.printf "Enabling KPPA authorization with current password...\n")
          (Event.printf "KPPA enabled. Changing password...\n") passwordDone w).out =
          Outcome.exit EXIT_FAILURE) :=
  protectedBranch_gated cfg _ _ _ _ _ _ _ w (Or.inl rfl) rfl rfl rfl rfl rfl

theorem resetDone_noWrite (t : Int) : (resetDone t).filter Event.isWrite = [] := by
  unfold resetDone
  by_cases h0 : t = 0
  · rw [if_pos h0]; rfl
  rw [if_neg h0]
  by_cases h8 : t = 8
  · rw [if_pos h8]; rfl
  rw [if_neg h8]
  by_cases h9 : t = 9
  · rw [if_pos h9]; rfl
  rw [if_neg h9]
  rfl

theorem resetBranch_gated (cfg : Config) (w : World) :
    Gated cfg w
        (protectedBranch cfg RESET_HIST cfg.reset_hist_type resetMissing resetFailed
          (Event.printf "Enabling KPPA authorization with password...\n")
          (Event.printf "KPPA enabled. Sending reset command...\n")
          (resetDone cfg.reset_hist_type) w).ev ∧
      (cfg.current_password_set = 0 ∨ w.writes 0 = false →
        (protectedBranch cfg RESET_HIST cfg.reset_hist_type resetMissing resetFailed
          (Event.printf "Enabling KPPA authorization with password...\n")
          (Event.printf "KPPA enabled. Sending reset command...\n")
          (resetDone cfg.reset_hist_type) w).out = Outcome.exit EXIT_FAILURE) :=
  protectedBranch_gated cfg _ _ _ _ _ _ _ w (Or.inr rfl) rfl rfl rfl rfl
    (resetDone_noWrite _)

theorem writeBranch_gated (cfg : Config) (address value restart : Int) (w : World)
    (ha : (address == PASSWORD || address == RESET_HIST) = false) :
    Gated cfg w (writeBranch cfg address value restart w).ev :=
  Or.inl (noProtected_of_single _ address _ ha (writeBranch_writes cfg address value restart w))

/-- The session on an open connection: its writes are gated, and a protected branch that is
reached without `-Q`, or whose write to `KPPA` fails, ends with `EXIT_FAILURE`. -/
theorem registerPhase_gated (cfg : Config) (w : World) :
    Gated cfg w (registerPhase cfg w).ev ∧
      (¬ cfg.new_address > 0 → ¬ cfg.new_baud_rate ≥ 0 → ¬ cfg.new_parity_stop ≥ 0 →
        cfg.password_flag > 0 → (cfg.current_password_set = 0 ∨ w.writes 0 = false) →
        (registerPhase cfg w).out = Outcome.exit EXIT_FAILURE) ∧
      (¬ cfg.new_address > 0 → ¬ cfg.new_baud_rate ≥ 0 → ¬ cfg.new_parity_stop ≥ 0 →
        ¬ cfg.password_flag > 0 → ¬ cfg.demand_period_flag > 0 → ¬ cfg.slide_time_flag > 0 →
        ¬ cfg.scroll_time_flag > 0 → ¬ cfg.backlit_time_flag > 0 →
        cfg.reset_hist_flag > 0 → (cfg.current_password_set = 0 ∨ w.writes 0 = false) →
        (registerPhase cfg w).out = Outcome.exit EXIT_FAILURE) := by
  unfold registerPhase
  have he : Gated cfg w
      ((emit [Event.usage] w).andThen fun _ w1 => (exit_error cfg.globals w1 : Res Unit)).ev :=
    Or.inl (noProtected_of_noWrite _
      (andThen_noWrite _ _ rfl (fun _ w1 => exit_error_noWrite cfg.globals w1)))
  by_cases h1 : cfg.new_address > 0 ∧ cfg.new_baud_rate ≥ 0
  · rw [if_pos h1]
    exact ⟨he, fun n1 => absurd h1.1 n1, fun n1 => absurd h1.1 n1⟩
  rw [if_neg h1]
  by_cases h2 : (cfg.new_address > 0 ∨ cfg.new_baud_rate ≥ 0) ∧ cfg.new_parity_stop ≥ 0
  · rw [if_pos h2]
    exact ⟨he, fun _ _ n3 => absurd h2.2 n3, fun _ _ n3 => absurd h2.2 n3⟩
  rw [if_neg h2]
  by_cases h3 : cfg.new_address > 0
  · rw [if_pos h3]
    exact ⟨writeBranch_gated cfg _ _ _ w (by decide), fun n => absurd h3 n,
      fun n => absurd h3 n⟩
  rw [if_neg h3]
  by_cases h4 : cfg.new_baud_rate ≥ 0
  · rw [if_pos h4]
    exact ⟨writeBranch_gated cfg _ _ _ w (by decide), fun _ n => absurd h4 n,
      fun _ n => absurd h4 n⟩
  rw [if_neg h4]
  by_cases h5 : cfg.new_parity_stop ≥ 0
  · rw [if_pos h5]
    exact ⟨writeBranch_gated cfg _ _ _ w (by decide), fun _ _ n => absurd h5 n,
      fun _ _ n => absurd h5 n⟩
  rw [if_neg h5]
  by_cases h6 : cfg.password_flag > 0
  · rw [if_pos h6]
    exact ⟨(passwordBranch_gated cfg w).1, fun _ _ _ _ hq => (passwordBranch_gated cfg w).2 hq,
      fun _ _ _ n => absurd h6 n⟩
  rw [if_neg h6]
  by_cases h7 : cfg.demand_period_flag > 0
  · rw [if_pos h7]
    exact ⟨writeBranch_gated cfg _ _ _ w (by decide), fun _ _ _ p => absurd p h6,
      fun _ _ _ _ n => absurd h7 n⟩
  rw [if_neg h7]
  by_cases h8 : cfg.slide_time_flag > 0
  · rw [if_pos h8]
    exact ⟨writeBranch_gated cfg _ _ _ w (by decide), fun _ _ _ p => absurd p h6,
      fun _ _ _ _ _ n => absurd h8 n⟩
  rw [if_neg h8]
  by_cases h9 : cfg.scroll_time_flag > 0
  · rw [if_pos h9]
    exact ⟨writeBranch_gated cfg _ _ _ w (by decide), fun _ _ _ p => absurd p h6,
      fun _ _ _ _ _ _ n => absurd h9 n⟩
  rw [if_neg h9]
  by_cases h10 : cfg.backlit_time_flag > 0
  · rw [if_pos h10]
    exact ⟨writeBranch_gated cfg _ _ _ w (by decide), fun _ _ _ p => absurd p h6,
      fun _ _ _ _ _ _ _ n => absurd h10 n⟩
  rw [if_neg h10]
  by_cases h11 : cfg.reset_hist_flag > 0
  · rw [if_pos h11]
    exact ⟨(resetBranch_gated cfg w).1, fun _ _ _ p => absurd p h6,
      fun _ _ _ _ _ _ _ _ _ hq => (resetBranch_gated cfg w).2 hq⟩
  rw [if_neg h11]
  exact ⟨Or.inl (noProtected_of_noWrite _ (readPhase_noWrite cfg w)),
    fun _ _ _ p => absurd p h6, fun _ _ _ _ _ _ _ _ p => absurd p h11⟩

theorem setupEvents_noWrite (cfg : Config) :
    (setupEvents cfg).filter Event.isWrite = [] := by
  unfold setupEvents
  simp only [List.filter_append]
  by_cases hb : cfg.byte_timeout = -1
  · by_cases hs : (if cfg.settle_time = -1 then 0 else cfg.settle_time * 1000) ≠ 0
    · rw [if_pos hb, if_pos hs]; rfl
    · rw [if_pos hb, if_neg hs]; rfl
  · by_cases hs : (if cfg.settle_time = -1 then 0 else cfg.settle_time * 1000) ≠ 0
    · rw [if_neg hb, if_pos hs]; rfl
    · rw [if_neg hb, if_neg hs]; rfl

theorem gated_append_left (cfg : Config) (w : World) (p l : List Event)
    (hp : p.filter Event.isWrite = []) (h : Gated cfg w l) : Gated cfg w (p ++ l) := by
  rcases h with h | ⟨a, v, ha, hq, hw, hl⟩
  · left
    intro e he
    rcases List.mem_append.mp he with he | he
    · exact noProtected_of_noWrite p hp e he
    · exact h e he
  · right
    refine ⟨a, v, ha, hq, hw, ?_⟩
    rw [List.filter_append, hp, hl]
    rfl

/-- C11 as stated fails: with `-s 5 -K 1234` and no `-Q`, on a transport where every call
succeeds, `main` acts on `-s`, writes register `DEVICE_ID` and ends with status 0, although
`-K` was given without `-Q`. -/
theorem c11_counterexample :
    addressAndPasswordConfig.password_flag > 0 ∧
      addressAndPasswordConfig.current_password_set = 0 ∧
      (mainAfterLock addressAndPasswordConfig true true goodBus).out = Outcome.exit 0 ∧
      (mainAfterLock addressAndPasswordConfig true true goodBus).ev.filter Event.isWrite =
        [Event.writeRegisters DEVICE_ID [5]] := by
  decide

/-- C11, amended: in every run of `main` the register writes are gated by `KPPA`: either no
write goes to `PASSWORD` or `RESET_HIST`, or `-Q` was given, the writes of the run are exactly
the write to `KPPA` issued by `enableKPPA` followed by the write to the protected register, and
the transport answered the first write of the run, that of `enableKPPA`, with success (so
`enableKPPA` returned 0 before the protected write).  Without `-Q`, or when that first write
fails, no write goes to a protected register; and the process ends with `EXIT_FAILURE` when
`-K` or `-H` is the option `main` acts on, that is when no option tested earlier in its chain
is given (`-s`, `-r`, `-N` before `-K`; these and `-K`, `-L`, `-U`, `-R`, `-G` before `-H`). -/
theorem c11_protected_write_gated (cfg : Config) (ctxOk connectOk : Bool) (w : World) :
    Gated cfg w (mainAfterLock cfg ctxOk connectOk w).ev ∧
      (cfg.current_password_set = 0 ∨ w.writes 0 = false →
        ∀ e ∈ (mainAfterLock cfg ctxOk connectOk w).ev, Event.isProtectedWrite e = false) ∧
      (¬ cfg.new_address > 0 → ¬ cfg.new_baud_rate ≥ 0 → ¬ cfg.new_parity_stop ≥ 0 →
        cfg.password_flag > 0 → (cfg.current_password_set = 0 ∨ w.writes 0 = false) →
        (mainAfterLock cfg ctxOk connectOk w).out = Outcome.exit EXIT_FAILURE) ∧
      (¬ cfg.new_address > 0 → ¬ cfg.new_baud_rate ≥ 0 → ¬ cfg.new_parity_stop ≥ 0 →
        ¬ cfg.password_flag > 0 → ¬ cfg.demand_period_flag > 0 → ¬ cfg.slide_time_flag > 0 →
        ¬ cfg.scroll_time_flag > 0 → ¬ cfg.backlit_time_flag > 0 →
        cfg.reset_hist_flag > 0 → (cfg.current_password_set = 0 ∨ w.writes 0 = false) →
        (mainAfterLock cfg ctxOk connectOk w).out = Outcome.exit EXIT_FAILURE) := by
  have key : Gated cfg w (mainAfterLock cfg ctxOk connectOk w).ev ∧
      (¬ cfg.new_address > 0 → ¬ cfg.new_baud_rate ≥ 0 → ¬ cfg.new_parity_stop ≥ 0 →
        cfg.password_flag > 0 → (cfg.current_password_set = 0 ∨ w.writes 0 = false) →
        (mainAfterLock cfg ctxOk connectOk w).out = Outcome.exit EXIT_FAILURE) ∧
      (¬ cfg.new_address > 0 → ¬ cfg.new_baud_rate ≥ 0 → ¬ cfg.new_parity_stop ≥ 0 →
        ¬ cfg.password_flag > 0 → ¬ cfg.demand_period_flag > 0 → ¬ cfg.slide_time_flag > 0 →
        ¬ cfg.scroll_time_flag > 0 → ¬ cfg.backlit_time_flag > 0 →
        cfg.reset_hist_flag > 0 → (cfg.current_password_set = 0 ∨ w.writes 0 = false) →
        (mainAfterLock cfg ctxOk connectOk w).out = Outcome.exit EXIT_FAILURE) := by
    cases ctxOk with
    | false =>
      have hev : (mainAfterLock cfg false connectOk w).ev =
          [Event.modbus_new_rtu] ++ (ClrSerLock cfg.PID w.lock).2 := by
        simp [mainAfterLock]
      refine ⟨Or.inl (noProtected_of_noWrite _ ?_), fun _ _ _ _ _ => rfl,
        fun _ _ _ _ _ _ _ _ _ _ => rfl⟩
      rw [hev, List.filter_append, ClrSerLock_noWrite]
      rfl
    | true =>
      cases connectOk with
      | false =>
        have hev : (mainAfterLock cfg true false w).ev =
            [Event.modbus_new_rtu] ++ setupEvents cfg ++ [Event.modbus_free] ++
              (ClrSerLock cfg.PID w.lock).2 := by
          simp [mainAfterLock]
        refine ⟨Or.inl (noProtected_of_noWrite _ ?_), fun _ _ _ _ _ => rfl,
          fun _ _ _ _ _ _ _ _ _ _ => rfl⟩
        rw [hev]
        simp only [List.filter_append, ClrSerLock_noWrite, setupEvents_noWrite]
        rfl
      | true =>
        have hev : (mainAfterLock cfg true true w).ev =
            (Event.modbus_new_rtu :: setupEvents cfg) ++ (registerPhase cfg w).ev := by
          rfl
        have hout : (mainAfterLock cfg true true w).out = (registerPhase cfg w).out := by
          rfl
        have hp : (Event.modbus_new_rtu :: setupEvents cfg).filter Event.isWrite = [] := by
          simp only [List.filter_cons, Event.isWrite, setupEvents_noWrite]
          rfl
        rw [hev, hout]
        exact ⟨gated_append_left cfg w _ _ hp (registerPhase_gated cfg w).1,
          (registerPhase_gated cfg w).2.1, (registerPhase_gated cfg w).2.2⟩
  refine ⟨key.1, ?_, key.2.1, key.2.2⟩
  intro hq
  rcases key.1 with h | ⟨a, v, _, hset, hw, _⟩
  · exact h
  · rcases hq with hq | hq
    · exact absurd hq hset
    · rw [hw] at hq; cases hq

/-- C11 on four runs: `-K 1234` without `-Q` ends with `EXIT_FAILURE` and writes nothing;
`-Q 0 -K 1234` on a transport that fails ends with `EXIT_FAILURE` after the write to `KPPA`
only; `-Q 0 -K 1234` and `-Q 0 -H 8` on a transport that answers write first `KPPA` and then
the protected register. -/
theorem c11_protected_write_gated_witness :
    ((mainAfterLock passwordOnlyConfig true true goodBus).out = Outcome.exit EXIT_FAILURE ∧
        ∀ e ∈ (mainAfterLock passwordOnlyConfig true true goodBus).ev,
          Event.isProtectedWrite e = false) ∧
      ((mainAfterLock passwordConfig true true deadBus).out = Outcome.exit EXIT_FAILURE ∧
        (mainAfterLock passwordConfig true true deadBus).ev.filter Event.isWrite =
          [Event.writeRegisters KPPA [0]]) ∧
      (mainAfterLock passwordConfig true true goodBus).ev.filter Event.isWrite =
        [Event.writeRegisters KPPA [0], Event.writeRegisters PASSWORD [1234]] ∧
      (mainAfterLock resetConfig true true goodBus).ev.filter Event.isWrite =
        [Event.writeRegisters KPPA [0], Event.writeRegisters RESET_HIST [8]] ∧
      Gated passwordConfig goodBus (mainAfterLock passwordConfig true true goodBus).ev :=
  ⟨⟨(c11_protected_write_gated passwordOnlyConfig true true goodBus).2.2.1
        (by decide) (by decide) (by decide) (by decide) (Or.inl rfl),
      (c11_protected_write_gated passwordOnlyConfig true true goodBus).2.1 (Or.inl rfl)⟩,
    ⟨(c11_protected_write_gated passwordConfig true true deadBus).2.2.1
        (by decide) (by decide) (by decide) (by decide) (Or.inr rfl),
      by decide⟩,
    by decide, by decide,
    (c11_protected_write_gated passwordConfig true true goodBus).1⟩

/-! ## Float reassembly -/

theorem measureLoop_value (g : Globals) (address nb : Int) :
    ∀ (n : Nat) (w : World) (k : Nat) (regs : List Nat), k < n →
      (∀ i, i < k → w.reads i = none) → w.reads k = some regs →
      (measureLoop g address nb n w).1 = some regs := by
  intro n
  induction n with
  | zero => intro w k regs hk; omega
  | succ m ih =>
    intro w k regs hk hfail hok
    cases k with
    | zero =>
      unfold measureLoop
      simp only [hok]
    | succ j =>
      have h0 : w.reads 0 = none := hfail 0 (Nat.succ_pos j)
      have ih' := ih w.afterRead j regs (Nat.lt_of_succ_lt_succ hk)
        (fun i hi => hfail (i + 1) (Nat.succ_lt_succ hi)) hok
      unfold measureLoop
      simp only [h0]
      exact ih'

theorem ieee754Value_pi : ieee754Value 0x40490FDB = some (13176795 / 4194304) := by
  have h1 : (0x40490FDB : Nat) / 2 ^ 31 % 2 = 0 := by norm_num
  have h2 : (0x40490FDB : Nat) / 2 ^ 23 % 256 = 128 := by norm_num
  have h3 : (0x40490FDB : Nat) % 2 ^ 23 = 4788187 := by norm_num
  unfold ieee754Value
  simp only [h1, h2, h3]
  norm_num

/-- C14: when the read that succeeds within the retry budget returns the register pair
`[r0, r1]`, `getMeasureFloat` hands the pair `[r1, r0]` to the decoder, which assembles the
32-bit pattern `r0 * 2^16 + r1` from it.  For the raw pair `[0x4049, 0x0FDB]` the pattern is
`0x40490FDB`, whose IEEE-754 value differs from pi by less than 1e-4. -/
theorem c14_float_words (g : Globals) (address retries nb : Int) (w : World) (k r0 r1 : Nat)
    (hk : k < retries.toNat) (hfail : ∀ i, i < k → w.reads i = none)
    (hok : w.reads k = some [r0, r1]) :
    (getMeasureFloat g address retries nb w).out = Outcome.ret [r1, r0] ∧
      modbus_get_float_bits [r1, r0] = (r0 % 2 ^ 16) * 2 ^ 16 + r1 % 2 ^ 16 ∧
      (r0 = 0x4049 → r1 = 0x0FDB →
        modbus_get_float_bits [r1, r0] = 0x40490FDB ∧
        ∃ q : ℚ, modbus_get_float [r1, r0] = some q ∧ |(q : ℝ) - Real.pi| < 1 / 10000) := by
  have hv := measureLoop_value g address nb retries.toNat w k [r0, r1] hk hfail hok
  refine ⟨?_, rfl, ?_⟩
  · simp only [getMeasureFloat, hv]
    rfl
  · intro h0 h1
    subst h0
    subst h1
    have hb : modbus_get_float_bits [0x0FDB, 0x4049] = 0x40490FDB := by decide
    refine ⟨hb, 13176795 / 4194304, ?_, ?_⟩
    · unfold modbus_get_float
      rw [hb]
      exact ieee754Value_pi
    · have hlo := Real.pi_gt_d6
      have hhi := Real.pi_lt_d6
      rw [abs_lt]
      constructor
      · push_cast
        norm_num at hlo hhi ⊢
        linarith
      · push_cast
        norm_num at hlo hhi ⊢
        linarith

/-- C14 on a transport whose reads return `[0x4049, 0x0FDB]`: the decoder is handed
`[0x0FDB, 0x4049]`, the pattern is `0x40490FDB`, and the value is within 1e-4 of pi. -/
theorem c14_float_words_witness :
    (getMeasureFloat plainGlobals 0 1 2 goodBus).out = Outcome.ret [0x0FDB, 0x4049] ∧
      modbus_get_float_bits [0x0FDB, 0x4049] = 0x40490FDB ∧
      ∃ q : ℚ, modbus_get_float [0x0FDB, 0x4049] = some q ∧
        |(q : ℝ) - Real.pi| < 1 / 10000 :=
  ⟨(c14_float_words plainGlobals 0 1 2 goodBus 0 0x4049 0x0FDB (by decide)
      (fun i hi => absurd hi (Nat.not_lt_zero i)) rfl).1,
   ((c14_float_words plainGlobals 0 1 2 goodBus 0 0x4049 0x0FDB (by decide)
      (fun i hi => absurd hi (Nat.not_lt_zero i)) rfl).2.2 rfl rfl).1,
   ((c14_float_words plainGlobals 0 1 2 goodBus 0 0x4049 0x0FDB (by decide)
      (fun i hi => absurd hi (Nat.not_lt_zero i)) rfl).2.2 rfl rfl).2⟩

/-! ## The stale test -/

/-- A polling iteration whose record parse yields a pid runs the holder check on it. -/
theorem lockIter_holder (env : LockEnv) (COMMAND : Option (List Char)) (v : LoopVars)
    (s : LockState) (c : List Char)
    (hrec : (env.disturb v.totalLockAttempts s).devLCKfile = some c)
    (hflock : env.flockError v.totalLockAttempts = false)
    (herr : (fscanfRecord c).errno = 0) (h0 : (fscanfRecord c).LckPID ≠ 0) :
    lockIter env COMMAND v s =
      { out := (holderCheck env v (fscanfRecord c).LckPID (fscanfRecord c).COMMAND
          (env.disturb v.totalLockAttempts s)).out,
        lock := (holderCheck env v (fscanfRecord c).LckPID (fscanfRecord c).COMMAND
          (env.disturb v.totalLockAttempts s)).lock,
        ev := List.replicate (env.flockBusy v.totalLockAttempts) (Event.rnd_usleep 25000) ++
          [Event.fscanf (fscanfRecord c).bRead (fscanfRecord c).LckPID (fscanfRecord c).COMMAND]
          ++ (holderCheck env v (fscanfRecord c).LckPID (fscanfRecord c).COMMAND
            (env.disturb v.totalLockAttempts s)).ev } := by
  have hcond : ¬((fscanfRecord c).bRead = EOF ∨ (fscanfRecord c).LckPID = 0 ∨
      (fscanfRecord c).errno ≠ 0) := by
    rintro (h | h | h)
    · exact fscanfRecord_bRead_of_LckPID c h0 h
    · exact h0 h
    · exact h herr
  unfold lockIter
  simp only [hrec, hflock, Bool.false_eq_true, if_false]
  rw [if_neg hcond]

theorem pollSleep_no_clear (env : LockEnv) (v : LoopVars) (p : Nat) :
    Event.ClrSerLock p ∉ pollSleep env v := by
  intro h
  have := pollSleep_mem env v _ h
  cases this

/-- The stale branch of the holder check. -/
theorem holderCheck_stale (env : LockEnv) (v : LoopVars) (pid : Nat) (cmd : List Char)
    (s : LockState)
    (hst : staleTest env.PID pid cmd (env.getPIDcmd v.totalLockAttempts pid) = some true) :
    ∃ v2, (holderCheck env v pid cmd s).out = Outcome.ret v2 ∧ v2.LckPID = pid ∧
      v2.totalLockAttempts = v.totalLockAttempts ∧
      (v.staleLockRetries < staleLockRetriesMax →
        v2.staleLockRetries = v.staleLockRetries + 1 ∧ v2.clrStaleTargetPID = pid ∧
        (holderCheck env v pid cmd s).lock = s ∧
        ∀ p, Event.ClrSerLock p ∉ (holderCheck env v pid cmd s).ev) ∧
      (staleLockRetriesMax ≤ v.staleLockRetries → pid = v.clrStaleTargetPID →
        v2.staleLockRetries = 0 ∧ v2.clrStaleTargetPID = 0 ∧
        (holderCheck env v pid cmd s).lock = (ClrSerLock pid s).1 ∧
        Event.ClrSerLock pid ∈ (holderCheck env v pid cmd s).ev) ∧
      (staleLockRetriesMax ≤ v.staleLockRetries → pid ≠ v.clrStaleTargetPID →
        v2.staleLockRetries = v.staleLockRetries ∧
        v2.clrStaleTargetPID = v.clrStaleTargetPID ∧
        (holderCheck env v pid cmd s).lock = s ∧
        ∀ p, Event.ClrSerLock p ∉ (holderCheck env v pid cmd s).ev) := by
  by_cases hc : v.staleLockRetries < staleLockRetriesMax
  · refine ⟨⟨pid, v.staleLockRetries + 1, pid, 0, v.totalLockAttempts⟩,
      by simp only [holderCheck, hst, if_pos hc], rfl, rfl, ?_, ?_, ?_⟩
    · intro _
      refine ⟨rfl, rfl, by simp only [holderCheck, hst, if_pos hc], ?_⟩
      intro p hp
      simp only [holderCheck, hst, if_pos hc, List.mem_cons] at hp
      rcases hp with hp | hp
      · cases hp
      · exact pollSleep_no_clear _ _ _ hp
    · intro h; exact absurd hc (Nat.not_lt.mpr h)
    · intro h; exact absurd hc (Nat.not_lt.mpr h)
  · by_cases ht : pid = v.clrStaleTargetPID ∧ v.staleLockRetries ≥ staleLockRetriesMax
    · refine ⟨⟨pid, 0, 0, 0, v.totalLockAttempts⟩,
        by simp only [holderCheck, hst, if_neg hc, if_pos ht], rfl, rfl, ?_, ?_, ?_⟩
      · intro h; exact absurd h hc
      · intro _ _
        refine ⟨rfl, rfl, by simp only [holderCheck, hst, if_neg hc, if_pos ht], ?_⟩
        simp only [holderCheck, hst, if_neg hc, if_pos ht, List.mem_cons, List.mem_append]
        right; left
        rw [ClrSerLock_head]
        exact List.mem_cons_self _ _
      · intro _ hne; exact absurd ht.1 hne
    · refine ⟨⟨pid, v.staleLockRetries, v.clrStaleTargetPID, 0, v.totalLockAttempts⟩,
        by simp only [holderCheck, hst, if_neg hc, if_neg ht], rfl, rfl, ?_, ?_, ?_⟩
      · intro h; exact absurd h hc
      · intro h heq; exact absurd ⟨heq, h⟩ ht
      · intro _ _
        refine ⟨rfl, rfl, by simp only [holderCheck, hst, if_neg hc, if_neg ht], ?_⟩
        intro p hp
        simp only [holderCheck, hst, if_neg hc, if_neg ht, List.mem_cons] at hp
        rcases hp with hp | hp
        · cases hp
        · exact pollSleep_no_clear _ _ _ hp

/-- The valid branch of the holder check. -/
theorem holderCheck_valid (env : LockEnv) (v : LoopVars) (pid : Nat) (cmd : List Char)
    (s : LockState) (live : List Char)
    (hlive : env.getPIDcmd v.totalLockAttempts pid = some live)
    (hst : staleTest env.PID pid cmd (some live) = some false) :
    holderCheck env v pid cmd s =
      { out := Outcome.ret
          ⟨if env.PID ≠ pid ∧ isCompatible live = true then env.PID else pid, 0, 0, 0,
            v.totalLockAttempts⟩,
        lock := s,
        ev := Event.getPIDcmd pid (some live) ::
          pollSleep env ⟨if env.PID ≠ pid ∧ isCompatible live = true then env.PID else pid,
            0, 0, 0, v.totalLockAttempts⟩ } := by
  unfold holderCheck
  simp only [hlive, hst]
  by_cases hc : env.PID ≠ pid ∧ isCompatible live = true
  · simp only [if_pos hc]
  · simp only [if_neg hc]

theorem mem_iter_ev (p : Nat) (n : Nat) (b : Int) (q : Nat) (cmd : List Char)
    (tail : List Event) :
    Event.ClrSerLock p ∈ List.replicate n (Event.rnd_usleep 25000) ++ [Event.fscanf b q cmd]
      ++ tail ↔ Event.ClrSerLock p ∈ tail := by
  constructor
  · intro h
    rcases List.mem_append.mp h with h | h
    · rcases List.mem_append.mp h with h | h
      · cases List.eq_of_mem_replicate h
      · cases List.mem_singleton.mp h
    · exact h
  · intro h
    exact List.mem_append.mpr (Or.inr h)

/-- C16 as stated fails: pid 200 runs a program whose command `getPIDcmd` returns as the empty
string, and its record holds no command.  The live command is found and equals the recorded
(empty) command, yet the stale test holds: the first iteration of pid 100 counts the reading
instead of resetting the counter, and `lockSer` goes on to call `ClrSerLock(200)`, which
removes the record.  The record is read inside its buffer; the record of the same pid with
a command behind a newline is not. -/
theorem c16_counterexample :
    (quietEnv 30 emptyCmdTable).getPIDcmd 1 200 = some [] ∧
      cstr (fscanfRecord "200\n".toList).COMMAND = [] ∧
      staleTest 100 200 (fscanfRecord "200\n".toList).COMMAND (some []) = some true ∧
      (lockIter (quietEnv 30 emptyCmdTable) none ⟨0, 0, 0, 0, 1⟩ bareStart).out =
        Outcome.ret ⟨200, 1, 200, 0, 1⟩ ∧
      Event.ClrSerLock 200 ∈ (lockSer (quietEnv 30 emptyCmdTable) bareStart).ev ∧
      (lockSer (quietEnv 30 emptyCmdTable) bareStart).lock.devLCKfile = none ∧
      bareStart.devLCKfile = some "200\n".toList ∧
      readRecord "200\n".toList = Outcome.ret (fscanfRecord "200\n".toList) ∧
      readRecord "\n200 sdm120c\n".toList = Outcome.undefined := by
  decide

/-- In a polling iteration whose record parse yields a pid, when `getPIDcmd` of
that pid returns a command that is not the empty string and the recorded command is empty or
equal to it, the stale test fails: the iteration resets the stale counter and the clear target
to 0, leaves the lock files as it found them and does not call `ClrSerLock`. -/
theorem lockIter_valid (env : LockEnv) (COMMAND : Option (List Char))
    (v : LoopVars) (s : LockState) (c live : List Char)
    (hrec : (env.disturb v.totalLockAttempts s).devLCKfile = some c)
    (hflock : env.flockError v.totalLockAttempts = false)
    (herr : (fscanfRecord c).errno = 0) (h0 : (fscanfRecord c).LckPID ≠ 0)
    (hlive : env.getPIDcmd v.totalLockAttempts (fscanfRecord c).LckPID = some live)
    (hfound : live ≠ [])
    (hcmd : cstr (fscanfRecord c).COMMAND = [] ∨ cstr (fscanfRecord c).COMMAND = live) :
    staleTest env.PID (fscanfRecord c).LckPID (fscanfRecord c).COMMAND
        (env.getPIDcmd v.totalLockAttempts (fscanfRecord c).LckPID) = some false ∧
      ∃ v2, (lockIter env COMMAND v s).out = Outcome.ret v2 ∧
        v2.staleLockRetries = 0 ∧ v2.clrStaleTargetPID = 0 ∧
        (lockIter env COMMAND v s).lock = env.disturb v.totalLockAttempts s ∧
        ∀ p, Event.ClrSerLock p ∉ (lockIter env COMMAND v s).ev := by
  have hle : live.isEmpty = false := by
    cases live with
    | nil => exact absurd rfl hfound
    | cons a t => rfl
  have hst : staleTest env.PID (fscanfRecord c).LckPID (fscanfRecord c).COMMAND (some live) =
      some false := by
    rcases hcmd with h | h
    · simp [staleTest, h, hle]
    · simp [staleTest, h, hle]
  refine ⟨by rw [hlive]; exact hst, ?_⟩
  rw [lockIter_holder env COMMAND v s c hrec hflock herr h0,
    holderCheck_valid env v _ _ _ live hlive hst]
  refine ⟨_, rfl, rfl, rfl, rfl, ?_⟩
  intro p hp
  have hp2 := (mem_iter_ev p _ _ _ _ _).mp hp
  rcases List.mem_cons.mp hp2 with h | h
  · cases h
  · exact pollSleep_no_clear _ _ _ h

/-! ## Compatible peers -/

theorem AddSerLock_publish (pid : Nat) (cmd : Option (List Char)) (lf : Bool) (s : LockState) :
    ∀ e ∈ (AddSerLock pid cmd lf s).ev, Event.isPublish e = true := by
  intro e he
  unfold AddSerLock at he
  cases hn : s.devLCKfileNew with
  | some t =>
    simp only [hn, List.mem_cons, List.mem_singleton, List.not_mem_nil, or_false] at he
    rcases he with h | h | h | h <;> subst h <;> rfl
  | none =>
    simp only [hn] at he
    cases lf with
    | true =>
      simp only [if_true, List.mem_singleton] at he
      subst he; rfl
    | false =>
      cases hr : s.devLCKfile with
      | some t =>
        simp only [hr, Bool.false_eq_true, if_false, List.mem_cons, List.mem_singleton,
          List.not_mem_nil, or_false] at he
        rcases he with h | h <;> subst h <;> rfl
      | none =>
        simp only [hr, Bool.false_eq_true, if_false, List.mem_cons, List.mem_singleton,
          List.not_mem_nil, or_false] at he
        rcases he with h | h | h <;> subst h <;> rfl

theorem pollSleep_publish (env : LockEnv) (v : LoopVars) :
    ∀ e ∈ pollSleep env v, Event.isPublish e = true := by
  intro e he
  rw [pollSleep_mem env v e he]
  rfl

/-- The three shapes of a polling iteration: it ends the process before the record parse; or
it parses the record and takes the missing-pid branch; or the parse yields a pid and the
holder check runs. -/
theorem lockIter_shape (env : LockEnv) (COMMAND : Option (List Char)) (v : LoopVars)
    (s : LockState) :
    ((lockIter env COMMAND v s).out = Outcome.exit 2 ∧
        ∀ e ∈ (lockIter env COMMAND v s).ev, e = Event.rnd_usleep 25000) ∨
      (∃ b pid cmd tail,
        (lockIter env COMMAND v s).ev =
          List.replicate (env.flockBusy v.totalLockAttempts) (Event.rnd_usleep 25000) ++
            [Event.fscanf b pid cmd] ++ tail ∧
        (∀ e ∈ tail, Event.isPublish e = true) ∧
        ∀ v2, (lockIter env COMMAND v s).out = Outcome.ret v2 →
          v2.LckPID = pid ∧ v2.staleLockRetries = v.staleLockRetries ∧
          v2.clrStaleTargetPID = v.clrStaleTargetPID ∧
          v2.totalLockAttempts = v.totalLockAttempts) ∨
      (∃ c, (env.disturb v.totalLockAttempts s).devLCKfile = some c ∧
        env.flockError v.totalLockAttempts = false ∧
        (fscanfRecord c).errno = 0 ∧ (fscanfRecord c).LckPID ≠ 0) := by
  cases hf : (env.disturb v.totalLockAttempts s).devLCKfile with
  | none =>
    left
    have e : lockIter env COMMAND v s =
        { out := Outcome.exit 2, lock := env.disturb v.totalLockAttempts s, ev := [] } := by
      unfold lockIter
      simp only [hf]
    rw [e]
    exact ⟨rfl, fun e he => by cases he⟩
  | some content =>
    cases hfe : env.flockError v.totalLockAttempts with
    | true =>
      left
      have e : lockIter env COMMAND v s =
          { out := Outcome.exit 2, lock := env.disturb v.totalLockAttempts s,
            ev := List.replicate (env.flockBusy v.totalLockAttempts)
              (Event.rnd_usleep 25000) } := by
        unfold lockIter
        simp only [hf, hfe, if_true]
      rw [e]
      exact ⟨rfl, fun e he => List.eq_of_mem_replicate he⟩
    | false =>
      by_cases hcond : (fscanfRecord content).bRead = EOF ∨ (fscanfRecord content).LckPID = 0 ∨
          (fscanfRecord content).errno ≠ 0
      · right; left
        refine ⟨(fscanfRecord content).bRead, (fscanfRecord content).LckPID,
          (fscanfRecord content).COMMAND, ?_⟩
        unfold lockIter
        simp only [hf, hfe, Bool.false_eq_true, if_false]
        rw [if_pos hcond]
        by_cases herr : (fscanfRecord content).errno ≠ 0
        · rw [if_pos herr]
          exact ⟨[], by simp, by simp, fun v2 h => by cases h⟩
        · rw [if_neg herr]
          by_cases hm : v.missingPidRetries < missingPidRetriesMax
          · rw [if_pos hm]
            refine ⟨Event.rnd_usleep 250000 :: pollSleep env
              { v with LckPID := (fscanfRecord content).LckPID,
                       missingPidRetries := v.missingPidRetries + 1 }, by simp, ?_, ?_⟩
            · intro e he
              rcases List.mem_cons.mp he with h | h
              · subst h; rfl
              · exact pollSleep_publish env _ e h
            · intro v2 h
              simp only [Outcome.ret.injEq] at h
              subst h
              exact ⟨rfl, rfl, rfl, rfl⟩
          · rw [if_neg hm]
            have hpub := AddSerLock_publish env.PID COMMAND (env.linkFails v.totalLockAttempts)
              (env.disturb v.totalLockAttempts s)
            cases ha : (AddSerLock env.PID COMMAND (env.linkFails v.totalLockAttempts)
                (env.disturb v.totalLockAttempts s)).out with
            | ret u =>
              simp only [ha]
              refine ⟨(AddSerLock env.PID COMMAND (env.linkFails v.totalLockAttempts)
                  (env.disturb v.totalLockAttempts s)).ev ++ pollSleep env
                { v with LckPID := (fscanfRecord content).LckPID, missingPidRetries := 0 },
                by simp, ?_, ?_⟩
              · intro e he
                rcases List.mem_append.mp he with h | h
                · exact hpub e h
                · exact pollSleep_publish env _ e h
              · intro v2 h
                simp only [Outcome.ret.injEq] at h
                subst h
                exact ⟨rfl, rfl, rfl, rfl⟩
            | exit st =>
              simp only [ha]
              exact ⟨_, rfl, hpub, fun v2 h => by cases h⟩
            | undefined =>
              simp only [ha]
              exact ⟨_, rfl, hpub, fun v2 h => by cases h⟩
      · right; right
        refine ⟨content, rfl, rfl, ?_, ?_⟩
        · by_contra h; exact hcond (Or.inr (Or.inr h))
        · intro h; exact hcond (Or.inr (Or.inl h))

theorem isParse_of_publish (e : Event) (h : Event.isPublish e = true) :
    Event.isParse e = false := by
  cases e <;> first | rfl | cases h

theorem countP_busy (n : Nat) :
    (List.replicate n (Event.rnd_usleep 25000)).countP Event.isParse = 0 := by
  apply List.countP_eq_zero.mpr
  intro e he
  rw [List.eq_of_mem_replicate he]
  simp [Event.isParse]

theorem countP_noParse (l : List Event) (h : ∀ e ∈ l, Event.isParse e = false) :
    l.countP Event.isParse = 0 := by
  apply List.countP_eq_zero.mpr
  intro e he
  rw [h e he]
  simp

/-- A polling iteration parses the record at most once. -/
theorem lockIter_parse_count (env : LockEnv) (COMMAND : Option (List Char)) (v : LoopVars)
    (s : LockState) : (lockIter env COMMAND v s).ev.countP Event.isParse ≤ 1 := by
  rcases lockIter_shape env COMMAND v s with ⟨_, h⟩ | ⟨b, pid, cmd, tail, hev, htail, _⟩ |
      ⟨c, hrec, hflock, herr, h0⟩
  · rw [countP_noParse _ (fun e he => by rw [h e he]; rfl)]
    exact Nat.zero_le 1
  · rw [hev, List.countP_append, List.countP_append, countP_busy,
      countP_noParse tail (fun e he => isParse_of_publish e (htail e he))]
    simp [Event.isParse]
  · rw [lockIter_holder env COMMAND v s c hrec hflock herr h0]
    obtain ⟨tail, htail, hq⟩ := holderCheck_events env v (fscanfRecord c).LckPID
      (fscanfRecord c).COMMAND (env.disturb v.totalLockAttempts s)
    simp only [htail, List.countP_append, countP_busy, List.countP_cons,
      countP_noParse tail (fun e he => (hq e he).2)]
    simp [Event.isParse]

theorem ClrSerLock_countP (pid : Nat) (s : LockState) :
    (ClrSerLock pid s).2.countP Event.isParse = 0 :=
  countP_noParse _ (fun e he => (ClrSerLock_events pid s e he).2)

/-- The loop parses the record at most as often as it has attempts left. -/
theorem lockLoop_parse_count (env : LockEnv) (COMMAND : Option (List Char)) :
    ∀ (k : Nat) (v : LoopVars) (now : Int) (s : LockState),
      (lockLoop env COMMAND k v now s).ev.countP Event.isParse ≤ k := by
  intro k
  induction k with
  | zero =>
    intro v now s
    by_cases hc : v.LckPID ≠ env.PID ∧ now ≤ env.yLockWait * 1000000
    · rw [lockLoop, if_pos hc]
      simp only [ClrSerLock_countP]
      exact Nat.le_refl 0
    · rw [lockLoop_done env COMMAND 0 v now s hc]
      simp
  | succ k ih =>
    intro v now s
    by_cases hc : v.LckPID ≠ env.PID ∧ now ≤ env.yLockWait * 1000000
    · rw [lockLoop_succ env COMMAND k v now s hc]
      have hit := lockIter_parse_count env COMMAND
        { v with totalLockAttempts := v.totalLockAttempts + 1 } s
      split
      · simp only [List.countP_append]
        have := ih ‹LoopVars› (env.clock (v.totalLockAttempts + 1))
          (lockIter env COMMAND { v with totalLockAttempts := v.totalLockAttempts + 1 } s).lock
        omega
      · simp only []
        omega
      · simp only []
        omega
    · rw [lockLoop_done env COMMAND (k + 1) v now s hc]
      simp

/-! ## The attempt bound -/

/-- A polling iteration that returns has parsed the record exactly once. -/
theorem lockIter_parse_one (env : LockEnv) (COMMAND : Option (List Char)) (v v2 : LoopVars)
    (s : LockState) (hout : (lockIter env COMMAND v s).out = Outcome.ret v2) :
    (lockIter env COMMAND v s).ev.countP Event.isParse = 1 := by
  rcases lockIter_shape env COMMAND v s with ⟨h, _⟩ | ⟨b, pid, cmd, tail, hev, htail, _⟩ |
      ⟨c, hrec, hflock, herr, h0⟩
  · rw [h] at hout; cases hout
  · rw [hev, List.countP_append, List.countP_append, countP_busy,
      countP_noParse tail (fun e he => isParse_of_publish e (htail e he))]
    simp [Event.isParse]
  · rw [lockIter_holder env COMMAND v s c hrec hflock herr h0]
    obtain ⟨tail, htail, hq⟩ := holderCheck_events env v (fscanfRecord c).LckPID
      (fscanfRecord c).COMMAND (env.disturb v.totalLockAttempts s)
    simp only [htail, List.countP_append, countP_busy, List.countP_cons,
      countP_noParse tail (fun e he => (hq e he).2)]
    simp [Event.isParse]

/-- After `n` complete iterations the loop goes on as the loop with `n` attempts less. -/
theorem lockLoop_after (env : LockEnv) (COMMAND : Option (List Char)) (k : Nat) :
    ∀ (n : Nat) (v : LoopVars) (now : Int) (s : LockState) (v' : LoopVars) (now' : Int)
      (s' : LockState), loopAfter env COMMAND n v now s = some (v', now', s') →
      ∃ pre, pre.countP Event.isParse = n ∧
        lockLoop env COMMAND (n + k) v now s =
          { out := (lockLoop env COMMAND k v' now' s').out,
            lock := (lockLoop env COMMAND k v' now' s').lock,
            ev := pre ++ (lockLoop env COMMAND k v' now' s').ev } := by
  intro n
  induction n with
  | zero =>
    intro v now s v' now' s' h
    simp only [loopAfter, Option.some.injEq, Prod.mk.injEq] at h
    obtain ⟨h1, h2, h3⟩ := h
    subst h1; subst h2; subst h3
    exact ⟨[], rfl, by simp⟩
  | succ n ih =>
    intro v now s v' now' s' h
    by_cases hc : v.LckPID ≠ env.PID ∧ now ≤ env.yLockWait * 1000000
    · rw [loopAfter, if_pos hc] at h
      cases hit : (lockIter env COMMAND
          { v with totalLockAttempts := v.totalLockAttempts + 1 } s).out with
      | exit c => simp [hit] at h
      | undefined => simp [hit] at h
      | ret v2 =>
        simp only [hit] at h
        obtain ⟨pre, hpre, heq⟩ := ih v2 _ _ v' now' s' h
        refine ⟨(lockIter env COMMAND
          { v with totalLockAttempts := v.totalLockAttempts + 1 } s).ev ++ pre, ?_, ?_⟩
        · rw [List.countP_append, hpre, lockIter_parse_one env COMMAND _ v2 s hit]
          omega
        · have hk : n + 1 + k = (n + k) + 1 := by omega
          rw [hk, lockLoop_succ env COMMAND (n + k) v now s hc]
          simp only [hit]
          rw [heq]
          simp only [List.append_assoc]
    · rw [loopAfter, if_neg hc] at h
      cases h

theorem AddSerLock_countP (pid : Nat) (cmd : Option (List Char)) (lf : Bool) (s : LockState) :
    (AddSerLock pid cmd lf s).ev.countP Event.isParse = 0 :=
  countP_noParse _ (fun e he => (AddSerLock_events pid cmd lf s e he).2)

theorem upgrade_countP (env : LockEnv) (s : LockState) :
    (upgrade env s).ev.countP Event.isParse = 0 :=
  countP_noParse _ (upgrade_events env s)

theorem lockFailureLog_countP (env : LockEnv) (q : Nat) :
    (lockFailureLog env q).countP Event.isParse = 0 := by
  apply countP_noParse
  intro e he
  obtain ⟨t, f, a, h⟩ := lockFailureLog_mem env q e he
  subst h
  rfl

/-- The events of `lockSer` are those of `AddSerLock`, those of the loop when `AddSerLock`
returned, and a rest without record parse. -/
theorem lockSer_parse_count (env : LockEnv) (s : LockState) :
    (lockSer env s).ev.countP Event.isParse ≤
      (lockLoop env (env.getPIDcmd 0 env.PID) maxLockAttempts ⟨0, 0, 0, 0, 0⟩ 0
        (AddSerLock env.PID (env.getPIDcmd 0 env.PID) (env.linkFails 0) s).lock).ev.countP
        Event.isParse := by
  unfold lockSer
  cases ha : (AddSerLock env.PID (env.getPIDcmd 0 env.PID) (env.linkFails 0) s).out with
  | exit c =>
    simp only [ha, AddSerLock_countP]
    exact Nat.zero_le _
  | undefined =>
    simp only [ha, AddSerLock_countP]
    exact Nat.zero_le _
  | ret u =>
    simp only [ha]
    cases hl : (lockLoop env (env.getPIDcmd 0 env.PID) maxLockAttempts ⟨0, 0, 0, 0, 0⟩ 0
        (AddSerLock env.PID (env.getPIDcmd 0 env.PID) (env.linkFails 0) s).lock).out with
    | exit c =>
      simp only [hl, List.countP_append, AddSerLock_countP]
      omega
    | undefined =>
      simp only [hl, List.countP_append, AddSerLock_countP]
      omega
    | ret v =>
      simp only [hl]
      by_cases hv : v.LckPID ≠ env.PID
      · rw [if_pos hv]
        simp only [List.countP_append, AddSerLock_countP, ClrSerLock_countP,
          lockFailureLog_countP]
        omega
      · rw [if_neg hv]
        simp only [List.countP_append, AddSerLock_countP, upgrade_countP]
        omega

/-- C20: whatever the environment (lock-file contents, clock readings, process table, wait
budget), `lockSer` parses the record at most `maxLockAttempts` = 100 times.  When the loop
comes back to its condition after 100 complete iterations and the condition holds, so that a
101st iteration is entered, the loop has parsed the record exactly 100 times, calls
`ClrSerLock(PID)` and ends the process with status 2. -/
theorem c20_attempt_bound (env : LockEnv) (s : LockState) :
    maxLockAttempts = 100 ∧
    (lockSer env s).ev.countP Event.isParse ≤ 100 ∧
    ∀ (v : LoopVars) (now : Int) (s1 : LockState),
      (AddSerLock env.PID (env.getPIDcmd 0 env.PID) (env.linkFails 0) s).out = Outcome.ret () →
      loopAfter env (env.getPIDcmd 0 env.PID) 100 ⟨0, 0, 0, 0, 0⟩ 0
        (AddSerLock env.PID (env.getPIDcmd 0 env.PID) (env.linkFails 0) s).lock =
        some (v, now, s1) →
      v.LckPID ≠ env.PID ∧ now ≤ env.yLockWait * 1000000 →
      (lockSer env s).out = Outcome.exit 2 ∧
      (lockSer env s).lock = (ClrSerLock env.PID s1).1 ∧
      ∃ pre, (lockSer env s).ev = pre ++ Event.ClrSerLock env.PID ::
          (clrFiles env.PID (releaseModbusExclusiveLock s1)).2 ∧
        pre.countP Event.isParse = 100 := by
  refine ⟨rfl, ?_, ?_⟩
  · exact Nat.le_trans (lockSer_parse_count env s) (lockLoop_parse_count env _ _ _ _ _)
  · intro v now s1 ha hafter hcond
    obtain ⟨pre, hpre, heq⟩ := lockLoop_after env (env.getPIDcmd 0 env.PID) 0 100 _ _ _ v now s1
      hafter
    have hl : lockLoop env (env.getPIDcmd 0 env.PID) maxLockAttempts ⟨0, 0, 0, 0, 0⟩ 0
        (AddSerLock env.PID (env.getPIDcmd 0 env.PID) (env.linkFails 0) s).lock =
        { out := Outcome.exit 2, lock := (ClrSerLock env.PID s1).1,
          ev := pre ++ (ClrSerLock env.PID s1).2 } := by
      have h0 : lockLoop env (env.getPIDcmd 0 env.PID) 0 v now s1 =
          { out := Outcome.exit 2, lock := (ClrSerLock env.PID s1).1,
            ev := (ClrSerLock env.PID s1).2 } := by
        rw [lockLoop, if_pos hcond]
      rw [h0] at heq
      exact heq
    unfold lockSer
    simp only [ha, hl]
    refine ⟨trivial, trivial, (AddSerLock env.PID (env.getPIDcmd 0 env.PID) (env.linkFails 0) s).ev
      ++ pre, ?_, ?_⟩
    · rw [ClrSerLock_head, List.append_assoc]
    · rw [List.countP_append, AddSerLock_countP, hpre]

set_option maxRecDepth 100000 in
/-- C20 on a record file without content that nobody repairs, with a wait budget of 30 s and
iterations of 30 ms: after 100 iterations the budget is not used up, and `lockSer` ends with
status 2 after exactly 100 record parses. -/
theorem c20_attempt_bound_witness :
    (lockSer (quietEnv 30 (fun _ => none)) emptyStart).out = Outcome.exit 2 ∧
      (lockSer (quietEnv 30 (fun _ => none)) emptyStart).ev.countP Event.isParse ≤ 100 ∧
      ∃ pre, (lockSer (quietEnv 30 (fun _ => none)) emptyStart).ev =
          pre ++ Event.ClrSerLock 100 ::
            (clrFiles 100 (releaseModbusExclusiveLock emptyStart)).2 ∧
        pre.countP Event.isParse = 100 :=
  have h := (c20_attempt_bound (quietEnv 30 (fun _ => none)) emptyStart).2.2
    ⟨0, 0, 0, 1, 100⟩ 3000000 emptyStart (by decide) (by decide) (by decide)
  ⟨h.1, (c20_attempt_bound (quietEnv 30 (fun _ => none)) emptyStart).2.1, h.2.2⟩

/-! ## The wait budget -/

theorem holderCheck_ret (env : LockEnv) (v v2 : LoopVars) (pid : Nat) (cmd : List Char)
    (s : LockState) (hout : (holderCheck env v pid cmd s).out = Outcome.ret v2) :
    v2.totalLockAttempts = v.totalLockAttempts ∧ (v2.LckPID = pid ∨ v2.LckPID = env.PID) := by
  cases hst : staleTest env.PID pid cmd (env.getPIDcmd v.totalLockAttempts pid) with
  | none =>
    unfold holderCheck at hout
    simp only [hst] at hout
    cases hout
  | some b =>
    cases b with
    | true =>
      obtain ⟨w, hw, hpid, htot, _⟩ := holderCheck_stale env v pid cmd s hst
      rw [hw] at hout
      simp only [Outcome.ret.injEq] at hout
      subst hout
      exact ⟨htot, Or.inl hpid⟩
    | false =>
      cases hl : env.getPIDcmd v.totalLockAttempts pid with
      | none =>
        rw [hl] at hst
        unfold staleTest at hst
        by_cases hp : env.PID ≠ pid
        · rw [if_pos hp] at hst; cases hst
        · rw [if_neg hp] at hst; cases hst
      | some live =>
        rw [hl] at hst
        rw [holderCheck_valid env v pid cmd s live hl hst] at hout
        simp only [Outcome.ret.injEq] at hout
        subst hout
        refine ⟨rfl, ?_⟩
        by_cases hc : env.PID ≠ pid ∧ isCompatible live = true
        · right; simp only [if_pos hc]
        · left; simp only [if_neg hc]

/-- A polling iteration that returns keeps the attempt counter and leaves in `LckPID` the pid
of its record parse, or `PID`. -/
theorem lockIter_ret (env : LockEnv) (COMMAND : Option (List Char)) (v v2 : LoopVars)
    (s : LockState) (hout : (lockIter env COMMAND v s).out = Outcome.ret v2) :
    v2.totalLockAttempts = v.totalLockAttempts ∧
      ∃ pre b pid cmd post, (lockIter env COMMAND v s).ev = pre ++ Event.fscanf b pid cmd :: post ∧
        (∀ e ∈ post, Event.isParse e = false) ∧ (v2.LckPID = pid ∨ v2.LckPID = env.PID) := by
  rcases lockIter_shape env COMMAND v s with ⟨h, _⟩ | ⟨b, pid, cmd, tail, hev, htail, hv⟩ |
      ⟨c, hrec, hflock, herr, h0⟩
  · rw [h] at hout; cases hout
  · obtain ⟨h1, _, _, h4⟩ := hv v2 hout
    refine ⟨h4, List.replicate (env.flockBusy v.totalLockAttempts) (Event.rnd_usleep 25000),
      b, pid, cmd, tail, ?_, fun e he => isParse_of_publish e (htail e he), Or.inl h1⟩
    rw [hev, List.append_assoc]
    rfl
  · rw [lockIter_holder env COMMAND v s c hrec hflock herr h0] at hout ⊢
    obtain ⟨tail, htail, hq⟩ := holderCheck_events env v (fscanfRecord c).LckPID
      (fscanfRecord c).COMMAND (env.disturb v.totalLockAttempts s)
    obtain ⟨htot, hpid⟩ := holderCheck_ret env v v2 _ _ _ hout
    refine ⟨htot, List.replicate (env.flockBusy v.totalLockAttempts) (Event.rnd_usleep 25000),
      (fscanfRecord c).bRead, (fscanfRecord c).LckPID, (fscanfRecord c).COMMAND,
      Event.getPIDcmd (fscanfRecord c).LckPID
        (env.getPIDcmd v.totalLockAttempts (fscanfRecord c).LckPID) :: tail, ?_, ?_, hpid⟩
    · simp only [htail, List.append_assoc, List.singleton_append]
    · intro e he
      rcases List.mem_cons.mp he with h | h
      · subst h; rfl
      · exact (hq e h).2

/-- When the loop returns with `LckPID` other than `PID`, the wait budget is exceeded: either
no iteration ran, or the clock reading of the last iteration is beyond the budget and
`LckPID` is the pid of the last record parse. -/
theorem lockLoop_ret_other (env : LockEnv) (COMMAND : Option (List Char)) :
    ∀ (k : Nat) (v : LoopVars) (now : Int) (s : LockState) (v' : LoopVars),
      (lockLoop env COMMAND k v now s).out = Outcome.ret v' → v'.LckPID ≠ env.PID →
      (v' = v ∧ (lockLoop env COMMAND k v now s).ev = [] ∧ ¬ now ≤ env.yLockWait * 1000000) ∨
      (v.totalLockAttempts < v'.totalLockAttempts ∧
        ¬ env.clock v'.totalLockAttempts ≤ env.yLockWait * 1000000 ∧
        ∃ pre b cmd post, (lockLoop env COMMAND k v now s).ev =
            pre ++ Event.fscanf b v'.LckPID cmd :: post ∧
          ∀ e ∈ post, Event.isParse e = false) := by
  intro k
  induction k with
  | zero =>
    intro v now s v' hout hv'
    by_cases hc : v.LckPID ≠ env.PID ∧ now ≤ env.yLockWait * 1000000
    · rw [lockLoop, if_pos hc] at hout
      cases hout
    · rw [lockLoop_done env COMMAND 0 v now s hc] at hout ⊢
      simp only [Outcome.ret.injEq] at hout
      subst hout
      exact Or.inl ⟨rfl, rfl, fun h => hc ⟨hv', h⟩⟩
  | succ k ih =>
    intro v now s v' hout hv'
    by_cases hc : v.LckPID ≠ env.PID ∧ now ≤ env.yLockWait * 1000000
    · rw [lockLoop_succ env COMMAND k v now s hc] at hout ⊢
      cases hit : (lockIter env COMMAND
          { v with totalLockAttempts := v.totalLockAttempts + 1 } s).out with
      | exit c => simp [hit] at hout
      | undefined => simp [hit] at hout
      | ret v2 =>
        simp only [hit] at hout ⊢
        obtain ⟨htot, pre, b, pid, cmd, post, hev, hpost, hpid⟩ :=
          lockIter_ret env COMMAND _ v2 s hit
        have htot2 : v2.totalLockAttempts = v.totalLockAttempts + 1 := htot
        right
        rcases ih v2 _ _ v' hout hv' with ⟨heq, hevr, hnow⟩ | ⟨hlt, hclock, pre2, b2, cmd2, post2,
            hev2, hpost2⟩
        · subst heq
          refine ⟨by omega, by rw [htot2]; exact hnow, pre, b, cmd, post, ?_, hpost⟩
          rw [hevr, List.append_nil, hev]
          rcases hpid with h | h
          · rw [h]
          · exact absurd h hv'
        · refine ⟨by omega, hclock, (lockIter env COMMAND
            { v with totalLockAttempts := v.totalLockAttempts + 1 } s).ev ++ pre2, b2, cmd2,
            post2, ?_, hpost2⟩
          rw [hev2, List.append_assoc]
    · rw [lockLoop_done env COMMAND (k + 1) v now s hc] at hout ⊢
      simp only [Outcome.ret.injEq] at hout
      subst hout
      exact Or.inl ⟨rfl, rfl, fun h => hc ⟨hv', h⟩⟩

theorem AddSerLock_no_upgrade (pid : Nat) (cmd : Option (List Char)) (lf : Bool)
    (s : LockState) : Event.upgradeOpen ∉ (AddSerLock pid cmd lf s).ev := by
  intro h
  have := (AddSerLock_events pid cmd lf s _ h).1
  cases this

theorem lockLoop_no_upgrade (env : LockEnv) (COMMAND : Option (List Char)) (k : Nat)
    (v : LoopVars) (now : Int) (s : LockState) :
    Event.upgradeOpen ∉ (lockLoop env COMMAND k v now s).ev := by
  intro h
  have := lockLoop_polling env COMMAND k v now s _ h
  cases this

theorem ClrSerLock_no_upgrade (pid : Nat) (s : LockState) :
    Event.upgradeOpen ∉ (ClrSerLock pid s).2 := by
  intro h
  have := (ClrSerLock_events pid s _ h).1
  cases this

/-- C19 as stated fails: without `-d` the debug mask is 0 and `log_message` writes nothing.
Pid 100 finds the record of a live editor, pid 200, with the default wait budget of 0 seconds:
`lockSer` calls `ClrSerLock(100)` and ends with status 2, and reports no holder. -/
theorem c19_counterexample :
    (quietEnv 0 editorTable).debug_mask = 0 ∧
      (lockSer (quietEnv 0 editorTable) editorStart).out = Outcome.exit 2 ∧
      (lockSer (quietEnv 0 editorTable) editorStart).ev =
        [Event.AddSerLock 100, Event.unlink LockFile.devLCKfileNew,
         Event.fscanf 2 200 "/usr/bin/vim".toList,
         Event.getPIDcmd 200 (some "/usr/bin/vim".toList), Event.ClrSerLock 100] := by
  decide

/-- C19, amended: when the loop of `lockSer` returns with `LckPID` other than `PID` (its
condition `LckPID != PID && tv_diff <= yLockWait * 1000000` can only have failed on the time),
then, for a wait budget of 0 or more seconds, at least one iteration ran and the clock reading
of the last one is beyond the budget; `lockSer` calls `ClrSerLock(PID)` right after the loop,
does not open the record for the exclusive upgrade, and ends the process with status 2.
Between `ClrSerLock(PID)` and the end it passes three messages to `log_message`; the second
names `LckPID`, the pid of the last record parse, as holder, and is written when the debug
mask selects standard error or the system log; with the debug mask 0 no message is written. -/
theorem c19_wait_budget_exceeded (env : LockEnv) (s : LockState) (v : LoopVars)
    (hwait : 0 ≤ env.yLockWait)
    (hadd : (AddSerLock env.PID (env.getPIDcmd 0 env.PID) (env.linkFails 0) s).out =
      Outcome.ret ())
    (hloop : (lockLoop env (env.getPIDcmd 0 env.PID) maxLockAttempts ⟨0, 0, 0, 0, 0⟩ 0
      (AddSerLock env.PID (env.getPIDcmd 0 env.PID) (env.linkFails 0) s).lock).out =
        Outcome.ret v)
    (hv : v.LckPID ≠ env.PID) :
    (1 ≤ v.totalLockAttempts ∧
        env.yLockWait * 1000000 < env.clock v.totalLockAttempts) ∧
      (lockSer env s).out = Outcome.exit 2 ∧
      (∃ pre b cmd post,
        (lockSer env s).ev = pre ++ Event.fscanf b v.LckPID cmd :: post ++
          Event.ClrSerLock env.PID ::
            (clrFiles env.PID (releaseModbusExclusiveLock
              (lockLoop env (env.getPIDcmd 0 env.PID) maxLockAttempts ⟨0, 0, 0, 0, 0⟩ 0
                (AddSerLock env.PID (env.getPIDcmd 0 env.PID) (env.linkFails 0)
                  s).lock).lock)).2 ++ lockFailureLog env v.LckPID ∧
        ∀ e ∈ post, Event.isParse e = false) ∧
      Event.upgradeOpen ∉ (lockSer env s).ev ∧
      ((DEBUG_STDERR ||| DEBUG_SYSLOG) &&& env.debug_mask ≠ 0 →
        Event.log_message (DEBUG_STDERR ||| DEBUG_SYSLOG)
          "Unable to get lock on serial %s for %lu in %ds: still locked by %lu."
          [env.PID, Int.tmod env.yLockWait 30, v.LckPID] ∈ lockFailureLog env v.LckPID) ∧
      (env.debug_mask = 0 → ∀ t f a, Event.log_message t f a ∉ (lockSer env s).ev) := by
  have hev : (lockSer env s).ev =
      (AddSerLock env.PID (env.getPIDcmd 0 env.PID) (env.linkFails 0) s).ev ++
        (lockLoop env (env.getPIDcmd 0 env.PID) maxLockAttempts ⟨0, 0, 0, 0, 0⟩ 0
          (AddSerLock env.PID (env.getPIDcmd 0 env.PID) (env.linkFails 0) s).lock).ev ++
        (ClrSerLock env.PID
          (lockLoop env (env.getPIDcmd 0 env.PID) maxLockAttempts ⟨0, 0, 0, 0, 0⟩ 0
            (AddSerLock env.PID (env.getPIDcmd 0 env.PID) (env.linkFails 0) s).lock).lock).2 ++
        lockFailureLog env v.LckPID := by
    unfold lockSer
    simp only [hadd, hloop, if_pos hv]
  have hout : (lockSer env s).out = Outcome.exit 2 := by
    unfold lockSer
    simp only [hadd, hloop, if_pos hv]
  have hpolling : ∀ e ∈
      (AddSerLock env.PID (env.getPIDcmd 0 env.PID) (env.linkFails 0) s).ev ++
        (lockLoop env (env.getPIDcmd 0 env.PID) maxLockAttempts ⟨0, 0, 0, 0, 0⟩ 0
          (AddSerLock env.PID (env.getPIDcmd 0 env.PID) (env.linkFails 0) s).lock).ev ++
        (ClrSerLock env.PID
          (lockLoop env (env.getPIDcmd 0 env.PID) maxLockAttempts ⟨0, 0, 0, 0, 0⟩ 0
            (AddSerLock env.PID (env.getPIDcmd 0 env.PID) (env.linkFails 0) s).lock).lock).2,
      Event.isPolling e = true := by
    intro e he
    rcases List.mem_append.mp he with h | h
    · rcases List.mem_append.mp h with h | h
      · exact (AddSerLock_events _ _ _ _ e h).1
      · exact lockLoop_polling _ _ _ _ _ _ e h
    · exact (ClrSerLock_events _ _ e h).1
  rcases lockLoop_ret_other env _ _ _ _ _ v hloop hv with ⟨_, _, hnow⟩ |
      ⟨hlt, hclock, pre, b, cmd, post, hevl, hpost⟩
  · exact absurd (by simpa using hwait) hnow
  · refine ⟨⟨by simp only at hlt; omega, by omega⟩, hout, ?_, ?_, ?_, ?_⟩
    · refine ⟨(AddSerLock env.PID (env.getPIDcmd 0 env.PID) (env.linkFails 0) s).ev ++ pre, b,
        cmd, post, ?_, hpost⟩
      rw [hev, hevl, ClrSerLock_head]
      simp only [List.append_assoc, List.cons_append]
    · rw [hev]
      intro h
      rcases List.mem_append.mp h with h | h
      · have := hpolling _ h
        cases this
      · obtain ⟨t, f, a, he⟩ := lockFailureLog_mem env _ _ h
        cases he
    · intro hmask
      unfold lockFailureLog
      apply List.mem_append.mpr
      left
      apply List.mem_append.mpr
      right
      unfold log_message
      rw [if_pos hmask]
      exact List.mem_singleton.mpr rfl
    · intro hmask t f a h
      rw [hev] at h
      rcases List.mem_append.mp h with h | h
      · have := hpolling _ h
        cases this
      · have hnil : lockFailureLog env v.LckPID = [] := by
          unfold lockFailureLog log_message
          rw [hmask]
          rfl
        rw [hnil] at h
        cases h

/-- C19 amended, on the record `200 /usr/bin/vim` of a live editor with the default wait
budget of 0 seconds and `-d 3`: after one iteration `lockSer` calls `ClrSerLock(100)`, writes
the three messages, the second naming pid 200, and ends with status 2. -/
theorem c19_wait_budget_exceeded_witness :
    (lockSer { quietEnv 0 editorTable with debug_mask := 3 } editorStart).out =
        Outcome.exit 2 ∧
      Event.upgradeOpen ∉ (lockSer { quietEnv 0 editorTable with debug_mask := 3 }
        editorStart).ev ∧
      (lockSer { quietEnv 0 editorTable with debug_mask := 3 } editorStart).ev =
        [Event.AddSerLock 100, Event.unlink LockFile.devLCKfileNew,
         Event.fscanf 2 200 "/usr/bin/vim".toList,
         Event.getPIDcmd 200 (some "/usr/bin/vim".toList), Event.ClrSerLock 100,
         Event.log_message 1 "Problem locking serial device %s." [],
         Event.log_message 3
           "Unable to get lock on serial %s for %lu in %ds: still locked by %lu." [100, 0, 200],
         Event.log_message 1 "Try a greater -w value (eg -w%u)." [2]] :=
  have h := c19_wait_budget_exceeded { quietEnv 0 editorTable with debug_mask := 3 }
    editorStart ⟨200, 0, 0, 0, 1⟩ (by decide) (by decide) (by decide) (by decide)
  ⟨h.2.1, h.2.2.2.1, by decide⟩

/-! ## Debounce of the stale clear -/

theorem find_busy (p : Event → Bool) (hp : p (Event.rnd_usleep 25000) = false) (n : Nat)
    (l : List Event) :
    (List.replicate n (Event.rnd_usleep 25000) ++ l).find? p = l.find? p := by
  induction n with
  | zero => rfl
  | succ n ih =>
    rw [List.replicate_succ, List.cons_append, List.find?_cons, hp]
    exact ih

theorem find_none (p : Event → Bool) (l : List Event) (h : ∀ e ∈ l, p e = false) :
    l.find? p = none := by
  apply List.find?_eq_none.mpr
  intro e he
  rw [h e he]
  simp

/-- The reading of an iteration that ends before the record parse. -/
theorem segReading_busy (PID : Nat) (seg : List Event)
    (h : ∀ e ∈ seg, e = Event.rnd_usleep 25000) : segReading PID seg = none := by
  have h1 : seg.find? Event.isParse = none :=
    find_none _ _ (fun e he => by rw [h e he]; rfl)
  unfold segReading
  rw [h1]

theorem isLookup_of_publish (e : Event) (h : Event.isPublish e = true) :
    Event.isLookup e = false := by
  cases e <;> first | rfl | cases h

/-- The reading of an iteration that takes the missing-pid branch. -/
theorem segReading_missing (PID : Nat) (n : Nat) (b : Int) (pid : Nat) (cmd : List Char)
    (tail : List Event) (h : ∀ e ∈ tail, Event.isPublish e = true) :
    segReading PID (List.replicate n (Event.rnd_usleep 25000) ++ [Event.fscanf b pid cmd]
      ++ tail) = none := by
  have h2 : (List.replicate n (Event.rnd_usleep 25000) ++ [Event.fscanf b pid cmd]
      ++ tail).find? Event.isLookup = none := by
    rw [List.append_assoc, find_busy _ rfl]
    exact find_none _ _ (fun e he => by
      rcases List.mem_append.mp he with h1 | h1
      · rw [List.mem_singleton.mp h1]; rfl
      · exact isLookup_of_publish e (h e h1))
  have h1 : (List.replicate n (Event.rnd_usleep 25000) ++ [Event.fscanf b pid cmd]
      ++ tail).find? Event.isParse = some (Event.fscanf b pid cmd) := by
    rw [List.append_assoc, find_busy _ rfl]
    rfl
  unfold segReading
  rw [h1, h2]

/-- The reading of an iteration that runs the holder check. -/
theorem segReading_holder (PID : Nat) (n : Nat) (b : Int) (pid : Nat) (cmd : List Char)
    (q : Nat) (live : Option (List Char)) (rest : List Event) :
    segReading PID (List.replicate n (Event.rnd_usleep 25000) ++ [Event.fscanf b pid cmd]
      ++ Event.getPIDcmd q live :: rest) =
      (staleTest PID pid cmd live).map fun x => (pid, x) := by
  have h1 : (List.replicate n (Event.rnd_usleep 25000) ++ [Event.fscanf b pid cmd]
      ++ Event.getPIDcmd q live :: rest).find? Event.isParse =
      some (Event.fscanf b pid cmd) := by
    rw [List.append_assoc, find_busy _ rfl]
    rfl
  have h2 : (List.replicate n (Event.rnd_usleep 25000) ++ [Event.fscanf b pid cmd]
      ++ Event.getPIDcmd q live :: rest).find? Event.isLookup =
      some (Event.getPIDcmd q live) := by
    rw [List.append_assoc, find_busy _ rfl]
    rfl
  unfold segReading
  rw [h1, h2]

/-- The holder check calls `ClrSerLock` only on the pid read, only when the stale test holds,
the stale counter is at its bound and the pid is the clear target. -/
theorem holderCheck_clear (env : LockEnv) (v : LoopVars) (pid : Nat) (cmd : List Char)
    (s : LockState) (p : Nat) (h : Event.ClrSerLock p ∈ (holderCheck env v pid cmd s).ev) :
    p = pid ∧
      staleTest env.PID pid cmd (env.getPIDcmd v.totalLockAttempts pid) = some true ∧
      staleLockRetriesMax ≤ v.staleLockRetries ∧ v.clrStaleTargetPID = pid := by
  cases hst : staleTest env.PID pid cmd (env.getPIDcmd v.totalLockAttempts pid) with
  | none =>
    unfold holderCheck at h
    simp only [hst, List.mem_singleton] at h
    cases h
  | some b =>
    cases b with
    | true =>
      obtain ⟨v2, _, _, _, hA, hB, hC⟩ := holderCheck_stale env v pid cmd s hst
      by_cases hc : v.staleLockRetries < staleLockRetriesMax
      · exact absurd h ((hA hc).2.2.2 p)
      · by_cases ht : pid = v.clrStaleTargetPID
        · refine ⟨?_, rfl, Nat.not_lt.mp hc, ht.symm⟩
          have hcond : pid = v.clrStaleTargetPID ∧ v.staleLockRetries ≥ staleLockRetriesMax :=
            ⟨ht, Nat.not_lt.mp hc⟩
          unfold holderCheck at h
          simp only [hst, if_neg hc, if_pos hcond, List.mem_cons, List.mem_append] at h
          rcases h with h | h | h
          · cases h
          · rcases ClrSerLock_mem pid s _ h with h | ⟨f, h⟩
            · cases h; rfl
            · cases h
          · exact absurd h (pollSleep_no_clear _ _ _)
        · exact absurd h ((hC (Nat.not_lt.mp hc) ht).2.2.2 p)
    | false =>
      cases hl : env.getPIDcmd v.totalLockAttempts pid with
      | none =>
        rw [hl] at hst
        unfold staleTest at hst
        by_cases hp : env.PID ≠ pid
        · rw [if_pos hp] at hst; cases hst
        · rw [if_neg hp] at hst; cases hst
      | some live =>
        rw [hl] at hst
        rw [holderCheck_valid env v pid cmd s live hl hst] at h
        rcases List.mem_cons.mp h with h | h
        · cases h
        · exact absurd h (pollSleep_no_clear _ _ _)

theorem no_clear_of_publish (tail : List Event) (h : ∀ e ∈ tail, Event.isPublish e = true)
    (p : Nat) : Event.ClrSerLock p ∉ tail := by
  intro hm
  have := h _ hm
  cases this

/-- A polling iteration calls `ClrSerLock` only on the pid it read as stale, with the stale
counter at its bound and that pid as clear target. -/
theorem lockIter_clear (env : LockEnv) (COMMAND : Option (List Char)) (v : LoopVars)
    (s : LockState) (q : Nat) (h : Event.ClrSerLock q ∈ (lockIter env COMMAND v s).ev) :
    segReading env.PID (lockIter env COMMAND v s).ev = some (q, true) ∧
      staleLockRetriesMax ≤ v.staleLockRetries ∧ v.clrStaleTargetPID = q := by
  rcases lockIter_shape env COMMAND v s with ⟨_, hb⟩ | ⟨b, pid, cmd, tail, hev, htail, _⟩ |
      ⟨c, hrec, hflock, herr, h0⟩
  · have := hb _ h
    cases this
  · rw [hev] at h
    exact absurd ((mem_iter_ev q _ _ _ _ _).mp h) (no_clear_of_publish tail htail q)
  · rw [lockIter_holder env COMMAND v s c hrec hflock herr h0] at h ⊢
    have hh := (mem_iter_ev q _ _ _ _ _).mp h
    obtain ⟨hq, hst, hmax, htarget⟩ := holderCheck_clear env v _ _ _ q hh
    obtain ⟨tail, htail, _⟩ := holderCheck_events env v (fscanfRecord c).LckPID
      (fscanfRecord c).COMMAND (env.disturb v.totalLockAttempts s)
    simp only [htail]
    rw [segReading_holder, hst, hq]
    exact ⟨rfl, hmax, htarget⟩

/-- What a polling iteration that returns does to the stale counter and the clear target, by
its reading. -/
theorem lockIter_counters (env : LockEnv) (COMMAND : Option (List Char)) (v v2 : LoopVars)
    (s : LockState) (hout : (lockIter env COMMAND v s).out = Outcome.ret v2) :
    (Quiet env.PID (lockIter env COMMAND v s).ev ∧
        v2.staleLockRetries = v.staleLockRetries ∧
        v2.clrStaleTargetPID = v.clrStaleTargetPID) ∨
      (Quiet env.PID (lockIter env COMMAND v s).ev ∧
        v.staleLockRetries < staleLockRetriesMax ∧
        v2.staleLockRetries = v.staleLockRetries + 1 ∧
        segReading env.PID (lockIter env COMMAND v s).ev = some (v2.clrStaleTargetPID, true)) ∨
      v2.staleLockRetries = 0 := by
  rcases lockIter_shape env COMMAND v s with ⟨he, _⟩ | ⟨b, pid, cmd, tail, hev, htail, hv⟩ |
      ⟨c, hrec, hflock, herr, h0⟩
  · rw [he] at hout; cases hout
  · left
    obtain ⟨_, h2, h3, _⟩ := hv v2 hout
    refine ⟨⟨?_, ?_⟩, h2, h3⟩
    · intro q hq
      rw [hev, segReading_missing env.PID _ b pid cmd tail htail] at hq
      cases hq
    · intro p hp
      rw [hev] at hp
      exact absurd ((mem_iter_ev p _ _ _ _ _).mp hp) (no_clear_of_publish tail htail p)
  · rw [lockIter_holder env COMMAND v s c hrec hflock herr h0] at hout ⊢
    obtain ⟨tail, htail, _⟩ := holderCheck_events env v (fscanfRecord c).LckPID
      (fscanfRecord c).COMMAND (env.disturb v.totalLockAttempts s)
    have hread : segReading env.PID
        (List.replicate (env.flockBusy v.totalLockAttempts) (Event.rnd_usleep 25000) ++
          [Event.fscanf (fscanfRecord c).bRead (fscanfRecord c).LckPID (fscanfRecord c).COMMAND]
          ++ (holderCheck env v (fscanfRecord c).LckPID (fscanfRecord c).COMMAND
            (env.disturb v.totalLockAttempts s)).ev) =
        (staleTest env.PID (fscanfRecord c).LckPID (fscanfRecord c).COMMAND
          (env.getPIDcmd v.totalLockAttempts (fscanfRecord c).LckPID)).map
          fun x => ((fscanfRecord c).LckPID, x) := by
      rw [htail, segReading_holder]
    have hclear : ∀ p, (∀ p', Event.ClrSerLock p' ∉
        (holderCheck env v (fscanfRecord c).LckPID (fscanfRecord c).COMMAND
          (env.disturb v.totalLockAttempts s)).ev) →
        Event.ClrSerLock p ∉
          List.replicate (env.flockBusy v.totalLockAttempts) (Event.rnd_usleep 25000) ++
            [Event.fscanf (fscanfRecord c).bRead (fscanfRecord c).LckPID
              (fscanfRecord c).COMMAND]
            ++ (holderCheck env v (fscanfRecord c).LckPID (fscanfRecord c).COMMAND
              (env.disturb v.totalLockAttempts s)).ev :=
      fun p hno hp => hno p ((mem_iter_ev p _ _ _ _ _).mp hp)
    cases hst : staleTest env.PID (fscanfRecord c).LckPID (fscanfRecord c).COMMAND
        (env.getPIDcmd v.totalLockAttempts (fscanfRecord c).LckPID) with
    | none =>
      unfold holderCheck at hout
      simp only [hst] at hout
      cases hout
    | some b =>
      rw [hst] at hread
      cases b with
      | true =>
        obtain ⟨w, hw, _, _, hA, hB, hC⟩ := holderCheck_stale env v (fscanfRecord c).LckPID
          (fscanfRecord c).COMMAND (env.disturb v.totalLockAttempts s) hst
        have hwv : w = v2 := by
          rw [hw] at hout
          simpa using hout
        subst hwv
        have hnotvalid : ∀ q, segReading env.PID
            (List.replicate (env.flockBusy v.totalLockAttempts) (Event.rnd_usleep 25000) ++
              [Event.fscanf (fscanfRecord c).bRead (fscanfRecord c).LckPID
                (fscanfRecord c).COMMAND]
              ++ (holderCheck env v (fscanfRecord c).LckPID (fscanfRecord c).COMMAND
                (env.disturb v.totalLockAttempts s)).ev) ≠ some (q, false) := by
          intro q hq
          rw [hread] at hq
          simp at hq
        by_cases hc : v.staleLockRetries < staleLockRetriesMax
        · right; left
          obtain ⟨h1, h2, _, h4⟩ := hA hc
          refine ⟨⟨hnotvalid, fun p => hclear p h4⟩, hc, h1, ?_⟩
          rw [hread, h2]
          rfl
        · by_cases ht : (fscanfRecord c).LckPID = v.clrStaleTargetPID
          · right; right
            exact (hB (Nat.not_lt.mp hc) ht).1
          · left
            obtain ⟨h1, h2, _, h4⟩ := hC (Nat.not_lt.mp hc) ht
            exact ⟨⟨hnotvalid, fun p => hclear p h4⟩, h1, h2⟩
      | false =>
        right; right
        cases hl : env.getPIDcmd v.totalLockAttempts (fscanfRecord c).LckPID with
        | none =>
          rw [hl] at hst
          unfold staleTest at hst
          by_cases hp : env.PID ≠ (fscanfRecord c).LckPID
          · rw [if_pos hp] at hst; cases hst
          · rw [if_neg hp] at hst; cases hst
        | some live =>
          rw [hl] at hst
          rw [holderCheck_valid env v _ _ _ live hl hst] at hout
          simp only [Outcome.ret.injEq] at hout
          rw [← hout]

/-- A quiet iteration keeps what the counter says of the history. -/
theorem debounced_quiet (PID n t : Nat) (H : List (List Event)) (seg : List Event)
    (h : Debounced PID n t H) (hq : Quiet PID seg) : Debounced PID n t (H ++ [seg]) := by
  rcases h with h | ⟨hn, A, s1, B, hH, hs1, hB⟩ | ⟨hn, A, s1, B, s2, C, q1, hH, hs1, hs2, hB⟩
  · exact Or.inl h
  · right; left
    refine ⟨hn, A, s1, B ++ [seg], by rw [hH]; simp, hs1, ?_⟩
    intro x hx
    rcases List.mem_cons.mp hx with h | h
    · exact hB x (by rw [h]; exact List.mem_cons_self _ _)
    · rcases List.mem_append.mp h with h | h
      · exact hB x (List.mem_cons_of_mem _ h)
      · rw [List.mem_singleton.mp h]; exact hq
  · right; right
    refine ⟨hn, A, s1, B, s2, C ++ [seg], q1, by rw [hH]; simp, hs1, hs2, ?_⟩
    intro x hx
    have hx2 : x ∈ s1 :: (B ++ s2 :: C) ∨ x = seg := by
      simp only [List.mem_cons, List.mem_append, List.mem_singleton] at hx ⊢
      tauto
    rcases hx2 with h | h
    · exact hB x h
    · rw [h]; exact hq

/-- A counted stale reading extends what the counter says of the history. -/
theorem debounced_count (PID n t : Nat) (H : List (List Event)) (seg : List Event)
    (h : Debounced PID n t H) (hn : n < staleLockRetriesMax) (hq : Quiet PID seg) (t2 : Nat)
    (hs : segReading PID seg = some (t2, true)) : Debounced PID (n + 1) t2 (H ++ [seg]) := by
  rcases h with h | ⟨h1, A, s1, B, hH, hs1, hB⟩ | ⟨h2, _⟩
  · right; left
    refine ⟨by omega, H, seg, [], rfl, hs, ?_⟩
    intro x hx
    rw [List.mem_singleton.mp hx]
    exact hq
  · right; right
    refine ⟨by omega, A, s1, B, seg, [], t, by rw [hH]; simp, hs1, hs, ?_⟩
    intro x hx
    have hx2 : x ∈ s1 :: B ∨ x = seg := by
      simp only [List.mem_cons, List.mem_append, List.mem_singleton, List.not_mem_nil,
        or_false] at hx ⊢
      tauto
    rcases hx2 with h | h
    · exact hB x h
    · rw [h]; exact hq
  · unfold staleLockRetriesMax at hn
    omega

theorem lockIter_debounced (env : LockEnv) (COMMAND : Option (List Char)) (v v2 : LoopVars)
    (s : LockState) (H : List (List Event))
    (hout : (lockIter env COMMAND v s).out = Outcome.ret v2)
    (h : Debounced env.PID v.staleLockRetries v.clrStaleTargetPID H) :
    Debounced env.PID v2.staleLockRetries v2.clrStaleTargetPID
      (H ++ [(lockIter env COMMAND v s).ev]) := by
  rcases lockIter_counters env COMMAND v v2 s hout with ⟨hq, h1, h2⟩ | ⟨hq, hn, h1, hs⟩ | h0
  · rw [h1, h2]
    exact debounced_quiet _ _ _ _ _ h hq
  · rw [h1]
    exact debounced_count _ _ _ _ _ h hn hq _ hs
  · exact Or.inl h0

/-- Every iteration of the loop that calls `ClrSerLock` read the pid as stale and comes after
two iterations that read a pid as stale, the later one that same pid, with no valid reading
and no `ClrSerLock` call from the first of the two on. -/
theorem lockIterations_debounced (env : LockEnv) (COMMAND : Option (List Char)) :
    ∀ (k : Nat) (v : LoopVars) (now : Int) (s : LockState) (H : List (List Event)),
      Debounced env.PID v.staleLockRetries v.clrStaleTargetPID H →
      ∀ (A : List (List Event)) (seg : List Event) (D : List (List Event)) (q : Nat),
        lockIterations env COMMAND k v now s = A ++ seg :: D → Event.ClrSerLock q ∈ seg →
        segReading env.PID seg = some (q, true) ∧
        ∃ A0 s1 B s2 C q1, H ++ A = A0 ++ s1 :: (B ++ s2 :: C) ∧
          segReading env.PID s1 = some (q1, true) ∧ segReading env.PID s2 = some (q, true) ∧
          ∀ x ∈ s1 :: (B ++ s2 :: C), Quiet env.PID x := by
  intro k
  induction k with
  | zero =>
    intro v now s H _ A seg D q hL _
    simp only [lockIterations] at hL
    cases A <;> cases hL
  | succ k ih =>
    intro v now s H hH A seg D q hL hclr
    by_cases hc : v.LckPID ≠ env.PID ∧ now ≤ env.yLockWait * 1000000
    · rw [lockIterations, if_pos hc] at hL
      have hfirst : ∀ (rest : List (List Event)),
          (lockIter env COMMAND { v with totalLockAttempts := v.totalLockAttempts + 1 } s).ev ::
            rest = A ++ seg :: D → A = [] →
          segReading env.PID seg = some (q, true) ∧
          ∃ A0 s1 B s2 C q1, H ++ A = A0 ++ s1 :: (B ++ s2 :: C) ∧
            segReading env.PID s1 = some (q1, true) ∧
            segReading env.PID s2 = some (q, true) ∧
            ∀ x ∈ s1 :: (B ++ s2 :: C), Quiet env.PID x := by
        intro rest hr hA
        subst hA
        simp only [List.nil_append, List.cons.injEq] at hr
        obtain ⟨hseg, _⟩ := hr
        rw [← hseg] at hclr ⊢
        obtain ⟨hread, hmax, htarget⟩ := lockIter_clear env COMMAND _ s q hclr
        refine ⟨hread, ?_⟩
        rcases hH with h0 | ⟨h1, _⟩ | ⟨_, A0, s1, B, s2, C, q1, hHeq, hs1, hs2, hB⟩
        · have h0' : v.staleLockRetries = 0 := h0
          have hmax' : staleLockRetriesMax ≤ v.staleLockRetries := hmax
          unfold staleLockRetriesMax at hmax'
          omega
        · have h1' : v.staleLockRetries = 1 := h1
          have hmax' : staleLockRetriesMax ≤ v.staleLockRetries := hmax
          unfold staleLockRetriesMax at hmax'
          omega
        · have ht : v.clrStaleTargetPID = q := htarget
          rw [ht] at hs2
          exact ⟨A0, s1, B, s2, C, q1, by rw [List.append_nil]; exact hHeq, hs1, hs2, hB⟩
      cases hit : (lockIter env COMMAND
          { v with totalLockAttempts := v.totalLockAttempts + 1 } s).out with
      | exit c =>
        simp only [hit] at hL
        cases A with
        | nil => exact hfirst [] hL rfl
        | cons a A' =>
          simp only [List.cons_append, List.cons.injEq] at hL
          cases A' <;> cases hL.2
      | undefined =>
        simp only [hit] at hL
        cases A with
        | nil => exact hfirst [] hL rfl
        | cons a A' =>
          simp only [List.cons_append, List.cons.injEq] at hL
          cases A' <;> cases hL.2
      | ret v2 =>
        simp only [hit] at hL
        cases A with
        | nil => exact hfirst _ hL rfl
        | cons a A' =>
          simp only [List.cons_append, List.cons.injEq] at hL
          obtain ⟨ha, hrest⟩ := hL
          have hH2 := lockIter_debounced env COMMAND _ v2 s H hit hH
          obtain ⟨hread, A0, s1, B, s2, C, q1, hEq, hs1, hs2, hB⟩ :=
            ih v2 _ _ _ hH2 A' seg D q hrest hclr
          refine ⟨hread, A0, s1, B, s2, C, q1, ?_, hs1, hs2, hB⟩
          rw [← hEq, ← ha]
          simp
    · rw [lockIterations, if_neg hc] at hL
      cases A <;> cases hL

/-- The events of the loop are those of its iterations in order, followed by nothing or by
the `ClrSerLock(PID)` of the attempt bound. -/
theorem lockLoop_join (env : LockEnv) (COMMAND : Option (List Char)) :
    ∀ (k : Nat) (v : LoopVars) (now : Int) (s : LockState),
      ∃ tail, (lockLoop env COMMAND k v now s).ev =
          (lockIterations env COMMAND k v now s).flatten ++ tail ∧
        ∀ q, Event.ClrSerLock q ∈ tail → q = env.PID := by
  intro k
  induction k with
  | zero =>
    intro v now s
    by_cases hc : v.LckPID ≠ env.PID ∧ now ≤ env.yLockWait * 1000000
    · refine ⟨(ClrSerLock env.PID s).2, ?_, ?_⟩
      · rw [lockLoop, if_pos hc]
        rfl
      · intro q hq
        rcases ClrSerLock_mem env.PID s _ hq with h | ⟨f, h⟩
        · cases h; rfl
        · cases h
    · refine ⟨[], ?_, fun q hq => by cases hq⟩
      rw [lockLoop_done env COMMAND 0 v now s hc]
      rfl
  | succ k ih =>
    intro v now s
    by_cases hc : v.LckPID ≠ env.PID ∧ now ≤ env.yLockWait * 1000000
    · rw [lockLoop_succ env COMMAND k v now s hc, lockIterations, if_pos hc]
      cases hit : (lockIter env COMMAND
          { v with totalLockAttempts := v.totalLockAttempts + 1 } s).out with
      | exit c => exact ⟨[], by simp [hit], fun q hq => by cases hq⟩
      | undefined => exact ⟨[], by simp [hit], fun q hq => by cases hq⟩
      | ret v2 =>
        obtain ⟨tail, htail, hq⟩ := ih v2 (env.clock (v.totalLockAttempts + 1))
          (lockIter env COMMAND { v with totalLockAttempts := v.totalLockAttempts + 1 } s).lock
        refine ⟨tail, ?_, hq⟩
        simp only [hit, htail, List.flatten_cons, List.append_assoc]
    · refine ⟨[], ?_, fun q hq => by cases hq⟩
      rw [lockLoop_done env COMMAND (k + 1) v now s hc, lockIterations, if_neg hc]
      rfl

theorem upgrade_clear (env : LockEnv) (s : LockState) (q : Nat)
    (h : Event.ClrSerLock q ∈ (upgrade env s).ev) : q = env.PID := by
  unfold upgrade at h
  cases hf : (env.disturb 0 s).devLCKfile with
  | none =>
    simp only [hf, List.mem_singleton] at h
    cases h
  | some c =>
    simp only [hf] at h
    cases hx : env.flockExFails with
    | true =>
      simp only [hx, if_true] at h
      rcases List.mem_cons.mp h with h | h
      · cases h
      · rcases ClrSerLock_mem _ _ _ h with h | ⟨f, h⟩
        · cases h; rfl
        · cases h
    | false =>
      simp only [hx, Bool.false_eq_true, if_false, List.mem_singleton] at h
      cases h

/-- The events of `lockSer` are those of `AddSerLock`, those of the iterations of the loop,
and a rest in which `ClrSerLock` is called on `PID` only. -/
theorem lockSer_join (env : LockEnv) (s : LockState)
    (ha : (AddSerLock env.PID (env.getPIDcmd 0 env.PID) (env.linkFails 0) s).out =
      Outcome.ret ()) :
    ∃ rest, (lockSer env s).ev =
        (AddSerLock env.PID (env.getPIDcmd 0 env.PID) (env.linkFails 0) s).ev ++
          ((lockIterations env (env.getPIDcmd 0 env.PID) maxLockAttempts ⟨0, 0, 0, 0, 0⟩ 0
            (AddSerLock env.PID (env.getPIDcmd 0 env.PID) (env.linkFails 0) s).lock).flatten
            ++ rest) ∧
      ∀ q, Event.ClrSerLock q ∈ rest → q = env.PID := by
  obtain ⟨tail, htail, hq⟩ := lockLoop_join env (env.getPIDcmd 0 env.PID) maxLockAttempts
    ⟨0, 0, 0, 0, 0⟩ 0 (AddSerLock env.PID (env.getPIDcmd 0 env.PID) (env.linkFails 0) s).lock
  cases hl : (lockLoop env (env.getPIDcmd 0 env.PID) maxLockAttempts ⟨0, 0, 0, 0, 0⟩ 0
      (AddSerLock env.PID (env.getPIDcmd 0 env.PID) (env.linkFails 0) s).lock).out with
  | exit c =>
    have hev : (lockSer env s).ev =
        (AddSerLock env.PID (env.getPIDcmd 0 env.PID) (env.linkFails 0) s).ev ++
          (lockLoop env (env.getPIDcmd 0 env.PID) maxLockAttempts ⟨0, 0, 0, 0, 0⟩ 0
            (AddSerLock env.PID (env.getPIDcmd 0 env.PID) (env.linkFails 0) s).lock).ev := by
      unfold lockSer
      simp only [ha, hl]
    exact ⟨tail, by rw [hev, htail], hq⟩
  | undefined =>
    have hev : (lockSer env s).ev =
        (AddSerLock env.PID (env.getPIDcmd 0 env.PID) (env.linkFails 0) s).ev ++
          (lockLoop env (env.getPIDcmd 0 env.PID) maxLockAttempts ⟨0, 0, 0, 0, 0⟩ 0
            (AddSerLock env.PID (env.getPIDcmd 0 env.PID) (env.linkFails 0) s).lock).ev := by
      unfold lockSer
      simp only [ha, hl]
    exact ⟨tail, by rw [hev, htail], hq⟩
  | ret v =>
    by_cases hv : v.LckPID ≠ env.PID
    · have hev : (lockSer env s).ev =
          (AddSerLock env.PID (env.getPIDcmd 0 env.PID) (env.linkFails 0) s).ev ++
            (lockLoop env (env.getPIDcmd 0 env.PID) maxLockAttempts ⟨0, 0, 0, 0, 0⟩ 0
              (AddSerLock env.PID (env.getPIDcmd 0 env.PID) (env.linkFails 0) s).lock).ev ++
            (ClrSerLock env.PID
              (lockLoop env (env.getPIDcmd 0 env.PID) maxLockAttempts ⟨0, 0, 0, 0, 0⟩ 0
                (AddSerLock env.PID (env.getPIDcmd 0 env.PID) (env.linkFails 0)
                  s).lock).lock).2 ++
            lockFailureLog env v.LckPID := by
        unfold lockSer
        simp only [ha, hl, if_pos hv]
      refine ⟨tail ++ ((ClrSerLock env.PID
        (lockLoop env (env.getPIDcmd 0 env.PID) maxLockAttempts ⟨0, 0, 0, 0, 0⟩ 0
          (AddSerLock env.PID (env.getPIDcmd 0 env.PID) (env.linkFails 0) s).lock).lock).2 ++
        lockFailureLog env v.LckPID), ?_, ?_⟩
      · rw [hev, htail]
        simp only [List.append_assoc]
      · intro q h
        rcases List.mem_append.mp h with h | h
        · exact hq q h
        · rcases List.mem_append.mp h with h | h
          · rcases ClrSerLock_mem _ _ _ h with h | ⟨f, h⟩
            · cases h; rfl
            · cases h
          · obtain ⟨t, f, a, he⟩ := lockFailureLog_mem env _ _ h
            cases he
    · have hev : (lockSer env s).ev =
          (AddSerLock env.PID (env.getPIDcmd 0 env.PID) (env.linkFails 0) s).ev ++
            (lockLoop env (env.getPIDcmd 0 env.PID) maxLockAttempts ⟨0, 0, 0, 0, 0⟩ 0
              (AddSerLock env.PID (env.getPIDcmd 0 env.PID) (env.linkFails 0) s).lock).ev ++
            (upgrade env
              (lockLoop env (env.getPIDcmd 0 env.PID) maxLockAttempts ⟨0, 0, 0, 0, 0⟩ 0
                (AddSerLock env.PID (env.getPIDcmd 0 env.PID) (env.linkFails 0)
                  s).lock).lock).ev := by
        unfold lockSer
        simp only [ha, hl, if_neg hv]
      refine ⟨tail ++ (upgrade env
        (lockLoop env (env.getPIDcmd 0 env.PID) maxLockAttempts ⟨0, 0, 0, 0, 0⟩ 0
          (AddSerLock env.PID (env.getPIDcmd 0 env.PID) (env.linkFails 0) s).lock).lock).ev,
        ?_, ?_⟩
      · rw [hev, htail]
        simp only [List.append_assoc]
      · intro q h
        rcases List.mem_append.mp h with h | h
        · exact hq q h
        · exact upgrade_clear env _ q h

theorem lockSer_early (env : LockEnv) (s : LockState)
    (ha : (AddSerLock env.PID (env.getPIDcmd 0 env.PID) (env.linkFails 0) s).out ≠
      Outcome.ret ()) :
    (lockSer env s).ev =
      (AddSerLock env.PID (env.getPIDcmd 0 env.PID) (env.linkFails 0) s).ev := by
  cases h : (AddSerLock env.PID (env.getPIDcmd 0 env.PID) (env.linkFails 0) s).out with
  | exit c =>
    unfold lockSer
    simp only [h]
  | undefined =>
    unfold lockSer
    simp only [h]
  | ret u => exact absurd h ha

/-- C17: every call of `ClrSerLock` on a pid other than `PID` that `lockSer` makes lies in a
polling iteration of its loop; and a polling iteration that calls `ClrSerLock(q)` has read the
pid `q` as stale and comes after at least two iterations of which two read a pid as stale,
the later of the two the pid `q`, while from the earlier of the two on no iteration before
the clearing one has read a valid holder or called `ClrSerLock`.  So one stale reading
alone clears nothing. -/
theorem c17_clear_after_two_stale (env : LockEnv) (s : LockState) :
    (∀ q, q ≠ env.PID → Event.ClrSerLock q ∈ (lockSer env s).ev →
      ∃ A seg D,
        lockIterations env (env.getPIDcmd 0 env.PID) maxLockAttempts ⟨0, 0, 0, 0, 0⟩ 0
          (AddSerLock env.PID (env.getPIDcmd 0 env.PID) (env.linkFails 0) s).lock =
          A ++ seg :: D ∧ Event.ClrSerLock q ∈ seg) ∧
    (∀ (A : List (List Event)) (seg : List Event) (D : List (List Event)) (q : Nat),
      lockIterations env (env.getPIDcmd 0 env.PID) maxLockAttempts ⟨0, 0, 0, 0, 0⟩ 0
          (AddSerLock env.PID (env.getPIDcmd 0 env.PID) (env.linkFails 0) s).lock =
        A ++ seg :: D →
      Event.ClrSerLock q ∈ seg →
      segReading env.PID seg = some (q, true) ∧ 2 ≤ A.length ∧
      ∃ A0 s1 B s2 C q1, A = A0 ++ s1 :: (B ++ s2 :: C) ∧
        segReading env.PID s1 = some (q1, true) ∧ segReading env.PID s2 = some (q, true) ∧
        ∀ x ∈ s1 :: (B ++ s2 :: C), Quiet env.PID x) := by
  constructor
  · intro q hq hmem
    by_cases ha : (AddSerLock env.PID (env.getPIDcmd 0 env.PID) (env.linkFails 0) s).out =
        Outcome.ret ()
    · obtain ⟨rest, hev, hrest⟩ := lockSer_join env s ha
      rw [hev] at hmem
      rcases List.mem_append.mp hmem with h | h
      · have := AddSerLock_publish _ _ _ _ _ h
        cases this
      · rcases List.mem_append.mp h with h | h
        · obtain ⟨seg, hseg, hin⟩ := List.mem_flatten.mp h
          obtain ⟨A, D, hAD⟩ := List.append_of_mem hseg
          exact ⟨A, seg, D, hAD, hin⟩
        · exact absurd (hrest q h) hq
    · rw [lockSer_early env s ha] at hmem
      have := AddSerLock_publish _ _ _ _ _ hmem
      cases this
  · intro A seg D q hL hclr
    obtain ⟨hread, A0, s1, B, s2, C, q1, hEq, hs1, hs2, hB⟩ :=
      lockIterations_debounced env (env.getPIDcmd 0 env.PID) maxLockAttempts ⟨0, 0, 0, 0, 0⟩ 0
        (AddSerLock env.PID (env.getPIDcmd 0 env.PID) (env.linkFails 0) s).lock []
        (Or.inl rfl) A seg D q hL hclr
    rw [List.nil_append] at hEq
    refine ⟨hread, ?_, A0, s1, B, s2, C, q1, hEq, hs1, hs2, hB⟩
    rw [hEq]
    simp only [List.length_append, List.length_cons]
    omega

/-- C17 on the record `4242 sdm120c` of a pid without process, found by pid 100 with a wait
budget of 30 seconds: `lockSer` calls `ClrSerLock(4242)`, in its third iteration, after two
iterations that read 4242 as stale. -/
theorem c17_clear_after_two_stale_witness :
    Event.ClrSerLock 4242 ∈ (lockSer (quietEnv 30 (fun _ => none)) staleStart).ev ∧
      (∃ A seg D,
        lockIterations (quietEnv 30 (fun _ => none)) (some "tac1100".toList) maxLockAttempts
          ⟨0, 0, 0, 0, 0⟩ 0 staleStart = A ++ seg :: D ∧ Event.ClrSerLock 4242 ∈ seg) ∧
      segReading 100 [Event.fscanf 2 4242 "sdm120c".toList, Event.getPIDcmd 4242 none,
        Event.ClrSerLock 4242, Event.unlink LockFile.devLCKfile, Event.rnd_usleep 25000] =
        some (4242, true) :=
  ⟨by decide,
   (c17_clear_after_two_stale (quietEnv 30 (fun _ => none)) staleStart).1 4242 (by decide)
     (by decide),
   ((c17_clear_after_two_stale (quietEnv 30 (fun _ => none)) staleStart).2
     [[Event.fscanf 2 4242 "sdm120c".toList, Event.getPIDcmd 4242 none,
        Event.rnd_usleep 25000],
      [Event.fscanf 2 4242 "sdm120c".toList, Event.getPIDcmd 4242 none,
        Event.rnd_usleep 25000]]
     [Event.fscanf 2 4242 "sdm120c".toList, Event.getPIDcmd 4242 none,
        Event.ClrSerLock 4242, Event.unlink LockFile.devLCKfile, Event.rnd_usleep 25000]
     [[]] 4242 (by decide) (by decide)).1⟩

/-! ## Publishing: record content and the temporary file -/

/-- C23: once `AddSerLock` has created its temporary file, a `link` that fails with an errno
other than `EEXIST` ends the process with status 2 before the `unlink`, and the temporary file
stays behind with the text written for `(PID, COMMAND)`.  When `link` succeeds or fails with
`EEXIST`, the temporary file is removed and `AddSerLock` returns; an existing record keeps
its content. -/
theorem c23_temporary_file (PID : Nat) (COMMAND : Option (List Char)) (s : LockState)
    (hnew : s.devLCKfileNew = none) :
    ((AddSerLock PID COMMAND true s).out = Outcome.exit 2 ∧
        (AddSerLock PID COMMAND true s).lock.devLCKfileNew = some (recordText PID COMMAND) ∧
        Event.unlink LockFile.devLCKfileNew ∉ (AddSerLock PID COMMAND true s).ev) ∧
      ((AddSerLock PID COMMAND false s).out = Outcome.ret () ∧
        (AddSerLock PID COMMAND false s).lock.devLCKfileNew = none ∧
        Event.unlink LockFile.devLCKfileNew ∈ (AddSerLock PID COMMAND false s).ev) ∧
      (∀ c, s.devLCKfile = some c →
        (AddSerLock PID COMMAND false s).lock.devLCKfile = some c ∧
        Event.link ∉ (AddSerLock PID COMMAND false s).ev) := by
  refine ⟨?_, ?_, ?_⟩
  · unfold AddSerLock
    simp only [hnew, if_true]
    refine ⟨trivial, trivial, ?_⟩
    intro h
    cases List.mem_singleton.mp h
  · cases hr : s.devLCKfile with
    | none =>
      unfold AddSerLock
      simp only [hnew, hr, Bool.false_eq_true, if_false]
      exact ⟨trivial, trivial, by simp⟩
    | some c =>
      unfold AddSerLock
      simp only [hnew, hr, Bool.false_eq_true, if_false]
      exact ⟨trivial, trivial, by simp⟩
  · intro c hc
    unfold AddSerLock
    simp only [hnew, hc, Bool.false_eq_true, if_false]
    exact ⟨trivial, by simp⟩

/-- C23 for pid 100 beside the record of pid 200: a `link` that fails with another errno
leaves the temporary file `100 tac1100` behind and ends the process with status 2. -/
theorem c23_temporary_file_witness :
    (AddSerLock 100 (some "tac1100".toList) true peerStart).out = Outcome.exit 2 ∧
      (AddSerLock 100 (some "tac1100".toList) true peerStart).lock.devLCKfileNew =
        some "100 tac1100\n".toList ∧
      (AddSerLock 100 (some "tac1100".toList) false peerStart).lock = peerStart :=
  ⟨(c23_temporary_file 100 (some "tac1100".toList) peerStart rfl).1.1,
   ((c23_temporary_file 100 (some "tac1100".toList) peerStart rfl).1.2.1).trans (by decide),
   by decide⟩

/-! ## The command buffer and the round trip of a record -/

theorem dropWhile_head_false (p : Char → Bool) (l : List Char) (c : Char) (cs : List Char)
    (h : l.dropWhile p = c :: cs) : p c = false := by
  induction l with
  | nil => simp at h
  | cons x xs ih =>
    by_cases hx : p x = true
    · rw [List.dropWhile_cons_of_pos hx] at h
      exact ih h
    · rw [List.dropWhile_cons_of_neg hx] at h
      cases h
      simpa using hx

theorem scanCommand_COMMAND_indep (rest : List Char) (pid err : Nat) :
    (scanCommand rest pid err).COMMAND = (scanCommand rest 0 0).COMMAND := by
  unfold scanCommand
  cases rest with
  | nil => rfl
  | cons c cs =>
    dsimp only
    split_ifs <;> rfl

/-- A stored command comes from a space right after the number. -/
theorem scanCommand_command (rest : List Char) (pid err : Nat)
    (h : (scanCommand rest pid err).COMMAND ≠ []) :
    ∃ cs, rest = chSpace :: cs ∧
      (scanCommand rest pid err).COMMAND =
        (cs.dropWhile (fun d => d == chSpace)).takeWhile (fun d => d != chNewline) := by
  cases rest with
  | nil => exact absurd rfl h
  | cons c cs =>
    by_cases hc : c = chSpace
    · subst hc
      refine ⟨cs, rfl, ?_⟩
      unfold scanCommand at h ⊢
      simp only [if_true] at h ⊢
      split_ifs at h ⊢ with he
      · exact absurd rfl h
      · rfl
    · unfold scanCommand at h
      simp only [hc, if_false] at h
      exact absurd rfl h

theorem fscanfRecord_COMMAND (content : List Char) (c : Char) (cs : List Char)
    (hd : content.dropWhile isspace = c :: cs) :
    (fscanfRecord content).COMMAND =
      if ((if (c.toNat == 45 || c.toNat == 43) = true then cs else c :: cs).takeWhile
          isdigit).isEmpty = true then []
      else (scanCommand ((if (c.toNat == 45 || c.toNat == 43) = true then cs else c :: cs).dropWhile
          isdigit) 0 0).COMMAND := by
  unfold fscanfRecord
  rw [hd]
  dsimp only
  split_ifs <;> first | rfl | exact scanCommand_COMMAND_indep _ _ _

theorem not_blank_of_not_isspace (c : Char) (h : isspace c = false) :
    c ≠ chSpace ∧ c ≠ chNewline := by
  constructor
  · rintro rfl
    exact absurd h (by decide)
  · rintro rfl
    exact absurd h (by decide)

/-- A stored command sits behind a blank-free start (sign and digits) and one space. -/
theorem fscanfRecord_command (content : List Char)
    (h : (fscanfRecord content).COMMAND ≠ []) :
    ∃ pre cs, content.dropWhile isspace = pre ++ chSpace :: cs ∧
      (∀ ch ∈ pre, ch ≠ chSpace ∧ ch ≠ chNewline) ∧
      (fscanfRecord content).COMMAND =
        (cs.dropWhile (fun d => d == chSpace)).takeWhile (fun d => d != chNewline) := by
  cases hd : content.dropWhile isspace with
  | nil =>
    unfold fscanfRecord at h
    rw [hd] at h
    exact absurd rfl h
  | cons c cs =>
    have hc := not_blank_of_not_isspace c (dropWhile_head_false isspace content c cs hd)
    rw [fscanfRecord_COMMAND content c cs hd] at h ⊢
    by_cases he : ((if (c.toNat == 45 || c.toNat == 43) = true then cs else c :: cs).takeWhile
          isdigit).isEmpty = true
    · rw [if_pos he] at h
      exact absurd rfl h
    · rw [if_neg he] at h ⊢
      obtain ⟨cs2, hrest, hcmd⟩ := scanCommand_command _ 0 0 h
      have hsplit := List.takeWhile_append_dropWhile isdigit
        (if (c.toNat == 45 || c.toNat == 43) = true then cs else c :: cs)
      rw [hrest] at hsplit
      have hds : ∀ ch ∈ (if (c.toNat == 45 || c.toNat == 43) = true then cs else c :: cs).takeWhile
          isdigit, ch ≠ chSpace ∧ ch ≠ chNewline := by
        intro ch hch
        exact not_blank_of_not_isspace ch (isdigit_facts ch (List.mem_takeWhile_imp hch)).1
      by_cases hs : (c.toNat == 45 || c.toNat == 43) = true
      · rw [if_pos hs] at hsplit hds
        refine ⟨c :: cs.takeWhile isdigit, cs2, ?_, ?_, hcmd⟩
        · rw [List.cons_append, hsplit]
        · intro ch hch
          rcases List.mem_cons.mp hch with rfl | hch
          · exact hc
          · exact hds ch hch
      · rw [if_neg hs] at hsplit hds
        refine ⟨(c :: cs).takeWhile isdigit, cs2, hsplit.symm, hds, hcmd⟩

theorem fLenScan_append (pre tail : List Char)
    (hpre : ∀ ch ∈ pre, ch ≠ chSpace ∧ ch ≠ chNewline) :
    fLenScan (pre ++ chSpace :: tail) =
      (tail.takeWhile (fun d => d != chNewline)).length := by
  have h := takeWhile_append_stop (fun c => c != chNewline && c != chSpace) pre chSpace tail
    (by
      intro c hc
      have := hpre c hc
      simp [this.1, this.2])
    (by decide)
  unfold fLenScan
  rw [h.2]
  simp

theorem takeWhile_length_append (p : Char → Bool) (a b : List Char)
    (ha : ∀ ch ∈ a, p ch = true) :
    (b.takeWhile p).length ≤ ((a ++ b).takeWhile p).length := by
  induction a with
  | nil => simp
  | cons x xs ih =>
    have hx : p x = true := ha x (by simp)
    have := ih (fun ch hch => ha ch (by simp [hch]))
    simp only [List.cons_append, List.takeWhile_cons_of_pos hx, List.length_cons]
    omega

theorem takeWhile_dropWhile_length (p q : Char → Bool) (l : List Char)
    (hpq : ∀ ch, p ch = true → q ch = true) :
    ((l.dropWhile p).takeWhile q).length ≤ (l.takeWhile q).length := by
  induction l with
  | nil => simp
  | cons x xs ih =>
    by_cases hx : p x = true
    · rw [List.dropWhile_cons_of_pos hx, List.takeWhile_cons_of_pos (hpq x hx),
        List.length_cons]
      omega
    · rw [List.dropWhile_cons_of_neg hx]

/-- The white space before the number splits at its first space, if it has one. -/
theorem split_first_space (ws : List Char) (hnl : ∀ ch ∈ ws, ch ≠ chNewline) :
    (∀ ch ∈ ws, ch ≠ chSpace ∧ ch ≠ chNewline) ∨
      ∃ w1 w2, ws = w1 ++ chSpace :: w2 ∧ (∀ ch ∈ w1, ch ≠ chSpace ∧ ch ≠ chNewline) ∧
        ∀ ch ∈ w2, ch ≠ chNewline := by
  induction ws with
  | nil => exact Or.inl (by simp)
  | cons x xs ih =>
    have hx : x ≠ chNewline := hnl x (by simp)
    have hxs : ∀ ch ∈ xs, ch ≠ chNewline := fun ch hch => hnl ch (by simp [hch])
    by_cases hsp : x = chSpace
    · exact Or.inr ⟨[], xs, by simp [hsp], by simp, hxs⟩
    · rcases ih hxs with h | ⟨w1, w2, hw, h1, h2⟩
      · left
        intro ch hch
        rcases List.mem_cons.mp hch with rfl | hch
        · exact ⟨hsp, hx⟩
        · exact h ch hch
      · right
        refine ⟨x :: w1, w2, by simp [hw], ?_, h2⟩
        intro ch hch
        rcases List.mem_cons.mp hch with rfl | hch
        · exact ⟨hsp, hx⟩
        · exact h1 ch hch

/-- When no newline stands in the white space before the number, the command that `fscanf`
stores is no longer than the count `fLen` of the character scan. -/
theorem fscanfRecord_fits (content : List Char)
    (hnl : ∀ ch ∈ content.takeWhile isspace, ch ≠ chNewline) :
    (fscanfRecord content).COMMAND.length ≤ fLenScan content := by
  by_cases h : (fscanfRecord content).COMMAND = []
  · rw [h]
    exact Nat.zero_le _
  · obtain ⟨pre, cs, hd, hpre, hcmd⟩ := fscanfRecord_command content h
    have hsplit := List.takeWhile_append_dropWhile isspace content
    rw [hd] at hsplit
    have hcs : ((cs.dropWhile (fun d => d == chSpace)).takeWhile (fun d => d != chNewline)).length ≤
        (cs.takeWhile (fun d => d != chNewline)).length :=
      takeWhile_dropWhile_length _ _ cs (by
        intro ch hch
        have : ch = chSpace := by simpa using hch
        subst this
        decide)
    rw [hcmd]
    rcases split_first_space _ hnl with hws | ⟨w1, w2, hw, h1, h2⟩
    · have hall : ∀ ch ∈ content.takeWhile isspace ++ pre, ch ≠ chSpace ∧ ch ≠ chNewline := by
        intro ch hch
        rcases List.mem_append.mp hch with hch | hch
        · exact hws ch hch
        · exact hpre ch hch
      have := fLenScan_append (content.takeWhile isspace ++ pre) cs hall
      rw [List.append_assoc, hsplit] at this
      rw [this]
      exact hcs
    · have hf := fLenScan_append w1 (w2 ++ (pre ++ chSpace :: cs)) h1
      have hcontent : content = w1 ++ chSpace :: (w2 ++ (pre ++ chSpace :: cs)) := by
        rw [← hsplit, hw]
        simp
      rw [← hcontent] at hf
      rw [hf]
      have hmid : ∀ ch ∈ w2 ++ (pre ++ [chSpace]), (fun d => d != chNewline) ch = true := by
        intro ch hch
        have hne : ch ≠ chNewline := by
          rcases List.mem_append.mp hch with hch | hch
          · exact h2 ch hch
          · rcases List.mem_append.mp hch with hch | hch
            · exact (hpre ch hch).2
            · rw [List.mem_singleton.mp hch]
              decide
        simpa using hne
      have := takeWhile_length_append (fun d => d != chNewline) (w2 ++ (pre ++ [chSpace])) cs hmid
      have hre : w2 ++ (pre ++ [chSpace]) ++ cs = w2 ++ (pre ++ chSpace :: cs) := by simp
      rw [hre] at this
      omega

/-- C28: the command that the format stores can be longer than the count `fLen` that sizes
its buffer.  On the content of a newline followed by `12 abc` the character scan stops at the
newline with `fLen = 0`, so the buffer has one byte, while `fscanf` skips the newline as white
space and stores `abc`.  The bound does hold for every content with no newline in the white
space before the number. -/
theorem c28_command_buffer :
    (fLenScan "\n12 abc".toList = 0 ∧
        (fscanfRecord "\n12 abc".toList).COMMAND = "abc".toList) ∧
      ∀ content : List Char, (∀ ch ∈ content.takeWhile isspace, ch ≠ chNewline) →
        (fscanfRecord content).COMMAND.length ≤ fLenScan content :=
  ⟨⟨by decide, by decide⟩, fscanfRecord_fits⟩

/-- C28 on the record of pid 200 with the command `tac1100`: the stored command has 7
characters and `fLen` is 7. -/
theorem c28_command_buffer_witness :
    (fscanfRecord "200 tac1100\n".toList).COMMAND.length ≤ fLenScan "200 tac1100\n".toList ∧
      fLenScan "200 tac1100\n".toList = 7 :=
  ⟨c28_command_buffer.2 "200 tac1100\n".toList (by decide), by decide⟩

/-- C29 fails for a command that begins with a space: the record written for pid 100 and
the command of a space and an `x` is parsed back as the command `x`. -/
theorem c29_counterexample :
    0 < 100 ∧ chNewline ∉ " x".toList ∧
      (fscanfRecord (recordText 100 (some " x".toList))).LckPID = 100 ∧
      (fscanfRecord (recordText 100 (some " x".toList))).COMMAND = "x".toList ∧
      "x".toList ≠ " x".toList := by
  decide

/-- C29: for every pid (an `unsigned long`) and every command that contains no newline and
does not begin with a space, parsing the record text that `AddSerLock` writes for
`(PID, COMMAND)` with the format of `lockSer` and `ClrSerLock` stores exactly that pid and
exactly that command, the empty command when none was written. -/
theorem c29_round_trip (PID : Nat) (COMMAND : Option (List Char)) (hmax : PID ≤ ULONG_MAX)
    (hnl : ∀ c, COMMAND = some c → chNewline ∉ c)
    (hsp : ∀ c, COMMAND = some c → c.head? ≠ some chSpace) :
    (fscanfRecord (recordText PID COMMAND)).LckPID = PID ∧
      (fscanfRecord (recordText PID COMMAND)).COMMAND = COMMAND.getD [] := by
  rw [fscanfRecord_recordText PID COMMAND hmax]
  refine ⟨scanCommand_LckPID _ _ _, ?_⟩
  cases COMMAND with
  | none => rfl
  | some c =>
    cases c with
    | nil => rfl
    | cons a t =>
      have ha : a ≠ chSpace := by
        intro h
        exact hsp (a :: t) rfl (by simp [h])
      have hn : ∀ ch ∈ a :: t, (fun d => d != chNewline) ch = true := by
        intro ch hch
        have : ch ≠ chNewline := by
          rintro rfl
          exact hnl (a :: t) rfl hch
        simpa using this
      have htw := takeWhile_append_stop (fun d => d != chNewline) (a :: t) chNewline [] hn
        (by decide)
      have htail : recordTail (some (a :: t)) = chSpace :: (a :: t ++ [chNewline]) := by
        simp [recordTail]
      rw [htail]
      unfold scanCommand
      have hdrop : (a :: t ++ [chNewline]).dropWhile (fun d => d == chSpace) =
          a :: t ++ [chNewline] := by
        have hb : (a == chSpace) = false := by simpa using ha
        simp [List.dropWhile, hb]
      simp only [if_true, hdrop, htw.1]
      rfl

/-- C29 for pid 4242 and the command `/usr/bin/tac1100`. -/
theorem c29_round_trip_witness :
    (fscanfRecord (recordText 4242 (some "/usr/bin/tac1100".toList))).LckPID = 4242 ∧
      (fscanfRecord (recordText 4242 (some "/usr/bin/tac1100".toList))).COMMAND =
        "/usr/bin/tac1100".toList :=
  c29_round_trip 4242 (some "/usr/bin/tac1100".toList) (by decide)
    (fun c h => by
      cases h
      decide)
    (fun c h => by
      cases h
      decide)

/-! ## The lock file paths -/

theorem afterLastSlash_none (base : List Char) (h : '/' ∉ base) : afterLastSlash base = none := by
  induction base with
  | nil => rfl
  | cons x xs ih =>
    have hx : x ≠ '/' := fun e => h (by simp [e])
    have hxs : '/' ∉ xs := fun e => h (by simp [e])
    simp [afterLastSlash, ih hxs, hx]

/-- After the last `/` of a path stands its base name. -/
theorem afterLastSlash_append (pre base : List Char) (h : '/' ∉ base) :
    afterLastSlash (pre ++ '/' :: base) = some base := by
  induction pre with
  | nil => simp [afterLastSlash, afterLastSlash_none base h]
  | cons x xs ih => simp [afterLastSlash, ih]

theorem printLu_injective (a b : Nat) (h : printLu a = printLu b) : a = b := by
  have ha := (printLu_spec a).2.2
  have hb := (printLu_spec b).2.2
  rw [h] at ha
  exact ha.symm.trans hb

theorem getIntLenLoop_spec :
    ∀ (fuel n l : Nat), n ≤ fuel →
      ∃ d, getIntLenLoop fuel (n : Int) l = l + d ∧ n < 10 ^ d ∧ (n ≠ 0 → 0 < d) := by
  intro fuel
  induction fuel with
  | zero =>
    intro n l h
    have hn : n = 0 := by omega
    subst hn
    exact ⟨0, rfl, by simp, fun h => absurd rfl h⟩
  | succ k ih =>
    intro n l h
    by_cases hn : n = 0
    · subst hn
      exact ⟨0, by simp [getIntLenLoop], by simp, fun h => absurd rfl h⟩
    · have hne : (n : Int) ≠ 0 := by exact_mod_cast hn
      have hdiv : Int.tdiv (n : Int) 10 = ((n / 10 : Nat) : Int) := rfl
      obtain ⟨d, hd, hlt, _⟩ := ih (n / 10) (l + 1) (by omega)
      refine ⟨d + 1, ?_, ?_, fun _ => Nat.succ_pos d⟩
      · unfold getIntLenLoop
        rw [if_pos hne, hdiv, hd]
        omega
      · rw [pow_succ]
        omega

/-- The count of `getIntLen` is at least the number of digits that `%lu` prints. -/
theorem getIntLen_printLu (PID : Nat) (h : PID < 2 ^ 63) :
    (printLu PID).length ≤ getIntLen (toLong PID) := by
  have hmod : PID % 2 ^ 64 = PID := Nat.mod_eq_of_lt (by omega)
  have hlong : toLong PID = (PID : Int) := by
    unfold toLong
    rw [hmod, if_pos h]
  rw [hlong]
  obtain ⟨d, hd, hlt, hpos⟩ := getIntLenLoop_spec PID PID (if (PID : Int) = 0 then 1 else 0)
    (le_refl _)
  have hlen : getIntLen (PID : Int) = (if (PID : Int) = 0 then 1 else 0) + d := by
    unfold getIntLen
    rw [Int.natAbs_ofNat]
    exact hd
  have hprint : printLu PID = Nat.toDigitsCore 10 (PID + 1) PID [] := rfl
  rw [hprint, hlen]
  by_cases h0 : PID = 0
  · subst h0
    exact Nat.toDigitsCore_length 10 (by decide) 1 0 _ (by simp) (by simp)
  · have hne : ¬ ((PID : Int) = 0) := by exact_mod_cast h0
    rw [if_neg hne, Nat.zero_add]
    exact Nat.toDigitsCore_length 10 (by decide) (PID + 1) PID d hlt (hpos h0)

/-- C22: for a device path `pre/base` whose last `/` stands before `base`, `lockSer` sets
`devLCKfile` to `/var/lock/LCK..` followed by `base` and `devLCKfileNew` to `devLCKfile`
followed by a dot and the decimal digits of `PID` (a run of digits of value `PID`).  Any
other path with the same base name gives the same `devLCKfile`, whatever the pid, and any
other pid gives another `devLCKfileNew`.  For a pid below `2 ^ 63` both strings fit, with
their terminator, the memory asked for. -/
theorem c22_lock_paths (pre base : List Char) (PID : Nat) (hbase : '/' ∉ base) :
    ∃ p, lockPaths (pre ++ '/' :: base) PID = some p ∧
      p.devLCKfile = "/var/lock/LCK..".toList ++ base ∧
      p.devLCKfileNew = p.devLCKfile ++ '.' :: printLu PID ∧
      ((∀ c ∈ printLu PID, isdigit c = true) ∧ digitsValue (printLu PID) 0 = PID) ∧
      (∀ pre2 PID2, (lockPaths (pre2 ++ '/' :: base) PID2).map LockPaths.devLCKfile =
        some p.devLCKfile) ∧
      (∀ PID2, PID2 ≠ PID →
        (lockPaths (pre ++ '/' :: base) PID2).map LockPaths.devLCKfileNew ≠
          some p.devLCKfileNew) ∧
      (PID < 2 ^ 63 → p.devLCKfile.length + 1 ≤ p.devLCKfileSize ∧
        p.devLCKfileNew.length + 1 ≤ p.devLCKfileNewSize) := by
  have hpaths : ∀ pre2 PID2, lockPaths (pre2 ++ '/' :: base) PID2 =
      some
        { devLCKfile := ttyLCKloc ++ base
          devLCKfileSize := ttyLCKloc.length +
            ((pre2 ++ '/' :: base).length - ((pre2 ++ '/' :: base).length - base.length)) + 1
          devLCKfileNew := (ttyLCKloc ++ base) ++ '.' :: printLu PID2
          devLCKfileNewSize := (ttyLCKloc ++ base).length + getIntLen (toLong PID2) + 2 } := by
    intro pre2 PID2
    unfold lockPaths
    rw [afterLastSlash_append pre2 base hbase]
  refine ⟨_, hpaths pre PID, rfl, rfl, (printLu_spec PID).2, ?_, ?_, ?_⟩
  · intro pre2 PID2
    rw [hpaths pre2 PID2]
    rfl
  · intro PID2 hne h
    rw [hpaths pre PID2] at h
    simp only [Option.map_some', Option.some.injEq, List.append_cancel_left_eq,
      List.cons.injEq, true_and] at h
    exact hne (printLu_injective PID2 PID h)
  · intro hlt
    have hlen := getIntLen_printLu PID hlt
    simp only [List.length_append, List.length_cons]
    constructor <;> omega

/-- C22 for `/dev/ttyUSB0` and pid 4242: the record path is `/var/lock/LCK..ttyUSB0` and the
temporary path `/var/lock/LCK..ttyUSB0.4242`; `/dev/serial/ttyUSB0` gives the same record
path. -/
theorem c22_lock_paths_witness :
    ∃ p, lockPaths "/dev/ttyUSB0".toList 4242 = some p ∧
      p.devLCKfile = "/var/lock/LCK..ttyUSB0".toList ∧
      p.devLCKfileNew = "/var/lock/LCK..ttyUSB0.4242".toList ∧
      (lockPaths "/dev/serial/ttyUSB0".toList 7).map LockPaths.devLCKfile =
        some p.devLCKfile := by
  obtain ⟨p, hp, h1, h2, _, h4, _, _⟩ :=
    c22_lock_paths "/dev".toList "ttyUSB0".toList 4242 (by decide)
  refine ⟨p, hp, h1.trans (by decide), ?_, h4 "/dev/serial".toList 7⟩
  rw [h2, h1]
  decide

/-! ## The command line of a process -/

theorem cstr_append_nul (a rest : List Char) (h : chNul ∉ a) :
    cstr (a ++ chNul :: rest) = a := by
  unfold cstr
  refine (takeWhile_append_stop (fun c => c != chNul) a chNul rest ?_ (by decide)).1
  intro c hc
  have : c ≠ chNul := by
    rintro rfl
    exact h hc
  simpa using this

theorem cstr_self (l : List Char) (h : chNul ∉ l) : cstr l = l := by
  unfold cstr
  rw [List.takeWhile_eq_self_iff]
  intro c hc
  have : c ≠ chNul := by
    rintro rfl
    exact h hc
  simpa using this

theorem map_blank_self (a : List Char) (h : chNul ∉ a) :
    a.map (fun c => if c = chNul then chSpace else c) = a := by
  induction a with
  | nil => rfl
  | cons x xs ih =>
    have hx : x ≠ chNul := fun e => h (by simp [e])
    have hxs : chNul ∉ xs := fun e => h (by simp [e])
    simp [hx, ih hxs]

theorem map_blank_no_nul (l : List Char) :
    chNul ∉ l.map (fun c => if c = chNul then chSpace else c) := by
  intro h
  obtain ⟨c, _, hc⟩ := List.mem_map.mp h
  by_cases e : c = chNul
  · rw [if_pos e] at hc
    exact absurd hc (by decide)
  · rw [if_neg e] at hc
    exact e hc

/-- With every NUL turned into a space, the content of `/proc/<pid>/cmdline` is the arguments
joined by single spaces, and one more space. -/
theorem procCmdline_blank (a : List Char) (rest : List (List Char))
    (h : ∀ x ∈ a :: rest, chNul ∉ x) :
    (procCmdline (a :: rest)).map (fun c => if c = chNul then chSpace else c) =
      [chSpace].intercalate (a :: rest) ++ [chSpace] := by
  induction rest generalizing a with
  | nil =>
    have ha := map_blank_self a (h a (by simp))
    simp [procCmdline, ha, List.intercalate]
  | cons b rest ih =>
    have ha := map_blank_self a (h a (by simp))
    have hb := ih b (fun x hx => h x (by simp [List.mem_cons.mp hx]))
    have hsplit : procCmdline (a :: b :: rest) = a ++ chNul :: procCmdline (b :: rest) := rfl
    rw [hsplit, List.map_append, List.map_cons, ha, hb]
    simp [List.intercalate, List.intersperse]

theorem getPIDcmd_full (content : List Char) (h : content.length = 1024) :
    getPIDcmd (some content) = Outcome.undefined := by
  have htake : content.take 1024 = content := List.take_of_length_le (by omega)
  unfold getPIDcmd
  simp only [htake]
  rw [if_neg (by omega), if_pos h]

/-- C24 as stated fails: for the process started as `tac1100 -v`, `getPIDcmd` resolves
`tac1100`, not `tac1100 -v`; and on a content of 1024 bytes it stores past its buffer. -/
theorem c24_counterexample :
    getPIDcmd (some (procCmdline ["tac1100".toList, "-v".toList])) =
        Outcome.ret (some "tac1100".toList) ∧
      "tac1100".toList ≠ "tac1100 -v".toList ∧
      getPIDcmd (some (procCmdline [List.replicate 1023 'a'])) = Outcome.undefined := by
  refine ⟨by decide, by decide, ?_⟩
  have h : (procCmdline [List.replicate 1023 'a']).length = 1024 := by
    show (List.replicate 1023 'a' ++ [chNul]).length = 1024
    rw [List.length_append, List.length_replicate]
    rfl
  exact getPIDcmd_full _ h

/-- C24: for every process whose `/proc` cmdline content holds the NUL-terminated arguments
`a1 ... an` in fewer than 1024 bytes, the command that `getPIDcmd` resolves for that pid is the
first argument `a1` alone; it is NULL when the file cannot be opened or is empty.  The
arguments joined by single spaces, without the trailing separator, are what `getCmdLine`
stores in `cmdline` for the process itself when the content has at most 127 bytes. -/
theorem c24_command_of_pid (a1 : List Char) (rest : List (List Char))
    (hnul : ∀ x ∈ a1 :: rest, chNul ∉ x)
    (hlen : (procCmdline (a1 :: rest)).length < 1024) :
    getPIDcmd (some (procCmdline (a1 :: rest))) = Outcome.ret (some a1) ∧
      getPIDcmd none = Outcome.ret none ∧
      getPIDcmd (some []) = Outcome.ret none ∧
      ((procCmdline (a1 :: rest)).length ≤ 127 →
        getCmdLine (some (procCmdline (a1 :: rest))) =
          ([chSpace].intercalate (a1 :: rest), (procCmdline (a1 :: rest)).length)) := by
  have hcontent : procCmdline (a1 :: rest) = a1 ++ chNul :: procCmdline rest := rfl
  have hpos : 0 < (procCmdline (a1 :: rest)).length := by
    rw [hcontent]
    simp
  refine ⟨?_, rfl, rfl, ?_⟩
  · have htake : (procCmdline (a1 :: rest)).take 1024 = procCmdline (a1 :: rest) :=
      List.take_of_length_le (by omega)
    unfold getPIDcmd
    simp only [htake]
    rw [if_neg (by omega), if_neg (by omega), hcontent,
      cstr_append_nul a1 _ (hnul a1 (by simp))]
  · intro h127
    have htake : (procCmdline (a1 :: rest)).take (CMDLINESIZE - 1) = procCmdline (a1 :: rest) :=
      List.take_of_length_le (by
        have : CMDLINESIZE - 1 = 127 := rfl
        omega)
    have hblank := procCmdline_blank a1 rest hnul
    have hnn := map_blank_no_nul (procCmdline (a1 :: rest))
    rw [hblank] at hnn
    have hl : (procCmdline (a1 :: rest)).length =
        ([chSpace].intercalate (a1 :: rest)).length + 1 := by
      have := congrArg List.length hblank
      simpa using this
    unfold getCmdLine
    simp only [htake]
    rw [if_neg (by omega), hblank, hl, Nat.add_sub_cancel, List.take_left']
    · rw [cstr_self _ (fun hm => hnn (List.mem_append_left _ hm))]
    · rfl

/-- C24 for the process started as `tac1100 -v /dev/ttyUSB0`: `getPIDcmd` resolves `tac1100`
and `getCmdLine` stores `tac1100 -v /dev/ttyUSB0`. -/
theorem c24_command_of_pid_witness :
    getPIDcmd (some (procCmdline ["tac1100".toList, "-v".toList, "/dev/ttyUSB0".toList])) =
        Outcome.ret (some "tac1100".toList) ∧
      (getCmdLine (some (procCmdline
        ["tac1100".toList, "-v".toList, "/dev/ttyUSB0".toList]))).1 =
        "tac1100 -v /dev/ttyUSB0".toList :=
  ⟨(c24_command_of_pid "tac1100".toList ["-v".toList, "/dev/ttyUSB0".toList]
      (by decide) (by decide)).1,
   (congrArg Prod.fst ((c24_command_of_pid "tac1100".toList
      ["-v".toList, "/dev/ttyUSB0".toList] (by decide) (by decide)).2.2.2 (by decide))).trans
      (by decide)⟩

/-! ## Markers and exit statuses of the register phase -/

theorem unmarked_nil : Unmarked [] := ⟨rfl, rfl⟩

theorem unmarked_append (a b : List Event) (ha : Unmarked a) (hb : Unmarked b) :
    Unmarked (a ++ b) := by
  unfold Unmarked at *
  simp only [List.countP_append]
  omega

/-- A list without any `printf` holds no marker. -/
theorem unmarked_of_no_printf (l : List Event) (h : ∀ e ∈ l, ∀ fmt, e ≠ Event.printf fmt) :
    Unmarked l := by
  unfold Unmarked
  constructor
  · rw [List.countP_eq_zero]
    intro e he hok
    have : e = Event.printf "OK\n" := by simpa [Event.isOK] using hok
    exact h e he _ this
  · rw [List.countP_eq_zero]
    intro e he hok
    have : e = Event.printf "NOK\n" := by simpa [Event.isNOK] using hok
    exact h e he _ this

theorem sleepDelay_unmarked (g : Globals) : Unmarked (sleepDelay g) := by
  apply unmarked_of_no_printf
  intro e he fmt h
  unfold sleepDelay at he
  split_ifs at he
  · rw [List.mem_singleton.mp he] at h
    cases h
  · cases he

theorem ClrSerLock_unmarked (PID : Nat) (s : LockState) : Unmarked (ClrSerLock PID s).2 := by
  apply unmarked_of_no_printf
  intro e he fmt h
  rcases ClrSerLock_mem PID s e he with h1 | ⟨f, h1⟩ <;> rw [h1] at h <;> cases h

theorem measureLoop_unmarked (g : Globals) (address nb : Int) (n : Nat) (w : World) :
    Unmarked (measureLoop g address nb n w).2.2 := by
  apply unmarked_of_no_printf
  intro e he fmt h
  rcases measureLoop_mem g address nb n w e he with h1 | h1 <;> rw [h1] at h <;> cases h

theorem configLoop_unmarked (g : Globals) (address nb : Int) (n : Nat) (w : World) :
    Unmarked (configLoop g address nb n w).2.2 := by
  apply unmarked_of_no_printf
  intro e he fmt h
  rcases configLoop_mem g address nb n w e he with h1 | h1 <;> rw [h1] at h <;> cases h

/-- The tally of `exit_error`: `EXIT_FAILURE`, and the failure marker unless `-m` is set. -/
theorem exit_error_tally {α : Type} (g : Globals) (w : World) :
    Tally (exit_error g w : Res α) (Outcome.exit EXIT_FAILURE) 0 (markerCount g.metern_flag) := by
  have hc := ClrSerLock_unmarked g.PID w.lock
  unfold Tally exit_error markerCount
  refine ⟨rfl, ?_, ?_⟩
  · simp only [List.countP_append, hc.1]
    by_cases hm : g.metern_flag = 0
    · rw [if_pos hm]; rfl
    · rw [if_neg hm]; rfl
  · simp only [List.countP_append, hc.2]
    by_cases hm : g.metern_flag = 0
    · rw [if_pos hm, if_pos hm]; rfl
    · rw [if_neg hm, if_neg hm]; rfl

/-- Events without a marker in front of a step do not change its tally. -/
theorem tally_prepend {α : Type} (l : List Event) (r : Res α) (out : Outcome α) (ok nok : Nat)
    (hl : Unmarked l) (h : Tally r out ok nok) :
    Tally ({ r with ev := l ++ r.ev } : Res α) out ok nok := by
  unfold Tally at *
  simp only [List.countP_append, hl.1, hl.2, Nat.zero_add]
  exact h

theorem closeAndClear_tally {α : Type} (cfg : Config) (st : Nat) (w : World) :
    Tally (closeAndClear cfg st w : Res α) (Outcome.exit st) 0 0 := by
  have hc := ClrSerLock_unmarked cfg.PID w.lock
  unfold Tally closeAndClear
  refine ⟨rfl, ?_, ?_⟩
  · simp only [List.countP_append, hc.1]
    rfl
  · simp only [List.countP_append, hc.2]
    rfl

theorem andThen_stepM {α β : Type} (mf : Int) (r : Res α) (f : α → World → Res β)
    (hr : StepM mf r) (hf : ∀ a w, StepM mf (f a w)) : StepM mf (r.andThen f) := by
  rcases hr with ⟨a, ha, hok, hnok⟩ | ⟨ho, hok, hnok⟩
  · have h := andThen_ev_ret r f a ha
    rcases hf a r.w with ⟨b, hb, hbok, hbnok⟩ | ⟨hb, hbok, hbnok⟩
    · left
      refine ⟨b, ?_, ?_, ?_⟩
      · rw [h.2, hb]
      · rw [h.1, List.countP_append, hok, hbok]
      · rw [h.1, List.countP_append, hnok, hbnok]
    · right
      refine ⟨?_, ?_, ?_⟩
      · rw [h.2, hb]
      · rw [h.1, List.countP_append, hok, hbok]
      · rw [h.1, List.countP_append, hnok, hbnok, Nat.zero_add]
  · have h := andThen_ev_exit r f _ ho
    right
    exact ⟨h.2, by rw [h.1, hok], by rw [h.1, hnok]⟩

theorem andThen_ends {α β : Type} (mf : Int) (E : Nat → Nat → Nat → Prop) (r : Res α)
    (f : α → World → Res β) (hr : StepM mf r) (hE : E EXIT_FAILURE 0 (markerCount mf))
    (hf : ∀ a w, Ends E (f a w)) : Ends E (r.andThen f) := by
  rcases hr with ⟨a, ha, hok, hnok⟩ | ⟨ho, hok, hnok⟩
  · have h := andThen_ev_ret r f a ha
    obtain ⟨st, ok, nok, ⟨hb, hbok, hbnok⟩, he⟩ := hf a r.w
    refine ⟨st, ok, nok, ⟨?_, ?_, ?_⟩, he⟩
    · rw [h.2, hb]
    · rw [h.1, List.countP_append, hok, hbok, Nat.zero_add]
    · rw [h.1, List.countP_append, hnok, hbnok, Nat.zero_add]
  · have h := andThen_ev_exit r f _ ho
    exact ⟨EXIT_FAILURE, 0, markerCount mf, ⟨h.2, by rw [h.1, hok], by rw [h.1, hnok]⟩, hE⟩

theorem emit_stepM (mf : Int) (l : List Event) (w : World) (hl : Unmarked l) :
    StepM mf (emit l w) :=
  Or.inl ⟨(), rfl, hl.1, hl.2⟩

theorem getMeasureFloat_stepM (g : Globals) (address retries nb : Int) (w : World) :
    StepM g.metern_flag (getMeasureFloat g address retries nb w) := by
  have hl := measureLoop_unmarked g address nb retries.toNat w
  cases hr : (measureLoop g address nb retries.toNat w).1 with
  | none =>
    right
    simp only [getMeasureFloat, hr]
    exact tally_prepend _ _ _ _ _ hl (exit_error_tally g _)
  | some regs =>
    left
    simp only [getMeasureFloat, hr]
    exact ⟨_, rfl, hl.1, hl.2⟩

theorem getConfigUINT_stepM (g : Globals) (address retries nb : Int) (w : World) :
    StepM g.metern_flag (getConfigUINT g address retries nb w) := by
  have hl := configLoop_unmarked g address nb retries.toNat w
  cases hr : (configLoop g address nb retries.toNat w).1 with
  | none =>
    right
    simp only [getConfigUINT, hr]
    exact tally_prepend _ _ _ _ _ hl (exit_error_tally g _)
  | some regs =>
    left
    simp only [getConfigUINT, hr]
    exact ⟨_, rfl, hl.1, hl.2⟩

theorem write_unmarked (g : Globals) (address : Int) (regs : List Nat) :
    Unmarked (sleepDelay g ++ [Event.writeRegisters address regs]) :=
  unmarked_append _ _ (sleepDelay_unmarked g) ⟨rfl, rfl⟩

theorem restart_unmarked (restart : Int) :
    Unmarked ([Event.printf "New value %d for address 0x%X successfully written\n"] ++
      (if restart = RESTART_TRUE then restartBanner else [])) := by
  by_cases h : restart = RESTART_TRUE
  · rw [if_pos h]
    exact ⟨by decide, by decide⟩
  · rw [if_neg h]
    exact ⟨by decide, by decide⟩

theorem changeConfigUINT_stepM (g : Globals) (address value restart : Int) (w : World) :
    StepM g.metern_flag (changeConfigUINT g address value restart w) := by
  have hw := write_unmarked g address [toUint16 value]
  unfold changeConfigUINT
  cases hwr : w.writes 0
  · right
    simp only [Bool.false_eq_true, if_false]
    exact tally_prepend _ _ _ _ _ hw (exit_error_tally g _)
  · left
    simp only [if_true]
    have := unmarked_append _ _ hw (restart_unmarked restart)
    rw [← List.append_assoc] at this
    exact ⟨(), rfl, this.1, this.2⟩

theorem enableKPPA_stepM (mf : Int) (g : Globals) (current_password : Int) (w : World) :
    StepM mf (enableKPPA g current_password w) := by
  have hw := write_unmarked g KPPA [toUint16 current_password]
  unfold enableKPPA
  cases hwr : w.writes 0
  · simp only [Bool.false_eq_true, if_false]
    exact Or.inl ⟨_, rfl, hw.1, hw.2⟩
  · simp only [if_true]
    exact Or.inl ⟨_, rfl, hw.1, hw.2⟩

theorem unmarked_printf (fmt : String) (h1 : fmt ≠ "OK\n") (h2 : fmt ≠ "NOK\n") :
    Unmarked [Event.printf fmt] := by
  unfold Unmarked
  simp [Event.isOK, Event.isNOK, h1, h2]

theorem measureItems_formats (cfg : Config) :
    ∀ it ∈ measureItems cfg,
      (it.fmtMetern ≠ "OK\n" ∧ it.fmtMetern ≠ "NOK\n") ∧
      (it.fmtCompact ≠ "OK\n" ∧ it.fmtCompact ≠ "NOK\n") ∧
      (it.fmtPlain ≠ "OK\n" ∧ it.fmtPlain ≠ "NOK\n") := by
  intro it hit
  simp only [measureItems, List.mem_cons, List.mem_singleton, List.not_mem_nil, or_false] at hit
  rcases hit with h | h | h | h | h | h | h | h | h | h | h | h | h | h <;> subst h <;>
    refine ⟨⟨?_, ?_⟩, ⟨?_, ?_⟩, ?_, ?_⟩ <;> dsimp only <;> decide

theorem readMeasures_stepM (cfg : Config) :
    ∀ (items : List MeasureItem) (n : Int) (w : World),
      (∀ it ∈ items,
        (it.fmtMetern ≠ "OK\n" ∧ it.fmtMetern ≠ "NOK\n") ∧
        (it.fmtCompact ≠ "OK\n" ∧ it.fmtCompact ≠ "NOK\n") ∧
        (it.fmtPlain ≠ "OK\n" ∧ it.fmtPlain ≠ "NOK\n")) →
      StepM cfg.metern_flag (readMeasures cfg items n w) := by
  intro items
  induction items with
  | nil => intro n w _; exact Or.inl ⟨n, rfl, rfl, rfl⟩
  | cons it rest ih =>
    intro n w hfmt
    have hit := hfmt it (by simp)
    have hrest : ∀ x ∈ rest, _ := fun x hx => hfmt x (by simp [hx])
    by_cases hflag : it.flag = 1
    · simp only [readMeasures, hflag, if_true]
      refine andThen_stepM _ _ _ (getMeasureFloat_stepM cfg.globals _ _ _ w) (fun _ w1 => ?_)
      refine andThen_stepM _ _ _ (emit_stepM _ _ _ ?_) (fun _ w2 => ih _ w2 hrest)
      split_ifs
      · exact unmarked_printf _ hit.1.1 hit.1.2
      · exact unmarked_printf _ hit.2.1.1 hit.2.1.2
      · exact unmarked_printf _ hit.2.2.1 hit.2.2.2
    · simp only [readMeasures, hflag, if_false]
      exact ih n w hrest

theorem readTimeDisp_stepM (cfg : Config) (n : Int) (w : World) :
    StepM cfg.metern_flag (readTimeDisp cfg n w) := by
  by_cases hflag : cfg.time_disp_flag = 1
  · simp only [readTimeDisp, hflag, if_true]
    refine andThen_stepM _ _ _ (getConfigUINT_stepM cfg.globals _ _ _ w) (fun _ w1 => ?_)
    left
    refine ⟨n + 1, rfl, ?_, ?_⟩
    · split_ifs <;> rfl
    · split_ifs <;> rfl
  · simp only [readTimeDisp, hflag, if_false]
    exact Or.inl ⟨n, rfl, rfl, rfl⟩

theorem finish_ends (cfg : Config) (n : Int) (w : World) :
    Ends (ReadEnd cfg.metern_flag) (finish cfg n w) := by
  by_cases h : n = cfg.count_param
  · have hc : Tally (closeAndClear cfg 0 w : Res Unit) (Outcome.exit 0) 0 0 :=
      closeAndClear_tally cfg 0 w
    refine ⟨0, markerCount cfg.metern_flag, 0, ⟨?_, ?_, ?_⟩, Or.inl ⟨rfl, rfl, rfl⟩⟩
    · simp only [finish, h, if_true]
      exact hc.1
    · simp only [finish, h, if_true, List.countP_append, hc.2.1, markerCount]
      by_cases hm : cfg.metern_flag = 0
      · rw [if_pos hm, if_pos hm]; rfl
      · rw [if_neg hm, if_neg hm]; rfl
    · simp only [finish, h, if_true, List.countP_append, hc.2.2]
      by_cases hm : cfg.metern_flag = 0
      · rw [if_pos hm]; rfl
      · rw [if_neg hm]; rfl
  · simp only [finish, h, if_false]
    exact ⟨EXIT_FAILURE, 0, markerCount cfg.metern_flag, exit_error_tally cfg.globals w,
      Or.inr ⟨rfl, rfl, rfl⟩⟩

theorem withDefaultReads_metern (cfg : Config) :
    cfg.withDefaultReads.metern_flag = cfg.metern_flag := by
  unfold Config.withDefaultReads
  split_ifs <;> rfl

/-- The reading part ends with status 0 after `OK` or with `EXIT_FAILURE` after `NOK`, each
marker printed unless `-m` is set. -/
theorem readPhase_ends (cfg : Config) (w : World) :
    Ends (ReadEnd cfg.metern_flag) (readPhase cfg w) := by
  unfold readPhase
  rw [← withDefaultReads_metern cfg]
  refine andThen_ends _ _ _ _
    (readMeasures_stepM _ _ _ w (measureItems_formats _)) (Or.inr ⟨rfl, rfl, rfl⟩)
    (fun n w1 => ?_)
  exact andThen_ends _ _ _ _ (readTimeDisp_stepM _ n w1) (Or.inr ⟨rfl, rfl, rfl⟩)
    (fun n2 w2 => finish_ends _ n2 w2)

theorem readEnd_any (mf : Int) (st ok nok : Nat) (h : ReadEnd mf st ok nok) :
    AnyEnd mf st ok nok := by
  rcases h with ⟨h1, h2, h3⟩ | ⟨h1, h2, h3⟩
  · exact Or.inl ⟨h1, le_of_eq h2, h3⟩
  · exact Or.inr ⟨h1, h2, le_of_eq h3⟩

theorem ends_mono {α : Type} (E F : Nat → Nat → Nat → Prop) (r : Res α)
    (h : ∀ st ok nok, E st ok nok → F st ok nok) (hr : Ends E r) : Ends F r := by
  obtain ⟨st, ok, nok, ht, he⟩ := hr
  exact ⟨st, ok, nok, ht, h st ok nok he⟩

theorem closeAndClear_ends {α : Type} (cfg : Config) (st : Nat) (w : World)
    (h : st = 0 ∨ st = EXIT_FAILURE) :
    Ends (AnyEnd cfg.metern_flag) (closeAndClear cfg st w : Res α) := by
  refine ⟨st, 0, 0, closeAndClear_tally cfg st w, ?_⟩
  rcases h with h | h
  · exact Or.inl ⟨h, Nat.zero_le _, rfl⟩
  · exact Or.inr ⟨h, rfl, Nat.zero_le _⟩

theorem exit_error_ends {α : Type} (cfg : Config) (w : World) :
    Ends (AnyEnd cfg.metern_flag) (exit_error cfg.globals w : Res α) :=
  ⟨EXIT_FAILURE, 0, markerCount cfg.metern_flag, exit_error_tally cfg.globals w,
    Or.inr ⟨rfl, rfl, le_refl _⟩⟩

theorem anyEnd_failure (mf : Int) : AnyEnd mf EXIT_FAILURE 0 (markerCount mf) :=
  Or.inr ⟨rfl, rfl, le_refl _⟩

theorem writeBranch_ends (cfg : Config) (address value restart : Int) (w : World) :
    Ends (AnyEnd cfg.metern_flag) (writeBranch cfg address value restart w) := by
  unfold writeBranch
  split_ifs
  · exact andThen_ends cfg.metern_flag _ _ _ (emit_stepM _ _ _ ⟨rfl, rfl⟩) (anyEnd_failure _)
      (fun _ w1 => closeAndClear_ends cfg _ w1 (Or.inr rfl))
  · exact andThen_ends cfg.metern_flag _ _ _ (changeConfigUINT_stepM cfg.globals _ _ _ w)
      (anyEnd_failure _) (fun _ w1 => closeAndClear_ends cfg _ w1 (Or.inl rfl))

theorem protectedBranch_ends (cfg : Config) (address value : Int) (missing failed : List Event)
    (enabling enabled : Event) (done : List Event) (w : World)
    (h1 : Unmarked missing) (h2 : Unmarked failed) (h3 : Unmarked [enabling])
    (h4 : Unmarked [enabled]) (h5 : Unmarked done) :
    Ends (AnyEnd cfg.metern_flag)
      (protectedBranch cfg address value missing failed enabling enabled done w) := by
  unfold protectedBranch
  split_ifs
  · exact andThen_ends cfg.metern_flag _ _ _ (emit_stepM _ _ _ ⟨rfl, rfl⟩) (anyEnd_failure _)
      (fun _ w1 => closeAndClear_ends cfg _ w1 (Or.inr rfl))
  · exact andThen_ends cfg.metern_flag _ _ _ (emit_stepM _ _ _ h1) (anyEnd_failure _)
      (fun _ w1 => closeAndClear_ends cfg _ w1 (Or.inr rfl))
  · refine andThen_ends cfg.metern_flag _ _ _ (emit_stepM _ _ _ h3) (anyEnd_failure _)
      (fun _ w1 => ?_)
    refine andThen_ends cfg.metern_flag _ _ _ (enableKPPA_stepM _ cfg.globals _ w1)
      (anyEnd_failure _) (fun rc w2 => ?_)
    split_ifs
    · exact andThen_ends cfg.metern_flag _ _ _ (emit_stepM _ _ _ h2) (anyEnd_failure _)
        (fun _ w3 => closeAndClear_ends cfg _ w3 (Or.inr rfl))
    · refine andThen_ends cfg.metern_flag _ _ _ (emit_stepM _ _ _ h4) (anyEnd_failure _)
        (fun _ w3 => ?_)
      refine andThen_ends cfg.metern_flag _ _ _ (changeConfigUINT_stepM cfg.globals _ _ _ w3)
        (anyEnd_failure _) (fun _ w4 => ?_)
      exact andThen_ends cfg.metern_flag _ _ _ (emit_stepM _ _ _ h5) (anyEnd_failure _)
        (fun _ w5 => closeAndClear_ends cfg _ w5 (Or.inl rfl))

theorem resetDone_unmarked (t : Int) : Unmarked (resetDone t) := by
  unfold resetDone
  split_ifs <;> exact ⟨by decide, by decide⟩

theorem usage_exit_error_ends (cfg : Config) (w : World) :
    Ends (AnyEnd cfg.metern_flag)
      ((emit [Event.usage] w).andThen fun _ w1 => (exit_error cfg.globals w1 : Res Unit)) :=
  andThen_ends cfg.metern_flag _ _ _ (emit_stepM _ _ _ ⟨rfl, rfl⟩) (anyEnd_failure _)
    (fun _ w1 => exit_error_ends cfg w1)

/-- Every run of the register phase ends with status 0 or `EXIT_FAILURE` and at most the one
marker that goes with the status. -/
theorem registerPhase_ends (cfg : Config) (w : World) :
    Ends (AnyEnd cfg.metern_flag) (registerPhase cfg w) := by
  unfold registerPhase
  by_cases h1 : cfg.new_address > 0 ∧ cfg.new_baud_rate ≥ 0
  · rw [if_pos h1]
    exact usage_exit_error_ends cfg w
  rw [if_neg h1]
  by_cases h2 : (cfg.new_address > 0 ∨ cfg.new_baud_rate ≥ 0) ∧ cfg.new_parity_stop ≥ 0
  · rw [if_pos h2]
    exact usage_exit_error_ends cfg w
  rw [if_neg h2]
  by_cases h3 : cfg.new_address > 0
  · rw [if_pos h3]
    exact writeBranch_ends cfg _ _ _ w
  rw [if_neg h3]
  by_cases h4 : cfg.new_baud_rate ≥ 0
  · rw [if_pos h4]
    exact writeBranch_ends cfg _ _ _ w
  rw [if_neg h4]
  by_cases h5 : cfg.new_parity_stop ≥ 0
  · rw [if_pos h5]
    exact writeBranch_ends cfg _ _ _ w
  rw [if_neg h5]
  by_cases h6 : cfg.password_flag > 0
  · rw [if_pos h6]
    exact protectedBranch_ends cfg _ _ _ _ _ _ _ w ⟨by decide, by decide⟩
      ⟨by decide, by decide⟩ ⟨by decide, by decide⟩ ⟨by decide, by decide⟩
      ⟨by decide, by decide⟩
  rw [if_neg h6]
  by_cases h7 : cfg.demand_period_flag > 0
  · rw [if_pos h7]
    exact writeBranch_ends cfg _ _ _ w
  rw [if_neg h7]
  by_cases h8 : cfg.slide_time_flag > 0
  · rw [if_pos h8]
    exact writeBranch_ends cfg _ _ _ w
  rw [if_neg h8]
  by_cases h9 : cfg.scroll_time_flag > 0
  · rw [if_pos h9]
    exact writeBranch_ends cfg _ _ _ w
  rw [if_neg h9]
  by_cases h10 : cfg.backlit_time_flag > 0
  · rw [if_pos h10]
    exact writeBranch_ends cfg _ _ _ w
  rw [if_neg h10]
  by_cases h11 : cfg.reset_hist_flag > 0
  · rw [if_pos h11]
    exact protectedBranch_ends cfg _ _ _ _ _ _ _ w ⟨by decide, by decide⟩
      ⟨by decide, by decide⟩ ⟨by decide, by decide⟩ ⟨by decide, by decide⟩
      (resetDone_unmarked _)
  rw [if_neg h11]
  exact ends_mono _ _ _ (readEnd_any _) (readPhase_ends cfg w)

/-- Without a write option the register phase is the reading part. -/
theorem registerPhase_readsOnly (cfg : Config) (w : World) (h : cfg.readsOnly) :
    registerPhase cfg w = readPhase cfg w := by
  obtain ⟨h1, h2, h3, h4, h5, h6, h7, h8, h9⟩ := h
  have c1 : ¬ (cfg.new_address > 0 ∧ cfg.new_baud_rate ≥ 0) := by omega
  have c2 : ¬ ((cfg.new_address > 0 ∨ cfg.new_baud_rate ≥ 0) ∧ cfg.new_parity_stop ≥ 0) := by
    omega
  have c3 : ¬ cfg.new_address > 0 := by omega
  have c4 : ¬ cfg.new_baud_rate ≥ 0 := by omega
  have c5 : ¬ cfg.new_parity_stop ≥ 0 := by omega
  have c6 : ¬ cfg.password_flag > 0 := by omega
  have c7 : ¬ cfg.demand_period_flag > 0 := by omega
  have c8 : ¬ cfg.slide_time_flag > 0 := by omega
  have c9 : ¬ cfg.scroll_time_flag > 0 := by omega
  have c10 : ¬ cfg.backlit_time_flag > 0 := by omega
  have c11 : ¬ cfg.reset_hist_flag > 0 := by omega
  unfold registerPhase
  rw [if_neg c1, if_neg c2, if_neg c3, if_neg c4, if_neg c5, if_neg c6, if_neg c7, if_neg c8,
    if_neg c9, if_neg c10, if_neg c11]

theorem setupEvents_unmarked (cfg : Config) : Unmarked (setupEvents cfg) := by
  unfold setupEvents
  refine unmarked_append _ _ (unmarked_append _ _ ?_ ?_) ⟨rfl, rfl⟩
  · split_ifs <;> exact ⟨rfl, rfl⟩
  · split_ifs <;> exact ⟨rfl, rfl⟩

theorem countP_marker (l : List Event) :
    l.countP Event.isMarker = l.countP Event.isOK + l.countP Event.isNOK := by
  induction l with
  | nil => rfl
  | cons e l ih =>
    simp only [List.countP_cons, ih]
    by_cases h1 : e = Event.printf "OK\n"
    · subst h1
      have a1 : Event.isMarker (Event.printf "OK\n") = true := by decide
      have a2 : Event.isOK (Event.printf "OK\n") = true := by decide
      have a3 : Event.isNOK (Event.printf "OK\n") = false := by decide
      simp only [a1, a2, a3, if_true, Bool.false_eq_true, if_false]
      omega
    · by_cases h2 : e = Event.printf "NOK\n"
      · subst h2
        have a1 : Event.isMarker (Event.printf "NOK\n") = true := by decide
        have a2 : Event.isOK (Event.printf "NOK\n") = false := by decide
        have a3 : Event.isNOK (Event.printf "NOK\n") = true := by decide
        simp only [a1, a2, a3, if_true, Bool.false_eq_true, if_false]
        omega
      · have a2 : Event.isOK e = false := by simp [Event.isOK, h1]
        have a3 : Event.isNOK e = false := by simp [Event.isNOK, h2]
        have a1 : Event.isMarker e = false := by simp [Event.isMarker, a2, a3]
        simp only [a1, a2, a3, Bool.false_eq_true, if_false]
        omega

/-- The run of `main` on an open connection has the tally of its register phase. -/
theorem mainAfterLock_ends (cfg : Config) (w : World) (E : Nat → Nat → Nat → Prop)
    (h : Ends E (registerPhase cfg w)) : Ends E (mainAfterLock cfg true true w) := by
  obtain ⟨st, ok, nok, ⟨ho, hok, hnok⟩, he⟩ := h
  have hs := setupEvents_unmarked cfg
  have hev : (mainAfterLock cfg true true w).ev =
      (Event.modbus_new_rtu :: setupEvents cfg) ++ (registerPhase cfg w).ev := rfl
  have hout : (mainAfterLock cfg true true w).out = (registerPhase cfg w).out := rfl
  refine ⟨st, ok, nok, ⟨hout.trans ho, ?_, ?_⟩, he⟩
  · have h0 : Event.isOK Event.modbus_new_rtu = false := rfl
    rw [hev, List.countP_append, List.countP_cons, hs.1, hok, h0]
    simp
  · have h0 : Event.isNOK Event.modbus_new_rtu = false := rfl
    rw [hev, List.countP_append, List.countP_cons, hs.2, hnok, h0]
    simp

/-- C26 as stated fails twice.  After `-s 5` the register phase writes the address, ends with
status 0 and prints no marker, though neither `-m` nor `-q` is set.  After `-q -v`, in
compact mode, the run prints the marker `OK`. -/
theorem c26_counterexample :
    ((optionLoop [Opt.s 5] (initialVars 100)).out =
        Outcome.ret { initialVars 100 with cfg := addressConfig } ∧
      (mainAfterLock addressConfig true true goodBus).out = Outcome.exit 0 ∧
      Event.writeRegisters DEVICE_ID [5] ∈ (mainAfterLock addressConfig true true goodBus).ev ∧
      (mainAfterLock addressConfig true true goodBus).ev.countP Event.isMarker = 0) ∧
    ((optionLoop [Opt.q, Opt.read ReadOpt.v] (initialVars 100)).out =
        Outcome.ret { initialVars 100 with cfg := compactVoltConfig } ∧
      compactVoltConfig.compact_flag = 1 ∧
      (mainAfterLock compactVoltConfig true true goodBus).ev.countP Event.isMarker = 1 ∧
      Event.printf "OK\n" ∈ (mainAfterLock compactVoltConfig true true goodBus).ev) := by
  refine ⟨⟨rfl, rfl, by decide, by decide⟩, rfl, rfl, by decide, by decide⟩

theorem accept_out (m : MainVars) : (accept m).out = Outcome.ret m := rfl

theorem refuse_out (fmt : String) : (refuse fmt).out = Outcome.exit EXIT_FAILURE := rfl

/-- C27: for every accepted `-y` value `y` (1 to 500) the option loop stores `y` unscaled and
the set-up calls `modbus_set_byte_timeout(ctx, 0, y)`: 0 seconds and `y` microseconds, not
`y * 1000` microseconds.  It makes no other byte timeout call.  Without `-y` the only such
call is `modbus_set_byte_timeout(ctx, -1, 0)`, which disables the timeout. -/
theorem c27_byte_timeout (m : MainVars) (y : Int) (h1 : 1 ≤ y) (h2 : y ≤ 500) :
    (∃ m1, (applyOpt m (Opt.y y)).out = Outcome.ret m1 ∧ m1.cfg.byte_timeout = y ∧
      Event.setByteTimeout 0 y ∈ setupEvents m1.cfg ∧
      (∀ sec usec, Event.setByteTimeout sec usec ∈ setupEvents m1.cfg →
        sec = 0 ∧ usec = y) ∧
      Event.setByteTimeout 0 (y * 1000) ∉ setupEvents m1.cfg) ∧
    (∀ PID sec usec, Event.setByteTimeout sec usec ∈ setupEvents (initialVars PID).cfg →
      sec = -1 ∧ usec = 0) := by
  have hcalls : ∀ cfg : Config, ∀ sec usec, Event.setByteTimeout sec usec ∈ setupEvents cfg →
      Event.setByteTimeout sec usec =
        (if cfg.byte_timeout = -1 then Event.setByteTimeout (-1) 0
         else Event.setByteTimeout 0 cfg.byte_timeout) := by
    intro cfg sec usec hmem
    unfold setupEvents at hmem
    simp only [List.mem_append, List.mem_cons, List.mem_singleton, List.not_mem_nil,
      or_false] at hmem
    rcases hmem with (h | h) | h
    · rcases h with h | h
      · exact h
      · cases h
    · split_ifs at h <;> simp at h
    · cases h
  have hne : ¬ (y = -1) := by omega
  have hacc : applyOpt m (Opt.y y) =
      accept { m with cfg := { m.cfg with byte_timeout := y } } := by
    simp only [applyOpt]
    rw [if_neg (by omega)]
  refine ⟨⟨_, by rw [hacc]; rfl, rfl, ?_, ?_, ?_⟩, ?_⟩
  · unfold setupEvents
    simp [hne]
  · intro sec usec hmem
    have := hcalls _ sec usec hmem
    simp only [hne, if_false, Event.setByteTimeout.injEq] at this
    exact this
  · intro hmem
    have := hcalls _ _ _ hmem
    simp only [hne, if_false, Event.setByteTimeout.injEq, true_and] at this
    omega
  · intro PID sec usec hmem
    have := hcalls _ sec usec hmem
    have hd : (initialVars PID).cfg.byte_timeout = -1 := rfl
    simp only [hd, if_true, Event.setByteTimeout.injEq] at this
    exact this

/-- C27 for `-y 100`: the byte timeout call is `modbus_set_byte_timeout(ctx, 0, 100)`, that is
100 microseconds. -/
theorem c27_byte_timeout_witness :
    ∃ m1, (applyOpt (initialVars 100) (Opt.y 100)).out = Outcome.ret m1 ∧
      Event.setByteTimeout 0 100 ∈ setupEvents m1.cfg ∧
      Event.setByteTimeout 0 100000 ∉ setupEvents m1.cfg := by
  obtain ⟨⟨m1, h1, _, h3, _, h5⟩, _⟩ :=
    c27_byte_timeout (initialVars 100) 100 (by decide) (by decide)
  exact ⟨m1, h1, h3, h5⟩

/-! ## Read options and the final comparison -/

theorem andThen_w_ret {α β : Type} (r : Res α) (f : α → World → Res β) (a : α)
    (h : r.out = Outcome.ret a) : (r.andThen f).w = (f a r.w).w := by
  unfold Res.andThen
  rw [h]

theorem afterRead_readsSucceed (w : World) (h : w.readsSucceed) : w.afterRead.readsSucceed :=
  fun i => h (i + 1)

/-- A read that is answered at once returns after one call. -/
theorem getMeasureFloat_ok (g : Globals) (address retries nb : Int) (w : World)
    (hr : 0 < retries.toNat) (h : w.readsSucceed) :
    (∃ a, (getMeasureFloat g address retries nb w).out = Outcome.ret a) ∧
      (getMeasureFloat g address retries nb w).w = w.afterRead ∧
      Event.exit_error ∉ (getMeasureFloat g address retries nb w).ev := by
  obtain ⟨k, hk⟩ : ∃ k, retries.toNat = k + 1 := ⟨retries.toNat - 1, by omega⟩
  cases h0 : w.reads 0 with
  | none => exact absurd h0 (h 0)
  | some regs =>
    have hl : measureLoop g address nb (k + 1) w =
        (some regs, w.afterRead, sleepDelay g ++ [Event.readInput address nb]) := by
      simp only [measureLoop, h0]
    simp only [getMeasureFloat, hk, hl]
    refine ⟨⟨_, rfl⟩, trivial, ?_⟩
    intro hmem
    rcases List.mem_append.mp hmem with hm | hm
    · exact sleepDelay_no_exit_error g hm
    · cases List.mem_singleton.mp hm

theorem getConfigUINT_ok (g : Globals) (address retries nb : Int) (w : World)
    (hr : 0 < retries.toNat) (h : w.readsSucceed) :
    (∃ a, (getConfigUINT g address retries nb w).out = Outcome.ret a) ∧
      (getConfigUINT g address retries nb w).w = w.afterRead ∧
      Event.exit_error ∉ (getConfigUINT g address retries nb w).ev := by
  obtain ⟨k, hk⟩ : ∃ k, retries.toNat = k + 1 := ⟨retries.toNat - 1, by omega⟩
  cases h0 : w.reads 0 with
  | none => exact absurd h0 (h 0)
  | some regs =>
    have hl : configLoop g address nb (k + 1) w =
        (some regs, w.afterRead, sleepDelay g ++ [Event.readHolding address nb]) := by
      simp only [configLoop, h0]
    simp only [getConfigUINT, hk, hl]
    refine ⟨⟨_, rfl⟩, trivial, ?_⟩
    intro hmem
    rcases List.mem_append.mp hmem with hm | hm
    · exact sleepDelay_no_exit_error g hm
    · cases List.mem_singleton.mp hm

/-- On a transport that answers every read, the float blocks count one read per set flag
and do not call `exit_error`. -/
theorem readMeasures_ok (cfg : Config) (hr : 0 < cfg.num_retries.toNat) :
    ∀ (items : List MeasureItem) (n : Int) (w : World), w.readsSucceed →
      (readMeasures cfg items n w).out =
          Outcome.ret (n + (items.countP fun it => decide (it.flag = 1) : Nat)) ∧
        (readMeasures cfg items n w).w.readsSucceed ∧
        Event.exit_error ∉ (readMeasures cfg items n w).ev := by
  intro items
  induction items with
  | nil =>
    intro n w hw
    refine ⟨?_, hw, ?_⟩
    · simp [readMeasures]
    · simp [readMeasures]
  | cons it rest ih =>
    intro n w hw
    by_cases hflag : it.flag = 1
    · obtain ⟨⟨a, ha⟩, hw1, hne⟩ := getMeasureFloat_ok cfg.globals it.address cfg.num_retries 2 w
        hr hw
      obtain ⟨h1, h2, h3⟩ := ih (n + 1) w.afterRead (afterRead_readsSucceed w hw)
      have hstep : readMeasures cfg (it :: rest) n w =
          (getMeasureFloat cfg.globals it.address cfg.num_retries 2 w).andThen fun _ w1 =>
            (emit [Event.printf (if cfg.metern_flag = 1 then it.fmtMetern
              else if cfg.compact_flag = 1 then it.fmtCompact else it.fmtPlain)] w1).andThen
              fun _ w2 => readMeasures cfg rest (n + 1) w2 := by
        simp only [readMeasures, hflag, if_true]
      have hev := andThen_ev_ret _ (fun (_ : List Nat) w1 =>
            (emit [Event.printf (if cfg.metern_flag = 1 then it.fmtMetern
              else if cfg.compact_flag = 1 then it.fmtCompact else it.fmtPlain)] w1).andThen
              fun _ w2 => readMeasures cfg rest (n + 1) w2) a ha
      have hwr := andThen_w_ret _ (fun (_ : List Nat) w1 =>
            (emit [Event.printf (if cfg.metern_flag = 1 then it.fmtMetern
              else if cfg.compact_flag = 1 then it.fmtCompact else it.fmtPlain)] w1).andThen
              fun _ w2 => readMeasures cfg rest (n + 1) w2) a ha
      rw [hstep, hev.2, hwr, hev.1, hw1]
      have hin := emit_andThen [Event.printf (if cfg.metern_flag = 1 then it.fmtMetern
              else if cfg.compact_flag = 1 then it.fmtCompact else it.fmtPlain)] w.afterRead
          (fun _ w2 => readMeasures cfg rest (n + 1) w2)
      have hinw : ((emit [Event.printf (if cfg.metern_flag = 1 then it.fmtMetern
              else if cfg.compact_flag = 1 then it.fmtCompact else it.fmtPlain)]
              w.afterRead).andThen
          (fun _ w2 => readMeasures cfg rest (n + 1) w2)).w =
          (readMeasures cfg rest (n + 1) w.afterRead).w := rfl
      rw [hin.2, hinw, hin.1]
      refine ⟨?_, h2, ?_⟩
      · rw [h1, List.countP_cons_of_pos]
        · push_cast
          ring_nf
        · simpa using hflag
      · intro hmem
        rcases List.mem_append.mp hmem with hm | hm
        · exact hne hm
        · rcases List.mem_append.mp hm with hm | hm
          · cases List.mem_singleton.mp hm
          · exact h3 hm
    · obtain ⟨h1, h2, h3⟩ := ih n w hw
      have hstep : readMeasures cfg (it :: rest) n w = readMeasures cfg rest n w := by
        simp only [readMeasures, hflag, if_false]
      rw [hstep]
      refine ⟨?_, h2, h3⟩
      rw [h1, List.countP_cons_of_neg]
      simpa using hflag

theorem readTimeDisp_ok (cfg : Config) (hr : 0 < cfg.num_retries.toNat) (n : Int) (w : World)
    (hw : w.readsSucceed) :
    (readTimeDisp cfg n w).out =
        Outcome.ret (n + (if cfg.time_disp_flag = 1 then 1 else 0 : Nat)) ∧
      Event.exit_error ∉ (readTimeDisp cfg n w).ev := by
  by_cases hflag : cfg.time_disp_flag = 1
  · obtain ⟨⟨a, ha⟩, _, hne⟩ := getConfigUINT_ok cfg.globals TIME_DISP cfg.num_retries 1 w hr hw
    have hev := andThen_ev_ret _ (fun (_ : Int) w1 =>
        ({ out := Outcome.ret (n + 1), w := w1,
           ev := [Event.printf (if cfg.compact_flag = 1 then "%d "
              else "Automatic scroll display time: %d seconds\n")] } : Res Int)) a ha
    simp only [readTimeDisp, hflag, if_true]
    rw [hev.2, hev.1]
    refine ⟨by simp, ?_⟩
    intro hmem
    rcases List.mem_append.mp hmem with hm | hm
    · exact hne hm
    · cases List.mem_singleton.mp hm
  · simp only [readTimeDisp, hflag, if_false]
    exact ⟨by simp, by simp⟩

theorem setRead_readFlag (cfg : Config) (r r2 : ReadOpt) :
    (cfg.setRead r).readFlag r2 = if r2 = r then 1 else cfg.readFlag r2 := by
  cases r <;> cases r2 <;> rfl

theorem setRead_count (cfg : Config) (r : ReadOpt) :
    (cfg.setRead r).count_param = cfg.count_param + 1 := by
  cases r <;> rfl

theorem setRead_keeps (cfg : Config) (r : ReadOpt) :
    (cfg.setRead r).num_retries = cfg.num_retries ∧
      (cfg.setRead r).metern_flag = cfg.metern_flag ∧
      ((cfg.setRead r).readsOnly ↔ cfg.readsOnly) := by
  cases r <;> exact ⟨rfl, rfl, Iff.rfl⟩

/-- What a run of read options leaves in the variables: each named flag set, `count_param`
raised by the number of options, the rest untouched. -/
theorem foldl_setRead : ∀ (opts : List ReadOpt) (base : Config),
    (opts.foldl Config.setRead base).num_retries = base.num_retries ∧
      (opts.foldl Config.setRead base).metern_flag = base.metern_flag ∧
      ((opts.foldl Config.setRead base).readsOnly ↔ base.readsOnly) ∧
      (opts.foldl Config.setRead base).count_param = base.count_param + opts.length ∧
      ∀ r, (opts.foldl Config.setRead base).readFlag r =
        if r ∈ opts then 1 else base.readFlag r := by
  intro opts
  induction opts with
  | nil =>
    intro base
    exact ⟨rfl, rfl, Iff.rfl, by simp, fun r => by simp⟩
  | cons op rest ih =>
    intro base
    obtain ⟨h1, h2, h3, h4, h5⟩ := ih (base.setRead op)
    obtain ⟨k1, k2, k3⟩ := setRead_keeps base op
    rw [List.foldl_cons]
    refine ⟨h1.trans k1, h2.trans k2, h3.trans k3, ?_, ?_⟩
    · rw [h4, setRead_count, List.length_cons]
      push_cast
      ring
    · intro r
      rw [h5 r, setRead_readFlag]
      by_cases hr : r ∈ rest
      · simp [hr]
      · by_cases ho : r = op
        · simp [ho]
        · simp [hr, ho]

theorem optionLoop_reads : ∀ (opts : List ReadOpt) (m : MainVars),
    optionLoop (opts.map Opt.read) m =
      accept { m with cfg := opts.foldl Config.setRead m.cfg } := by
  intro opts
  induction opts with
  | nil => intro m; rfl
  | cons op rest ih =>
    intro m
    have h := ih { m with cfg := m.cfg.setRead op }
    have hstep : optionLoop ((op :: rest).map Opt.read) m =
        { out := (optionLoop (rest.map Opt.read) { m with cfg := m.cfg.setRead op }).out
          ev := [] ++ (optionLoop (rest.map Opt.read) { m with cfg := m.cfg.setRead op }).ev } :=
      rfl
    rw [hstep, h]
    rfl

theorem noReadFlag_iff (cfg : Config) :
    cfg.noReadFlag = true ↔ ∀ r, cfg.readFlag r = 0 := by
  simp only [Config.noReadFlag, Bool.and_eq_true, beq_iff_eq, and_assoc]
  constructor
  · rintro ⟨a1, a2, a3, a4, a5, a6, a7, a8, a9, a10, a11, a12, a13, a14, a15⟩ r
    cases r <;> simp only [Config.readFlag] <;> assumption
  · intro h
    exact ⟨h ReadOpt.p, h ReadOpt.l, h ReadOpt.n, h ReadOpt.v, h ReadOpt.c, h ReadOpt.g,
      h ReadOpt.o, h ReadOpt.f, h ReadOpt.e, h ReadOpt.i, h ReadOpt.t, h ReadOpt.B,
      h ReadOpt.A, h ReadOpt.C, h ReadOpt.T⟩

/-- The number of reads that the reading part performs is the number of set read flags. -/
theorem selected_eq (cfg : Config) :
    ((measureItems cfg).countP fun it => decide (it.flag = 1)) +
        (if cfg.time_disp_flag = 1 then 1 else 0) =
      readOrder.countP fun r => decide (cfg.readFlag r = 1) := by
  simp only [measureItems, readOrder, List.countP_cons, List.countP_nil, Config.readFlag,
    decide_eq_true_eq]
  ring

theorem mem_readOrder (r : ReadOpt) : r ∈ readOrder := by
  cases r <;> decide

theorem countP_readOrder (opts : List ReadOpt) :
    (readOrder.countP fun r => decide (r ∈ opts)) = opts.dedup.length := by
  rw [List.countP_eq_length_filter]
  have hnd : (readOrder.filter fun r => decide (r ∈ opts)).Nodup :=
    List.Nodup.filter _ (by decide)
  rw [← List.toFinset_card_of_nodup hnd, ← List.card_toFinset opts]
  congr 1
  ext r
  simp [List.mem_filter, mem_readOrder]

theorem dedup_length_iff (opts : List ReadOpt) : opts.dedup.length = opts.length ↔ opts.Nodup := by
  constructor
  · intro h
    have hs : opts.dedup = opts := (List.dedup_sublist opts).eq_of_length h
    exact List.dedup_eq_self.mp hs
  · intro h
    rw [List.dedup_eq_self.mpr h]

theorem withDefaultReads_retries (cfg : Config) :
    cfg.withDefaultReads.num_retries = cfg.num_retries := by
  unfold Config.withDefaultReads
  split_ifs <;> rfl

theorem finish_cases (cfg : Config) (n : Int) (w : World) :
    (n = cfg.count_param →
        (finish cfg n w).out = Outcome.exit 0 ∧ Event.exit_error ∉ (finish cfg n w).ev) ∧
      (n ≠ cfg.count_param →
        (finish cfg n w).out = Outcome.exit EXIT_FAILURE ∧
          Event.exit_error ∈ (finish cfg n w).ev) := by
  constructor
  · intro h
    simp only [finish, h, if_true]
    refine ⟨rfl, ?_⟩
    intro hmem
    rcases List.mem_append.mp hmem with hm | hm
    · unfold closeAndClear at hm
      simp only [List.mem_append, List.mem_cons, List.mem_singleton, List.not_mem_nil,
        or_false] at hm
      rcases hm with (hm | hm) | hm
      · cases hm
      · cases hm
      · rcases ClrSerLock_mem _ _ _ hm with h1 | ⟨f, h1⟩ <;> cases h1
    · split_ifs at hm
      · cases List.mem_singleton.mp hm
      · cases hm
  · intro h
    simp only [finish, h, if_false]
    exact ⟨rfl, exit_error_head _ w⟩

/-- On a transport that answers every read, the reading part ends with status 0 and without
`exit_error` exactly when the number of set read flags equals `count_param`. -/
theorem readPhase_reads (cfg : Config) (w : World) (hr : 0 < cfg.num_retries.toNat)
    (hw : w.readsSucceed) :
    (((readOrder.countP fun r => decide (cfg.withDefaultReads.readFlag r = 1) : Nat) : Int) =
          cfg.withDefaultReads.count_param →
        (readPhase cfg w).out = Outcome.exit 0 ∧ Event.exit_error ∉ (readPhase cfg w).ev) ∧
      (((readOrder.countP fun r => decide (cfg.withDefaultReads.readFlag r = 1) : Nat) : Int) ≠
          cfg.withDefaultReads.count_param →
        (readPhase cfg w).out = Outcome.exit EXIT_FAILURE ∧
          Event.exit_error ∈ (readPhase cfg w).ev) := by
  have hr2 : 0 < cfg.withDefaultReads.num_retries.toNat := by
    rw [withDefaultReads_retries]
    exact hr
  obtain ⟨h1, h2, h3⟩ := readMeasures_ok cfg.withDefaultReads hr2
    (measureItems cfg.withDefaultReads) 0 w hw
  obtain ⟨t1, t3⟩ := readTimeDisp_ok cfg.withDefaultReads hr2
    (0 + ((measureItems cfg.withDefaultReads).countP fun it => decide (it.flag = 1) : Nat))
    (readMeasures cfg.withDefaultReads (measureItems cfg.withDefaultReads) 0 w).w h2
  have e1 := andThen_ev_ret _ (fun n w1 => (readTimeDisp cfg.withDefaultReads n w1).andThen
      fun n2 w2 => finish cfg.withDefaultReads n2 w2) _ h1
  have e2 := andThen_ev_ret _ (fun n2 w2 => finish cfg.withDefaultReads n2 w2) _ t1
  have hN : (0 : Int) + ((measureItems cfg.withDefaultReads).countP
        (fun it => decide (it.flag = 1)) : Nat) +
      ((if cfg.withDefaultReads.time_disp_flag = 1 then 1 else 0 : Nat) : Int) =
      ((readOrder.countP fun r => decide (cfg.withDefaultReads.readFlag r = 1) : Nat) : Int) := by
    rw [← selected_eq]
    push_cast
    ring
  rw [hN] at e2
  have hout : (readPhase cfg w).out = _ := e1.2.trans e2.2
  have hev : (readPhase cfg w).ev = _ := e1.1.trans (congrArg _ e2.1)
  obtain ⟨f1, f2⟩ := finish_cases cfg.withDefaultReads
    ((readOrder.countP fun r => decide (cfg.withDefaultReads.readFlag r = 1) : Nat) : Int)
    (readTimeDisp cfg.withDefaultReads
      (0 + ((measureItems cfg.withDefaultReads).countP fun it => decide (it.flag = 1) : Nat))
      (readMeasures cfg.withDefaultReads (measureItems cfg.withDefaultReads) 0 w).w).w
  constructor
  · intro h
    obtain ⟨g1, g2⟩ := f1 h
    refine ⟨hout.trans g1, ?_⟩
    rw [hev]
    intro hmem
    rcases List.mem_append.mp hmem with hm | hm
    · exact h3 hm
    · rcases List.mem_append.mp hm with hm | hm
      · exact t3 hm
      · exact g2 hm
  · intro h
    obtain ⟨g1, g2⟩ := f2 h
    refine ⟨hout.trans g1, ?_⟩
    rw [hev]
    exact List.mem_append_right _ (List.mem_append_right _ g2)


theorem setupEvents_no_exit_error (cfg : Config) : Event.exit_error ∉ setupEvents cfg := by
  intro hmem
  unfold setupEvents at hmem
  simp only [List.mem_append, List.mem_cons, List.mem_singleton, List.not_mem_nil,
    or_false] at hmem
  rcases hmem with (h | h) | h
  · rcases h with h | h
    · split_ifs at h
    · cases h
  · split_ifs at h <;> simp at h
  · cases h

/-- After a run of read options on fresh variables, the number of set read flags equals
`count_param` exactly when no option was repeated. -/
theorem selected_count_iff (base : Config) (opts : List ReadOpt)
    (hflags : ∀ r, base.readFlag r = 0) (hcount : base.count_param = 0) :
    (((readOrder.countP fun r =>
          decide ((opts.foldl Config.setRead base).withDefaultReads.readFlag r = 1) : Nat) : Int) =
        (opts.foldl Config.setRead base).withDefaultReads.count_param) ↔ opts.Nodup := by
  cases opts with
  | nil =>
    have hno : base.noReadFlag = true := (noReadFlag_iff base).mpr hflags
    have hT : base.time_disp_flag = 0 := hflags ReadOpt.T
    simp only [List.foldl_nil, Config.withDefaultReads, hno, if_true, readOrder,
      List.countP_cons, List.countP_nil, Config.readFlag, hT]
    simp
  | cons op rest =>
    obtain ⟨_, _, _, k4, k5⟩ := foldl_setRead (op :: rest) base
    have hno : (List.foldl Config.setRead base (op :: rest)).noReadFlag = false := by
      cases hb : (List.foldl Config.setRead base (op :: rest)).noReadFlag with
      | false => rfl
      | true =>
        have h0 := (noReadFlag_iff _).mp hb op
        rw [k5 op, if_pos (List.mem_cons_self op rest)] at h0
        cases h0
    have hc : (List.foldl Config.setRead base (op :: rest)).withDefaultReads =
        List.foldl Config.setRead base (op :: rest) := by
      simp only [Config.withDefaultReads, hno, Bool.false_eq_true, if_false]
    rw [hc, k4, hcount]
    have hcongr : (readOrder.countP fun r =>
        decide ((List.foldl Config.setRead base (op :: rest)).readFlag r = 1)) =
        readOrder.countP fun r => decide (r ∈ op :: rest) := by
      apply List.countP_congr
      intro r _
      rw [k5 r, hflags r]
      by_cases hr : r ∈ op :: rest
      · simp [hr]
      · simp [hr]
    rw [hcongr, countP_readOrder, ← dedup_length_iff]
    constructor
    · intro h
      have : ((op :: rest).dedup.length : Int) = ((op :: rest).length : Int) := by
        rw [h]
        simp
      exact_mod_cast this
    · intro h
      rw [h]
      simp

/-- C30: after a run of read options on fresh variables each named flag is set and
`count_param` counts every occurrence.  On a transport that answers every read, the run
ends on the success path (status 0, no `exit_error`, `OK` printed unless `-m` is set) when no
read option was given twice; when one was, `read_count` stays below `count_param` and the
run ends through `exit_error` with `EXIT_FAILURE`, printing `NOK` unless `-m` is set, though
every read has succeeded. -/
theorem c30_repeated_read_option (m : MainVars) (opts : List ReadOpt) (w : World)
    (hflags : ∀ r, m.cfg.readFlag r = 0) (hcount : m.cfg.count_param = 0)
    (hro : m.cfg.readsOnly) (hretry : 1 ≤ m.cfg.num_retries) (hw : w.readsSucceed) :
    ∃ m1, (optionLoop (opts.map Opt.read) m).out = Outcome.ret m1 ∧
      m1.cfg.count_param = opts.length ∧
      (opts.Nodup →
        (mainAfterLock m1.cfg true true w).out = Outcome.exit 0 ∧
        Event.exit_error ∉ (mainAfterLock m1.cfg true true w).ev ∧
        (mainAfterLock m1.cfg true true w).ev.countP Event.isOK =
          markerCount m.cfg.metern_flag ∧
        (mainAfterLock m1.cfg true true w).ev.countP Event.isNOK = 0) ∧
      (¬ opts.Nodup →
        (mainAfterLock m1.cfg true true w).out = Outcome.exit EXIT_FAILURE ∧
        Event.exit_error ∈ (mainAfterLock m1.cfg true true w).ev ∧
        (mainAfterLock m1.cfg true true w).ev.countP Event.isOK = 0 ∧
        (mainAfterLock m1.cfg true true w).ev.countP Event.isNOK =
          markerCount m.cfg.metern_flag) := by
  obtain ⟨k1, k2, k3, k4, _⟩ := foldl_setRead opts m.cfg
  have hr : 0 < (opts.foldl Config.setRead m.cfg).num_retries.toNat := by
    rw [k1]
    omega
  have hreg := registerPhase_readsOnly (opts.foldl Config.setRead m.cfg) w (k3.mpr hro)
  have hout : (mainAfterLock (opts.foldl Config.setRead m.cfg) true true w).out =
      (readPhase (opts.foldl Config.setRead m.cfg) w).out := by
    rw [← hreg]
    rfl
  have hev : (mainAfterLock (opts.foldl Config.setRead m.cfg) true true w).ev =
      (Event.modbus_new_rtu :: setupEvents (opts.foldl Config.setRead m.cfg)) ++
        (readPhase (opts.foldl Config.setRead m.cfg) w).ev := by
    rw [← hreg]
    rfl
  have hends := readPhase_ends (opts.foldl Config.setRead m.cfg) w
  rw [← hreg, k2] at hends
  obtain ⟨st, ok, nok, ⟨ho, hok, hnok⟩, he⟩ := mainAfterLock_ends _ w _ hends
  obtain ⟨r1, r2⟩ := readPhase_reads (opts.foldl Config.setRead m.cfg) w hr hw
  have hiff := selected_count_iff m.cfg opts hflags hcount
  refine ⟨{ m with cfg := opts.foldl Config.setRead m.cfg }, ?_, ?_, ?_, ?_⟩
  · rw [optionLoop_reads]
    rfl
  · show (opts.foldl Config.setRead m.cfg).count_param = opts.length
    rw [k4, hcount]
    simp
  · intro hnd
    obtain ⟨g1, g2⟩ := r1 (hiff.mpr hnd)
    have hst : st = 0 := by
      have := ho.symm.trans (hout.trans g1)
      cases this
      rfl
    refine ⟨hout.trans g1, ?_, ?_, ?_⟩
    · show Event.exit_error ∉ (mainAfterLock (opts.foldl Config.setRead m.cfg) true true w).ev
      rw [hev]
      intro hmem
      rcases List.mem_append.mp hmem with hm | hm
      · rcases List.mem_cons.mp hm with hm | hm
        · cases hm
        · exact setupEvents_no_exit_error _ hm
      · exact g2 hm
    · rcases he with ⟨_, h2, _⟩ | ⟨h1, _, _⟩
      · exact hok.trans h2
      · rw [hst] at h1
        cases h1
    · rcases he with ⟨_, _, h3⟩ | ⟨h1, _, _⟩
      · exact hnok.trans h3
      · rw [hst] at h1
        cases h1
  · intro hnd
    obtain ⟨g1, g2⟩ := r2 (fun h => hnd (hiff.mp h))
    have hst : st = EXIT_FAILURE := by
      have := ho.symm.trans (hout.trans g1)
      cases this
      rfl
    refine ⟨hout.trans g1, ?_, ?_, ?_⟩
    · show Event.exit_error ∈ (mainAfterLock (opts.foldl Config.setRead m.cfg) true true w).ev
      rw [hev]
      exact List.mem_append_right _ g2
    · rcases he with ⟨h1, _, _⟩ | ⟨_, h2, _⟩
      · rw [hst] at h1
        cases h1
      · exact hok.trans h2
    · rcases he with ⟨h1, _, _⟩ | ⟨_, _, h3⟩
      · rw [hst] at h1
        cases h1
      · exact hnok.trans h3

theorem goodBus_readsSucceed : goodBus.readsSucceed := by
  intro i h
  cases h

/-- C30 for `-v -v` on a transport that answers every read: `count_param` is 2, the voltage
is read once, and the run ends through `exit_error` with `EXIT_FAILURE` after `NOK`. -/
theorem c30_repeated_read_option_witness :
    ∃ m1, (optionLoop [Opt.read ReadOpt.v, Opt.read ReadOpt.v] (initialVars 100)).out =
        Outcome.ret m1 ∧
      m1.cfg.count_param = 2 ∧
      (mainAfterLock m1.cfg true true goodBus).out = Outcome.exit EXIT_FAILURE ∧
      Event.exit_error ∈ (mainAfterLock m1.cfg true true goodBus).ev ∧
      (mainAfterLock m1.cfg true true goodBus).ev.countP Event.isRead = 1 ∧
      (mainAfterLock m1.cfg true true goodBus).ev.countP Event.isNOK = 1 := by
  obtain ⟨m1, h1, h2, _, h4⟩ := c30_repeated_read_option (initialVars 100)
    [ReadOpt.v, ReadOpt.v] goodBus (fun r => by cases r <;> rfl) rfl
    (by unfold Config.readsOnly; decide) (by decide) goodBus_readsSucceed
  obtain ⟨g1, g2, _, g4⟩ := h4 (by decide)
  have hm : m1 = { initialVars 100 with
      cfg := [ReadOpt.v, ReadOpt.v].foldl Config.setRead (initialVars 100).cfg } := by
    have e : (optionLoop (List.map Opt.read [ReadOpt.v, ReadOpt.v]) (initialVars 100)).out =
        Outcome.ret { initialVars 100 with
          cfg := [ReadOpt.v, ReadOpt.v].foldl Config.setRead (initialVars 100).cfg } := rfl
    rw [h1] at e
    cases e
    rfl
  refine ⟨m1, h1, h2, g1, g2, ?_, g4.trans rfl⟩
  rw [hm]
  decide

/-! ## Release and classification on records read inside the buffer -/

theorem readRecord_ret (c : List Char) (r : ScanResult) (h : readRecord c = Outcome.ret r) :
    r = fscanfRecord c ∧ (fscanfRecord c).COMMAND.length ≤ fLenScan c := by
  unfold readRecord at h
  by_cases hf : (fscanfRecord c).COMMAND.length + 1 ≤ fLenScan c + 1
  · rw [if_pos hf] at h
    cases h
    exact ⟨rfl, by omega⟩
  · rw [if_neg hf] at h
    cases h

/-- C10, amended: when the record is read inside its buffer and the read yields a non-zero pid
other than `PID`, `ClrSerLock(PID)` closes the exclusive handle and returns without unlinking
anything: the record of the other process and the temporary file of the caller are both as
they were. -/
theorem c10_foreign_record_untouched (PID : Nat) (s : LockState) (c : List Char) (r : ScanResult)
    (hc : s.devLCKfile = some c)
    (hread : readRecord c = Outcome.ret r) (h0 : r.LckPID ≠ 0)
    (hne : r.LckPID ≠ PID) :
    (ClrSerLock PID s).1 = { s with fdModbusExclusiveLock := false } ∧
    (ClrSerLock PID s).2 = [Event.ClrSerLock PID] := by
  have hr := (readRecord_ret c r hread).1
  subst hr
  exact ClrSerLock_foreign PID s c hc h0 hne

/-- C10 amended, at the state of the counterexample. -/
theorem c10_foreign_record_untouched_witness :
    (ClrSerLock 100 ⟨some "200 sdm120c\n".toList, some "100\n".toList, true⟩).1 =
      ⟨some "200 sdm120c\n".toList, some "100\n".toList, false⟩ ∧
    (ClrSerLock 100 ⟨some "200 sdm120c\n".toList, some "100\n".toList, true⟩).2 =
      [Event.ClrSerLock 100] :=
  c10_foreign_record_untouched 100 ⟨some "200 sdm120c\n".toList, some "100\n".toList, true⟩
    "200 sdm120c\n".toList ⟨2, 200, "sdm120c".toList, 0⟩ rfl (by decide) (by decide) (by decide)


/-- C16, amended: in a polling iteration whose record is read inside its buffer and whose read
yields a pid, when `getPIDcmd` of that pid returns a command that is not the empty string and
the recorded command is empty or equal to it, the stale test fails: the iteration resets the
stale counter and the clear target to 0, leaves the lock files as it found them and does not
call `ClrSerLock`. -/
theorem c16_valid_classification (env : LockEnv) (COMMAND : Option (List Char))
    (v : LoopVars) (s : LockState) (c live : List Char) (r : ScanResult)
    (hrec : (env.disturb v.totalLockAttempts s).devLCKfile = some c)
    (hread : readRecord c = Outcome.ret r)
    (hflock : env.flockError v.totalLockAttempts = false)
    (herr : r.errno = 0) (h0 : r.LckPID ≠ 0)
    (hlive : env.getPIDcmd v.totalLockAttempts r.LckPID = some live)
    (hfound : live ≠ [])
    (hcmd : cstr r.COMMAND = [] ∨ cstr r.COMMAND = live) :
    staleTest env.PID r.LckPID r.COMMAND
        (env.getPIDcmd v.totalLockAttempts r.LckPID) = some false ∧
      ∃ v2, (lockIter env COMMAND v s).out = Outcome.ret v2 ∧
        v2.staleLockRetries = 0 ∧ v2.clrStaleTargetPID = 0 ∧
        (lockIter env COMMAND v s).lock = env.disturb v.totalLockAttempts s ∧
        ∀ p, Event.ClrSerLock p ∉ (lockIter env COMMAND v s).ev := by
  have hr := (readRecord_ret c r hread).1
  subst hr
  exact lockIter_valid env COMMAND v s c live hrec hflock herr h0 hlive hfound hcmd

/-- C16 on the record `200 /usr/bin/vim` of a live editor, read by pid 100 after two counted
stale readings: the counter and the clear target are reset and the record stays. -/
theorem c16_valid_classification_witness :
    ∃ v2, (lockIter (quietEnv 30 editorTable) none ⟨0, 2, 200, 0, 3⟩ editorStart).out =
        Outcome.ret v2 ∧
      v2.staleLockRetries = 0 ∧ v2.clrStaleTargetPID = 0 ∧
      (lockIter (quietEnv 30 editorTable) none ⟨0, 2, 200, 0, 3⟩ editorStart).lock =
        editorStart :=
  have h := c16_valid_classification (quietEnv 30 editorTable) none ⟨0, 2, 200, 0, 3⟩
    editorStart "200 /usr/bin/vim\n".toList "/usr/bin/vim".toList
    ⟨2, 200, "/usr/bin/vim".toList, 0⟩ rfl (by decide) rfl (by decide)
    (by decide) (by decide) (by decide) (Or.inr (by decide))
  match h.2 with
  | ⟨v2, hout, h1, h2, h3, _⟩ => ⟨v2, hout, h1, h2, h3⟩


theorem writtenTail_complete (PID : Nat) (COMMAND : Option (List Char)) (linkFails : Bool) :
    writtenTail (AddCalls.complete PID COMMAND linkFails) COMMAND = recordTail COMMAND := by
  unfold writtenTail recordTail AddCalls.complete
  cases COMMAND with
  | none => rfl
  | some c => simp

/-- On calls in which `open` and every `write` succeed, `AddSerLockWith` is `AddSerLock`. -/
theorem AddSerLockWith_complete (PID : Nat) (COMMAND : Option (List Char)) (linkFails : Bool)
    (s : LockState) :
    AddSerLockWith (AddCalls.complete PID COMMAND linkFails) PID COMMAND s =
      AddSerLock PID COMMAND linkFails s := by
  have ht := writtenTail_complete PID COMMAND linkFails
  have h1 : (AddCalls.complete PID COMMAND linkFails).openNew = OpenResult.descriptor := rfl
  have h2 : (AddCalls.complete PID COMMAND linkFails).pidWritten = (printLu PID).length := rfl
  have h3 : (AddCalls.complete PID COMMAND linkFails).linkFails = linkFails := rfl
  unfold AddSerLockWith AddSerLock
  cases hn : s.devLCKfileNew with
  | some t => rfl
  | none =>
    simp only [h1, h2, h3, ht, lt_irrefl, if_false, recordText]

theorem andThen_writeEnd {α β : Type} (mf : Int) (r : Res α) (f : α → World → Res β)
    (hr : StepW mf r) (hf : ∀ a w, WriteEnd mf (f a w)) : WriteEnd mf (r.andThen f) := by
  rcases hr with ⟨a, ⟨ha, hok, hnok⟩, hne⟩ | ⟨⟨ho, hok, hnok⟩, hee⟩
  · have h := andThen_ev_ret r f a ha
    rcases hf a r.w with ⟨⟨hb, hbok, hbnok⟩, hbe⟩ | ⟨st, hst, ⟨hb, hbok, hbnok⟩, hbe⟩
    · left
      refine ⟨⟨h.2.trans hb, ?_, ?_⟩, ?_⟩
      · rw [h.1, List.countP_append, hok, hbok]
      · rw [h.1, List.countP_append, hnok, hbnok, Nat.zero_add]
      · rw [h.1]
        exact List.mem_append_right _ hbe
    · right
      refine ⟨st, hst, ⟨h.2.trans hb, ?_, ?_⟩, ?_⟩
      · rw [h.1, List.countP_append, hok, hbok]
      · rw [h.1, List.countP_append, hnok, hbnok]
      · rw [h.1]
        intro hm
        rcases List.mem_append.mp hm with hm | hm
        · exact hne hm
        · exact hbe hm
  · have h := andThen_ev_exit r f _ ho
    left
    exact ⟨⟨h.2, by rw [h.1, hok], by rw [h.1, hnok]⟩, by rw [h.1]; exact hee⟩

theorem emit_stepW (mf : Int) (l : List Event) (w : World) (hl : Unmarked l)
    (he : Event.exit_error ∉ l) : StepW mf (emit l w) :=
  Or.inl ⟨(), ⟨rfl, hl.1, hl.2⟩, he⟩

theorem ClrSerLock_no_exit_error (PID : Nat) (s : LockState) :
    Event.exit_error ∉ (ClrSerLock PID s).2 := by
  intro h
  rcases ClrSerLock_mem PID s _ h with h1 | ⟨f, h1⟩ <;> cases h1

theorem closeAndClear_writeEnd {α : Type} (cfg : Config) (st : Nat) (w : World)
    (h : st = 0 ∨ st = EXIT_FAILURE) :
    WriteEnd cfg.metern_flag (closeAndClear cfg st w : Res α) := by
  refine Or.inr ⟨st, h, closeAndClear_tally cfg st w, ?_⟩
  intro hm
  unfold closeAndClear at hm
  rcases List.mem_append.mp hm with hm | hm
  · rcases List.mem_cons.mp hm with hm | hm
    · cases hm
    · cases List.mem_singleton.mp hm
  · exact ClrSerLock_no_exit_error _ _ hm

theorem exit_error_writeEnd {α : Type} (cfg : Config) (w : World) :
    WriteEnd cfg.metern_flag (exit_error cfg.globals w : Res α) :=
  Or.inl ⟨exit_error_tally cfg.globals w, exit_error_head cfg.globals w⟩

theorem write_no_exit_error (g : Globals) (address : Int) (regs : List Nat) :
    Event.exit_error ∉ sleepDelay g ++ [Event.writeRegisters address regs] := by
  intro hm
  rcases List.mem_append.mp hm with hm | hm
  · exact sleepDelay_no_exit_error g hm
  · cases List.mem_singleton.mp hm

theorem changeConfigUINT_stepW (g : Globals) (address value restart : Int) (w : World) :
    StepW g.metern_flag (changeConfigUINT g address value restart w) := by
  have hw := write_unmarked g address [toUint16 value]
  have hn := write_no_exit_error g address [toUint16 value]
  unfold changeConfigUINT
  cases hwr : w.writes 0
  · right
    simp only [Bool.false_eq_true, if_false]
    refine ⟨tally_prepend _ _ _ _ _ hw (exit_error_tally g _), ?_⟩
    exact List.mem_append_right _ (exit_error_head g _)
  · left
    simp only [if_true]
    have hu := unmarked_append _ _ hw (restart_unmarked restart)
    rw [← List.append_assoc] at hu
    refine ⟨(), ⟨rfl, hu.1, hu.2⟩, ?_⟩
    intro hm
    rcases List.mem_append.mp hm with hm | hm
    · rcases List.mem_append.mp hm with hm | hm
      · exact hn hm
      · cases List.mem_singleton.mp hm
    · split_ifs at hm
      · revert hm
        decide
      · cases hm

theorem enableKPPA_stepW (mf : Int) (g : Globals) (current_password : Int) (w : World) :
    StepW mf (enableKPPA g current_password w) := by
  have hw := write_unmarked g KPPA [toUint16 current_password]
  have hn := write_no_exit_error g KPPA [toUint16 current_password]
  unfold enableKPPA
  cases hwr : w.writes 0
  · simp only [Bool.false_eq_true, if_false]
    exact Or.inl ⟨_, ⟨rfl, hw.1, hw.2⟩, hn⟩
  · simp only [if_true]
    exact Or.inl ⟨_, ⟨rfl, hw.1, hw.2⟩, hn⟩

theorem usage_stepW (mf : Int) (w : World) : StepW mf (emit [Event.usage] w) :=
  emit_stepW mf _ w ⟨rfl, rfl⟩ (by decide)

theorem writeBranch_writeEnd (cfg : Config) (address value restart : Int) (w : World) :
    WriteEnd cfg.metern_flag (writeBranch cfg address value restart w) := by
  unfold writeBranch
  split_ifs
  · exact andThen_writeEnd cfg.metern_flag _ _ (usage_stepW _ w)
      (fun _ w1 => closeAndClear_writeEnd cfg _ w1 (Or.inr rfl))
  · exact andThen_writeEnd cfg.metern_flag _ _ (changeConfigUINT_stepW cfg.globals _ _ _ w)
      (fun _ w1 => closeAndClear_writeEnd cfg _ w1 (Or.inl rfl))

theorem protectedBranch_writeEnd (cfg : Config) (address value : Int)
    (missing failed : List Event) (enabling enabled : Event) (done : List Event) (w : World)
    (h1 : Unmarked missing ∧ Event.exit_error ∉ missing)
    (h2 : Unmarked failed ∧ Event.exit_error ∉ failed)
    (h3 : Unmarked [enabling] ∧ Event.exit_error ∉ [enabling])
    (h4 : Unmarked [enabled] ∧ Event.exit_error ∉ [enabled])
    (h5 : Unmarked done ∧ Event.exit_error ∉ done) :
    WriteEnd cfg.metern_flag
      (protectedBranch cfg address value missing failed enabling enabled done w) := by
  unfold protectedBranch
  split_ifs
  · exact andThen_writeEnd cfg.metern_flag _ _ (usage_stepW _ w)
      (fun _ w1 => closeAndClear_writeEnd cfg _ w1 (Or.inr rfl))
  · exact andThen_writeEnd cfg.metern_flag _ _ (emit_stepW _ _ _ h1.1 h1.2)
      (fun _ w1 => closeAndClear_writeEnd cfg _ w1 (Or.inr rfl))
  · refine andThen_writeEnd cfg.metern_flag _ _ (emit_stepW _ _ _ h3.1 h3.2) (fun _ w1 => ?_)
    refine andThen_writeEnd cfg.metern_flag _ _ (enableKPPA_stepW _ cfg.globals _ w1)
      (fun rc w2 => ?_)
    split_ifs
    · exact andThen_writeEnd cfg.metern_flag _ _ (emit_stepW _ _ _ h2.1 h2.2)
        (fun _ w3 => closeAndClear_writeEnd cfg _ w3 (Or.inr rfl))
    · refine andThen_writeEnd cfg.metern_flag _ _ (emit_stepW _ _ _ h4.1 h4.2)
        (fun _ w3 => ?_)
      refine andThen_writeEnd cfg.metern_flag _ _
        (changeConfigUINT_stepW cfg.globals _ _ _ w3) (fun _ w4 => ?_)
      exact andThen_writeEnd cfg.metern_flag _ _ (emit_stepW _ _ _ h5.1 h5.2)
        (fun _ w5 => closeAndClear_writeEnd cfg _ w5 (Or.inl rfl))

theorem resetDone_no_exit_error (t : Int) : Event.exit_error ∉ resetDone t := by
  unfold resetDone
  split_ifs <;> decide

theorem usage_exit_error_writeEnd (cfg : Config) (w : World) :
    WriteEnd cfg.metern_flag
      ((emit [Event.usage] w).andThen fun _ w1 => (exit_error cfg.globals w1 : Res Unit)) :=
  andThen_writeEnd cfg.metern_flag _ _ (usage_stepW _ w) (fun _ w1 => exit_error_writeEnd cfg w1)

/-- A run of the register phase with a write option never prints `OK`, and prints `NOK`
exactly when it ends through `exit_error` and `-m` is not set. -/
theorem registerPhase_writeEnd (cfg : Config) (w : World) (hw : ¬ cfg.readsOnly) :
    WriteEnd cfg.metern_flag (registerPhase cfg w) := by
  unfold registerPhase
  by_cases h1 : cfg.new_address > 0 ∧ cfg.new_baud_rate ≥ 0
  · rw [if_pos h1]
    exact usage_exit_error_writeEnd cfg w
  rw [if_neg h1]
  by_cases h2 : (cfg.new_address > 0 ∨ cfg.new_baud_rate ≥ 0) ∧ cfg.new_parity_stop ≥ 0
  · rw [if_pos h2]
    exact usage_exit_error_writeEnd cfg w
  rw [if_neg h2]
  by_cases h3 : cfg.new_address > 0
  · rw [if_pos h3]
    exact writeBranch_writeEnd cfg _ _ _ w
  rw [if_neg h3]
  by_cases h4 : cfg.new_baud_rate ≥ 0
  · rw [if_pos h4]
    exact writeBranch_writeEnd cfg _ _ _ w
  rw [if_neg h4]
  by_cases h5 : cfg.new_parity_stop ≥ 0
  · rw [if_pos h5]
    exact writeBranch_writeEnd cfg _ _ _ w
  rw [if_neg h5]
  by_cases h6 : cfg.password_flag > 0
  · rw [if_pos h6]
    exact protectedBranch_writeEnd cfg _ _ _ _ _ _ _ w
      ⟨⟨by decide, by decide⟩, by decide⟩ ⟨⟨by decide, by decide⟩, by decide⟩
      ⟨⟨by decide, by decide⟩, by decide⟩ ⟨⟨by decide, by decide⟩, by decide⟩
      ⟨⟨by decide, by decide⟩, by decide⟩
  rw [if_neg h6]
  by_cases h7 : cfg.demand_period_flag > 0
  · rw [if_pos h7]
    exact writeBranch_writeEnd cfg _ _ _ w
  rw [if_neg h7]
  by_cases h8 : cfg.slide_time_flag > 0
  · rw [if_pos h8]
    exact writeBranch_writeEnd cfg _ _ _ w
  rw [if_neg h8]
  by_cases h9 : cfg.scroll_time_flag > 0
  · rw [if_pos h9]
    exact writeBranch_writeEnd cfg _ _ _ w
  rw [if_neg h9]
  by_cases h10 : cfg.backlit_time_flag > 0
  · rw [if_pos h10]
    exact writeBranch_writeEnd cfg _ _ _ w
  rw [if_neg h10]
  by_cases h11 : cfg.reset_hist_flag > 0
  · rw [if_pos h11]
    exact protectedBranch_writeEnd cfg _ _ _ _ _ _ _ w
      ⟨⟨by decide, by decide⟩, by decide⟩ ⟨⟨by decide, by decide⟩, by decide⟩
      ⟨⟨by decide, by decide⟩, by decide⟩ ⟨⟨by decide, by decide⟩, by decide⟩
      ⟨resetDone_unmarked _, resetDone_no_exit_error _⟩
  exact absurd ⟨by omega, by omega, by omega, by omega, by omega, by omega, by omega,
    by omega, by omega⟩ hw

theorem mainAfterLock_writeEnd (cfg : Config) (w : World)
    (h : WriteEnd cfg.metern_flag (registerPhase cfg w)) :
    WriteEnd cfg.metern_flag (mainAfterLock cfg true true w) := by
  have hs := setupEvents_unmarked cfg
  have hev : (mainAfterLock cfg true true w).ev =
      (Event.modbus_new_rtu :: setupEvents cfg) ++ (registerPhase cfg w).ev := rfl
  have hout : (mainAfterLock cfg true true w).out = (registerPhase cfg w).out := rfl
  have hok : (mainAfterLock cfg true true w).ev.countP Event.isOK =
      (registerPhase cfg w).ev.countP Event.isOK := by
    have h0 : Event.isOK Event.modbus_new_rtu = false := rfl
    rw [hev, List.countP_append, List.countP_cons, hs.1, h0]
    simp
  have hnok : (mainAfterLock cfg true true w).ev.countP Event.isNOK =
      (registerPhase cfg w).ev.countP Event.isNOK := by
    have h0 : Event.isNOK Event.modbus_new_rtu = false := rfl
    rw [hev, List.countP_append, List.countP_cons, hs.2, h0]
    simp
  have hmem : Event.exit_error ∈ (mainAfterLock cfg true true w).ev ↔
      Event.exit_error ∈ (registerPhase cfg w).ev := by
    rw [hev]
    constructor
    · intro hm
      rcases List.mem_append.mp hm with hm | hm
      · rcases List.mem_cons.mp hm with hm | hm
        · cases hm
        · exact absurd hm (setupEvents_no_exit_error cfg)
      · exact hm
    · intro hm
      exact List.mem_append_right _ hm
  rcases h with ⟨⟨ho, h1, h2⟩, he⟩ | ⟨st, hst, ⟨ho, h1, h2⟩, he⟩
  · exact Or.inl ⟨⟨hout.trans ho, hok.trans h1, hnok.trans h2⟩, hmem.mpr he⟩
  · exact Or.inr ⟨st, hst, ⟨hout.trans ho, hok.trans h1, hnok.trans h2⟩,
      fun hm => he (hmem.mp hm)⟩

theorem closeAndClear_out {α : Type} (cfg : Config) (st : Nat) (w : World) :
    (closeAndClear cfg st w : Res α).out = Outcome.exit st := rfl

theorem andThen_out_ret {α β : Type} (r : Res α) (f : α → World → Res β) (a : α)
    (h : r.out = Outcome.ret a) : (r.andThen f).out = (f a r.w).out :=
  (andThen_ev_ret r f a h).2

theorem changeConfigUINT_written (g : Globals) (address value restart : Int) (w : World)
    (h : w.writes 0 = true) :
    (changeConfigUINT g address value restart w).out = Outcome.ret () ∧
      (changeConfigUINT g address value restart w).w = w.afterWrite := by
  unfold changeConfigUINT
  simp only [h, if_true]
  exact ⟨trivial, trivial⟩

theorem enableKPPA_written (g : Globals) (current_password : Int) (w : World)
    (h : w.writes 0 = true) :
    (enableKPPA g current_password w).out = Outcome.ret 0 ∧
      (enableKPPA g current_password w).w = w.afterWrite := by
  unfold enableKPPA
  simp only [h, if_true]
  exact ⟨trivial, trivial⟩

/-- An unprotected write branch whose write succeeds ends with status 0. -/
theorem writeBranch_written (cfg : Config) (address value restart : Int) (w : World)
    (hc : cfg.count_param ≤ 0) (hw : w.writesSucceed) :
    (writeBranch cfg address value restart w).out = Outcome.exit 0 := by
  have hn : ¬ cfg.count_param > 0 := by omega
  unfold writeBranch
  rw [if_neg hn]
  rw [andThen_out_ret _ _ () (changeConfigUINT_written _ _ _ _ w (hw 0)).1]
  rfl

/-- A protected write branch whose two writes succeed ends with status 0. -/
theorem protectedBranch_written (cfg : Config) (address value : Int)
    (missing failed : List Event) (enabling enabled : Event) (done : List Event) (w : World)
    (hc : cfg.count_param ≤ 0) (hp : cfg.current_password_set ≠ 0) (hw : w.writesSucceed) :
    (protectedBranch cfg address value missing failed enabling enabled done w).out =
      Outcome.exit 0 := by
  have hn : ¬ cfg.count_param > 0 := by omega
  have h0 : (emit [enabling] w).w.writes 0 = true := hw 0
  have hk := enableKPPA_written cfg.globals cfg.current_password (emit [enabling] w).w h0
  have hne : ¬ ((0 : Int) = -1) := by decide
  have h1 : (emit [enabled] (enableKPPA cfg.globals cfg.current_password
      (emit [enabling] w).w).w).w.writes 0 = true := by
    show (enableKPPA cfg.globals cfg.current_password (emit [enabling] w).w).w.writes 0 = true
    rw [hk.2]
    exact hw 1
  unfold protectedBranch
  rw [if_neg hn, if_neg hp]
  rw [andThen_out_ret _ _ () rfl, andThen_out_ret _ _ 0 hk.1, if_neg hne,
    andThen_out_ret _ _ () rfl,
    andThen_out_ret _ _ () (changeConfigUINT_written _ _ _ _ _ h1).1,
    andThen_out_ret _ _ () rfl]
  rfl

/-- A write branch refuses read options with the usage text and `EXIT_FAILURE`, without
calling `exit_error`. -/
theorem refusal_quiet (cfg : Config) (w : World) :
    ((emit [Event.usage] w).andThen fun _ w1 =>
        (closeAndClear cfg EXIT_FAILURE w1 : Res Unit)).out = Outcome.exit EXIT_FAILURE ∧
      Event.exit_error ∉ ((emit [Event.usage] w).andThen fun _ w1 =>
        (closeAndClear cfg EXIT_FAILURE w1 : Res Unit)).ev := by
  refine ⟨rfl, ?_⟩
  intro hm
  have hev : ((emit [Event.usage] w).andThen fun _ w1 =>
      (closeAndClear cfg EXIT_FAILURE w1 : Res Unit)).ev =
      [Event.usage] ++ ([Event.modbus_close, Event.modbus_free] ++
        (ClrSerLock cfg.PID w.lock).2) := rfl
  rw [hev] at hm
  rcases List.mem_append.mp hm with hm | hm
  · cases List.mem_singleton.mp hm
  · rcases List.mem_append.mp hm with hm | hm
    · rcases List.mem_cons.mp hm with hm | hm
      · cases hm
      · cases List.mem_singleton.mp hm
    · exact ClrSerLock_no_exit_error _ _ hm

theorem writeBranch_refused (cfg : Config) (address value restart : Int) (w : World)
    (hc : cfg.count_param > 0) :
    (writeBranch cfg address value restart w).out = Outcome.exit EXIT_FAILURE ∧
      Event.exit_error ∉ (writeBranch cfg address value restart w).ev := by
  unfold writeBranch
  rw [if_pos hc]
  exact refusal_quiet cfg w

theorem protectedBranch_refused (cfg : Config) (address value : Int)
    (missing failed : List Event) (enabling enabled : Event) (done : List Event) (w : World)
    (hc : cfg.count_param > 0) :
    (protectedBranch cfg address value missing failed enabling enabled done w).out =
        Outcome.exit EXIT_FAILURE ∧
      Event.exit_error ∉
        (protectedBranch cfg address value missing failed enabling enabled done w).ev := by
  unfold protectedBranch
  rw [if_pos hc]
  exact refusal_quiet cfg w

/-- The branch that a run with a write option and without a clash of write options takes is
one of the write branches. -/
theorem registerPhase_branch (cfg : Config) (w : World) (hwr : ¬ cfg.readsOnly)
    (hcl : ¬ cfg.writeClash) :
    (∃ address value restart, registerPhase cfg w = writeBranch cfg address value restart w) ∨
      ((cfg.password_flag > 0 ∨ cfg.reset_hist_flag > 0) ∧
        ∃ address value missing failed enabling enabled done,
          registerPhase cfg w =
            protectedBranch cfg address value missing failed enabling enabled done w) := by
  have c1 : ¬ (cfg.new_address > 0 ∧ cfg.new_baud_rate ≥ 0) := fun h => hcl (Or.inl h)
  have c2 : ¬ ((cfg.new_address > 0 ∨ cfg.new_baud_rate ≥ 0) ∧ cfg.new_parity_stop ≥ 0) :=
    fun h => hcl (Or.inr h)
  unfold registerPhase
  rw [if_neg c1, if_neg c2]
  by_cases h3 : cfg.new_address > 0
  · rw [if_pos h3]
    exact Or.inl ⟨_, _, _, rfl⟩
  rw [if_neg h3]
  by_cases h4 : cfg.new_baud_rate ≥ 0
  · rw [if_pos h4]
    exact Or.inl ⟨_, _, _, rfl⟩
  rw [if_neg h4]
  by_cases h5 : cfg.new_parity_stop ≥ 0
  · rw [if_pos h5]
    exact Or.inl ⟨_, _, _, rfl⟩
  rw [if_neg h5]
  by_cases h6 : cfg.password_flag > 0
  · rw [if_pos h6]
    exact Or.inr ⟨Or.inl h6, _, _, _, _, _, _, _, rfl⟩
  rw [if_neg h6]
  by_cases h7 : cfg.demand_period_flag > 0
  · rw [if_pos h7]
    exact Or.inl ⟨_, _, _, rfl⟩
  rw [if_neg h7]
  by_cases h8 : cfg.slide_time_flag > 0
  · rw [if_pos h8]
    exact Or.inl ⟨_, _, _, rfl⟩
  rw [if_neg h8]
  by_cases h9 : cfg.scroll_time_flag > 0
  · rw [if_pos h9]
    exact Or.inl ⟨_, _, _, rfl⟩
  rw [if_neg h9]
  by_cases h10 : cfg.backlit_time_flag > 0
  · rw [if_pos h10]
    exact Or.inl ⟨_, _, _, rfl⟩
  rw [if_neg h10]
  by_cases h11 : cfg.reset_hist_flag > 0
  · rw [if_pos h11]
    exact Or.inr ⟨Or.inr h11, _, _, _, _, _, _, _, rfl⟩
  exact absurd ⟨by omega, by omega, by omega, by omega, by omega, by omega, by omega,
    by omega, by omega⟩ hwr

/-- A run with a write option, without a clash of write options and without read options,
with the current password where the branch is protected, and whose writes succeed, ends
with status 0. -/
theorem registerPhase_written (cfg : Config) (w : World) (hwr : ¬ cfg.readsOnly)
    (hcl : ¬ cfg.writeClash) (hc : cfg.count_param ≤ 0)
    (hp : cfg.password_flag > 0 ∨ cfg.reset_hist_flag > 0 → cfg.current_password_set ≠ 0)
    (hw : w.writesSucceed) : (registerPhase cfg w).out = Outcome.exit 0 := by
  rcases registerPhase_branch cfg w hwr hcl with
    ⟨a, v, r, h⟩ | ⟨hflag, a, v, m, f, e1, e2, d, h⟩
  · rw [h]
    exact writeBranch_written cfg a v r w hc hw
  · rw [h]
    exact protectedBranch_written cfg a v m f e1 e2 d w hc (hp hflag) hw

/-- A run with a write option and without a clash of write options refuses read options
with `EXIT_FAILURE`, without calling `exit_error`. -/
theorem registerPhase_refused (cfg : Config) (w : World) (hwr : ¬ cfg.readsOnly)
    (hcl : ¬ cfg.writeClash) (hc : cfg.count_param > 0) :
    (registerPhase cfg w).out = Outcome.exit EXIT_FAILURE ∧
      Event.exit_error ∉ (registerPhase cfg w).ev := by
  rcases registerPhase_branch cfg w hwr hcl with ⟨a, v, r, h⟩ | ⟨_, a, v, m, f, e1, e2, d, h⟩
  · rw [h]
    exact writeBranch_refused cfg a v r w hc
  · rw [h]
    exact protectedBranch_refused cfg a v m f e1 e2 d w hc

/-! ## Markers of read runs and of write runs -/

/-- C26: every run of `main` that reaches the register phase ends the process with status 0
or `EXIT_FAILURE` and prints at most one marker: `NOK` only with `EXIT_FAILURE`, `OK` only
with status 0.  With `-m` it prints no marker.  Without `-m`, a run without a write option
prints exactly one marker, whether or not `-q` is set.  A run with a write option never
prints `OK`; it prints `NOK`, unless `-m` is set, exactly when it ends through `exit_error`,
and then with `EXIT_FAILURE`.  When its write options do not clash, it prints no marker and
ends with status 0 after writes that succeed (a protected write being given the current
password), and it prints no marker and ends with `EXIT_FAILURE` when read options were given
next to the write option. -/
theorem c26_markers (cfg : Config) (w : World) :
    ∃ st ok nok, (mainAfterLock cfg true true w).out = Outcome.exit st ∧
      (mainAfterLock cfg true true w).ev.countP Event.isOK = ok ∧
      (mainAfterLock cfg true true w).ev.countP Event.isNOK = nok ∧
      (mainAfterLock cfg true true w).ev.countP Event.isMarker = ok + nok ∧
      ((st = 0 ∧ nok = 0 ∧ ok ≤ 1) ∨ (st = EXIT_FAILURE ∧ ok = 0 ∧ nok ≤ 1)) ∧
      (cfg.metern_flag ≠ 0 → ok = 0 ∧ nok = 0) ∧
      (cfg.readsOnly → cfg.metern_flag = 0 → ok + nok = 1) ∧
      (¬ cfg.readsOnly →
        ok = 0 ∧
        (Event.exit_error ∈ (mainAfterLock cfg true true w).ev →
          st = EXIT_FAILURE ∧ nok = markerCount cfg.metern_flag) ∧
        (Event.exit_error ∉ (mainAfterLock cfg true true w).ev → nok = 0) ∧
        (¬ cfg.writeClash → cfg.count_param ≤ 0 →
          (cfg.password_flag > 0 ∨ cfg.reset_hist_flag > 0 → cfg.current_password_set ≠ 0) →
          w.writesSucceed → st = 0 ∧ nok = 0) ∧
        (¬ cfg.writeClash → cfg.count_param > 0 → st = EXIT_FAILURE ∧ nok = 0)) := by
  obtain ⟨st, ok, nok, ⟨ho, hok, hnok⟩, he⟩ :=
    mainAfterLock_ends cfg w _ (registerPhase_ends cfg w)
  have hle : markerCount cfg.metern_flag ≤ 1 := by
    unfold markerCount
    split_ifs <;> omega
  have hst : ∀ a b : Nat, (Outcome.exit a : Outcome Unit) = Outcome.exit b → a = b := by
    intro a b hab
    cases hab
    rfl
  have hout : (mainAfterLock cfg true true w).out = (registerPhase cfg w).out := rfl
  refine ⟨st, ok, nok, ho, hok, hnok, ?_, ?_, ?_, ?_, ?_⟩
  · rw [countP_marker, hok, hnok]
  · rcases he with ⟨h1, h2, h3⟩ | ⟨h1, h2, h3⟩
    · exact Or.inl ⟨h1, h3, le_trans h2 hle⟩
    · exact Or.inr ⟨h1, h2, le_trans h3 hle⟩
  · intro hm
    have h0 : markerCount cfg.metern_flag = 0 := by
      unfold markerCount
      rw [if_neg hm]
    rcases he with ⟨_, h2, h3⟩ | ⟨_, h2, h3⟩ <;> omega
  · intro hro hm
    have h1 : markerCount cfg.metern_flag = 1 := by
      unfold markerCount
      rw [if_pos hm]
    have hr := readPhase_ends cfg w
    rw [← registerPhase_readsOnly cfg w hro] at hr
    obtain ⟨st2, ok2, nok2, ⟨ho2, hok2, hnok2⟩, he2⟩ := mainAfterLock_ends cfg w _ hr
    rw [hok] at hok2
    rw [hnok] at hnok2
    subst hok2
    subst hnok2
    rcases he2 with ⟨_, h2, h3⟩ | ⟨_, h2, h3⟩ <;> omega
  · intro hwr
    have hquiet : Event.exit_error ∉ (mainAfterLock cfg true true w).ev → nok = 0 := by
      intro hn
      rcases mainAfterLock_writeEnd cfg w (registerPhase_writeEnd cfg w hwr) with
        ⟨_, we⟩ | ⟨st2, _, ⟨_, _, wnok⟩, _⟩
      · exact absurd we hn
      · exact hnok.symm.trans wnok
    have hzero : st = 0 → nok = 0 := by
      intro h0
      rcases he with ⟨_, _, h3⟩ | ⟨h1, _, _⟩
      · exact h3
      · rw [h0] at h1
        cases h1
    refine ⟨?_, ?_, hquiet, ?_, ?_⟩
    · rcases mainAfterLock_writeEnd cfg w (registerPhase_writeEnd cfg w hwr) with
        ⟨⟨_, wok, _⟩, _⟩ | ⟨st2, _, ⟨_, wok, _⟩, _⟩
      · exact hok.symm.trans wok
      · exact hok.symm.trans wok
    · intro hm
      rcases mainAfterLock_writeEnd cfg w (registerPhase_writeEnd cfg w hwr) with
        ⟨⟨wo, _, wnok⟩, _⟩ | ⟨st2, _, _, we⟩
      · exact ⟨hst _ _ (ho.symm.trans wo), hnok.symm.trans wnok⟩
      · exact absurd hm we
    · intro hcl hc hp hw
      have h0 : st = 0 :=
        hst _ _ (ho.symm.trans (hout.trans (registerPhase_written cfg w hwr hcl hc hp hw)))
      exact ⟨h0, hzero h0⟩
    · intro hcl hc
      obtain ⟨r1, r2⟩ := registerPhase_refused cfg w hwr hcl hc
      refine ⟨hst _ _ (ho.symm.trans (hout.trans r1)), hquiet ?_⟩
      intro hm
      have hev : (mainAfterLock cfg true true w).ev =
          (Event.modbus_new_rtu :: setupEvents cfg) ++ (registerPhase cfg w).ev := rfl
      rw [hev] at hm
      rcases List.mem_append.mp hm with hm | hm
      · rcases List.mem_cons.mp hm with hm | hm
        · cases hm
        · exact setupEvents_no_exit_error cfg hm
      · exact r2 hm

/-- C26 for `-q -v` and for `-s 5` on a transport that answers: the read run ends with the one
marker `OK`, the write run ends with status 0 and without a marker. -/
theorem c26_markers_witness :
    (∃ st ok nok, (mainAfterLock compactVoltConfig true true goodBus).out = Outcome.exit st ∧
      (mainAfterLock compactVoltConfig true true goodBus).ev.countP Event.isOK = ok ∧
      (mainAfterLock compactVoltConfig true true goodBus).ev.countP Event.isNOK = nok ∧
      ok + nok = 1) ∧
    (∃ st ok nok, (mainAfterLock addressConfig true true goodBus).out = Outcome.exit st ∧
      (mainAfterLock addressConfig true true goodBus).ev.countP Event.isOK = ok ∧
      (mainAfterLock addressConfig true true goodBus).ev.countP Event.isNOK = nok ∧
      ok = 0 ∧ nok = 0) := by
  constructor
  · obtain ⟨st, ok, nok, h1, h2, h3, _, _, _, h7, _⟩ := c26_markers compactVoltConfig goodBus
    exact ⟨st, ok, nok, h1, h2, h3, h7 (by unfold Config.readsOnly; decide) rfl⟩
  · obtain ⟨st, ok, nok, h1, h2, h3, _, _, _, _, h8⟩ := c26_markers addressConfig goodBus
    have h9 := h8 (by unfold Config.readsOnly; decide)
    exact ⟨st, ok, nok, h1, h2, h3, h9.1,
      (h9.2.2.2.1 (by unfold Config.writeClash; decide) (by decide) (by decide)
        (fun _ => rfl)).2⟩

/-! ## Exit statuses -/

end TAC1100
